import Mathlib

/-!
# timestation: calendar and time-signal encoders

A shallow embedding of `src/wasm/datetime.h` and of the station encoders of
`src/wasm/waveform.h`, with the properties of the specification stated
over it.

Conventions of the embedding.

* Machine integers are natural numbers; every store into a fixed-width C
  variable is wrapped by `u8`, `u16`, `u32` or `u64`, and unsigned
  subtraction is `sub32` (subtraction modulo `2^32`).
* The `double` timestamp is a natural number of milliseconds: the
  properties below are about integral, non-negative timestamps.
* Expressions on `uint8_t` operands are evaluated in `int` by C; where a
  difference can be negative the embedding computes in `Int`.
-/

namespace Timestation

/-! ## Machine integers -/

/-- Store into a `uint8_t`. -/
def u8 (x : Nat) : Nat := x % 256

/-- Store into a `uint16_t`. -/
def u16 (x : Nat) : Nat := x % 65536

/-- Store into a `uint32_t`. -/
def u32 (x : Nat) : Nat := x % 4294967296

/-- Store into a `uint64_t`. -/
def u64 (x : Nat) : Nat := x % 18446744073709551616

/-- Subtraction of two `uint32_t` values (wraps modulo `2^32`). -/
def sub32 (a b : Nat) : Nat := (a + 4294967296 - b % 4294967296) % 4294967296

/-- Store of an `int` value into a `uint8_t`. -/
def u8i (x : Int) : Nat := (x % 256).toNat

/-- Store of an `int` value into a `uint32_t`. -/
def u32i (x : Int) : Nat := (x % 4294967296).toNat

/-! ## datetime.h -/

/-- The constant `TSIG_DATETIME_NOT_SOON`, which is `UINT32_MAX`. -/
def TSIG_DATETIME_NOT_SOON : Nat := 4294967295

/-- The constant `TSIG_DATETIME_MSECS_DAY`. -/
def TSIG_DATETIME_MSECS_DAY : Nat := 86400000

/-- The constant `TSIG_DATETIME_MSECS_HOUR`. -/
def TSIG_DATETIME_MSECS_HOUR : Nat := 3600000

/-- The constant `TSIG_DATETIME_MSECS_MIN`. -/
def TSIG_DATETIME_MSECS_MIN : Nat := 60000

/-- The struct `tsig_datetime_t`. -/
structure tsig_datetime_t where
  timestamp : Nat
  year : Nat
  mon : Nat
  day : Nat
  doy : Nat
  dow : Nat
  hour : Nat
  min : Nat
  sec : Nat
  msec : Nat
deriving DecidableEq, Repr

/-- The function `tsig_datetime_is_leap`: the parameter is a `uint16_t`, the
result is `0` or `1`. -/
def tsig_datetime_is_leap (year : Nat) : Nat :=
  let year := u16 year
  if (year % 4 == 0) && ((year % 100 != 0) || (year % 400 == 0)) then 1 else 0

/-- The function `tsig_datetime_parse_timestamp`, line by line. -/
def tsig_datetime_parse_timestamp (timestamp : Nat) : tsig_datetime_t :=
  let msec := u64 timestamp
  let day := msec / TSIG_DATETIME_MSECS_DAY
  let dse := u64 (day + 719468)
  let era := u32 (dse / 146097)
  let doe := u32 (u64 (dse + 18446744073709551616 - u32 (era * 146097)))
  let yoe := sub32 (u32 (sub32 doe (doe / 1460) + doe / 36524)) (doe / 146096) / 365
  let y := u32 (yoe + u32 (era * 400))
  let doy := sub32 doe (sub32 (u32 (u32 (365 * yoe) + yoe / 4)) (yoe / 100))
  let m := u32 (u32 (5 * doy) + 2) / 153
  let year := u16 (u32 (y + (if m ≥ 10 then 1 else 0)))
  let msec1 := msec % TSIG_DATETIME_MSECS_DAY
  let msec2 := msec1 % TSIG_DATETIME_MSECS_HOUR
  let msec3 := msec2 % TSIG_DATETIME_MSECS_MIN
  { timestamp := timestamp
    year := year
    mon := u8 (if m < 10 then u32 (m + 3) else sub32 m 9)
    day := u8 (u32 (sub32 doy (u32 (u32 (153 * m) + 2) / 5) + 1))
    doy := u16 (if m < 10 then u32 (u32 (doy + 60) + tsig_datetime_is_leap year)
                else sub32 doy 305)
    dow := u8 (u64 (day + 4) % 7)
    hour := u8 (msec1 / TSIG_DATETIME_MSECS_HOUR)
    min := u8 (msec2 / TSIG_DATETIME_MSECS_MIN)
    sec := u8 (msec3 / 1000)
    msec := u16 (msec3 % 1000) }

/-- The function `tsig_datetime_is_eu_dst`; the pair is the returned flag and
the value stored through `out_in_mins`. -/
def tsig_datetime_is_eu_dst (datetime : tsig_datetime_t) : Nat × Nat :=
  let mon := datetime.mon
  if 3 < mon ∧ mon < 10 then
    (1, TSIG_DATETIME_NOT_SOON)
  else if mon = 3 ∨ mon = 10 then
    let hour := datetime.hour
    let min := datetime.min
    let day := datetime.day
    let dow := datetime.dow
    let fsom := u8i (Int.tmod (((day : Int) - 1) + (if dow ≠ 0 then 7 - (dow : Int) else 0)) 7 + 1)
    let lsom := u8i ((fsom : Int) + Int.tdiv (31 - (fsom : Int)) 7 * 7)
    let is_changed : Bool := (day = lsom ∧ hour ≥ 1) ∨ day > lsom
    let is_est : Nat := if (mon = 3) ≠ (is_changed = true) then 1 else 0
    let in_mins :=
      if (day : Int) = (lsom : Int) - 1 then
        u32i (60 * (24 - (hour : Int)) + 60 - (min : Int))
      else if day = lsom ∧ hour < 1 then
        u32i (60 - (min : Int))
      else TSIG_DATETIME_NOT_SOON
    (is_est, in_mins)
  else
    (0, TSIG_DATETIME_NOT_SOON)

/-- The function `tsig_datetime_is_us_dst`; the pair is the returned flag
(summer time at the start of the UTC day) and the value stored through
`out_end` (summer time at the end of the UTC day). -/
def tsig_datetime_is_us_dst (datetime : tsig_datetime_t) : Nat × Nat :=
  let mon := datetime.mon
  if 3 < mon ∧ mon < 11 then
    (1, 1)
  else if mon = 3 ∨ mon = 11 then
    let sunday : Int := if mon = 3 then 8 else 1
    let day := datetime.day
    let dow := datetime.dow
    let change_day :=
      u8i (Int.tmod (((day : Int) - 1) + (if dow ≠ 0 then 7 - (dow : Int) else 0)) 7 + sunday)
    let is_dst_end : Nat :=
      if mon = 3 then (if day ≥ change_day then 1 else 0) else (if day < change_day then 1 else 0)
    let is_dst : Nat :=
      if mon = 3 then (if day > change_day then 1 else 0) else (if day ≤ change_day then 1 else 0)
    (is_dst, is_dst_end)
  else
    (0, 0)

/-! ## Reference calendar

An independent description of the Gregorian calendar, counting days from
1970-01-01 forwards (years from 1970 on). -/

/-- The Gregorian leap-year rule. -/
def isLeapYear (y : Nat) : Bool := y % 4 == 0 && (y % 100 != 0 || y % 400 == 0)

/-- Number of days of a year. -/
def yearLength (y : Nat) : Nat := if isLeapYear y then 366 else 365

/-- Number of days of month `m` of year `y`. -/
def daysInMonth (y m : Nat) : Nat :=
  if m = 2 then (if isLeapYear y then 29 else 28)
  else if m = 4 ∨ m = 6 ∨ m = 9 ∨ m = 11 then 30
  else 31

/-- Days from 1970-01-01 to January 1st of year `y` (for `1970 ≤ y`): 365 per
year plus one per leap year in between. -/
def daysBeforeYear (y : Nat) : Nat :=
  365 * (y - 1970) + ((y - 1) / 4 - (y - 1) / 100 + (y - 1) / 400) - 477

/-- Days from January 1st of year `y` to the first day of month `m`. -/
def daysBeforeMonth (y m : Nat) : Nat :=
  ((List.range (m - 1)).map (fun k => daysInMonth y (k + 1))).sum

/-- Day number of the civil date `y`-`m`-`d`, counted from 1970-01-01. -/
def days_from_civil (y m d : Nat) : Nat :=
  daysBeforeYear y + daysBeforeMonth y m + (d - 1)

/-- A civil date of the reference calendar, 1970 or later. -/
def validDate (y m d : Nat) : Prop :=
  1970 ≤ y ∧ 1 ≤ m ∧ m ≤ 12 ∧ 1 ≤ d ∧ d ≤ daysInMonth y m

instance (y m d : Nat) : Decidable (validDate y m d) := by
  unfold validDate; infer_instance

/-- Day of week of a day number, Sunday = 0 (1970-01-01 was a Thursday). -/
def weekday (dayNumber : Nat) : Nat := (dayNumber + 4) % 7

/-- Bounded universal check, for finite verification by evaluation. -/
def allBelow (p : Nat → Bool) : Nat → Bool
  | 0 => true
  | n + 1 => p n && allBelow p n

/-- Evaluate `v` once, then continue with its value. -/
def seqNat {α : Type} (v : Nat) (k : Nat → α) : α :=
  match v with
  | 0 => k 0
  | n + 1 => k (n + 1)

/-! ### The intermediate values of the parser

The steps of `tsig_datetime_parse_timestamp` that lead from the day count
to the calendar fields, each as a function of the values it reads. -/

/-- The value of `era` for a day count. -/
def eraOf (day : Nat) : Nat := u32 (u64 (day + 719468) / 146097)

/-- The value of `doe` for a day count. -/
def doeOf (day : Nat) : Nat :=
  u32 (u64 (u64 (day + 719468) + 18446744073709551616 - u32 (eraOf day * 146097)))

/-- The value of `yoe`, from `doe`. -/
def yoeOf (doe : Nat) : Nat :=
  sub32 (u32 (sub32 doe (doe / 1460) + doe / 36524)) (doe / 146096) / 365

/-- The value of `doy`, from `doe` and `yoe`. -/
def doyOf (doe yoe : Nat) : Nat :=
  sub32 doe (sub32 (u32 (u32 (365 * yoe) + yoe / 4)) (yoe / 100))

/-- The value of `m`, from `doy`. -/
def mOf (doy : Nat) : Nat := u32 (u32 (5 * doy) + 2) / 153

/-- The stored `year`, from `yoe`, `era` and `m`. -/
def yearOf (yoe era m : Nat) : Nat :=
  u16 (u32 (u32 (yoe + u32 (era * 400)) + (if m ≥ 10 then 1 else 0)))

/-- The stored `mon`, from `m`. -/
def monOf (m : Nat) : Nat := u8 (if m < 10 then u32 (m + 3) else sub32 m 9)

/-- The stored `day`, from `doy` and `m`. -/
def dayOf (doy m : Nat) : Nat := u8 (u32 (sub32 doy (u32 (u32 (153 * m) + 2) / 5) + 1))

/-- The stored `doy`, from the March-based `doy`, `m` and the stored year. -/
def doyFieldOf (doy m year : Nat) : Nat :=
  u16 (if m < 10 then u32 (u32 (doy + 60) + tsig_datetime_is_leap year) else sub32 doy 305)

/-- Number of whole days in the supported range, `[1970-01-01, 2100-01-01)`. -/
def supportedDays : Nat := 47482

/-- Upper end of the supported range of timestamps, 2100-01-01 00:00 UTC. -/
def supportedEnd : Nat := 4102444800000

/-- Day number of the first day of the `k`-th month after January 1970. -/
def monthStart (k : Nat) : Nat := days_from_civil (1970 + k / 12) (k % 12 + 1) 1

/-- Check of the parser at the two ends of the `k`-th month after January
1970: the first day parses to day 1 of that month, and `era`, `yoe` and `m`
agree at the first and the last day. -/
def monthOk (k : Nat) : Bool :=
  let y := 1970 + k / 12
  let mo := k % 12 + 1
  seqNat (monthStart k) fun s =>
  seqNat (s + daysInMonth y mo - 1) fun e =>
  seqNat (eraOf s) fun era =>
  seqNat (doeOf s) fun doe =>
  seqNat (yoeOf doe) fun yoe =>
  seqNat (doyOf doe yoe) fun doy =>
  seqNat (mOf doy) fun m =>
  seqNat (doeOf e) fun doe1 =>
  seqNat (yoeOf doe1) fun yoe1 =>
  eraOf e == era && yoe1 == yoe && mOf (doyOf doe1 yoe1) == m &&
  decide (365 * yoe + yoe / 4 - yoe / 100 + doy = doe) &&
  decide (yoe / 100 ≤ 365 * yoe + yoe / 4) &&
  decide (doy = (153 * m + 2) / 5) &&
  decide (m < 12) &&
  decide (m ≥ 10 → 305 ≤ doy) &&
  yearOf yoe era m == y &&
  monOf m == mo &&
  doyFieldOf doy m y + daysBeforeYear y == s + 1 &&
  decide (daysBeforeYear y ≤ s) &&
  monthStart (k + 1) == s + daysInMonth y mo &&
  decide (1 ≤ daysInMonth y mo) &&
  decide (s + daysInMonth y mo ≤ supportedDays)


/-- Day of month of the first Sunday of month `m` of year `y`. -/
def firstSunday (y m : Nat) : Nat := 1 + (7 - weekday (days_from_civil y m 1)) % 7

/-- Day of month of the last Sunday of a 31-day month `m` of year `y`. -/
def lastSunday31 (y m : Nat) : Nat := 31 - weekday (days_from_civil y m 31)


/-- Minute (counted from 1970-01-01 00:00 UTC) of the EU changeover of month `m` (3 or 10)
of year `y`: 01:00 UTC on the last Sunday of the month. -/
def euChangeoverMinute (y m : Nat) : Nat :=
  days_from_civil y m (lastSunday31 y m) * 1440 + 60

/-- The first EU changeover strictly after minute `M`, for a minute `M` of year `y`. -/
def nextEuChangeover (y M : Nat) : Nat :=
  if M < euChangeoverMinute y 3 then euChangeoverMinute y 3
  else if M < euChangeoverMinute y 10 then euChangeoverMinute y 10
  else euChangeoverMinute (y + 1) 3

/-- The value of `lsom` in `tsig_datetime_is_eu_dst`, over the naturals, for a day of
month `day ≥ 1` and a day of week `dow ≤ 6`. -/
def lsomOf (day dow : Nat) : Nat :=
  ((day - 1 + (7 - dow) % 7) % 7 + 1) + (31 - ((day - 1 + (7 - dow) % 7) % 7 + 1)) / 7 * 7

/-! ## timesignal.h and waveform.h: the station encoders -/

/-- The struct `tsig_params_t`; `offset` (a `double`) is kept as an integer, `dut1` is the
`int16_t` value in milliseconds. -/
structure tsig_params_t where
  offset : Int
  station : Nat
  jjy_khz : Nat
  dut1 : Int
  noclip : Nat
deriving DecidableEq, Repr

/-- The constant `TSIG_WAVEFORM_SYNC_MARKER`. -/
def TSIG_WAVEFORM_SYNC_MARKER : Nat := 255

/-- The constant `TSIG_WAVEFORM_TICK_MS`. -/
def TSIG_WAVEFORM_TICK_MS : Nat := 50

/-- The constant `TSIG_WAVEFORM_TICKS_PER_SEC`. -/
def TSIG_WAVEFORM_TICKS_PER_SEC : Nat := 1000 / TSIG_WAVEFORM_TICK_MS

/-- The constant `TSIG_WAVEFORM_JJY_MORSE_TICK`, `40 * 20 + 550 / 50`. -/
def TSIG_WAVEFORM_JJY_MORSE_TICK : Nat :=
  40 * TSIG_WAVEFORM_TICKS_PER_SEC + 550 / TSIG_WAVEFORM_TICK_MS

/-- The constant `TSIG_WAVEFORM_JJY_MORSE_END_TICK`, `49 * 20`. -/
def TSIG_WAVEFORM_JJY_MORSE_END_TICK : Nat := 49 * TSIG_WAVEFORM_TICKS_PER_SEC

/-- Store of an `int` value into an `int8_t` (wraps modulo 256 into `[-128, 128)`). -/
def i8 (x : Int) : Int := (x + 128) % 256 - 128

/-- The statement `xmit_level[j / CHAR_BIT] |= 1 << (j % CHAR_BIT)`. -/
def setTick (xl : List Nat) (j : Nat) : List Nat :=
  xl.set (j / 8) (u8 (xl.getD (j / 8) 0 ||| (1 <<< (j % 8))))

/-- The statement `xmit_level[j / CHAR_BIT] &= ~(1 << (j % CHAR_BIT))`; on a byte, the
complement of the mask is `255 - (1 << (j % 8))`. -/
def clearTick (xl : List Nat) (j : Nat) : List Nat :=
  xl.set (j / 8) (u8 (xl.getD (j / 8) 0 &&& (255 - (1 <<< (j % 8)))))

/-- The test of `tsig_waveform_generate`: `xmit_level[tick / CHAR_BIT] & (1 << (tick % CHAR_BIT))`
is non-zero, the carrier is high during the tick. -/
def tickHigh (xl : List Nat) (j : Nat) : Bool :=
  xl.getD (j / 8) 0 &&& (1 <<< (j % 8)) != 0

/-- The loop `for (; n; j++, n--) xmit_level[j / 8] |= 1 << (j % 8)`. -/
def paintHigh (xl : List Nat) (j : Nat) : Nat → List Nat
  | 0 => xl
  | n + 1 => paintHigh (setTick xl j) (j + 1) n

/-- The loop `for (; n; j++, n--) xmit_level[j / 8] &= ~(1 << (j % 8))`. -/
def paintLow (xl : List Nat) (j : Nat) : Nat → List Nat
  | 0 => xl
  | n + 1 => paintLow (clearTick xl j) (j + 1) n

/-- A run of seconds painted low first, then high: for each entry `lo` of the list, `lo`
ticks low and `20 - lo` ticks high, starting at tick `j`. -/
def paintLowHigh (xl : List Nat) (j : Nat) : List Nat → List Nat
  | [] => xl
  | lo :: rest =>
    paintLowHigh (paintHigh (paintLow xl j lo) (j + lo) (TSIG_WAVEFORM_TICKS_PER_SEC - lo))
      (j + lo + (TSIG_WAVEFORM_TICKS_PER_SEC - lo)) rest

/-- A run of seconds painted high first, then low: for each entry `hi` of the list, `hi`
ticks high and `20 - hi` ticks low, starting at tick `j`. -/
def paintHighLow (xl : List Nat) (j : Nat) : List Nat → List Nat
  | [] => xl
  | hi :: rest =>
    paintHighLow (paintLow (paintHigh xl j hi) (j + hi) (TSIG_WAVEFORM_TICKS_PER_SEC - hi))
      (j + hi + (TSIG_WAVEFORM_TICKS_PER_SEC - hi)) rest

/-- Number of set bits of a byte modulo 2, by the loop
`for (byte = data[i]; byte; byte &= byte - 1) parity = !parity`. -/
def parityByte (parity : Nat) (byte : Nat) : Nat → Nat
  | 0 => parity
  | fuel + 1 =>
    if byte = 0 then parity
    else parityByte (if parity = 0 then 1 else 0) (byte &&& (byte - 1)) fuel

/-- The function `tsig_even_parity`: the parity of the number of set bits of
`data[lo] .. data[hi - 1]`. -/
def tsig_even_parity (data : List Nat) (lo hi : Nat) : Nat :=
  ((List.range (hi - lo)).map (fun k => data.getD (lo + k) 0)).foldl
    (fun parity byte => parityByte parity byte 8) 0

/-- The function `tsig_odd_parity`. -/
def tsig_odd_parity (data : List Nat) (lo hi : Nat) : Nat :=
  if tsig_even_parity data lo hi = 0 then 1 else 0

/-- The assignment `bits[i] = v` into a `uint8_t` array. -/
def setb (bits : List Nat) (i v : Nat) : List Nat := bits.set i (u8 v)

/-- A sequence of assignments `bits[i] = v`, in order. -/
def assign (bits : List Nat) (as : List (Nat × Nat)) : List Nat :=
  as.foldl (fun b a => setb b a.1 a.2) bits

/-- The assignment `bits[i] = tsig_even_parity(bits, lo, hi)`. -/
def setEvenParity (bits : List Nat) (i lo hi : Nat) : List Nat :=
  setb bits i (tsig_even_parity bits lo hi)

/-- The assignment `bits[i] = tsig_odd_parity(bits, lo, hi)`. -/
def setOddParity (bits : List Nat) (i lo hi : Nat) : List Nat :=
  setb bits i (tsig_odd_parity bits lo hi)

/-- C truth value of a proposition. -/
def cbool (p : Prop) [Decidable p] : Nat := if p then 1 else 0

/-- The initializer shared by `tsig_xmit_jjy` and `tsig_xmit_wwvb`: 60 zero bytes with the
sync marker at seconds 0, 9, 19, 29, 39, 49 and 59. -/
def markerBits : List Nat :=
  (((((((List.replicate 60 0).set 0 TSIG_WAVEFORM_SYNC_MARKER).set 9
    TSIG_WAVEFORM_SYNC_MARKER).set 19 TSIG_WAVEFORM_SYNC_MARKER).set 29
    TSIG_WAVEFORM_SYNC_MARKER).set 39 TSIG_WAVEFORM_SYNC_MARKER).set 49
    TSIG_WAVEFORM_SYNC_MARKER).set 59 TSIG_WAVEFORM_SYNC_MARKER

/-- The assignments of minute, hour and day of year that `tsig_xmit_jjy` and
`tsig_xmit_wwvb` both start with (`min_10 = datetime.min / 10`, `min = datetime.min % 10`
and so on, each a `uint8_t`). -/
def minuteHourDoyBits (datetime : tsig_datetime_t) : List (Nat × Nat) :=
  [(1, u8 (datetime.min / 10) &&& 4),
     (2, u8 (datetime.min / 10) &&& 2),
     (3, u8 (datetime.min / 10) &&& 1),
     (5, u8 (datetime.min % 10) &&& 8),
     (6, u8 (datetime.min % 10) &&& 4),
     (7, u8 (datetime.min % 10) &&& 2),
     (8, u8 (datetime.min % 10) &&& 1),
     (12, u8 (datetime.hour / 10) &&& 2),
     (13, u8 (datetime.hour / 10) &&& 1),
     (15, u8 (datetime.hour % 10) &&& 8),
     (16, u8 (datetime.hour % 10) &&& 4),
     (17, u8 (datetime.hour % 10) &&& 2),
     (18, u8 (datetime.hour % 10) &&& 1),
     (22, u8 (datetime.doy / 100) &&& 2),
     (23, u8 (datetime.doy / 100) &&& 1),
     (25, u8 (datetime.doy % 100 / 10) &&& 8),
     (26, u8 (datetime.doy % 100 / 10) &&& 4),
     (27, u8 (datetime.doy % 100 / 10) &&& 2),
     (28, u8 (datetime.doy % 100 / 10) &&& 1),
     (30, u8 (datetime.doy % 10) &&& 8),
     (31, u8 (datetime.doy % 10) &&& 4),
     (32, u8 (datetime.doy % 10) &&& 2),
     (33, u8 (datetime.doy % 10) &&& 1)]

/-- The value of `dut1` in `tsig_xmit_wwvb` and `tsig_xmit_msf`: `params->dut1 / 100`
stored into an `int8_t`. -/
def dut1Of (params : tsig_params_t) : Int := i8 (Int.tdiv params.dut1 100)

/-- The value of `dut1` after `if (dut1 < 0) dut1 = -dut1`. For a non-negative `int8_t`
the bits of `dut1 & m` are those of its value; for `-128`, which the negation leaves
unchanged, `dut1 & m` is 0 for `m ≤ 8`, as is `toNat`. -/
def dut1Abs (params : tsig_params_t) : Nat :=
  (if dut1Of params < 0 then i8 (-(dut1Of params)) else dut1Of params).toNat

/-- The array `bits` of `tsig_xmit_wwvb` before the painting loop. -/
def wwvb_bits (datetime : tsig_datetime_t) (params : tsig_params_t) : List Nat :=
  assign (assign (assign markerBits (minuteHourDoyBits datetime))
    [(36, cbool (dut1Of params ≥ 0)),
     (37, cbool (dut1Of params < 0)),
     (38, cbool (dut1Of params ≥ 0)),
     (40, dut1Abs params &&& 8),
     (41, dut1Abs params &&& 4),
     (42, dut1Abs params &&& 2),
     (43, dut1Abs params &&& 1)])
    [(45, u8 (datetime.year % 100 / 10) &&& 8),
     (46, u8 (datetime.year % 100 / 10) &&& 4),
     (47, u8 (datetime.year % 100 / 10) &&& 2),
     (48, u8 (datetime.year % 100 / 10) &&& 1),
     (50, u8 (datetime.year % 10) &&& 8),
     (51, u8 (datetime.year % 10) &&& 4),
     (52, u8 (datetime.year % 10) &&& 2),
     (53, u8 (datetime.year % 10) &&& 1),
     (55, tsig_datetime_is_leap datetime.year),
     (57, (tsig_datetime_is_us_dst datetime).2),
     (58, (tsig_datetime_is_us_dst datetime).1)]

/-- Low ticks of a second of WWVB: `100 * dsec_lo / TSIG_WAVEFORM_TICK_MS` with
`dsec_lo = bits[i] == TSIG_WAVEFORM_SYNC_MARKER ? 8 : bits[i] ? 5 : 2`. -/
def wwvb_lo (b : Nat) : Nat :=
  100 * (if b = TSIG_WAVEFORM_SYNC_MARKER then 8 else if b ≠ 0 then 5 else 2)
    / TSIG_WAVEFORM_TICK_MS

/-- The function `tsig_xmit_wwvb`: returns the new contents of `xmit_level`. -/
def tsig_xmit_wwvb (datetime : tsig_datetime_t) (params : tsig_params_t) (xmit_level : List Nat) :
    List Nat :=
  paintLowHigh xmit_level 0 ((wwvb_bits datetime params).map wwvb_lo)

/-- The array `bits` of `tsig_xmit_jjy` after the two parity assignments. -/
def jjy_bits_parity (datetime : tsig_datetime_t) : List Nat :=
  setEvenParity (setEvenParity (assign markerBits (minuteHourDoyBits datetime)) 36 12 19) 37 1 9

/-- The array `bits` of `tsig_xmit_jjy` before the painting loop: year and day of week are
assigned unless the minute is 15 or 45. -/
def jjy_bits (datetime : tsig_datetime_t) : List Nat :=
  if datetime.min = 15 ∨ datetime.min = 45 then jjy_bits_parity datetime
  else assign (jjy_bits_parity datetime)
    [(41, u8 (datetime.year % 100 / 10) &&& 8),
     (42, u8 (datetime.year % 100 / 10) &&& 4),
     (43, u8 (datetime.year % 100 / 10) &&& 2),
     (44, u8 (datetime.year % 100 / 10) &&& 1),
     (45, u8 (datetime.year % 10) &&& 8),
     (46, u8 (datetime.year % 10) &&& 4),
     (47, u8 (datetime.year % 10) &&& 2),
     (48, u8 (datetime.year % 10) &&& 1),
     (50, datetime.dow &&& 4),
     (51, datetime.dow &&& 2),
     (52, datetime.dow &&& 1)]

/-- High ticks of a second of JJY: `100 * hi_dsec / TSIG_WAVEFORM_TICK_MS` with
`hi_dsec = bits[i] == TSIG_WAVEFORM_SYNC_MARKER ? 2 : bits[i] ? 5 : 8`. -/
def jjy_hi (b : Nat) : Nat :=
  100 * (if b = TSIG_WAVEFORM_SYNC_MARKER then 2 else if b ≠ 0 then 5 else 8)
    / TSIG_WAVEFORM_TICK_MS

/-- The function `tsig_xmit_jjy_morse_pulse`: the pair is the new `xmit_level` and the new
value of `*k`. -/
def tsig_xmit_jjy_morse_pulse (xl : List Nat) (k ticks : Nat) : List Nat × Nat :=
  (paintHigh xl k ticks, k + ticks)

/-- A run of calls `tsig_xmit_jjy_morse_pulse(xmit_level, &k, ticks); k += gap;`, one for
each pair `(ticks, gap)` of the list. -/
def keyElements (xl : List Nat) (k : Nat) : List (Nat × Nat) → List Nat × Nat
  | [] => (xl, k)
  | item :: rest =>
    keyElements (tsig_xmit_jjy_morse_pulse xl k item.1).1
      ((tsig_xmit_jjy_morse_pulse xl k item.1).2 + item.2) rest

/-- One letter J of `tsig_xmit_jjy_morse`: dit, dah, dah, dah, with the inter-element gap
(1 tick) after the first three and the inter-character gap (6 ticks) after the last. -/
def morseJ : List (Nat × Nat) := [(2, 1), (5, 1), (5, 1), (5, 6)]

/-- The letter Y of `tsig_xmit_jjy_morse`: dah, dit, dah, dah, with the inter-word gap
(10 ticks) after the last. -/
def morseY : List (Nat × Nat) := [(5, 1), (2, 1), (5, 1), (5, 10)]

/-- The function `tsig_xmit_jjy_morse`: ticks 800..979 are cleared, then "JJY JJY" is keyed
from tick `TSIG_WAVEFORM_JJY_MORSE_TICK` on (the outer loop runs twice, the inner loop keys
J twice, then Y is keyed). -/
def tsig_xmit_jjy_morse (xl : List Nat) : List Nat :=
  (keyElements
    (paintLow xl (40 * TSIG_WAVEFORM_TICKS_PER_SEC)
      (49 * TSIG_WAVEFORM_TICKS_PER_SEC - 40 * TSIG_WAVEFORM_TICKS_PER_SEC))
    TSIG_WAVEFORM_JJY_MORSE_TICK
    (morseJ ++ morseJ ++ morseY ++ (morseJ ++ morseJ ++ morseY))).1

/-- The function `tsig_xmit_jjy`. The loop paints seconds 0..59 in order; in an announcement
minute, on reaching second 40 it calls `tsig_xmit_jjy_morse` and resumes with second 49 at
tick `TSIG_WAVEFORM_JJY_MORSE_END_TICK`. -/
def tsig_xmit_jjy (datetime : tsig_datetime_t) (params : tsig_params_t) (xmit_level : List Nat) :
    List Nat :=
  let bits := jjy_bits datetime
  let is_announce := datetime.min = 15 ∨ datetime.min = 45
  if is_announce then
    let xl := paintHighLow xmit_level 0 ((bits.take 40).map jjy_hi)
    let xl := tsig_xmit_jjy_morse xl
    paintHighLow xl TSIG_WAVEFORM_JJY_MORSE_END_TICK ((bits.drop 49).map jjy_hi)
  else
    paintHighLow xmit_level 0 (bits.map jjy_hi)

/-- The assignments of `tsig_xmit_dcf77` to `bits[20]` and to the minute of the transmitted
time `x = xmit_datetime` (`min = xmit_datetime.min % 10`, `min_10 = xmit_datetime.min / 10`,
each a `uint8_t`). -/
def dcf77_minute_bits (x : tsig_datetime_t) : List (Nat × Nat) :=
  [(20, 1),
   (21, u8 (x.min % 10) &&& 1),
   (22, u8 (x.min % 10) &&& 2),
   (23, u8 (x.min % 10) &&& 4),
   (24, u8 (x.min % 10) &&& 8),
   (25, u8 (x.min / 10) &&& 1),
   (26, u8 (x.min / 10) &&& 2),
   (27, u8 (x.min / 10) &&& 4)]

/-- The assignments of `tsig_xmit_dcf77` for the hour of the transmitted time. -/
def dcf77_hour_bits (x : tsig_datetime_t) : List (Nat × Nat) :=
  [(29, u8 (x.hour % 10) &&& 1),
   (30, u8 (x.hour % 10) &&& 2),
   (31, u8 (x.hour % 10) &&& 4),
   (32, u8 (x.hour % 10) &&& 8),
   (33, u8 (x.hour / 10) &&& 1),
   (34, u8 (x.hour / 10) &&& 2)]

/-- The assignments of `tsig_xmit_dcf77` for day, day of week (`dow = xmit_datetime.dow ?
xmit_datetime.dow : 7`), month and year of the transmitted time. -/
def dcf77_date_bits (x : tsig_datetime_t) : List (Nat × Nat) :=
  [(36, u8 (x.day % 10) &&& 1),
   (37, u8 (x.day % 10) &&& 2),
   (38, u8 (x.day % 10) &&& 4),
   (39, u8 (x.day % 10) &&& 8),
   (40, u8 (x.day / 10) &&& 1),
   (41, u8 (x.day / 10) &&& 2),
   (42, (if x.dow ≠ 0 then x.dow else 7) &&& 1),
   (43, (if x.dow ≠ 0 then x.dow else 7) &&& 2),
   (44, (if x.dow ≠ 0 then x.dow else 7) &&& 4),
   (45, u8 (x.mon % 10) &&& 1),
   (46, u8 (x.mon % 10) &&& 2),
   (47, u8 (x.mon % 10) &&& 4),
   (48, u8 (x.mon % 10) &&& 8),
   (49, u8 (x.mon / 10) &&& 1),
   (50, u8 (x.year % 10) &&& 1),
   (51, u8 (x.year % 10) &&& 2),
   (52, u8 (x.year % 10) &&& 4),
   (53, u8 (x.year % 10) &&& 8),
   (54, u8 (x.year % 100 / 10) &&& 1),
   (55, u8 (x.year % 100 / 10) &&& 2),
   (56, u8 (x.year % 100 / 10) &&& 4),
   (57, u8 (x.year % 100 / 10) &&& 8)]

/-- The assignments of `tsig_xmit_dcf77` that depend on the transmitted time
`x = xmit_datetime`, with the three parity bits in their place. -/
def dcf77_time_bits (bits : List Nat) (x : tsig_datetime_t) : List Nat :=
  setEvenParity (assign (setEvenParity (assign (setEvenParity (assign bits
    (dcf77_minute_bits x)) 28 21 28) (dcf77_hour_bits x)) 35 29 35) (dcf77_date_bits x)) 58 36 58

/-- The value of `is_xmit_cest` (and of `is_xmit_bst`), from the flag and `in_mins` of
`tsig_datetime_is_eu_dst`. -/
def isXmitSummer (r : Nat × Nat) : Nat :=
  cbool ((r.1 ≠ 0 ∧ r.2 > 1) ∨ (r.1 = 0 ∧ r.2 = 1))

/-- The initializer of `bits` in `tsig_xmit_dcf77`: `{[20] = 1, [59] = TSIG_WAVEFORM_SYNC_MARKER}`. -/
def dcf77_init : List Nat :=
  ((List.replicate 60 0).set 20 1).set 59 TSIG_WAVEFORM_SYNC_MARKER

/-- The value of `utc_datetime` in `tsig_xmit_dcf77`: the datetime is CET (UTC+1), and
`datetime.timestamp - utc_offset` is meaningful from 01:00 CET on 1970-01-01. -/
def dcf77_utc_datetime (datetime : tsig_datetime_t) : tsig_datetime_t :=
  tsig_datetime_parse_timestamp (datetime.timestamp - TSIG_DATETIME_MSECS_HOUR)

/-- The value of `xmit_datetime` in `tsig_xmit_dcf77`:
`datetime.timestamp + cest_offset + xmit_offset`, parsed. -/
def dcf77_xmit_datetime (datetime : tsig_datetime_t) : tsig_datetime_t :=
  tsig_datetime_parse_timestamp
    (datetime.timestamp
      + u32 (isXmitSummer (tsig_datetime_is_eu_dst (dcf77_utc_datetime datetime))
          * TSIG_DATETIME_MSECS_HOUR)
      + TSIG_DATETIME_MSECS_MIN)

/-- The array `bits` of `tsig_xmit_dcf77` before the painting loop, from the result
`r = (is_cest, in_mins)` of `tsig_datetime_is_eu_dst` and from `x = xmit_datetime`. -/
def dcf77_bits_of (r : Nat × Nat) (x : tsig_datetime_t) : List Nat :=
  dcf77_time_bits
    (assign dcf77_init [(16, cbool (r.2 ≤ 60)), (17, r.1), (18, cbool (r.1 = 0))]) x

/-- The array `bits` of `tsig_xmit_dcf77` before the painting loop. -/
def dcf77_bits (datetime : tsig_datetime_t) : List Nat :=
  dcf77_bits_of (tsig_datetime_is_eu_dst (dcf77_utc_datetime datetime))
    (dcf77_xmit_datetime datetime)

/-- Low ticks of a second of DCF77: `100 * lo_dsec / TSIG_WAVEFORM_TICK_MS` with
`lo_dsec = bits[i] == TSIG_WAVEFORM_SYNC_MARKER ? 0 : !!bits[i] + 1`. -/
def dcf77_lo (b : Nat) : Nat :=
  100 * (if b = TSIG_WAVEFORM_SYNC_MARKER then 0 else (if b ≠ 0 then 1 else 0) + 1)
    / TSIG_WAVEFORM_TICK_MS

/-- The function `tsig_xmit_dcf77`. -/
def tsig_xmit_dcf77 (datetime : tsig_datetime_t) (params : tsig_params_t)
    (xmit_level : List Nat) : List Nat :=
  paintLowHigh xmit_level 0 ((dcf77_bits datetime).map dcf77_lo)

/-- The DUT1 assignments of `tsig_xmit_msf` for `dut1 = q`: `lt0` is 8 for a negative `dut1`
and 0 otherwise, and `dut1` is then made non-negative; `bits[k + lt0] = dut1 >= k` for
`k = 1 .. 8`. -/
def msf_dut1_bits_of (q : Int) : List (Nat × Nat) :=
  (List.range 8).map (fun k =>
    (k + 1 + (if q < 0 then 8 else 0),
     cbool ((if q < 0 then i8 (-q) else q) ≥ (k : Int) + 1)))

/-- The DUT1 assignments of `tsig_xmit_msf`. -/
def msf_dut1_bits (params : tsig_params_t) : List (Nat × Nat) :=
  msf_dut1_bits_of (dut1Of params)

/-- The assignments of `tsig_xmit_msf` for the BCD fields of the transmitted time
`x = xmit_datetime`. -/
def msf_field_bits (x : tsig_datetime_t) : List (Nat × Nat) :=
  [(17, u8 (x.year % 100 / 10) &&& 8),
   (18, u8 (x.year % 100 / 10) &&& 4),
   (19, u8 (x.year % 100 / 10) &&& 2),
   (20, u8 (x.year % 100 / 10) &&& 1),
   (21, u8 (x.year % 10) &&& 8),
   (22, u8 (x.year % 10) &&& 4),
   (23, u8 (x.year % 10) &&& 2),
   (24, u8 (x.year % 10) &&& 1),
   (25, u8 (x.mon / 10) &&& 1),
   (26, u8 (x.mon % 10) &&& 8),
   (27, u8 (x.mon % 10) &&& 4),
   (28, u8 (x.mon % 10) &&& 2),
   (29, u8 (x.mon % 10) &&& 1),
   (30, u8 (x.day / 10) &&& 2),
   (31, u8 (x.day / 10) &&& 1),
   (32, u8 (x.day % 10) &&& 8),
   (33, u8 (x.day % 10) &&& 4),
   (34, u8 (x.day % 10) &&& 2),
   (35, u8 (x.day % 10) &&& 1),
   (36, x.dow &&& 4),
   (37, x.dow &&& 2),
   (38, x.dow &&& 1),
   (39, u8 (x.hour / 10) &&& 2),
   (40, u8 (x.hour / 10) &&& 1),
   (41, u8 (x.hour % 10) &&& 8),
   (42, u8 (x.hour % 10) &&& 4),
   (43, u8 (x.hour % 10) &&& 2),
   (44, u8 (x.hour % 10) &&& 1),
   (45, u8 (x.min / 10) &&& 4),
   (46, u8 (x.min / 10) &&& 2),
   (47, u8 (x.min / 10) &&& 1),
   (48, u8 (x.min % 10) &&& 8),
   (49, u8 (x.min % 10) &&& 4),
   (50, u8 (x.min % 10) &&& 2),
   (51, u8 (x.min % 10) &&& 1)]

/-- The assignments of `tsig_xmit_msf` from the transmitted time `x = xmit_datetime` on:
the BCD fields, bit 53, the four odd parities and the summer-time bit 58. -/
def msf_time_bits (bits : List Nat) (x : tsig_datetime_t) (in_mins is_xmit_bst : Nat) :
    List Nat :=
  setb (setOddParity (setOddParity (setOddParity (setOddParity (setb (assign bits
    (msf_field_bits x)) 53 (cbool (in_mins ≤ 61))) 54 17 25) 55 25 36) 56 36 39) 57 39 52)
    58 is_xmit_bst

/-- The initializer of `bits` in `tsig_xmit_msf`: `{[0] = TSIG_WAVEFORM_SYNC_MARKER}`. -/
def msf_init : List Nat := (List.replicate 60 0).set 0 TSIG_WAVEFORM_SYNC_MARKER

/-- The value of `xmit_datetime` in `tsig_xmit_msf`:
`datetime.timestamp + bst_offset + xmit_offset`, parsed. -/
def msf_xmit_datetime (datetime : tsig_datetime_t) : tsig_datetime_t :=
  tsig_datetime_parse_timestamp
    (datetime.timestamp
      + u32 (isXmitSummer (tsig_datetime_is_eu_dst datetime) * TSIG_DATETIME_MSECS_HOUR)
      + TSIG_DATETIME_MSECS_MIN)

/-- The array `bits` of `tsig_xmit_msf` before the painting loop. -/
def msf_bits (datetime : tsig_datetime_t) (params : tsig_params_t) : List Nat :=
  msf_time_bits (assign msf_init (msf_dut1_bits params)) (msf_xmit_datetime datetime)
    (tsig_datetime_is_eu_dst datetime).2 (isXmitSummer (tsig_datetime_is_eu_dst datetime))

/-- Low ticks of second `i` of MSF: `100 * dsec_lo / TSIG_WAVEFORM_TICK_MS` with
`dsec_lo = (bits[i] == TSIG_WAVEFORM_SYNC_MARKER ? 5 : !!bits[i] + 1) + (53 <= i && i <= 58)`. -/
def msf_lo (i b : Nat) : Nat :=
  100 * ((if b = TSIG_WAVEFORM_SYNC_MARKER then 5 else (if b ≠ 0 then 1 else 0) + 1)
      + cbool (53 ≤ i ∧ i ≤ 58))
    / TSIG_WAVEFORM_TICK_MS

/-- The function `tsig_xmit_msf`. -/
def tsig_xmit_msf (datetime : tsig_datetime_t) (params : tsig_params_t) (xmit_level : List Nat) :
    List Nat :=
  paintLowHigh xmit_level 0
    ((List.range 60).map (fun i => msf_lo i ((msf_bits datetime params).getD i 0)))

/-- The assignment `bits[i] = v | tsig_even_parity(bits, lo, hi)` of `tsig_xmit_bpc`. -/
def setOrEvenParity (bits : List Nat) (i v lo hi : Nat) : List Nat :=
  setb bits i (v ||| tsig_even_parity bits lo hi)

/-- The initializer of `bits` in `tsig_xmit_bpc`: `{[0] = TSIG_WAVEFORM_SYNC_MARKER}`. -/
def bpc_init : List Nat := (List.replicate 20 0).set 0 TSIG_WAVEFORM_SYNC_MARKER

/-- The array `bits` of `tsig_xmit_bpc` before the painting loops (`hour_12h`, `min`,
`dow`, `is_pm`, `day`, `mon`, `year` as in the source). -/
def bpc_bits (datetime : tsig_datetime_t) : List Nat :=
  setOrEvenParity (assign (setOrEvenParity
    (assign bpc_init
      [(3, (u8 (datetime.hour % 12) >>> 2) &&& 3),
       (4, u8 (datetime.hour % 12) &&& 3),
       (5, (datetime.min >>> 4) &&& 3),
       (6, (datetime.min >>> 2) &&& 3),
       (7, datetime.min &&& 3),
       (8, ((if datetime.dow ≠ 0 then datetime.dow else 7) >>> 2) &&& 1),
       (9, (if datetime.dow ≠ 0 then datetime.dow else 7) &&& 3)])
    10 (cbool (datetime.hour ≥ 12) <<< 1) 1 10)
      [(11, (datetime.day >>> 4) &&& 1),
       (12, (datetime.day >>> 2) &&& 3),
       (13, datetime.day &&& 3),
       (14, (datetime.mon >>> 2) &&& 3),
       (15, datetime.mon &&& 3),
       (16, (u8 (datetime.year % 100) >>> 4) &&& 3),
       (17, (u8 (datetime.year % 100) >>> 2) &&& 3),
       (18, u8 (datetime.year % 100) &&& 3)])
    19 ((u8 (datetime.year % 100) >>> 5) &&& 2) 11 19

/-- Low ticks of a symbol of BPC: `100 * lo_dsec / TSIG_WAVEFORM_TICK_MS` with
`lo_dsec = bits[i] == TSIG_WAVEFORM_SYNC_MARKER ? 0 : bits[i] + 1`. -/
def bpc_lo (b : Nat) : Nat :=
  100 * (if b = TSIG_WAVEFORM_SYNC_MARKER then 0 else b + 1) / TSIG_WAVEFORM_TICK_MS

/-- The array `bits` of `tsig_xmit_bpc` as painted in pass 1: `bits[1] = 1 << 1`, then
`bits[10] ^= 1`. -/
def bpc_pass1 (datetime : tsig_datetime_t) : List Nat :=
  setb (setb (bpc_bits datetime) 1 (1 <<< 1)) 10
    ((setb (bpc_bits datetime) 1 (1 <<< 1)).getD 10 0 ^^^ 1)

/-- The array `bits` of `tsig_xmit_bpc` as painted in pass 2: `bits[1] = 1 << 2` on the array
of pass 1. -/
def bpc_pass2 (datetime : tsig_datetime_t) : List Nat :=
  setb (bpc_pass1 datetime) 1 (1 <<< 2)

/-- The array `bits` of `tsig_xmit_bpc` as painted in pass `p` (`p < 3`). -/
def bpc_pass_bits (datetime : tsig_datetime_t) (p : Nat) : List Nat :=
  if p = 0 then bpc_bits datetime else if p = 1 then bpc_pass1 datetime else bpc_pass2 datetime

/-- The function `tsig_xmit_bpc`: three passes of 20 symbols each, the tick index running on
from one pass to the next. -/
def tsig_xmit_bpc (datetime : tsig_datetime_t) (params : tsig_params_t) (xmit_level : List Nat) :
    List Nat :=
  paintLowHigh (paintLowHigh (paintLowHigh xmit_level 0 ((bpc_bits datetime).map bpc_lo))
    400 ((bpc_pass1 datetime).map bpc_lo)) 800 ((bpc_pass2 datetime).map bpc_lo)

/-- A well-formed `xmit_level` array: 150 bytes. -/
def XmitOk (xl : List Nat) : Prop := xl.length = 150 ∧ ∀ b ∈ xl, b < 256

/-- Check, for all bytes `b` and bit positions `a`, `c`, of what setting or clearing bit `a`
does to the test of bit `c`. -/
def bitOpsOk : Bool :=
  allBelow (fun b => allBelow (fun a => allBelow (fun c =>
    ((u8 (b ||| (1 <<< a)) &&& (1 <<< c) != 0) == (decide (a = c) || (b &&& (1 <<< c) != 0))) &&
    ((u8 (b &&& (255 - (1 <<< a))) &&& (1 <<< c) != 0)
      == (!decide (a = c) && (b &&& (1 <<< c) != 0)))) 8) 8) 256

/-! ## Reading a pattern back

The receiver's side of the station formats, as the specification describes it: how long the
carrier is low (or high) in a second, which bit that stands for, and the weighted sum of the
bits of a binary-coded-decimal field. -/

/-- Second `s` of the pattern is low during its first `lo` ticks and high during the rest. -/
def lowThenHigh (xl : List Nat) (s lo : Nat) : Prop :=
  ∀ k, k < 20 → tickHigh xl (20 * s + k) = decide (lo ≤ k)

/-- Second `s` of the pattern is high during its first `hi` ticks and low during the rest. -/
def highThenLow (xl : List Nat) (s hi : Nat) : Prop :=
  ∀ k, k < 20 → tickHigh xl (20 * s + k) = decide (k < hi)

/-- Number of ticks of second `s` during which the carrier is low. -/
def lowTicks (xl : List Nat) (s : Nat) : Nat :=
  ((List.range 20).filter (fun k => !tickHigh xl (20 * s + k))).length

/-- Number of ticks of second `s` during which the carrier is high. -/
def highTicks (xl : List Nat) (s : Nat) : Nat :=
  ((List.range 20).filter (fun k => tickHigh xl (20 * s + k))).length

/-- WWVB: a second that is low for 500 ms (10 ticks) carries 1, any other second counts 0. -/
def wwvbBit (xl : List Nat) (s : Nat) : Nat := if lowTicks xl s = 10 then 1 else 0

/-- JJY: a second that is high for 500 ms (10 ticks) carries 1, any other second counts 0. -/
def jjyBit (xl : List Nat) (s : Nat) : Nat := if highTicks xl s = 10 then 1 else 0

/-- DCF77 and MSF: a second that is low for 200 ms (4 ticks) carries 1, any other counts 0. -/
def dcf77Bit (xl : List Nat) (s : Nat) : Nat := if lowTicks xl s = 4 then 1 else 0

/-- Value of a field: the sum of the weights of the seconds that carry 1, from a list of
pairs (second, weight). -/
def bcd (bit : Nat → Nat) (ws : List (Nat × Nat)) : Nat :=
  (ws.map (fun sw => sw.2 * bit sw.1)).sum

/-- The value last assigned to index `n` by the assignments `as`, or `dflt` if there is none. -/
def lookupLast (as : List (Nat × Nat)) (n dflt : Nat) : Nat :=
  as.foldl (fun acc a => if a.1 = n then u8 a.2 else acc) dflt

/-- The bit a byte of `bits` stands for: 1 for a non-zero byte other than the sync marker. -/
def sigBit (b : Nat) : Nat :=
  if b = TSIG_WAVEFORM_SYNC_MARKER then 0 else if b ≠ 0 then 1 else 0

/-- A byte of `bits` with at most one bit set among the low four: the values `x & 1`, `x & 2`,
`x & 4`, `x & 8` can take. -/
def single (b : Nat) : Prop := b = 0 ∨ b = 1 ∨ b = 2 ∨ b = 4 ∨ b = 8

/-- Sum of `f` over the `n` seconds `lo, lo + 1, ..., lo + n - 1`: the number of seconds
carrying 1 when `f` gives the bit of a second. -/
def bitCount (f : Nat → Nat) (lo : Nat) : Nat → Nat
  | 0 => 0
  | n + 1 => bitCount f lo n + f (lo + n)

/-- MSF seconds 53..58: a second that is low for 300 ms (6 ticks) carries 1 in its second
(B) bit, any other second counts 0. -/
def msfBitB (xl : List Nat) (s : Nat) : Nat := if lowTicks xl s = 6 then 1 else 0

/-- The DUT1 code of MSF as the specification words it, for `q = dut1_ms / 100` and a second
`s` in 1..16: seconds `1 .. |q|` carry 1 for `q ≥ 0`, seconds `9 .. 8 + |q|` for `q < 0`. -/
def dut1Unary (q : Int) (s : Nat) : Nat :=
  if q ≥ 0 then (if s ≤ q.natAbs then 1 else 0)
  else (if 9 ≤ s ∧ s ≤ 8 + q.natAbs then 1 else 0)

/-- Check of the DUT1 assignments of `tsig_xmit_msf` against `dut1Unary` for one value of
`dut1` and the seconds 1..16. -/
def msfDut1Ok (q : Int) : Bool :=
  allBelow (fun s => s == 0 ||
    sigBit (lookupLast (msf_dut1_bits_of q) s (msf_init.getD s 0)) == dut1Unary q s) 17

/-- A byte of the BPC `bits` array: a symbol value that fits three bits, or the sync marker. -/
def bpcOk (b : Nat) : Prop := b ≤ 7 ∨ b = 255

/-- Morse elements as tick counts, from the specification: a dit is 2 high ticks, a dah 5. -/
def morseDit : Nat := 2

/-- A dah is 5 high ticks. -/
def morseDah : Nat := 5

/-- The letter J: dit dah dah dah. -/
def codeJ : List Nat := [morseDit, morseDah, morseDah, morseDah]

/-- The letter Y: dah dit dah dah. -/
def codeY : List Nat := [morseDah, morseDit, morseDah, morseDah]

/-- Keying of one letter: its elements high, 1 low tick between elements. -/
def letterTicks : List Nat → List Bool
  | [] => []
  | [e] => List.replicate e true
  | e :: rest => List.replicate e true ++ List.replicate 1 false ++ letterTicks rest

/-- Keying of one word: 6 low ticks between letters. -/
def wordTicks : List (List Nat) → List Bool
  | [] => []
  | [l] => letterTicks l
  | l :: rest => letterTicks l ++ List.replicate 6 false ++ wordTicks rest

/-- Keying of a text: 10 low ticks between words. -/
def textTicks : List (List (List Nat)) → List Bool
  | [] => []
  | [w] => wordTicks w
  | w :: rest => wordTicks w ++ List.replicate 10 false ++ textTicks rest

/-- The keying of "JJY JJY". -/
def callsignTicks : List Bool := textTicks [[codeJ, codeJ, codeY], [codeJ, codeJ, codeY]]

/-- A list of pulses (first tick, length) painted high one after the other. -/
def paintPulses (xl : List Nat) (ps : List (Nat × Nat)) : List Nat :=
  ps.foldl (fun x p => paintHigh x p.1 p.2) xl

/-- Whether tick `k` lies in one of the pulses. -/
def inPulses (ps : List (Nat × Nat)) (k : Nat) : Bool :=
  ps.any (fun p => decide (p.1 ≤ k ∧ k < p.1 + p.2))

/-- The pulses (first tick, length) that a run of `keyElements` from tick `k` paints. -/
def pulsesOf (k : Nat) : List (Nat × Nat) → List (Nat × Nat)
  | [] => []
  | item :: rest => (k, item.1) :: pulsesOf (k + item.1 + item.2) rest

/-- The twenty-four pulses that `tsig_xmit_jjy_morse` paints, as (first tick, length). -/
def jjyMorsePulses : List (Nat × Nat) :=
  pulsesOf TSIG_WAVEFORM_JJY_MORSE_TICK (morseJ ++ morseJ ++ morseY ++ (morseJ ++ morseJ ++ morseY))

/-- Check that the pulses key "JJY JJY" from tick 811 on and nothing else in ticks 800..979. -/
def morseSpanOk : Bool :=
  callsignTicks.length == 154 &&
  allBelow (fun k => decide (k < 800) ||
    (inPulses jjyMorsePulses k == (decide (811 ≤ k) && callsignTicks.getD (k - 811) false))) 980

/-! ## timesignal.h, timesignal.c and the carrier set-up of waveform.h -/

/-- The constant `TSIG_RENDER_QUANTUM`. -/
def TSIG_RENDER_QUANTUM : Nat := 128

/-- The constant `TSIG_FADE_MS`. -/
def TSIG_FADE_MS : Nat := 35

/-- The constant `TSIG_DELAY_MS`. -/
def TSIG_DELAY_MS : Nat := 465

/-- The constant `TSIG_STATION_BPC`. -/
def TSIG_STATION_BPC : Nat := 0

/-- The constant `TSIG_STATION_DCF77`. -/
def TSIG_STATION_DCF77 : Nat := 1

/-- The constant `TSIG_STATION_JJY`. -/
def TSIG_STATION_JJY : Nat := 2

/-- The constant `TSIG_STATION_MSF`. -/
def TSIG_STATION_MSF : Nat := 3

/-- The constant `TSIG_STATION_WWVB`. -/
def TSIG_STATION_WWVB : Nat := 4

/-- The constant `TSIG_JJYKHZ_40`. -/
def TSIG_JJYKHZ_40 : Nat := 0

/-- The constant `TSIG_JJYKHZ_60`. -/
def TSIG_JJYKHZ_60 : Nat := 1

/-- The constant `TSIG_STATE_IDLE`. -/
def TSIG_STATE_IDLE : Int := 0

/-- The constant `TSIG_STATE_STARTUP`. -/
def TSIG_STATE_STARTUP : Int := 1

/-- The constant `TSIG_STATE_REQ_PARAMS`. -/
def TSIG_STATE_REQ_PARAMS : Int := 2

/-- The constant `TSIG_STATE_LOAD_PARAMS`. -/
def TSIG_STATE_LOAD_PARAMS : Int := 3

/-- The constant `TSIG_STATE_FADE_IN`. -/
def TSIG_STATE_FADE_IN : Int := 4

/-- The constant `TSIG_STATE_RUNNING`. -/
def TSIG_STATE_RUNNING : Int := 5

/-- The constant `TSIG_STATE_FADE_OUT`. -/
def TSIG_STATE_FADE_OUT : Int := 6

/-- The constant `TSIG_STATE_SUSPEND`. -/
def TSIG_STATE_SUSPEND : Int := 7

/-- The constants `TSIG_WAVEFORM_SUBHARMONIC_THRESHOLD`, `_FIFTH` and `_SEVENTH`. -/
def TSIG_WAVEFORM_SUBHARMONIC_THRESHOLD : Nat := 10000

/-- The constant `TSIG_WAVEFORM_SUBHARMONIC_FIFTH`. -/
def TSIG_WAVEFORM_SUBHARMONIC_FIFTH : Nat := 5

/-- The constant `TSIG_WAVEFORM_SUBHARMONIC_SEVENTH`. -/
def TSIG_WAVEFORM_SUBHARMONIC_SEVENTH : Nat := 7

/-- The `target_hz` column of `TSIG_WAVEFORM_STATION_DATA`, indexed by station. -/
def stationTargetHz : List Nat := [68500, 77500, 40000, 60000, 60000]

/-- The `utc_offset` column of `TSIG_WAVEFORM_STATION_DATA`, indexed by station. -/
def stationUtcOffset : List Nat := [28800000, 3600000, 32400000, 0, 0]

/-- The function `tsig_calculate_target_hz` (a station index outside the table reads as 0). -/
def tsig_calculate_target_hz (params : tsig_params_t) : Nat :=
  if params.station ≠ TSIG_STATION_JJY ∨ params.jjy_khz ≠ TSIG_JJYKHZ_60
  then stationTargetHz.getD params.station 0
  else 60000

/-- The function `tsig_calculate_subharmonic`; `target_hz` is a `uint32_t`, the result a
`uint8_t`. -/
def tsig_calculate_subharmonic (target_hz : Nat) : Nat :=
  if u32 target_hz / TSIG_WAVEFORM_SUBHARMONIC_FIFTH ≤ TSIG_WAVEFORM_SUBHARMONIC_THRESHOLD
  then TSIG_WAVEFORM_SUBHARMONIC_FIFTH
  else TSIG_WAVEFORM_SUBHARMONIC_SEVENTH

/-- The loop of `tsig_gcd`, `for (uint32_t c; b; a = b, b = c) c = a % b;`, with a bound on
the number of iterations. -/
def tsig_gcd_loop : Nat → Nat → Nat → Nat
  | 0, a, _ => a
  | fuel + 1, a, b => if b = 0 then a else tsig_gcd_loop fuel b (a % b)

/-- The function `tsig_gcd` (`b` decreases at every iteration, so `b + 1` iterations are
enough). -/
def tsig_gcd (a b : Nat) : Nat := tsig_gcd_loop (b + 1) a b

/-- The struct `tsig_waveform_ctx_t`; the `double` field `timestamp` and the `float` field
`gain` are kept as rationals. -/
structure tsig_waveform_ctx_t where
  sample_rate : Nat
  xmit_level : List Nat
  timestamp : ℚ
  samples : Nat
  next_tick : Nat
  morse_end : Nat
  tick : Nat
  phase_delta : Nat
  phase_base : Nat
  phase : Nat
  max_fade_gain : Nat
  fade_gain : Nat
  gain : ℚ
  scale : Int

/-- The function `tsig_waveform_init`; `now` is the value returned by `emscripten_get_now()`. -/
def tsig_waveform_init (ctx : tsig_waveform_ctx_t) (params : tsig_params_t) (now : ℚ) :
    tsig_waveform_ctx_t :=
  { ctx with
    timestamp := now + (stationUtcOffset.getD params.station 0 : ℚ)
      + 1000 * (TSIG_RENDER_QUANTUM : ℚ) / (ctx.sample_rate : ℚ)
    samples := 0
    next_tick := 0
    morse_end := 0
    phase_delta := tsig_calculate_target_hz params
      / tsig_gcd (tsig_calculate_target_hz params)
          (u32 (ctx.sample_rate
            * tsig_calculate_subharmonic (tsig_calculate_target_hz params)))
    phase_base := u32 (ctx.sample_rate
        * tsig_calculate_subharmonic (tsig_calculate_target_hz params))
      / tsig_gcd (tsig_calculate_target_hz params)
          (u32 (ctx.sample_rate
            * tsig_calculate_subharmonic (tsig_calculate_target_hz params)))
    phase := 0
    max_fade_gain := u32 (ctx.sample_rate * TSIG_FADE_MS) / 1000
    fade_gain := 0
    gain := 0
    scale := (ctx.sample_rate / tsig_calculate_subharmonic (tsig_calculate_target_hz params) : Nat) }

/-- The phase advance of `tsig_waveform_generate`:
`ctx->phase += ctx->phase_delta; if (ctx->phase >= ctx->phase_base) ctx->phase -= ctx->phase_base;`
on `uint32_t` fields. -/
def phase_advance (ctx : tsig_waveform_ctx_t) : tsig_waveform_ctx_t :=
  { ctx with
    phase :=
      if u32 (ctx.phase + ctx.phase_delta) ≥ ctx.phase_base
      then sub32 (u32 (ctx.phase + ctx.phase_delta)) ctx.phase_base
      else u32 (ctx.phase + ctx.phase_delta) }

/-- Sample `i` and the following of one call of `tsig_waveform_generate`, as far as the
carrier phase, the sample count, the fade counter and the next state go: the pair is the
context and `*out_next_state`. `settled i` stands for the outcome of the `float` comparison
`target_gain == ctx->gain` at sample `i`; the computation of the gain and of the samples
themselves is left out. -/
def generate_loop (state : Int) (settled : Nat → Bool) :
    Nat → Nat → tsig_waveform_ctx_t × Int → tsig_waveform_ctx_t × Int
  | 0, _, r => r
  | n + 1, i, (ctx, next) =>
    generate_loop state settled n (i + 1)
      (if state = TSIG_STATE_FADE_IN then
        (if ctx.fade_gain < ctx.max_fade_gain then
          ({ phase_advance ctx with samples := u32 (ctx.samples + 1),
                                    fade_gain := u32 (ctx.fade_gain + 1) }, next)
        else if settled i then
          ({ phase_advance ctx with samples := u32 (ctx.samples + 1) }, TSIG_STATE_RUNNING)
        else ({ phase_advance ctx with samples := u32 (ctx.samples + 1) }, next))
      else if state = TSIG_STATE_FADE_OUT then
        (if ctx.fade_gain ≠ 0 then
          ({ phase_advance ctx with samples := u32 (ctx.samples + 1),
                                    fade_gain := ctx.fade_gain - 1 }, next)
        else if settled i then
          ({ phase_advance ctx with samples := u32 (ctx.samples + 1) }, TSIG_STATE_SUSPEND)
        else ({ phase_advance ctx with samples := u32 (ctx.samples + 1) }, next))
      else ({ phase_advance ctx with samples := u32 (ctx.samples + 1) }, next))

/-- The function `tsig_waveform_generate`, restricted as `generate_loop` says: the loop runs
for `TSIG_RENDER_QUANTUM` samples, and `*out_next_state` starts as `next_state`. -/
def tsig_waveform_generate (ctx : tsig_waveform_ctx_t) (state next_state : Int)
    (settled : Nat → Bool) : tsig_waveform_ctx_t × Int :=
  generate_loop state settled TSIG_RENDER_QUANTUM 0 (ctx, next_state)

/-- The struct `tsig_ctx_t`. -/
structure tsig_ctx_t where
  state : Int
  params : tsig_params_t
  waveform_ctx : tsig_waveform_ctx_t
  delay_quantums : Nat

/-- The globals of timesignal.c: `tsig_params`, `tsig_ctx`, and the calls made so far to the
JavaScript callback `tsig_js_cb` (directly or posted to the main thread), oldest first. -/
structure tsig_module where
  tsig_params : tsig_params_t
  tsig_ctx : tsig_ctx_t
  notified : List Int

/-- The function `rearm_state_transition_delay`. -/
def rearm_state_transition_delay (m : tsig_module) : tsig_module :=
  { m with tsig_ctx := { m.tsig_ctx with
      delay_quantums := u32 (m.tsig_ctx.waveform_ctx.sample_rate * TSIG_DELAY_MS)
        / (1000 * TSIG_RENDER_QUANTUM) } }

/-- The function `is_state_transition_delay_finished`:
`if (delay_quantums && !--delay_quantums) return rearm_state_transition_delay(); return 0;`. -/
def is_state_transition_delay_finished (m : tsig_module) : tsig_module × Bool :=
  if m.tsig_ctx.delay_quantums ≠ 0 then
    if m.tsig_ctx.delay_quantums - 1 = 0 then
      (rearm_state_transition_delay
        { m with tsig_ctx := { m.tsig_ctx with delay_quantums := 0 } }, true)
    else
      ({ m with tsig_ctx := { m.tsig_ctx with
          delay_quantums := m.tsig_ctx.delay_quantums - 1 } }, false)
  else (m, false)

/-- The end of `tsig_awp_process_cb`: a state transition is stored and posted to JavaScript. -/
def finish_process (m : tsig_module) (state next_state : Int) : tsig_module :=
  if next_state ≠ state then
    { m with tsig_ctx := { m.tsig_ctx with state := next_state },
             notified := m.notified ++ [next_state] }
  else m

/-- The function `tsig_awp_process_cb` (one render quantum), as far as the module state
goes; `now` and `settled` are as in `tsig_waveform_init` and `generate_loop`. -/
def tsig_awp_process_cb (m : tsig_module) (now : ℚ) (settled : Nat → Bool) : tsig_module :=
  if m.tsig_ctx.state = TSIG_STATE_STARTUP then
    finish_process (is_state_transition_delay_finished m).1 m.tsig_ctx.state
      (if (is_state_transition_delay_finished m).2 then TSIG_STATE_REQ_PARAMS
       else m.tsig_ctx.state)
  else if m.tsig_ctx.state = TSIG_STATE_LOAD_PARAMS then
    finish_process
      { m with tsig_ctx := { m.tsig_ctx with
          params := m.tsig_params,
          waveform_ctx := tsig_waveform_init m.tsig_ctx.waveform_ctx m.tsig_params now } }
      m.tsig_ctx.state TSIG_STATE_FADE_IN
  else if m.tsig_ctx.state = TSIG_STATE_FADE_IN ∨ m.tsig_ctx.state = TSIG_STATE_RUNNING
      ∨ m.tsig_ctx.state = TSIG_STATE_FADE_OUT then
    finish_process
      { m with tsig_ctx := { m.tsig_ctx with
          waveform_ctx := (tsig_waveform_generate m.tsig_ctx.waveform_ctx m.tsig_ctx.state
            m.tsig_ctx.state settled).1 } }
      m.tsig_ctx.state
      (tsig_waveform_generate m.tsig_ctx.waveform_ctx m.tsig_ctx.state m.tsig_ctx.state
        settled).2
  else if m.tsig_ctx.state = TSIG_STATE_SUSPEND then
    finish_process (is_state_transition_delay_finished m).1 m.tsig_ctx.state
      (if (is_state_transition_delay_finished m).2 then TSIG_STATE_IDLE
       else m.tsig_ctx.state)
  else m

/-- The function `tsig_init`, as far as the module state goes. -/
def tsig_init (m : tsig_module) (sample_rate : Nat) : tsig_module :=
  rearm_state_transition_delay
    { m with tsig_ctx := { m.tsig_ctx with
        state := TSIG_STATE_IDLE,
        waveform_ctx := { m.tsig_ctx.waveform_ctx with sample_rate := sample_rate } } }

/-- The function `tsig_start`. -/
def tsig_start (m : tsig_module) : tsig_module :=
  { m with tsig_ctx := { m.tsig_ctx with state := TSIG_STATE_STARTUP },
           notified := m.notified ++ [TSIG_STATE_STARTUP] }

/-- The function `tsig_load_params`. -/
def tsig_load_params (m : tsig_module) (offset : Int) (station jjy_khz : Nat) (dut1 : Int)
    (noclip : Nat) : tsig_module :=
  { m with tsig_params := tsig_params_t.mk offset station jjy_khz dut1 noclip,
           tsig_ctx := { m.tsig_ctx with state := TSIG_STATE_LOAD_PARAMS },
           notified := m.notified ++ [TSIG_STATE_LOAD_PARAMS] }

/-- The function `tsig_stop`. -/
def tsig_stop (m : tsig_module) : tsig_module :=
  if m.tsig_ctx.state < TSIG_STATE_FADE_IN then
    { rearm_state_transition_delay m with
      tsig_ctx := { (rearm_state_transition_delay m).tsig_ctx with state := TSIG_STATE_IDLE },
      notified := m.notified ++ [TSIG_STATE_IDLE] }
  else
    { m with tsig_ctx := { m.tsig_ctx with state := TSIG_STATE_FADE_OUT },
             notified := m.notified ++ [TSIG_STATE_FADE_OUT] }

/-- A module with all fields zero, as the C initializers `= {}` leave it. -/
def tsig_module_zero : tsig_module :=
  { tsig_params := tsig_params_t.mk 0 0 0 0 0,
    tsig_ctx :=
      { state := 0,
        params := tsig_params_t.mk 0 0 0 0 0,
        waveform_ctx :=
          { sample_rate := 0, xmit_level := List.replicate 150 0, timestamp := 0, samples := 0,
            next_tick := 0, morse_end := 0, tick := 0, phase_delta := 0, phase_base := 0,
            phase := 0, max_fade_gain := 0, fade_gain := 0, gain := 0, scale := 0 },
        delay_quantums := 0 },
    notified := [] }

/-! ## Edit distance (editdistance.h, editdistance.c)

Arrays are lists of naturals (a `uint8_t` or `uint16_t` per entry). Inside
`edist_calc` and its helpers a read outside a list gives 0 and a write outside
is dropped; the copies of `edist_load_locale` and `edist_run_query`, whose
sizes come from the caller, are checked against the capacity of the
destination and give `none` when they do not fit. A loop whose `uint8_t`
counter can wrap before its test fails is run with fuel (`forU8`). -/

/-- `EDIST_UTF16_MIN_SURROGATE`. -/
def EDIST_UTF16_MIN_SURROGATE : Nat := 0xd800

/-- `EDIST_UTF16_MAX_SURROGATE`. -/
def EDIST_UTF16_MAX_SURROGATE : Nat := 0xdfff

/-- Conversion of an `int` to `int16_t`. -/
def i16 (x : Int) : Int := (x + 32768) % 65536 - 32768

/-- `edist_min`, on C `int`. -/
def edist_min (a b : Int) : Int := if a < b then a else b

/-- `edist_max`, on C `int`. -/
def edist_max (a b : Int) : Int := if a > b then a else b

/-- `edist_is_surrogate`. -/
def edist_is_surrogate (code_unit : Nat) : Nat :=
  cbool (EDIST_UTF16_MIN_SURROGATE ≤ code_unit ∧ code_unit ≤ EDIST_UTF16_MAX_SURROGATE)

/-- `edist_is_surrogate_pair`: `idxs[i] > (i ? idxs[i - 1] : 0) + 1`. -/
def edist_is_surrogate_pair (idxs : List Nat) (i : Nat) : Nat :=
  cbool (idxs.getD i 0 > (if i ≠ 0 then idxs.getD (i - 1) 0 else 0) + 1)

/-- `edist_utf16_eq`: whether code point `i` of `s1` equals code point `j` of `s2`. -/
def edist_utf16_eq (s1 idxs1 : List Nat) (i : Nat) (s2 idxs2 : List Nat) (j : Nat) : Nat :=
  if edist_is_surrogate_pair idxs1 i ≠ edist_is_surrogate_pair idxs2 j then 0
  else if edist_is_surrogate_pair idxs1 i = 0 ∨
      cbool (s1.getD (u8i ((idxs1.getD i 0 : Int) - 1 - (edist_is_surrogate_pair idxs1 i : Int))) 0 =
        s2.getD (u8i ((idxs2.getD j 0 : Int) - 1 - (edist_is_surrogate_pair idxs1 i : Int))) 0) = 0 then
    cbool (s1.getD (u8i ((idxs1.getD i 0 : Int) - 1 - (edist_is_surrogate_pair idxs1 i : Int))) 0 =
        s2.getD (u8i ((idxs2.getD j 0 : Int) - 1 - (edist_is_surrogate_pair idxs1 i : Int))) 0)
  else
    cbool (s1.getD (u8i ((idxs1.getD i 0 : Int) - 1 - (edist_is_surrogate_pair idxs1 i : Int)) + 1) 0 =
        s2.getD (u8i ((idxs2.getD j 0 : Int) - 1 - (edist_is_surrogate_pair idxs1 i : Int)) + 1) 0)

/-- The loop `for (uint8_t i = code_units - 1; i; i--) s[i] = s[i - 1];` of
`edist_utf16_swap_first_two`, from counter value `i` down. -/
def swap_shift (s : List Nat) : Nat → List Nat
  | 0 => s
  | i + 1 => swap_shift (s.set (i + 1) (s.getD i 0)) i

/-- The loop `for (uint8_t rotate = idxs[1] - idxs[0]; rotate; rotate--)` of
`edist_utf16_swap_first_two`: each round rotates the first `code_units` code
units one place to the right. -/
def swap_rotate (code_units : Nat) : Nat → List Nat → List Nat
  | 0, s => s
  | rotate + 1, s =>
      swap_rotate code_units rotate
        ((swap_shift s (u8i ((code_units : Int) - 1))).set 0 (s.getD (code_units - 1) 0))

/-- `edist_utf16_swap_first_two`: the contents of `s` and `idxs` after the call. -/
def edist_utf16_swap_first_two (s idxs : List Nat) : List Nat × List Nat :=
  (swap_rotate (idxs.getD 1 0) (u8i ((idxs.getD 1 0 : Int) - (idxs.getD 0 0 : Int))) s,
   (idxs.set 0 (u8i ((idxs.getD 1 0 : Int) - (idxs.getD 0 0 : Int)))).set 1
     (u8 (u8i ((idxs.getD 1 0 : Int) - (idxs.getD 0 0 : Int)) + idxs.getD 0 0)))

/-- The first loop of `edist_calc_le2`, `for (i = 0; i < len1 && !found_first; i++)`,
from counter value `i` with `n` rounds left (`i < len1 <= 255`, so the counter
does not wrap and `len1` rounds are all there are): `(found_first, first)`. -/
def le2_first (s1 idxs1 : List Nat) (len1 : Nat) (s2 idxs2 : List Nat) : Nat → Nat → Nat × Nat
  | 0, _ => (0, 0)
  | n + 1, i =>
      if i < len1 then
        if edist_utf16_eq s1 idxs1 i s2 idxs2 0 ≠ 0 then (1, i)
        else le2_first s1 idxs1 len1 s2 idxs2 n (i + 1)
      else (0, 0)

/-- The second loop of `edist_calc_le2`,
`for (i = first + 1; i < len1 && !found_second; i++)`: `found_second`. -/
def le2_second (s1 idxs1 : List Nat) (len1 : Nat) (s2 idxs2 : List Nat) : Nat → Nat → Nat
  | 0, _ => 0
  | n + 1, i =>
      if i < len1 then
        if edist_utf16_eq s1 idxs1 i s2 idxs2 1 ≠ 0 then edist_utf16_eq s1 idxs1 i s2 idxs2 1
        else le2_second s1 idxs1 len1 s2 idxs2 n (i + 1)
      else 0

/-- The values of `found_first` and `first` before the second loop of `edist_calc_le2`. -/
def le2_reset (len1 : Nat) (ff : Nat × Nat) : Nat × Nat :=
  if ff.1 ≠ 0 ∧ (ff.2 : Int) = (len1 : Int) - 1 then (0, 0) else ff

/-- `edist_calc_le2`. -/
def edist_calc_le2 (s1 idxs1 : List Nat) (len1 : Nat) (s2 idxs2 : List Nat) (len2 : Nat) : Nat :=
  if len2 = 1 then
    u8i ((len1 : Int) - ((le2_first s1 idxs1 len1 s2 idxs2 len1 0).1 : Int))
  else
    u8i ((len1 : Int) - ((le2_reset len1 (le2_first s1 idxs1 len1 s2 idxs2 len1 0)).1 : Int)
      - (le2_second s1 idxs1 len1 s2 idxs2 len1
          (u8 ((le2_reset len1 (le2_first s1 idxs1 len1 s2 idxs2 len1 0)).2 + 1)) : Int))

/-- A loop `for (uint8_t i = start; i <= hi; i++) body`, run with fuel: `none`
when the fuel runs out before the test fails. -/
def forU8 {σ : Type} (hi : Nat) (body : Nat → σ → Option σ) : Nat → Nat → σ → Option σ
  | 0, _, _ => none
  | fuel + 1, i, s =>
      if i ≤ hi then (body i s).bind (fun t => forU8 hi body fuel (u8 (i + 1)) t)
      else some s

/-- The variables of the row loop of `edist_calc` that live across rounds. -/
structure edist_rows where
  /-- The row being written. -/
  buf0 : List Nat
  /-- The previous row. -/
  buf1 : List Nat
  /-- The row before the previous one. -/
  buf2 : List Nat
  /-- An `int16_t`. -/
  llimit : Int
  /-- A `uint8_t`. -/
  rlimit : Nat

/-- The variables of the column loop of `edist_calc`. -/
structure edist_cols where
  /-- The row being written. -/
  buf0 : List Nat
  /-- A `uint8_t`. -/
  up_left : Nat
  /-- A `uint8_t`. -/
  left : Nat

/-- The test `edist_utf16_eq(s1, idxs1, i - 1, s2, idxs2, j - 2) &&
edist_utf16_eq(s1, idxs1, i - 2, s2, idxs2, j - 1)` for row `i` and column `j`, which in
the source stands behind the guards `i > 1` and `j > 1`. -/
def edist_transposed (s1 idxs1 s2 idxs2 : List Nat) (i j : Nat) : Prop :=
  edist_utf16_eq s1 idxs1 (u8i ((i : Int) - 1)) s2 idxs2 (u8i ((j : Int) - 2)) ≠ 0 ∧
  edist_utf16_eq s1 idxs1 (u8i ((i : Int) - 2)) s2 idxs2 (u8i ((j : Int) - 1)) ≠ 0

instance (s1 idxs1 s2 idxs2 : List Nat) (i j : Nat) :
    Decidable (edist_transposed s1 idxs1 s2 idxs2 i j) := by
  unfold edist_transposed; infer_instance

/-- The statement `if (i > 1 && j > 1 && edist_utf16_eq(..., i - 1, ..., j - 2) &&
edist_utf16_eq(..., i - 2, ..., j - 1)) buf0[j] = edist_min(buf0[j], buf2[j - 2] + 1);`
that follows the write of column `j` in row `i`. -/
def edist_transpose_cell (s1 idxs1 s2 idxs2 : List Nat) (i : Nat) (buf2 buf0 : List Nat)
    (j : Nat) : List Nat :=
  if i > 1 ∧ j > 1 ∧ edist_transposed s1 idxs1 s2 idxs2 i j then
    buf0.set j (u8i (edist_min (buf0.getD j 0) ((buf2.getD (j - 2) 0 : Int) + 1)))
  else buf0

/-- The value of `up_left` written to `buf0[j]` in the column loop of `edist_calc`. -/
def edist_cell_value (s1 idxs1 s2 idxs2 : List Nat) (i : Nat) (buf1 : List Nat) (j : Nat)
    (c : edist_cols) : Nat :=
  if edist_utf16_eq s1 idxs1 (u8i ((i : Int) - 1)) s2 idxs2 (u8i ((j : Int) - 1)) = 0 then
    u8i (edist_min (edist_min c.up_left (buf1.getD j 0)) c.left + 1)
  else c.up_left

/-- The body of `for (uint8_t j = l + 1; j <= r; j++)` in `edist_calc`. -/
def edist_cell (s1 idxs1 s2 idxs2 : List Nat) (i : Nat) (buf1 buf2 : List Nat) (j : Nat)
    (c : edist_cols) : edist_cols :=
  { buf0 := edist_transpose_cell s1 idxs1 s2 idxs2 i buf2
      (c.buf0.set j (edist_cell_value s1 idxs1 s2 idxs2 i buf1 j c)) j
    up_left := buf1.getD j 0
    left := edist_cell_value s1 idxs1 s2 idxs2 i buf1 j c }

/-- The value of `l` in a round of the row loop of `edist_calc`. -/
def edist_row_l (st : edist_rows) : Nat := u8i (edist_max st.llimit 1)

/-- The value of `r` in a round of the row loop of `edist_calc`. -/
def edist_row_r (len2 : Nat) (st : edist_rows) : Nat := u8i (edist_min st.rlimit len2)

/-- The value written to `buf0[l]` in row `i` of `edist_calc`. -/
def edist_first_value (s1 idxs1 s2 idxs2 : List Nat) (i : Nat) (st : edist_rows) : Nat :=
  if edist_utf16_eq s1 idxs1 (u8i ((i : Int) - 1)) s2 idxs2 (u8i ((edist_row_l st : Int) - 1)) = 0
  then u8i (edist_min (st.buf0.getD (edist_row_l st - 1) 0) (st.buf0.getD (edist_row_l st) 0) + 1)
  else st.buf0.getD (edist_row_l st - 1) 0

/-- Row `i` of `edist_calc` up to the column loop: the buffers are rotated (`buf1` is the
old `buf0`, `buf2` the old `buf1`, `buf0` the old `buf2`), `buf0[0] = i`, and column `l`
is written. -/
def edist_row_first (s1 idxs1 s2 idxs2 : List Nat) (i : Nat) (st : edist_rows) : edist_cols :=
  { buf0 := edist_transpose_cell s1 idxs1 s2 idxs2 i st.buf1
      ((st.buf2.set 0 i).set (edist_row_l st) (edist_first_value s1 idxs1 s2 idxs2 i st))
      (edist_row_l st)
    up_left := st.buf0.getD (edist_row_l st) 0
    left := edist_first_value s1 idxs1 s2 idxs2 i st }

/-- The value written to `buf0[r + 1]` in row `i` of `edist_calc`. -/
def edist_last_value (s1 idxs1 s2 idxs2 : List Nat) (len2 i : Nat) (st : edist_rows)
    (c : edist_cols) : Nat :=
  if edist_utf16_eq s1 idxs1 (u8i ((i : Int) - 1)) s2 idxs2 (edist_row_r len2 st) = 0 then
    u8i (edist_min c.up_left c.left + 1)
  else c.up_left

/-- Row `i` of `edist_calc` after the column loop: nothing more when `r == len2`,
else column `r + 1` is written; `llimit` and `rlimit` have been incremented. -/
def edist_row_last (s1 idxs1 s2 idxs2 : List Nat) (len2 i : Nat) (st : edist_rows)
    (c : edist_cols) : edist_rows :=
  { buf0 :=
      if edist_row_r len2 st = len2 then c.buf0
      else edist_transpose_cell s1 idxs1 s2 idxs2 i st.buf1
        (c.buf0.set (edist_row_r len2 st + 1) (edist_last_value s1 idxs1 s2 idxs2 len2 i st c))
        (edist_row_r len2 st + 1)
    buf1 := st.buf0
    buf2 := st.buf1
    llimit := i16 (st.llimit + 1)
    rlimit := u8 (st.rlimit + 1) }

/-- The body of `for (uint8_t i = 1; i <= len1; i++)` in `edist_calc`. -/
def edist_row (fuel : Nat) (s1 idxs1 s2 idxs2 : List Nat) (len2 : Nat) (i : Nat)
    (st : edist_rows) : Option edist_rows :=
  (forU8 (edist_row_r len2 st)
      (fun j c => some (edist_cell s1 idxs1 s2 idxs2 i st.buf0 st.buf1 j c)) fuel
      (u8 (edist_row_l st + 1)) (edist_row_first s1 idxs1 s2 idxs2 i st)).map
    (edist_row_last s1 idxs1 s2 idxs2 len2 i st)

/-- The state of `edist_calc` before the row loop: three rows of `buf_len` bytes
(uninitialised bytes are taken as 0), the first `rlimit + 1` entries of `buf0`
set by `for (uint8_t i = 0; i <= rlimit; i++) buf0[i] = i;`. -/
def edist_rows_init (fuel len1 len2 : Nat) : Option edist_rows :=
  (forU8 (u8i (((len2 : Int) - 1) / 2)) (fun i b => some (b.set i i)) fuel 0
      (List.replicate (u8i (edist_max len1 len2 + 1)) 0)).map fun b =>
    { buf0 := b
      buf1 := List.replicate (u8i (edist_max len1 len2 + 1)) 0
      buf2 := List.replicate (u8i (edist_max len1 len2 + 1)) 0
      llimit := i16 ((len2 : Int) - (len1 : Int) - (u8i (((len2 : Int) - 1) / 2) : Int) + 1)
      rlimit := u8i (((len2 : Int) - 1) / 2) }

/-- The part of `edist_calc` after the test `len1 < len2`. The arrays of the
two strings are distinct objects. -/
def edist_calc_ordered (fuel : Nat) (s1 idxs1 : List Nat) (len1 : Nat) (s2 idxs2 : List Nat)
    (len2 : Nat) : Option Nat :=
  if len2 = 0 then some len1
  else if len2 = 1 then some (edist_calc_le2 s1 idxs1 len1 s2 idxs2 len2)
  else if len2 = 2 then
    some (u8i (edist_min
      (edist_calc_le2 s1 idxs1 len1 (edist_utf16_swap_first_two s2 idxs2).1
        (edist_utf16_swap_first_two s2 idxs2).2 len2)
      (edist_calc_le2 s1 idxs1 len1
        (edist_utf16_swap_first_two (edist_utf16_swap_first_two s2 idxs2).1
          (edist_utf16_swap_first_two s2 idxs2).2).1
        (edist_utf16_swap_first_two (edist_utf16_swap_first_two s2 idxs2).1
          (edist_utf16_swap_first_two s2 idxs2).2).2 len2)))
  else
    ((edist_rows_init fuel len1 len2).bind fun st =>
      forU8 len1 (edist_row fuel s1 idxs1 s2 idxs2 len2) fuel 1 st).map fun st =>
        st.buf0.getD len2 0

/-- `edist_calc`: the value returned, `none` when the call does not return
within the fuel. -/
def edist_calc (fuel : Nat) (s1 idxs1 : List Nat) (len1 : Nat) (s2 idxs2 : List Nat)
    (len2 : Nat) : Option Nat :=
  if len1 < len2 then edist_calc_ordered fuel s2 idxs2 len2 s1 idxs1 len1
  else edist_calc_ordered fuel s1 idxs1 len1 s2 idxs2 len2

/-- The contents of `(s1, idxs1)` and `(s2, idxs2)` after a call of `edist_calc`:
the shorter string, when it has two code points, has gone through
`edist_utf16_swap_first_two` twice. -/
def edist_calc_arrays (s1 idxs1 : List Nat) (len1 : Nat) (s2 idxs2 : List Nat) (len2 : Nat) :
    (List Nat × List Nat) × (List Nat × List Nat) :=
  if len1 < len2 then
    if len1 = 2 then
      (edist_utf16_swap_first_two (edist_utf16_swap_first_two s1 idxs1).1
        (edist_utf16_swap_first_two s1 idxs1).2, (s2, idxs2))
    else ((s1, idxs1), (s2, idxs2))
  else if len2 = 2 then
    ((s1, idxs1), edist_utf16_swap_first_two (edist_utf16_swap_first_two s2 idxs2).1
        (edist_utf16_swap_first_two s2 idxs2).2)
  else ((s1, idxs1), (s2, idxs2))

/-- The loop of `edist_make_idxs`, at its head (where `i = j`) with `n` rounds
left; every round moves `i` up, and `i < code_units <= 255`, so `code_units`
rounds are all there are: `(out_idxs, len)`. -/
def make_idxs_loop (s : List Nat) (code_units : Nat) :
    Nat → Nat → Nat → List Nat → List Nat × Nat
  | 0, _, len, out => (out, len)
  | n + 1, i, len, out =>
      if i < code_units then
        make_idxs_loop s code_units n
          (if edist_is_surrogate (s.getD i 0) ≠ 0 then
            u8 (u8 (i + 1) +
              cbool (u8 (i + 1) < code_units ∧ edist_is_surrogate (s.getD (u8 (i + 1)) 0) ≠ 0))
           else u8 (i + 1))
          (u8 (len + 1))
          (out.set len
            (if edist_is_surrogate (s.getD i 0) ≠ 0 then
              u8 (u8 (i + 1) +
                cbool (u8 (i + 1) < code_units ∧ edist_is_surrogate (s.getD (u8 (i + 1)) 0) ≠ 0))
             else u8 (i + 1)))
      else (out, len)

/-- `edist_make_idxs`: the index map written to `out_idxs` and the length in code points. -/
def edist_make_idxs (s : List Nat) (code_units : Nat) (out_idxs : List Nat) : List Nat × Nat :=
  make_idxs_loop s code_units code_units 0 0 out_idxs

/-- `EDIST_MAX_BUF_SIZE`. -/
def EDIST_MAX_BUF_SIZE : Nat := 256

/-- `EDIST_MAX_LOCALES`. -/
def EDIST_MAX_LOCALES : Nat := 200

/-- `EDIST_MAX_TAG_CODE_UNITS`. -/
def EDIST_MAX_TAG_CODE_UNITS : Nat := 12

/-- `EDIST_MAX_NAME_CODE_UNITS`. -/
def EDIST_MAX_NAME_CODE_UNITS : Nat := 40

/-- `EDIST_MAX_CODE_UNITS`. -/
def EDIST_MAX_CODE_UNITS : Nat := EDIST_MAX_NAME_CODE_UNITS

/-- `user_locale_t`. -/
structure user_locale_t where
  /-- `uint16_t tag[EDIST_MAX_TAG_CODE_UNITS]`. -/
  tag : List Nat
  /-- `uint16_t name[EDIST_MAX_NAME_CODE_UNITS]`. -/
  name : List Nat
  /-- A `uint8_t`. -/
  tag_len : Nat
  /-- A `uint8_t`. -/
  name_len : Nat
deriving DecidableEq

/-- `edist_ctx_t`. -/
structure edist_ctx_t where
  /-- `uint8_t buf[EDIST_MAX_BUF_SIZE]`. -/
  buf : List Nat
  /-- `user_locale_t locales[EDIST_MAX_LOCALES]`. -/
  locales : List user_locale_t
  /-- `uint8_t idxs[EDIST_MAX_CODE_UNITS]`. -/
  idxs : List Nat
  /-- A `uint8_t`. -/
  count : Nat
deriving DecidableEq

/-- The zero locale. -/
def user_locale_zero : user_locale_t :=
  { tag := List.replicate EDIST_MAX_TAG_CODE_UNITS 0
    name := List.replicate EDIST_MAX_NAME_CODE_UNITS 0
    tag_len := 0
    name_len := 0 }

/-- The initial value `edist_ctx = {}`. -/
def edist_ctx_zero : edist_ctx_t :=
  { buf := List.replicate EDIST_MAX_BUF_SIZE 0
    locales := List.replicate EDIST_MAX_LOCALES user_locale_zero
    idxs := List.replicate EDIST_MAX_CODE_UNITS 0
    count := 0 }

/-- The `uint16_t` read from bytes `off + 2 k` and `off + 2 k + 1` (little-endian,
as a `memcpy` into a `uint16_t` array gives on WebAssembly). -/
def rd16 (buf : List Nat) (off k : Nat) : Nat :=
  u16 (buf.getD (off + 2 * k) 0 + 256 * buf.getD (off + 2 * k + 1) 0)

/-- `memcpy(dst, &buf[off], n * sizeof(uint16_t))` into a `uint16_t` array:
`none` when the source or the destination is too short. -/
def memcpy16 (dst buf : List Nat) (off n : Nat) : Option (List Nat) :=
  if n ≤ dst.length ∧ off + 2 * n ≤ buf.length then
    some ((List.range n).foldl (fun d k => d.set k (rd16 buf off k)) dst)
  else none

/-- `edist_has_script_subtag`; `none` when the scan leaves the buffer. -/
def edist_has_script_subtag (buf : List Nat) (tag_len : Nat) : Option Nat :=
  if 2 * tag_len ≤ buf.length then
    some (cbool ((List.range tag_len).foldl
      (fun hyphens i => u8 (hyphens + cbool (buf.getD (2 * i) 0 = 45 ∧ buf.getD (2 * i + 1) 0 = 0)))
      0 > 1))
  else none

/-- `edist_get_buf_ptr`: its effect on the context. -/
def edist_get_buf_ptr (ctx : edist_ctx_t) : edist_ctx_t :=
  if ctx.idxs.getD 0 0 = 0 then
    { ctx with
      idxs :=
        (List.range EDIST_MAX_CODE_UNITS).foldl (fun x i => x.set i (u8 (i + 1))) ctx.idxs }
  else ctx

/-- `edist_reset`. -/
def edist_reset (ctx : edist_ctx_t) : edist_ctx_t := { ctx with count := 0 }

/-- The statement `*tag++ = v` on an array with write position `p`: `none` past the end. -/
def push16 (st : List Nat × Nat) (v : Nat) : Option (List Nat × Nat) :=
  if st.2 < st.1.length then some (st.1.set st.2 (u16 v), st.2 + 1) else none

/-- The body of the copying loop of `edist_load_locale` for code unit `i`. -/
def load_tag_unit (buf : List Nat) (st : List Nat × Nat) (i : Nat) : Option (List Nat × Nat) :=
  (push16 st (buf.getD (2 * i + 1) 0 <<< 8 ||| buf.getD (2 * i) 0)).bind fun st1 =>
    if buf.getD (2 * i) 0 = 45 ∧ buf.getD (2 * i + 1) 0 = 0 then
      (push16 st1 0).bind fun st2 => (push16 st2 0).bind fun st3 => (push16 st3 0).bind fun st4 =>
        (push16 st4 0).bind fun st5 => push16 st5 45
    else some st1

/-- The copying loop of `edist_load_locale`, `for (uint8_t i = 0; i < tag_len; i++)`. -/
def load_tag (buf : List Nat) (tag : List Nat) (tag_len : Nat) : Option (List Nat × Nat) :=
  (List.range tag_len).foldl (fun st i => st.bind fun x => load_tag_unit buf x i) (some (tag, 0))

/-- `edist_load_locale`; `none` when an access leaves its array. -/
def edist_load_locale (ctx : edist_ctx_t) (tag_len name_len : Nat) : Option edist_ctx_t :=
  if ctx.count < ctx.locales.length then
    (edist_has_script_subtag ctx.buf tag_len).bind fun has =>
      ((if has ≠ 0 then (memcpy16 (ctx.locales.getD ctx.count user_locale_zero).tag ctx.buf 0
              tag_len).map fun t => (t, tag_len)
        else if 2 * tag_len ≤ ctx.buf.length then
          (load_tag ctx.buf (ctx.locales.getD ctx.count user_locale_zero).tag tag_len).map
            fun t => (t.1, u8 (tag_len + 5))
        else none).bind fun t =>
        (memcpy16 (ctx.locales.getD ctx.count user_locale_zero).name ctx.buf (u8 (tag_len * 2))
            name_len).map fun nm =>
          { ctx with
            locales := ctx.locales.set ctx.count
              { tag := t.1, name := nm, tag_len := t.2, name_len := name_len }
            count := u8 (ctx.count + 1) })
  else none

/-- The variables of the loop of `edist_run_query`. -/
structure edist_query where
  /-- `uint16_t query[EDIST_MAX_CODE_UNITS]`. -/
  query : List Nat
  /-- `uint8_t query_idxs[EDIST_MAX_CODE_UNITS]`. -/
  query_idxs : List Nat
  /-- A `uint8_t`. -/
  query_len : Nat
  /-- The module context. -/
  ctx : edist_ctx_t

/-- The body of the loop of `edist_run_query` for locale `i`. -/
def run_query_step (fuel : Nat) (q : edist_query) (i : Nat) : Option edist_query :=
  if i < q.ctx.locales.length ∧ i < q.ctx.buf.length then
    let locale := q.ctx.locales.getD i user_locale_zero
    (edist_calc fuel q.query q.query_idxs q.query_len locale.tag q.ctx.idxs locale.tag_len).bind
      fun tag_score =>
        let a := edist_calc_arrays q.query q.query_idxs q.query_len locale.tag q.ctx.idxs
          locale.tag_len
        (edist_calc fuel a.1.1 a.1.2 q.query_len locale.name a.2.2 locale.name_len).bind
          fun name_score =>
            let b := edist_calc_arrays a.1.1 a.1.2 q.query_len locale.name a.2.2 locale.name_len
            some
              { query := b.1.1
                query_idxs := b.1.2
                query_len := q.query_len
                ctx :=
                  { buf := q.ctx.buf.set i (u8i (edist_min tag_score name_score))
                    locales := q.ctx.locales.set i
                      { tag := a.2.1, name := b.2.1, tag_len := locale.tag_len,
                        name_len := locale.name_len }
                    idxs := b.2.2
                    count := q.ctx.count } }
  else none

/-- The loop `for (int i = 0; i < edist_ctx.count; i++)` of `edist_run_query`, from
`i` with `n` rounds left. -/
def run_query_loop (fuel : Nat) : Nat → Nat → edist_query → Option edist_query
  | 0, _, q => some q
  | n + 1, i, q => (run_query_step fuel q i).bind fun t => run_query_loop fuel n (i + 1) t

/-- `edist_run_query`; `none` when a copy leaves its array or a call of
`edist_calc` does not return within the fuel. The scratch arrays start as zeros. -/
def edist_run_query (fuel : Nat) (ctx : edist_ctx_t) (len : Nat) : Option edist_ctx_t :=
  (memcpy16 (List.replicate EDIST_MAX_CODE_UNITS 0) ctx.buf 0 len).bind fun query =>
    (run_query_loop fuel ctx.count 0
      { query := query
        query_idxs := (edist_make_idxs query len (List.replicate EDIST_MAX_CODE_UNITS 0)).1
        query_len := (edist_make_idxs query len (List.replicate EDIST_MAX_CODE_UNITS 0)).2
        ctx := ctx }).map fun q => q.ctx

/-- The bytes of a list of code units, little-endian. -/
def bytes16 (s : List Nat) : List Nat := s.flatMap fun c => [c % 256, c / 256 % 256]

/-- The buffer after packing the bytes `bs` at its start. -/
def packBuf (buf bs : List Nat) : List Nat := bs ++ buf.drop bs.length

/-- The edit distance of two strings given by their code units, with index maps
made by `edist_make_idxs`. -/
def edist (fuel : Nat) (a b : List Nat) : Option Nat :=
  edist_calc fuel
    a (edist_make_idxs a a.length (List.replicate a.length 0)).1
    (edist_make_idxs a a.length (List.replicate a.length 0)).2
    b (edist_make_idxs b b.length (List.replicate b.length 0)).1
    (edist_make_idxs b b.length (List.replicate b.length 0)).2

/-- The value a cell of row `i`, column `k` gets when its two code points are
equal: the entry up and to the left, or one more than the entry two rows up
and two columns to the left when the code points are transposed and that is
smaller. -/
def diag_value (s1 idxs1 s2 idxs2 : List Nat) (i : Nat) (buf1 buf2 : List Nat) (k : Nat) : Nat :=
  if i > 1 ∧ k > 1 ∧ edist_transposed s1 idxs1 s2 idxs2 i k then
    u8i (edist_min (buf1.getD (k - 1) 0) ((buf2.getD (k - 2) 0 : Int) + 1))
  else buf1.getD (k - 1) 0

/-- The state of the row loop of `edist_calc` after row `i`, for two strings of 172 code
points, as far as the entry three columns right of the diagonal goes: it is `c`, and the
entry up and to the left of it is at least `c - 1`. -/
def long_inv (c i : Nat) (st : edist_rows) : Prop :=
  st.llimit = (i : Int) - 84 ∧ st.rlimit = 85 + i ∧
  st.buf0.length = 173 ∧ st.buf1.length = 173 ∧ st.buf2.length = 173 ∧
  st.buf0.getD (i + 3) 0 = c ∧ (i = 0 ∨ c ≤ st.buf1.getD (i + 2) 0 + 1)

/-! ## Edit distance: the specification side -/

/-- The UTF-16 code units of a string of characters below U+D800. -/
def units (s : String) : List Nat := s.toList.map Char.toNat

/-- The code points of a UTF-16 string, each as its list of one or two code units: two
surrogates in a row make one code point, as in `edist_make_idxs`. -/
def codePoints : List Nat → List (List Nat)
  | [] => []
  | [c] => [[c]]
  | c :: d :: t =>
      if (0xd800 ≤ c ∧ c ≤ 0xdfff) ∧ (0xd800 ≤ d ∧ d ≤ 0xdfff) then [c, d] :: codePoints t
      else [c] :: codePoints (d :: t)

/-- Row `i + 1` of the Wagner-Fischer table with adjacent transposition, from rows `i - 1`
(`p2`) and `i` (`p1`): the entry of column `j + 1` is the least of a deletion, an
insertion, a substitution (`cost i j` is 0 when the code points `i` and `j`, counted from
0, are equal, else 1) and, when `tr i j` says that the last two code points are
transposed, a transposition. -/
def osa_next (cost : Nat → Nat → Nat) (tr : Nat → Nat → Bool) (i : Nat) (p2 p1 : Nat → Nat) :
    Nat → Nat
  | 0 => i + 1
  | j + 1 =>
      min (min (p1 (j + 1) + 1) (osa_next cost tr i p2 p1 j + 1))
        (min (p1 j + cost i j) (if tr i j then p2 (j - 1) + 1 else p1 j + cost i j))

/-- Rows `i - 1` and `i` of the Wagner-Fischer table; row 0 is `0, 1, 2, ...`. -/
def osa_rows (cost : Nat → Nat → Nat) (tr : Nat → Nat → Bool) :
    Nat → (Nat → Nat) × (Nat → Nat)
  | 0 => (fun _ => 0, fun j => j)
  | i + 1 =>
      ((osa_rows cost tr i).2,
        osa_next cost tr i (osa_rows cost tr i).1 (osa_rows cost tr i).2)

/-- The optimal string alignment distance of two lists of code points: the last entry of
the full Wagner-Fischer table with adjacent transposition. -/
def osa (a b : List (List Nat)) : Nat :=
  (osa_rows (fun i j => if a[i]? = b[j]? then 0 else 1)
    (fun i j => decide (1 ≤ i ∧ 1 ≤ j ∧ a[i]? = b[j - 1]? ∧ a[i - 1]? = b[j]?))
    a.length).2 b.length

/-- The context after JavaScript has packed the code units `s` into the buffer. -/
def edist_pack (ctx : edist_ctx_t) (s : List Nat) : edist_ctx_t :=
  { ctx with buf := packBuf ctx.buf (bytes16 s) }

/-- The run of the specification's example: reset, load ("en-US", "English (US)") and
("az-AZ", "Azerbaijani (Azerbaijan)"), query "az"; the first two bytes of the buffer. -/
def az_scores (fuel : Nat) : Option (List Nat) :=
  (edist_load_locale
      (edist_pack (edist_reset (edist_get_buf_ptr edist_ctx_zero))
        (units "en-US" ++ units "English (US)")) 5 12).bind fun c1 =>
    (edist_load_locale (edist_pack c1 (units "az-AZ" ++ units "Azerbaijani (Azerbaijan)")) 5 24).bind
      fun c2 => (edist_run_query fuel (edist_pack c2 (units "az")) 2).map fun c3 => c3.buf.take 2

/-- The `n` code units packed little-endian in `buf` from byte `off` on. -/
def buf_units (buf : List Nat) (off n : Nat) : List Nat := (List.range n).map (rd16 buf off)

/-- The specification's stored tag: the code units up to and including the first
hyphen, four zero code units, a hyphen, the remaining code units. -/
def inject_script : List Nat → List Nat
  | [] => []
  | c :: cs => if c = 45 then c :: 0 :: 0 :: 0 :: 0 :: 45 :: cs else c :: inject_script cs

/-- What the copying loop of `edist_load_locale` writes for the code units `l`: the
fake subtag follows every hyphen. -/
def inject_every (l : List Nat) : List Nat :=
  l.flatMap fun c => if c = 45 then [45, 0, 0, 0, 0, 45] else [c]

/-- Whether a code unit is a UTF-16 surrogate, U+D800..U+DFFF (specification side). -/
def surrogate_unit (c : Nat) : Bool := decide (55296 ≤ c ∧ c ≤ 57343)

/-- The one-past-end code-unit indices of the code points of a string whose first
code unit has index `p`: two consecutive surrogate code units make one code point,
any other code unit is a code point of its own (specification side). -/
def code_point_ends : List Nat → Nat → List Nat
  | [], _ => []
  | [_], p => [p + 1]
  | c :: d :: t, p =>
      if surrogate_unit c = true ∧ surrogate_unit d = true then
        (p + 2) :: code_point_ends t (p + 2)
      else (p + 1) :: code_point_ends (d :: t) (p + 1)

/-- The byte `edist_run_query` stores for the locale `l`: the lesser of the distances
of the query to the tag and to the name (a call that does not return counts as 0). -/
def locale_score (fuel : Nat) (q qi : List Nat) (ql : Nat) (idxs : List Nat) (l : user_locale_t) :
    Nat :=
  u8i (edist_min ((edist_calc fuel q qi ql l.tag idxs l.tag_len).getD 0)
    ((edist_calc fuel q qi ql l.name idxs l.name_len).getD 0))

/-- The context of the specification's example before the query runs: after reset,
("en-US", "English (US)") and ("az-AZ", "Azerbaijani (Azerbaijan)") loaded, and the
query "az" packed in the buffer. -/
def az_ctx : edist_ctx_t :=
  edist_pack
    (((edist_load_locale
        (edist_pack (edist_reset (edist_get_buf_ptr edist_ctx_zero))
          (units "en-US" ++ units "English (US)")) 5 12).bind fun c1 =>
      edist_load_locale (edist_pack c1 (units "az-AZ" ++ units "Azerbaijani (Azerbaijan)")) 5
        24).getD edist_ctx_zero)
    (units "az")

/-! ## Reading a BPC pattern back -/

/-- Number of 1 bits of a symbol value (of a byte). -/
def ones (b : Nat) : Nat := ((List.range 8).filter (fun k => b.testBit k)).length

/-- The BPC symbol a second carries: the carrier is low for 100 ms times the symbol
plus one, that is for two ticks per 100 ms; a marker second (never low) reads as 0. -/
def bpcSymbol (xl : List Nat) (s : Nat) : Nat := lowTicks xl s / 2 - 1

/-- Check of the parity loop of `tsig_even_parity` on every byte and both values of
`parity`: a byte flips the parity once per 1 bit. -/
def parityByteOk : Bool :=
  allBelow (fun b => allBelow (fun p => parityByte p b 8 == (p + ones b) % 2) 2) 256

/-- The byte whose bit `t` (for `t` in 0..7) is `f t`. -/
def byteOfBits (f : Nat → Bool) : Nat :=
  ((List.range 8).map (fun t => if f t then 2 ^ t else 0)).sum

/-- Check that every byte is the byte of its eight bits, read as
`tsig_waveform_generate` reads them. -/
def byteBitsOk : Bool :=
  allBelow (fun x => byteOfBits (fun t => x &&& (1 <<< t) != 0) == x) 256

/-! ## More of waveform.h and timesignal.c -/

/-- The phase anchor of `tsig_waveform_generate`, run when `ctx->samples` is 0, for the
value `msec_since_min` of that sample; `msec_to_min`, `to_min` and `phase_to_min` are
`uint32_t`:
`msec_to_min = TSIG_DATETIME_MSECS_MIN - msec_since_min;`
`to_min = msec_to_min * ctx->sample_rate / 1000;`
`phase_to_min = (to_min * ctx->phase_delta) % ctx->phase_base;`
`if (phase_to_min) ctx->phase = ctx->phase_base - phase_to_min;`. -/
def phase_anchor (ctx : tsig_waveform_ctx_t) (msec_since_min : Nat) : tsig_waveform_ctx_t :=
  if u32 (u32 (sub32 TSIG_DATETIME_MSECS_MIN msec_since_min * ctx.sample_rate) / 1000
      * ctx.phase_delta) % ctx.phase_base ≠ 0 then
    { ctx with
      phase := sub32 ctx.phase_base
        (u32 (u32 (sub32 TSIG_DATETIME_MSECS_MIN msec_since_min * ctx.sample_rate) / 1000
          * ctx.phase_delta) % ctx.phase_base) }
  else ctx

/-- One round of the sample loop of `tsig_waveform_generate`, as `generate_loop` runs it:
the phase advance, `ctx->samples++`, and the fade counter with the request of the next
state. -/
def generate_step (state : Int) (settled : Nat → Bool) (i : Nat)
    (r : tsig_waveform_ctx_t × Int) : tsig_waveform_ctx_t × Int :=
  if state = TSIG_STATE_FADE_IN then
    (if r.1.fade_gain < r.1.max_fade_gain then
      ({ phase_advance r.1 with samples := u32 (r.1.samples + 1),
                                fade_gain := u32 (r.1.fade_gain + 1) }, r.2)
    else if settled i then
      ({ phase_advance r.1 with samples := u32 (r.1.samples + 1) }, TSIG_STATE_RUNNING)
    else ({ phase_advance r.1 with samples := u32 (r.1.samples + 1) }, r.2))
  else if state = TSIG_STATE_FADE_OUT then
    (if r.1.fade_gain ≠ 0 then
      ({ phase_advance r.1 with samples := u32 (r.1.samples + 1),
                                fade_gain := r.1.fade_gain - 1 }, r.2)
    else if settled i then
      ({ phase_advance r.1 with samples := u32 (r.1.samples + 1) }, TSIG_STATE_SUSPEND)
    else ({ phase_advance r.1 with samples := u32 (r.1.samples + 1) }, r.2))
  else ({ phase_advance r.1 with samples := u32 (r.1.samples + 1) }, r.2)

/-- The flag `silent` of `tsig_awp_process_cb` at the end of a callback entered in the
state of `m`: it is cleared only where `tsig_waveform_generate` is called, and a callback
with the flag set fills the outputs with silence. -/
def process_silent (m : tsig_module) : Bool :=
  !decide (m.tsig_ctx.state = TSIG_STATE_FADE_IN ∨ m.tsig_ctx.state = TSIG_STATE_RUNNING
    ∨ m.tsig_ctx.state = TSIG_STATE_FADE_OUT)

/-! ## Runs of the lifecycle: render callbacks and controller operations -/

/-- One step of the lifecycle: a call of `tsig_awp_process_cb` (with the clock value and
the outcomes of the gain comparisons of that call) or a call of one of the exported
controller operations `tsig_start`, `tsig_load_params`, `tsig_stop`. -/
inductive tsig_op where
  | render (now : ℚ) (settled : Nat → Bool)
  | start
  | load_params (offset : Int) (station jjy_khz : Nat) (dut1 : Int) (noclip : Nat)
  | stop

/-- The module after one step. -/
def tsig_op_run (m : tsig_module) : tsig_op → tsig_module
  | tsig_op.render now settled => tsig_awp_process_cb m now settled
  | tsig_op.start => tsig_start m
  | tsig_op.load_params offset station jjy_khz dut1 noclip =>
    tsig_load_params m offset station jjy_khz dut1 noclip
  | tsig_op.stop => tsig_stop m

/-- The lifecycle states of a run: the state of `m`, then the state after each step. -/
def tsig_states (m : tsig_module) : List tsig_op → List Int
  | [] => [m.tsig_ctx.state]
  | op :: ops => m.tsig_ctx.state :: tsig_states (tsig_op_run m op) ops

/-- The states in which a run may use a controller operation without setting the
lifecycle back (specification side, the functions themselves check nothing): `tsig_start`
in IDLE or STARTUP, `tsig_load_params` in a state up to LOAD_PARAMS, `tsig_stop` in a
state before SUSPEND; a render callback may come at any time. The calling sequence that
the header comment of timesignal.c describes keeps to this: `tsig_start` is called in
IDLE (steps 5, 6 and 8), `tsig_load_params` in REQ_PARAMS ("Should be called by JS in
response to being notified of a state transition to `TSIG_STATE_REQ_PARAMS`"), and
`tsig_stop` once, while the generator is starting or running (step 7). -/
def tsig_op_in_protocol (m : tsig_module) : tsig_op → Bool
  | tsig_op.render _ _ => true
  | tsig_op.start => decide (m.tsig_ctx.state ≤ TSIG_STATE_STARTUP)
  | tsig_op.load_params _ _ _ _ _ => decide (m.tsig_ctx.state ≤ TSIG_STATE_LOAD_PARAMS)
  | tsig_op.stop => decide (m.tsig_ctx.state < TSIG_STATE_SUSPEND)

/-- Every step of the run is a use of the operations as `tsig_op_in_protocol` says, in
the state the run has reached. -/
def tsig_run_in_protocol (m : tsig_module) : List tsig_op → Bool
  | [] => true
  | op :: ops => tsig_op_in_protocol m op && tsig_run_in_protocol (tsig_op_run m op) ops

/-- A render callback at clock value 0 in which every gain comparison finds the gain
settled. -/
def render_settled : tsig_op := tsig_op.render 0 (fun _ => true)

/-- An example run, from the module after `tsig_init` at 48000 Hz: start, 174 render
callbacks (the delay of 465 ms), `tsig_load_params` for WWVB, two render callbacks, stop,
two render callbacks (the fade-out of the 128 samples faded in, then the move to
SUSPEND), and a second stop. -/
def run_stop_in_suspend : List tsig_op :=
  [tsig_op.start] ++ List.replicate 174 render_settled ++
  [tsig_op.load_params 0 4 0 0 1, render_settled, render_settled, tsig_op.stop,
   render_settled, render_settled, tsig_op.stop]

/-- An example run, from the module after `tsig_init` at 48000 Hz: start, 174 render
callbacks, and a second start. -/
def run_start_in_req_params : List tsig_op :=
  [tsig_op.start] ++ List.replicate 174 render_settled ++ [tsig_op.start]

/-- An example run, from the module after `tsig_init` at 48000 Hz: start, 174 render
callbacks, `tsig_load_params` for WWVB, a render callback, `tsig_load_params` again, and
a render callback. -/
def run_load_params_in_fade_in : List tsig_op :=
  [tsig_op.start] ++ List.replicate 174 render_settled ++
  [tsig_op.load_params 0 4 0 0 1, render_settled, tsig_op.load_params 0 4 0 0 1,
   render_settled]

/-- An example run of the documented calling sequence, from the module after `tsig_init`
at 48000 Hz: start, 174 render callbacks, `tsig_load_params` for WWVB, 16 render
callbacks (the fade-in takes 1680 samples), stop, 190 render callbacks (fade-out, then
the delay of 174 callbacks), start, and a render callback. -/
def run_full_cycle : List tsig_op :=
  [tsig_op.start] ++ List.replicate 174 render_settled ++
  [tsig_op.load_params 0 4 0 0 1] ++ List.replicate 16 render_settled ++
  [tsig_op.stop] ++ List.replicate 190 render_settled ++
  [tsig_op.start, render_settled]

/-! ## Correctness of the parser -/

theorem seqNat_eq {α : Type} (v : Nat) (k : Nat → α) : seqNat v k = k v := by
  cases v <;> rfl

theorem allBelow_spec (p : Nat → Bool) :
    ∀ n, allBelow p n = true → ∀ k, k < n → p k = true := by
  intro n
  induction n with
  | zero => intro _ k hk; omega
  | succ n ih =>
    intro h k hk
    simp only [allBelow, Bool.and_eq_true] at h
    rcases Nat.lt_succ_iff_lt_or_eq.mp hk with h1 | h1
    · exact ih h.2 k h1
    · rw [h1]; exact h.1

theorem months_checked : allBelow monthOk 1560 = true := by decide!

theorem parse_fields (t : Nat) :
    let d := u64 t / 86400000
    let doe := doeOf d
    let yoe := yoeOf doe
    let doy := doyOf doe yoe
    let m := mOf doy
    let dt := tsig_datetime_parse_timestamp t
    dt.year = yearOf yoe (eraOf d) m ∧ dt.mon = monOf m ∧ dt.day = dayOf doy m ∧
    dt.doy = doyFieldOf doy m (yearOf yoe (eraOf d) m) ∧ dt.dow = u8 (u64 (d + 4) % 7) :=
  ⟨rfl, rfl, rfl, rfl, rfl⟩

theorem u8_of_lt {x : Nat} (h : x < 256) : u8 x = x := Nat.mod_eq_of_lt h

theorem u16_of_lt {x : Nat} (h : x < 65536) : u16 x = x := Nat.mod_eq_of_lt h

theorem u32_of_lt {x : Nat} (h : x < 4294967296) : u32 x = x := Nat.mod_eq_of_lt h

theorem u64_of_lt {x : Nat} (h : x < 18446744073709551616) : u64 x = x := Nat.mod_eq_of_lt h

theorem sub32_of_le {a b : Nat} (hb : b ≤ a) (ha : a < 4294967296) : sub32 a b = a - b := by
  unfold sub32
  rw [Nat.mod_eq_of_lt (lt_of_le_of_lt hb ha)]
  omega

theorem eraOf_eq (d : Nat) (h : d < 47482) : eraOf d = (d + 719468) / 146097 := by
  unfold eraOf
  rw [u64_of_lt (by omega), u32_of_lt (by omega)]

theorem doeOf_eq (d : Nat) (h : d < 47482) :
    doeOf d = d + 719468 - 146097 * ((d + 719468) / 146097) := by
  unfold doeOf
  have hmul : (d + 719468) / 146097 * 146097 ≤ d + 719468 := Nat.div_mul_le_self _ _
  rw [eraOf_eq d h, u64_of_lt (x := d + 719468) (by omega),
    u32_of_lt (x := (d + 719468) / 146097 * 146097) (by omega)]
  have h1 : d + 719468 + 18446744073709551616 - (d + 719468) / 146097 * 146097
      = (d + 719468 - (d + 719468) / 146097 * 146097) + 18446744073709551616 := by omega
  have h2 : u64 (d + 719468 + 18446744073709551616 - (d + 719468) / 146097 * 146097)
      = d + 719468 - (d + 719468) / 146097 * 146097 := by
    rw [h1]; unfold u64; rw [Nat.add_mod_right]
    exact Nat.mod_eq_of_lt (by omega)
  rw [h2, u32_of_lt (by omega)]
  omega

theorem yoeOf_eq (doe : Nat) (h : doe < 146097) :
    yoeOf doe = (doe - doe / 1460 + doe / 36524 - doe / 146096) / 365 := by
  unfold yoeOf
  rw [sub32_of_le (a := doe) (by omega) (by omega), u32_of_lt (by omega),
    sub32_of_le (by omega) (by omega)]

theorem doyOf_eq (doe yoe : Nat) (h : doe < 146097) (hy : yoe ≤ 400)
    (hle : 365 * yoe + yoe / 4 - yoe / 100 ≤ doe) :
    doyOf doe yoe = doe - (365 * yoe + yoe / 4 - yoe / 100) := by
  unfold doyOf
  rw [u32_of_lt (x := 365 * yoe) (by omega), u32_of_lt (by omega),
    sub32_of_le (b := yoe / 100) (by omega) (by omega), sub32_of_le hle (by omega)]

theorem mOf_eq (doy : Nat) (h : doy < 146097) : mOf doy = (5 * doy + 2) / 153 := by
  unfold mOf
  rw [u32_of_lt (x := 5 * doy) (by omega), u32_of_lt (by omega)]

theorem fy_mono (a b : Nat) (h : a ≤ b) (hb : b < 146097) :
    a - a / 1460 + a / 36524 - a / 146096 ≤ b - b / 1460 + b / 36524 - b / 146096 := by
  omega

theorem is_leap_le_one (y : Nat) : tsig_datetime_is_leap y ≤ 1 := by
  simp only [tsig_datetime_is_leap]
  split <;> omega


theorem month_cover (d : Nat) (hd : d < 47482) :
    ∃ k, k < 1560 ∧ monthStart k ≤ d ∧ d < monthStart (k + 1) := by
  have key : ∀ n, n ≤ 1560 → d < monthStart n →
      ∃ k, k < n ∧ monthStart k ≤ d ∧ d < monthStart (k + 1) := by
    intro n
    induction n with
    | zero =>
      intro _ h0
      have : monthStart 0 = 0 := by decide
      omega
    | succ n ih =>
      intro hn hlt
      by_cases hc : d < monthStart n
      · obtain ⟨k, hk, h1, h2⟩ := ih (by omega) hc
        exact ⟨k, by omega, h1, h2⟩
      · exact ⟨n, by omega, by omega, hlt⟩
  have hend : monthStart 1560 = 47482 := by decide!
  exact key 1560 (le_refl _) (by omega)

theorem div_sandwich (x y z n : Nat) (h1 : x ≤ y) (h2 : y ≤ z) (h : z / n = x / n) :
    y / n = x / n := by
  have a1 := Nat.div_le_div_right (c := n) h1
  have a2 := Nat.div_le_div_right (c := n) h2
  omega

theorem yoeOf_sandwich (a b c : Nat) (hab : a ≤ b) (hbc : b ≤ c) (hc : c < 146097)
    (h : yoeOf c = yoeOf a) : yoeOf b = yoeOf a := by
  rw [yoeOf_eq c (by omega), yoeOf_eq a (by omega)] at h
  rw [yoeOf_eq b (by omega), yoeOf_eq a (by omega)]
  exact div_sandwich _ _ _ _ (fy_mono a b hab (by omega)) (fy_mono b c hbc hc) h

theorem yoeOf_le (a : Nat) (ha : a < 146097) : yoeOf a ≤ 400 := by
  rw [yoeOf_eq a ha]
  have : a - a / 1460 + a / 36524 - a / 146096 ≤ 146100 := by omega
  omega

theorem mOf_sandwich (a b c : Nat) (hab : a ≤ b) (hbc : b ≤ c) (hc : c < 146097)
    (h : mOf c = mOf a) : mOf b = mOf a := by
  rw [mOf_eq c (by omega), mOf_eq a (by omega)] at h
  rw [mOf_eq b (by omega), mOf_eq a (by omega)]
  exact div_sandwich _ _ _ _ (by omega) (by omega) h

theorem eraOf_sandwich (a b c : Nat) (hab : a ≤ b) (hbc : b ≤ c) (hc : c < 47482)
    (h : eraOf c = eraOf a) : eraOf b = eraOf a := by
  rw [eraOf_eq c (by omega), eraOf_eq a (by omega)] at h
  rw [eraOf_eq b (by omega), eraOf_eq a (by omega)]
  exact div_sandwich _ _ _ _ (by omega) (by omega) h

theorem doeOf_shift (s d : Nat) (hsd : s ≤ d) (hd : d < 47482) (h : eraOf d = eraOf s) :
    doeOf d = doeOf s + (d - s) ∧ doeOf d < 146097 := by
  rw [eraOf_eq d hd, eraOf_eq s (by omega)] at h
  rw [doeOf_eq d hd, doeOf_eq s (by omega)]
  omega

theorem dayOf_shift (doy m n : Nat) (hm : m < 12) (h : doy = (153 * m + 2) / 5)
    (hn : n < 100) : dayOf (doy + n) m = n + 1 := by
  unfold dayOf
  rw [u32_of_lt (x := 153 * m) (by omega), u32_of_lt (x := 153 * m + 2) (by omega),
    sub32_of_le (a := doy + n) (by omega) (by omega), u32_of_lt (by omega),
    u8_of_lt (by omega)]
  omega

theorem doyFieldOf_shift (doy m y n : Nat) (hdoy : doy < 1000) (hn : n < 100)
    (h305 : m ≥ 10 → 305 ≤ doy) :
    doyFieldOf (doy + n) m y = doyFieldOf doy m y + n := by
  have hL := is_leap_le_one y
  unfold doyFieldOf
  by_cases hm : m < 10
  · simp only [hm, if_true]
    rw [u32_of_lt (x := doy + n + 60) (by omega), u32_of_lt (by omega),
      u16_of_lt (by omega), u32_of_lt (x := doy + 60) (by omega), u32_of_lt (by omega),
      u16_of_lt (by omega)]
    omega
  · simp only [hm, if_false]
    have := h305 (by omega)
    rw [sub32_of_le (by omega) (by omega), u16_of_lt (by omega),
      sub32_of_le (by omega) (by omega), u16_of_lt (by omega)]
    omega

theorem daysInMonth_le (y m : Nat) : daysInMonth y m ≤ 31 := by
  unfold daysInMonth
  split_ifs <;> omega

theorem date_fields (d : Nat) (hd : d < 47482) :
    validDate (yearOf (yoeOf (doeOf d)) (eraOf d) (mOf (doyOf (doeOf d) (yoeOf (doeOf d)))))
      (monOf (mOf (doyOf (doeOf d) (yoeOf (doeOf d)))))
      (dayOf (doyOf (doeOf d) (yoeOf (doeOf d))) (mOf (doyOf (doeOf d) (yoeOf (doeOf d))))) ∧
    days_from_civil
      (yearOf (yoeOf (doeOf d)) (eraOf d) (mOf (doyOf (doeOf d) (yoeOf (doeOf d)))))
      (monOf (mOf (doyOf (doeOf d) (yoeOf (doeOf d)))))
      (dayOf (doyOf (doeOf d) (yoeOf (doeOf d))) (mOf (doyOf (doeOf d) (yoeOf (doeOf d))))) = d ∧
    doyFieldOf (doyOf (doeOf d) (yoeOf (doeOf d))) (mOf (doyOf (doeOf d) (yoeOf (doeOf d))))
      (yearOf (yoeOf (doeOf d)) (eraOf d) (mOf (doyOf (doeOf d) (yoeOf (doeOf d)))))
      + daysBeforeYear
        (yearOf (yoeOf (doeOf d)) (eraOf d) (mOf (doyOf (doeOf d) (yoeOf (doeOf d))))) = d + 1 ∧
    yearOf (yoeOf (doeOf d)) (eraOf d) (mOf (doyOf (doeOf d) (yoeOf (doeOf d)))) < 2100 := by
  obtain ⟨k, hk, hs, he⟩ := month_cover d hd
  have F := allBelow_spec monthOk 1560 months_checked k hk
  simp only [monthOk, seqNat_eq, Bool.and_eq_true, beq_iff_eq, decide_eq_true_eq,
    supportedDays] at F
  obtain ⟨⟨⟨⟨⟨⟨⟨⟨⟨⟨⟨⟨⟨⟨fE, fY⟩, fM⟩, fDoy⟩, -⟩, fDay⟩, fm⟩, f305⟩, fYear⟩, fMon⟩, fDoyF⟩,
    fDby⟩, fNext⟩, fLen⟩, fEnd⟩ := F
  have hs_def : monthStart k =
      daysBeforeYear (1970 + k / 12) + daysBeforeMonth (1970 + k / 12) (k % 12 + 1) := by
    unfold monthStart days_from_civil; omega
  have hlen31 := daysInMonth_le (1970 + k / 12) (k % 12 + 1)
  have hy2100 : 1970 + k / 12 < 2100 := by omega
  have hy1970 : 1970 ≤ 1970 + k / 12 := by omega
  have hmo1 : 1 ≤ k % 12 + 1 := by omega
  have hmo12 : k % 12 + 1 ≤ 12 := by omega
  generalize 1970 + k / 12 = y at *
  generalize k % 12 + 1 = mo at *
  generalize monthStart k = s at *
  generalize hlen : daysInMonth y mo = len at *
  have hEd : eraOf d = eraOf s := eraOf_sandwich s d (s + len - 1) hs (by omega) (by omega) fE
  obtain ⟨hdoe_d, hdoe_dlt⟩ := doeOf_shift s d hs hd hEd
  obtain ⟨hdoe_e, hdoe_elt⟩ := doeOf_shift s (s + len - 1) (by omega) (by omega) fE
  have hYd : yoeOf (doeOf d) = yoeOf (doeOf s) :=
    yoeOf_sandwich (doeOf s) (doeOf d) (doeOf (s + len - 1)) (by omega) (by omega) hdoe_elt fY
  have hyoe_le : yoeOf (doeOf s) ≤ 400 := yoeOf_le _ (by omega)
  rw [fY] at fM
  rw [hYd, hEd]
  generalize yoeOf (doeOf s) = yoe at *
  have hdoy_a := doyOf_eq (doeOf s) yoe (by omega) hyoe_le (by omega)
  have hdoy_b := doyOf_eq (doeOf d) yoe (by omega) hyoe_le (by omega)
  have hdoy_c := doyOf_eq (doeOf (s + len - 1)) yoe (by omega) hyoe_le (by omega)
  have hdoy_ba : doyOf (doeOf d) yoe = doyOf (doeOf s) yoe + (d - s) := by omega
  have hMd : mOf (doyOf (doeOf d) yoe) = mOf (doyOf (doeOf s) yoe) :=
    mOf_sandwich _ _ (doyOf (doeOf (s + len - 1)) yoe) (by omega) (by omega) (by omega) fM
  rw [hMd, hdoy_ba]
  have hdoy_lt : doyOf (doeOf s) yoe < 1000 := by omega
  clear hdoy_a hdoy_b hdoy_c hdoy_ba hMd fM fDoy hdoe_d hdoe_dlt hdoe_e hdoe_elt hYd hEd fE fY
  generalize doyOf (doeOf s) yoe = doy at *
  generalize mOf doy = m at *
  rw [fYear, fMon, dayOf_shift doy m (d - s) fm fDay (by omega),
    doyFieldOf_shift doy m y (d - s) hdoy_lt (by omega) f305]
  refine ⟨⟨hy1970, hmo1, hmo12, by omega, by omega⟩, ?_, by omega, hy2100⟩
  unfold days_from_civil
  omega

theorem parse_time_fields (t : Nat) (ht : t < 18446744073709551616) :
    (tsig_datetime_parse_timestamp t).hour = t % 86400000 / 3600000 ∧
    (tsig_datetime_parse_timestamp t).min = t % 3600000 / 60000 ∧
    (tsig_datetime_parse_timestamp t).sec = t % 60000 / 1000 ∧
    (tsig_datetime_parse_timestamp t).msec = t % 1000 := by
  simp only [tsig_datetime_parse_timestamp, TSIG_DATETIME_MSECS_DAY, TSIG_DATETIME_MSECS_HOUR,
    TSIG_DATETIME_MSECS_MIN, u64_of_lt ht]
  unfold u8 u16
  refine ⟨?_, ?_, ?_, ?_⟩ <;> omega

/-- Everything the parser computes, for a timestamp of the supported range. -/
theorem parse_facts (t : Nat) (ht : t < 4102444800000) :
    validDate (tsig_datetime_parse_timestamp t).year (tsig_datetime_parse_timestamp t).mon
      (tsig_datetime_parse_timestamp t).day ∧
    days_from_civil (tsig_datetime_parse_timestamp t).year (tsig_datetime_parse_timestamp t).mon
      (tsig_datetime_parse_timestamp t).day = t / 86400000 ∧
    (tsig_datetime_parse_timestamp t).doy
      + daysBeforeYear (tsig_datetime_parse_timestamp t).year = t / 86400000 + 1 ∧
    (tsig_datetime_parse_timestamp t).year < 2100 ∧
    (tsig_datetime_parse_timestamp t).dow = weekday (t / 86400000) ∧
    (tsig_datetime_parse_timestamp t).hour = t % 86400000 / 3600000 ∧
    (tsig_datetime_parse_timestamp t).min = t % 3600000 / 60000 ∧
    (tsig_datetime_parse_timestamp t).sec = t % 60000 / 1000 ∧
    (tsig_datetime_parse_timestamp t).msec = t % 1000 := by
  have ht64 : t < 18446744073709551616 := by omega
  have hd : t / 86400000 < 47482 := by omega
  obtain ⟨p1, p2, p3, p4, p5⟩ := parse_fields t
  simp only [u64_of_lt ht64] at p1 p2 p3 p4 p5
  obtain ⟨f1, f2, f3, f4⟩ := date_fields (t / 86400000) hd
  rw [← p1, ← p2, ← p3] at f1 f2
  rw [← p1] at f4
  rw [← p4, ← p1] at f3
  have hdow : (tsig_datetime_parse_timestamp t).dow = weekday (t / 86400000) := by
    rw [p5, u64_of_lt (by omega), u8_of_lt (by omega)]; rfl
  exact ⟨f1, f2, f3, f4, hdow, parse_time_fields t ht64⟩

theorem isLeapYear_iff (y : Nat) :
    isLeapYear y = true ↔ (y % 4 = 0 ∧ (y % 100 ≠ 0 ∨ y % 400 = 0)) := by
  simp [isLeapYear]

theorem yearLength_eq (y : Nat) :
    yearLength y + (if y % 100 = 0 then 1 else 0)
      = 365 + (if y % 4 = 0 then 1 else 0) + (if y % 400 = 0 then 1 else 0) := by
  unfold yearLength isLeapYear
  by_cases h4 : y % 4 = 0 <;> by_cases h100 : y % 100 = 0 <;> by_cases h400 : y % 400 = 0 <;>
    first
    | (exfalso; omega)
    | simp [h4, h100, h400]

theorem daysBeforeYear_succ (y : Nat) (hy : 1970 ≤ y) :
    daysBeforeYear (y + 1) = daysBeforeYear y + yearLength y := by
  unfold daysBeforeYear
  have e4 : y / 4 = (y - 1) / 4 + (if y % 4 = 0 then 1 else 0) := by split <;> omega
  have e100 : y / 100 = (y - 1) / 100 + (if y % 100 = 0 then 1 else 0) := by split <;> omega
  have e400 : y / 400 = (y - 1) / 400 + (if y % 400 = 0 then 1 else 0) := by split <;> omega
  have b1 : (y - 1) / 100 ≤ (y - 1) / 4 := by omega
  have b2 : 477 + (y - 1) / 100 ≤ (y - 1) / 4 + (y - 1) / 400 := by omega
  have hL := yearLength_eq y
  have hi : (if y % 100 = 0 then 1 else 0) ≤ (if y % 4 = 0 then 1 else 0) := by
    split <;> split <;> omega
  rw [Nat.add_sub_cancel, e4, e100, e400]
  clear e4 e100 e400
  generalize (y - 1) / 4 = q4 at *
  generalize (y - 1) / 100 = q100 at *
  generalize (y - 1) / 400 = q400 at *
  generalize (if y % 4 = 0 then 1 else 0) = i4 at *
  generalize (if y % 100 = 0 then 1 else 0) = i100 at *
  generalize (if y % 400 = 0 then 1 else 0) = i400 at *
  omega

theorem daysBeforeMonth_table (y m : Nat) (h1 : 1 ≤ m) (h12 : m ≤ 12) :
    daysBeforeMonth y m =
      [0, 31, 59, 90, 120, 151, 181, 212, 243, 273, 304, 334].getD (m - 1) 0
        + (if 2 < m ∧ isLeapYear y = true then 1 else 0) := by
  unfold daysBeforeMonth daysInMonth
  interval_cases m <;> cases isLeapYear y <;> decide

theorem sunday_offset (day dow : Nat) (k : Int) (hd : 1 ≤ day) (hd31 : day ≤ 31) (hw : dow ≤ 6)
    (hk0 : 0 ≤ k) (hk : k ≤ 8) :
    u8i (Int.tmod (((day : Int) - 1) + (if dow ≠ 0 then 7 - (dow : Int) else 0)) 7 + k)
      = (day - 1 + (7 - dow) % 7) % 7 + k.toNat := by
  have h0 : (0 : Int) ≤ ((day : Int) - 1) + (if dow ≠ 0 then 7 - (dow : Int) else 0) := by
    split <;> omega
  rw [Int.tmod_eq_emod h0 (by decide)]
  unfold u8i
  split <;> omega

theorem monthFirst_eq (y m : Nat) (h1 : 1 ≤ m) (h12 : m ≤ 12) (d : Nat) :
    days_from_civil y m d = daysBeforeYear y
      + [0, 31, 59, 90, 120, 151, 181, 212, 243, 273, 304, 334].getD (m - 1) 0
      + (if 2 < m ∧ isLeapYear y = true then 1 else 0) + (d - 1) := by
  unfold days_from_civil
  rw [daysBeforeMonth_table y m h1 h12]
  omega

/-! ## European summer time -/

theorem lsom_eq (f : Nat) (h1 : 1 ≤ f) (h7 : f ≤ 7) :
    u8i ((f : Int) + Int.tdiv (31 - (f : Int)) 7 * 7) = f + (31 - f) / 7 * 7 := by
  rw [Int.tdiv_eq_ediv (by omega) (by decide)]
  unfold u8i
  omega

theorem minute_split (t : Nat) :
    t / 60000 = t / 86400000 * 1440 + t % 86400000 / 3600000 * 60 + t % 3600000 / 60000 ∧
    t % 86400000 / 3600000 < 24 ∧ t % 3600000 / 60000 < 60 := by
  omega

theorem yearLength_leap (y : Nat) :
    yearLength y = 365 + (if isLeapYear y = true then 1 else 0) := by
  unfold yearLength; split <;> rfl

theorem lsomOf_bounds (day dow : Nat) : 25 ≤ lsomOf day dow ∧ lsomOf day dow ≤ 31 := by
  unfold lsomOf
  omega

/-- The day of month that the code takes for the last Sunday is the last Sunday of the
reference calendar: `s` is the day number of the first of the month. -/
theorem lsomOf_spec (s day : Nat) (h1 : 1 ≤ day) (h31 : day ≤ 31) :
    lsomOf day ((s + (day - 1) + 4) % 7) = 31 - (s + 30 + 4) % 7 := by
  unfold lsomOf
  omega

/-- The value stored through `out_in_mins`, in closed form. -/
theorem eu_dst_in_mins_eq (dt : tsig_datetime_t) (hd1 : 1 ≤ dt.day) (hd31 : dt.day ≤ 31)
    (hw : dt.dow ≤ 6) (hh : dt.hour < 24) (hm : dt.min < 60) :
    (tsig_datetime_is_eu_dst dt).2 =
      if dt.mon = 3 ∨ dt.mon = 10 then
        (if dt.day + 1 = lsomOf dt.day dt.dow then 60 * (24 - dt.hour) + 60 - dt.min
         else if dt.day = lsomOf dt.day dt.dow ∧ dt.hour = 0 then 60 - dt.min
         else 4294967295)
      else 4294967295 := by
  simp only [tsig_datetime_is_eu_dst]
  rw [sunday_offset _ _ _ hd1 hd31 hw (by decide) (by decide)]
  rw [lsom_eq _ (by simp) (by simp; omega)]
  have hb := lsomOf_bounds dt.day dt.dow
  unfold lsomOf at hb ⊢
  simp only [Int.toNat_one, TSIG_DATETIME_NOT_SOON]
  by_cases h1 : 3 < dt.mon ∧ dt.mon < 10
  · have h2 : ¬ (dt.mon = 3 ∨ dt.mon = 10) := by omega
    simp only [h1, h2, and_self, if_true, if_false]
  · by_cases h2 : dt.mon = 3 ∨ dt.mon = 10
    · simp only [h1, h2, if_true, if_false]
      generalize ((dt.day - 1 + (7 - dt.dow) % 7) % 7 + 1)
        + (31 - ((dt.day - 1 + (7 - dt.dow) % 7) % 7 + 1)) / 7 * 7 = ls at *
      unfold u32i
      split_ifs <;> omega
    · simp only [h1, h2, if_false]

theorem lastSunday31_bounds (y m : Nat) : 25 ≤ lastSunday31 y m ∧ lastSunday31 y m ≤ 31 := by
  unfold lastSunday31 weekday
  omega

theorem euChangeoverMinute_eq (y m : Nat) (h1 : 1 ≤ m) (h12 : m ≤ 12) :
    euChangeoverMinute y m =
      (daysBeforeYear y + [0, 31, 59, 90, 120, 151, 181, 212, 243, 273, 304, 334].getD (m - 1) 0
        + (if 2 < m ∧ isLeapYear y = true then 1 else 0)
        + (lastSunday31 y m - 1)) * 1440 + 60 := by
  unfold euChangeoverMinute
  rw [monthFirst_eq y m h1 h12]

/-- For a timestamp in March or October, the code's last Sunday of the month is that of
the reference calendar. -/
theorem lsomOf_parse (t : Nat) (ht : t < 4102444800000) :
    lsomOf (tsig_datetime_parse_timestamp t).day (tsig_datetime_parse_timestamp t).dow =
      lastSunday31 (tsig_datetime_parse_timestamp t).year (tsig_datetime_parse_timestamp t).mon := by
  obtain ⟨hv, hdfc, -, -, hdow, -⟩ := parse_facts t ht
  obtain ⟨-, -, -, hd1, hdl⟩ := hv
  have hd31 := le_trans hdl (daysInMonth_le _ _)
  unfold lastSunday31
  unfold days_from_civil at hdfc ⊢
  rw [hdow, ← hdfc]
  unfold weekday
  exact lsomOf_spec _ _ hd1 hd31

theorem eu_far (d hour mi dn : Nat) (hh : hour < 24) (hmi : mi < 60) (h2 : d + 2 ≤ dn) :
    d * 1440 + hour * 60 + mi < dn * 1440 + 60 ∧
    (4294967295 : Nat) = if dn * 1440 + 60 - (d * 1440 + hour * 60 + mi) ≤ 1500
      then dn * 1440 + 60 - (d * 1440 + hour * 60 + mi) else 4294967295 := by
  have h : ¬ (dn * 1440 + 60 - (d * 1440 + hour * 60 + mi) ≤ 1500) := by omega
  rw [if_neg h]
  exact ⟨by omega, rfl⟩

theorem eu_window (d D ls hour mi dc dn : Nat) (hh : hour < 24) (hmi : mi < 60)
    (hlink : d + ls = dc + D) (h2 : d + 2 ≤ dn) :
    d * 1440 + hour * 60 + mi <
      (if d * 1440 + hour * 60 + mi < dc * 1440 + 60 then dc * 1440 + 60 else dn * 1440 + 60) ∧
    (if D + 1 = ls then 60 * (24 - hour) + 60 - mi
      else if D = ls ∧ hour = 0 then 60 - mi else 4294967295) =
      if (if d * 1440 + hour * 60 + mi < dc * 1440 + 60 then dc * 1440 + 60
          else dn * 1440 + 60) - (d * 1440 + hour * 60 + mi) ≤ 1500
      then (if d * 1440 + hour * 60 + mi < dc * 1440 + 60 then dc * 1440 + 60
          else dn * 1440 + 60) - (d * 1440 + hour * 60 + mi)
      else 4294967295 := by
  by_cases hb : d * 1440 + hour * 60 + mi < dc * 1440 + 60
  · simp only [if_pos hb]
    refine ⟨hb, ?_⟩
    by_cases h1 : D + 1 = ls
    · have hn : dc * 1440 + 60 - (d * 1440 + hour * 60 + mi) ≤ 1500 := by omega
      rw [if_pos h1, if_pos hn]; omega
    · by_cases h3 : D = ls ∧ hour = 0
      · have hn : dc * 1440 + 60 - (d * 1440 + hour * 60 + mi) ≤ 1500 := by omega
        rw [if_neg h1, if_pos h3, if_pos hn]; omega
      · have hn : ¬ (dc * 1440 + 60 - (d * 1440 + hour * 60 + mi) ≤ 1500) := by omega
        rw [if_neg h1, if_neg h3, if_neg hn]
  · simp only [if_neg hb]
    have h1 : ¬ (D + 1 = ls) := by omega
    have h3 : ¬ (D = ls ∧ hour = 0) := by omega
    have hn : ¬ (dn * 1440 + 60 - (d * 1440 + hour * 60 + mi) ≤ 1500) := by omega
    rw [if_neg h1, if_neg h3, if_neg hn]
    exact ⟨by omega, rfl⟩

/-! ## The painting loops -/

theorem bitOps_checked : bitOpsOk = true := by decide!

theorem bit_ops (b a c : Nat) (hb : b < 256) (ha : a < 8) (hc : c < 8) :
    ((u8 (b ||| (1 <<< a)) &&& (1 <<< c) != 0) = (decide (a = c) || (b &&& (1 <<< c) != 0))) ∧
    ((u8 (b &&& (255 - (1 <<< a))) &&& (1 <<< c) != 0)
      = (!decide (a = c) && (b &&& (1 <<< c) != 0))) := by
  have h := allBelow_spec _ _ (allBelow_spec _ _ (allBelow_spec _ _ bitOps_checked b hb) a ha) c hc
  simp only [Bool.and_eq_true, beq_iff_eq] at h
  exact h

theorem getD_lt_of_ok {xl : List Nat} (h : XmitOk xl) (n : Nat) : xl.getD n 0 < 256 := by
  rw [List.getD_eq_getElem?_getD]
  cases hn : xl[n]? with
  | none => simp
  | some v =>
    simp only [Option.getD_some]
    obtain ⟨h1, h2⟩ := List.getElem?_eq_some.1 hn
    exact h.2 v (h2 ▸ List.getElem_mem h1)

theorem getD_set (xl : List Nat) (i n v : Nat) :
    (xl.set i v).getD n 0 = if i = n ∧ i < xl.length then v else xl.getD n 0 := by
  simp only [List.getD_eq_getElem?_getD, List.getElem?_set]
  by_cases h1 : i = n
  · by_cases h2 : i < xl.length
    · simp [h1, h2]
      subst h1; simp [h2]
    · subst h1
      simp [h2, List.getElem?_eq_none (Nat.le_of_not_lt h2)]
  · simp [h1]

theorem XmitOk_set {xl : List Nat} (h : XmitOk xl) (i v : Nat) (hv : v < 256) :
    XmitOk (xl.set i v) := by
  refine ⟨by rw [List.length_set]; exact h.1, ?_⟩
  intro b hb
  rcases List.mem_or_eq_of_mem_set hb with h1 | h1
  · exact h.2 b h1
  · rw [h1]; exact hv

theorem u8_lt (x : Nat) : u8 x < 256 := Nat.mod_lt _ (by decide)

theorem XmitOk_setTick {xl : List Nat} (h : XmitOk xl) (j : Nat) : XmitOk (setTick xl j) :=
  XmitOk_set h _ _ (u8_lt _)

theorem XmitOk_clearTick {xl : List Nat} (h : XmitOk xl) (j : Nat) : XmitOk (clearTick xl j) :=
  XmitOk_set h _ _ (u8_lt _)

theorem tickHigh_setTick {xl : List Nat} (h : XmitOk xl) (j k : Nat) (hj : j < 1200) :
    tickHigh (setTick xl j) k = (decide (k = j) || tickHigh xl k) := by
  unfold tickHigh setTick
  rw [getD_set]
  have hlen : j / 8 < xl.length := by rw [h.1]; omega
  by_cases hq : j / 8 = k / 8
  · rw [if_pos ⟨hq, hlen⟩, (bit_ops _ _ _ (getD_lt_of_ok h _) (Nat.mod_lt j (by decide))
      (Nat.mod_lt k (by decide))).1, hq]
    have : (j % 8 = k % 8) ↔ (k = j) := by omega
    simp only [this]
  · rw [if_neg (fun hh => hq hh.1)]
    have : ¬ (k = j) := fun hh => hq (by rw [hh])
    simp [this]

theorem tickHigh_clearTick {xl : List Nat} (h : XmitOk xl) (j k : Nat) (hj : j < 1200) :
    tickHigh (clearTick xl j) k = (!decide (k = j) && tickHigh xl k) := by
  unfold tickHigh clearTick
  rw [getD_set]
  have hlen : j / 8 < xl.length := by rw [h.1]; omega
  by_cases hq : j / 8 = k / 8
  · rw [if_pos ⟨hq, hlen⟩, (bit_ops _ _ _ (getD_lt_of_ok h _) (Nat.mod_lt j (by decide))
      (Nat.mod_lt k (by decide))).2, hq]
    have : (j % 8 = k % 8) ↔ (k = j) := by omega
    simp only [this]
  · rw [if_neg (fun hh => hq hh.1)]
    have : ¬ (k = j) := fun hh => hq (by rw [hh])
    simp [this]

theorem paintHigh_spec (n : Nat) : ∀ (xl : List Nat) (j : Nat), XmitOk xl → j + n ≤ 1200 →
    XmitOk (paintHigh xl j n) ∧
    ∀ k, tickHigh (paintHigh xl j n) k = (decide (j ≤ k ∧ k < j + n) || tickHigh xl k) := by
  induction n with
  | zero =>
    intro xl j h _
    refine ⟨h, fun k => ?_⟩
    simp only [paintHigh]
    have : decide (j ≤ k ∧ k < j + 0) = false := decide_eq_false (by omega)
    rw [this]; rfl
  | succ n ih =>
    intro xl j h hj
    obtain ⟨h1, h2⟩ := ih (setTick xl j) (j + 1) (XmitOk_setTick h j) (by omega)
    refine ⟨h1, fun k => ?_⟩
    show tickHigh (paintHigh (setTick xl j) (j + 1) n) k = _
    rw [h2 k, tickHigh_setTick h j k (by omega)]
    by_cases a1 : k = j <;> by_cases a2 : (j + 1 ≤ k ∧ k < j + 1 + n) <;>
      by_cases a3 : (j ≤ k ∧ k < j + (n + 1)) <;> simp [a1, a2, a3] <;> omega

theorem paintLow_spec (n : Nat) : ∀ (xl : List Nat) (j : Nat), XmitOk xl → j + n ≤ 1200 →
    XmitOk (paintLow xl j n) ∧
    ∀ k, tickHigh (paintLow xl j n) k = (!decide (j ≤ k ∧ k < j + n) && tickHigh xl k) := by
  induction n with
  | zero =>
    intro xl j h _
    refine ⟨h, fun k => ?_⟩
    simp only [paintLow]
    have : decide (j ≤ k ∧ k < j + 0) = false := decide_eq_false (by omega)
    rw [this]; rfl
  | succ n ih =>
    intro xl j h hj
    obtain ⟨h1, h2⟩ := ih (clearTick xl j) (j + 1) (XmitOk_clearTick h j) (by omega)
    refine ⟨h1, fun k => ?_⟩
    show tickHigh (paintLow (clearTick xl j) (j + 1) n) k = _
    rw [h2 k, tickHigh_clearTick h j k (by omega)]
    by_cases a1 : k = j <;> by_cases a2 : (j + 1 ≤ k ∧ k < j + 1 + n) <;>
      by_cases a3 : (j ≤ k ∧ k < j + (n + 1)) <;> simp [a1, a2, a3] <;> omega

theorem ticks_per_sec : TSIG_WAVEFORM_TICKS_PER_SEC = 20 := by decide

theorem getD_cons_shift (lo : Nat) (rest : List Nat) (n : Nat) (h : 20 ≤ n) :
    (lo :: rest).getD (n / 20) 0 = rest.getD ((n - 20) / 20) 0 := by
  have : n / 20 = (n - 20) / 20 + 1 := by omega
  rw [this]; rfl

theorem paintLowHigh_spec (los : List Nat) : ∀ (xl : List Nat) (j : Nat), XmitOk xl →
    (∀ lo ∈ los, lo ≤ 20) → j + 20 * los.length ≤ 1200 →
    XmitOk (paintLowHigh xl j los) ∧
    ∀ k, tickHigh (paintLowHigh xl j los) k =
      if j ≤ k ∧ k < j + 20 * los.length then decide (los.getD ((k - j) / 20) 0 ≤ (k - j) % 20)
      else tickHigh xl k := by
  induction los with
  | nil =>
    intro xl j h _ _
    refine ⟨h, fun k => ?_⟩
    rw [if_neg (by simp)]
    rfl
  | cons lo rest ih =>
    intro xl j h hlo hj
    have hlo20 : lo ≤ 20 := hlo lo (List.mem_cons_self _ _)
    have hlen : (lo :: rest).length = rest.length + 1 := rfl
    rw [hlen] at hj
    obtain ⟨a1, a2⟩ := paintLow_spec lo xl j h (by omega)
    obtain ⟨b1, b2⟩ := paintHigh_spec (20 - lo) (paintLow xl j lo) (j + lo) a1 (by omega)
    have hjj : j + lo + (20 - lo) = j + 20 := by omega
    obtain ⟨c1, c2⟩ := ih (paintHigh (paintLow xl j lo) (j + lo) (20 - lo)) (j + 20) b1
      (fun x hx => hlo x (List.mem_cons_of_mem _ hx)) (by omega)
    have hdef : paintLowHigh xl j (lo :: rest)
        = paintLowHigh (paintHigh (paintLow xl j lo) (j + lo) (20 - lo)) (j + 20) rest := by
      show paintLowHigh _ (j + lo + (TSIG_WAVEFORM_TICKS_PER_SEC - lo)) rest = _
      rw [ticks_per_sec, hjj]
    rw [hdef]
    refine ⟨c1, fun k => ?_⟩
    rw [c2 k, hlen]
    by_cases h1 : j + 20 ≤ k
    · by_cases h2 : k < j + 20 + 20 * rest.length
      · rw [if_pos ⟨h1, h2⟩, if_pos ⟨by omega, by omega⟩,
          getD_cons_shift lo rest (k - j) (by omega)]
        have e1 : k - j - 20 = k - (j + 20) := by omega
        have e2 : (k - j) % 20 = (k - (j + 20)) % 20 := by omega
        rw [e1, e2]
      · rw [if_neg (fun hh => h2 hh.2), if_neg (fun hh => h2 (by omega)), b2 k, a2 k]
        have d1 : decide (j + lo ≤ k ∧ k < j + lo + (20 - lo)) = false :=
          decide_eq_false (by omega)
        have d2 : decide (j ≤ k ∧ k < j + lo) = false := decide_eq_false (by omega)
        rw [d1, d2]; rfl
    · rw [if_neg (fun hh => h1 hh.1), b2 k, a2 k]
      by_cases h3 : j ≤ k
      · rw [if_pos ⟨h3, by omega⟩]
        have e0 : (k - j) / 20 = 0 := by omega
        have e1 : (k - j) % 20 = k - j := by omega
        rw [e0, e1]
        show _ = decide (lo ≤ k - j)
        by_cases h4 : j + lo ≤ k
        · have d1 : decide (j + lo ≤ k ∧ k < j + lo + (20 - lo)) = true :=
            decide_eq_true (by omega)
          rw [d1, decide_eq_true (show lo ≤ k - j by omega)]; rfl
        · have d1 : decide (j + lo ≤ k ∧ k < j + lo + (20 - lo)) = false :=
            decide_eq_false (by omega)
          have d2 : decide (j ≤ k ∧ k < j + lo) = true := decide_eq_true (by omega)
          rw [d1, d2, decide_eq_false (show ¬ lo ≤ k - j by omega)]; rfl
      · rw [if_neg (fun hh => h3 hh.1)]
        have d1 : decide (j + lo ≤ k ∧ k < j + lo + (20 - lo)) = false :=
          decide_eq_false (by omega)
        have d2 : decide (j ≤ k ∧ k < j + lo) = false := decide_eq_false (by omega)
        rw [d1, d2]; rfl

theorem paintHighLow_spec (his : List Nat) : ∀ (xl : List Nat) (j : Nat), XmitOk xl →
    (∀ hi ∈ his, hi ≤ 20) → j + 20 * his.length ≤ 1200 →
    XmitOk (paintHighLow xl j his) ∧
    ∀ k, tickHigh (paintHighLow xl j his) k =
      if j ≤ k ∧ k < j + 20 * his.length then decide ((k - j) % 20 < his.getD ((k - j) / 20) 0)
      else tickHigh xl k := by
  induction his with
  | nil =>
    intro xl j h _ _
    refine ⟨h, fun k => ?_⟩
    rw [if_neg (by simp)]
    rfl
  | cons hi rest ih =>
    intro xl j h hhi hj
    have hhi20 : hi ≤ 20 := hhi hi (List.mem_cons_self _ _)
    have hlen : (hi :: rest).length = rest.length + 1 := rfl
    rw [hlen] at hj
    obtain ⟨a1, a2⟩ := paintHigh_spec hi xl j h (by omega)
    obtain ⟨b1, b2⟩ := paintLow_spec (20 - hi) (paintHigh xl j hi) (j + hi) a1 (by omega)
    have hjj : j + hi + (20 - hi) = j + 20 := by omega
    obtain ⟨c1, c2⟩ := ih (paintLow (paintHigh xl j hi) (j + hi) (20 - hi)) (j + 20) b1
      (fun x hx => hhi x (List.mem_cons_of_mem _ hx)) (by omega)
    have hdef : paintHighLow xl j (hi :: rest)
        = paintHighLow (paintLow (paintHigh xl j hi) (j + hi) (20 - hi)) (j + 20) rest := by
      show paintHighLow _ (j + hi + (TSIG_WAVEFORM_TICKS_PER_SEC - hi)) rest = _
      rw [ticks_per_sec, hjj]
    rw [hdef]
    refine ⟨c1, fun k => ?_⟩
    rw [c2 k, hlen]
    by_cases h1 : j + 20 ≤ k
    · by_cases h2 : k < j + 20 + 20 * rest.length
      · rw [if_pos ⟨h1, h2⟩, if_pos ⟨by omega, by omega⟩,
          getD_cons_shift hi rest (k - j) (by omega)]
        have e1 : k - j - 20 = k - (j + 20) := by omega
        have e2 : (k - j) % 20 = (k - (j + 20)) % 20 := by omega
        rw [e1, e2]
      · rw [if_neg (fun hh => h2 hh.2), if_neg (fun hh => h2 (by omega)), b2 k, a2 k]
        have d1 : decide (j + hi ≤ k ∧ k < j + hi + (20 - hi)) = false :=
          decide_eq_false (by omega)
        have d2 : decide (j ≤ k ∧ k < j + hi) = false := decide_eq_false (by omega)
        rw [d1, d2]; rfl
    · rw [if_neg (fun hh => h1 hh.1), b2 k, a2 k]
      by_cases h3 : j ≤ k
      · rw [if_pos ⟨h3, by omega⟩]
        have e0 : (k - j) / 20 = 0 := by omega
        have e1 : (k - j) % 20 = k - j := by omega
        rw [e0, e1]
        show _ = decide (k - j < hi)
        by_cases h4 : j + hi ≤ k
        · have d1 : decide (j + hi ≤ k ∧ k < j + hi + (20 - hi)) = true :=
            decide_eq_true (by omega)
          rw [d1, decide_eq_false (show ¬ k - j < hi by omega)]; rfl
        · have d1 : decide (j + hi ≤ k ∧ k < j + hi + (20 - hi)) = false :=
            decide_eq_false (by omega)
          have d2 : decide (j ≤ k ∧ k < j + hi) = true := decide_eq_true (by omega)
          rw [d1, d2, decide_eq_true (show k - j < hi by omega)]; rfl
      · rw [if_neg (fun hh => h3 hh.1)]
        have d1 : decide (j + hi ≤ k ∧ k < j + hi + (20 - hi)) = false :=
          decide_eq_false (by omega)
        have d2 : decide (j ≤ k ∧ k < j + hi) = false := decide_eq_false (by omega)
        rw [d1, d2]; rfl

/-! ## From the `bits` array to the pattern -/

theorem lowTicks_of_lowThenHigh {xl : List Nat} {s lo : Nat} (h : lowThenHigh xl s lo)
    (hlo : lo ≤ 20) : lowTicks xl s = lo := by
  have e : (List.range 20).filter (fun k => !tickHigh xl (20 * s + k))
      = (List.range 20).filter (fun k => !decide (lo ≤ k)) := by
    apply List.filter_congr
    intro k hk
    rw [h k (List.mem_range.1 hk)]
  unfold lowTicks
  rw [e]
  interval_cases lo <;> rfl

theorem highTicks_of_highThenLow {xl : List Nat} {s hi : Nat} (h : highThenLow xl s hi)
    (hhi : hi ≤ 20) : highTicks xl s = hi := by
  have e : (List.range 20).filter (fun k => tickHigh xl (20 * s + k))
      = (List.range 20).filter (fun k => decide (k < hi)) := by
    apply List.filter_congr
    intro k hk
    rw [h k (List.mem_range.1 hk)]
  unfold highTicks
  rw [e]
  interval_cases hi <;> rfl

theorem getD_map_lt (f : Nat → Nat) (l : List Nat) (s : Nat) (h : s < l.length) :
    (l.map f).getD s 0 = f (l.getD s 0) := by
  simp [List.getD_eq_getElem?_getD, List.getElem?_eq_getElem h]

theorem getD_le_of_all {l : List Nat} {c : Nat} (h : ∀ x ∈ l, x ≤ c) (s : Nat) :
    l.getD s 0 ≤ c := by
  rw [List.getD_eq_getElem?_getD]
  cases hn : l[s]? with
  | none => simp
  | some v =>
    simp only [Option.getD_some]
    obtain ⟨h1, h2⟩ := List.getElem?_eq_some.1 hn
    exact h v (h2 ▸ List.getElem_mem h1)

theorem lowHigh_seconds (los : List Nat) (hlen : los.length = 60) (h20 : ∀ lo ∈ los, lo ≤ 20)
    (xl : List Nat) (hxl : XmitOk xl) (s : Nat) (hs : s < 60) :
    lowThenHigh (paintLowHigh xl 0 los) s (los.getD s 0) := by
  intro k hk
  rw [(paintLowHigh_spec los xl 0 hxl h20 (by omega)).2 (20 * s + k),
    if_pos ⟨by omega, by omega⟩]
  have e1 : (20 * s + k - 0) / 20 = s := by omega
  have e2 : (20 * s + k - 0) % 20 = k := by omega
  rw [e1, e2]

theorem highLow_seconds (his : List Nat) (hlen : his.length = 60) (h20 : ∀ hi ∈ his, hi ≤ 20)
    (xl : List Nat) (hxl : XmitOk xl) (s : Nat) (hs : s < 60) :
    highThenLow (paintHighLow xl 0 his) s (his.getD s 0) := by
  intro k hk
  rw [(paintHighLow_spec his xl 0 hxl h20 (by omega)).2 (20 * s + k),
    if_pos ⟨by omega, by omega⟩]
  have e1 : (20 * s + k - 0) / 20 = s := by omega
  have e2 : (20 * s + k - 0) % 20 = k := by omega
  rw [e1, e2]

theorem length_setb (bits : List Nat) (i v : Nat) : (setb bits i v).length = bits.length := by
  unfold setb; rw [List.length_set]

theorem length_assign (as : List (Nat × Nat)) : ∀ bits : List Nat,
    (assign bits as).length = bits.length := by
  induction as with
  | nil => intro bits; rfl
  | cons a rest ih =>
    intro bits
    show (assign (setb bits a.1 a.2) rest).length = _
    rw [ih, length_setb]

theorem getD_setb (bits : List Nat) (i v n : Nat) (hn : n < bits.length) :
    (setb bits i v).getD n 0 = if i = n then u8 v else bits.getD n 0 := by
  unfold setb
  rw [getD_set]
  by_cases h : i = n
  · rw [if_pos ⟨h, by omega⟩, if_pos h]
  · rw [if_neg (fun hh => h hh.1), if_neg h]

theorem getD_assign (as : List (Nat × Nat)) : ∀ (bits : List Nat) (n : Nat), n < bits.length →
    (assign bits as).getD n 0 = lookupLast as n (bits.getD n 0) := by
  induction as with
  | nil => intro bits n _; rfl
  | cons a rest ih =>
    intro bits n hn
    show (assign (setb bits a.1 a.2) rest).getD n 0
      = lookupLast rest n (if a.1 = n then u8 a.2 else bits.getD n 0)
    rw [ih _ n (by rw [length_setb]; exact hn), getD_setb _ _ _ _ hn]

theorem lookupLast_marker (as : List (Nat × Nat)) (h : ∀ a ∈ as, a.2 % 256 ≠ 255) (n : Nat) :
    ∀ x : Nat, lookupLast as n x = 255 → x = 255 ∧ ∀ a ∈ as, a.1 ≠ n := by
  induction as with
  | nil => intro x hx; exact ⟨hx, fun a ha => absurd ha (List.not_mem_nil a)⟩
  | cons a rest ih =>
    intro x hx
    have hx2 : lookupLast rest n (if a.1 = n then u8 a.2 else x) = 255 := hx
    obtain ⟨h1, h2⟩ := ih (fun b hb => h b (List.mem_cons_of_mem _ hb)) _ hx2
    by_cases hc : a.1 = n
    · rw [if_pos hc] at h1
      exact absurd h1 (h a (List.mem_cons_self _ _))
    · rw [if_neg hc] at h1
      refine ⟨h1, fun b hb => ?_⟩
      rcases List.mem_cons.1 hb with hb1 | hb1
      · rw [hb1]; exact hc
      · exact h2 b hb1

theorem lookupLast_of_not_mem (as : List (Nat × Nat)) (n : Nat) (h : ∀ a ∈ as, a.1 ≠ n) :
    ∀ x : Nat, lookupLast as n x = x := by
  induction as with
  | nil => intro x; rfl
  | cons a rest ih =>
    intro x
    show lookupLast rest n (if a.1 = n then u8 a.2 else x) = x
    rw [if_neg (h a (List.mem_cons_self _ _)), ih (fun b hb => h b (List.mem_cons_of_mem _ hb))]

theorem and_mod_ne_marker (x m : Nat) (hm : m ≤ 8) : (x &&& m) % 256 ≠ 255 := by
  have : x &&& m ≤ m := Nat.and_le_right
  omega

theorem cbool_le_one (p : Prop) [Decidable p] : cbool p ≤ 1 := by
  unfold cbool; split <;> omega

theorem parityByte_le_one (fuel : Nat) : ∀ p b : Nat, p ≤ 1 → parityByte p b fuel ≤ 1 := by
  induction fuel with
  | zero => intro p b hp; exact hp
  | succ n ih =>
    intro p b hp
    unfold parityByte
    split
    · exact hp
    · exact ih _ _ (by split <;> omega)

theorem tsig_even_parity_le_one (data : List Nat) (lo hi : Nat) :
    tsig_even_parity data lo hi ≤ 1 := by
  unfold tsig_even_parity
  generalize (List.range (hi - lo)).map (fun k => data.getD (lo + k) 0) = l
  have : ∀ (l : List Nat) (p : Nat), p ≤ 1 →
      l.foldl (fun parity byte => parityByte parity byte 8) p ≤ 1 := by
    intro l
    induction l with
    | nil => intro p hp; exact hp
    | cons b rest ih => intro p hp; exact ih _ (parityByte_le_one 8 p b hp)
  exact this l 0 (by omega)

theorem us_dst_le_one (d : tsig_datetime_t) :
    (tsig_datetime_is_us_dst d).1 ≤ 1 ∧ (tsig_datetime_is_us_dst d).2 ≤ 1 := by
  unfold tsig_datetime_is_us_dst
  simp only
  split
  · exact ⟨le_refl _, le_refl _⟩
  · split
    · have key : ∀ (p : Prop) [Decidable p], (if p then (1 : Nat) else 0) ≤ 1 := by
        intro p _; split <;> omega
      constructor <;> split <;> exact key _
    · exact ⟨by omega, by omega⟩

/-! ## WWVB and JJY: the shared fields -/

theorem markerBits_length : markerBits.length = 60 := by decide

theorem markerBits_marker (s : Nat) (hs : s < 60) :
    markerBits.getD s 0 = 255 ↔ s ∈ [0, 9, 19, 29, 39, 49, 59] := by
  interval_cases s <;> decide

theorem markerBits_values (s : Nat) : markerBits.getD s 0 = 255 ∨ markerBits.getD s 0 = 0 := by
  by_cases hs : s < 60
  · interval_cases s <;> decide
  · right
    rw [List.getD_eq_getElem?_getD, List.getElem?_eq_none (by rw [markerBits_length]; omega)]
    rfl

theorem wwvb_lo_le (b : Nat) : wwvb_lo b ≤ 20 := by
  unfold wwvb_lo; split
  · decide
  · split <;> decide

theorem wwvb_lo_cases (b : Nat) :
    wwvb_lo b = (if b = 255 then 16 else if b ≠ 0 then 10 else 4) := by
  unfold wwvb_lo TSIG_WAVEFORM_SYNC_MARKER; split
  · rfl
  · split <;> rfl

theorem jjy_hi_cases (b : Nat) :
    jjy_hi b = (if b = 255 then 4 else if b ≠ 0 then 10 else 16) := by
  unfold jjy_hi TSIG_WAVEFORM_SYNC_MARKER; split
  · rfl
  · split <;> rfl

theorem jjy_hi_le (b : Nat) : jjy_hi b ≤ 20 := by
  rw [jjy_hi_cases]; split
  · decide
  · split <;> decide

theorem wwvb_bits_length (d : tsig_datetime_t) (p : tsig_params_t) :
    (wwvb_bits d p).length = 60 := by
  unfold wwvb_bits
  rw [length_assign, length_assign, length_assign, markerBits_length]

theorem wwvb_seconds (d : tsig_datetime_t) (p : tsig_params_t) (xl : List Nat) (hxl : XmitOk xl)
    (s : Nat) (hs : s < 60) :
    lowThenHigh (tsig_xmit_wwvb d p xl) s (wwvb_lo ((wwvb_bits d p).getD s 0)) := by
  have h := lowHigh_seconds ((wwvb_bits d p).map wwvb_lo)
    (by rw [List.length_map, wwvb_bits_length])
    (by intro lo hlo; obtain ⟨b, _, hb⟩ := List.mem_map.1 hlo; rw [← hb]; exact wwvb_lo_le b)
    xl hxl s hs
  rw [getD_map_lt _ _ _ (by rw [wwvb_bits_length]; exact hs)] at h
  exact h

theorem wwvbBit_eq (d : tsig_datetime_t) (p : tsig_params_t) (xl : List Nat) (hxl : XmitOk xl)
    (s : Nat) (hs : s < 60) :
    wwvbBit (tsig_xmit_wwvb d p xl) s = sigBit ((wwvb_bits d p).getD s 0) := by
  unfold wwvbBit
  rw [lowTicks_of_lowThenHigh (wwvb_seconds d p xl hxl s hs) (wwvb_lo_le _), wwvb_lo_cases]
  unfold sigBit TSIG_WAVEFORM_SYNC_MARKER
  split
  · rfl
  · split <;> rfl

theorem minuteHourDoyBits_ne_marker (d : tsig_datetime_t) :
    ∀ a ∈ minuteHourDoyBits d, a.2 % 256 ≠ 255 := by
  intro a ha
  simp only [minuteHourDoyBits, List.mem_cons, List.mem_singleton, List.not_mem_nil,
    or_false] at ha
  rcases ha with h | h | h | h | h | h | h | h | h | h | h | h | h | h | h | h | h | h | h | h
    | h | h | h <;> rw [h] <;> exact and_mod_ne_marker _ _ (by decide)

theorem wwvb_bits_getD (d : tsig_datetime_t) (p : tsig_params_t) (s : Nat) (hs : s < 60) :
    (wwvb_bits d p).getD s 0 =
      lookupLast [(45, u8 (d.year % 100 / 10) &&& 8),
     (46, u8 (d.year % 100 / 10) &&& 4),
     (47, u8 (d.year % 100 / 10) &&& 2),
     (48, u8 (d.year % 100 / 10) &&& 1),
     (50, u8 (d.year % 10) &&& 8),
     (51, u8 (d.year % 10) &&& 4),
     (52, u8 (d.year % 10) &&& 2),
     (53, u8 (d.year % 10) &&& 1),
     (55, tsig_datetime_is_leap d.year),
     (57, (tsig_datetime_is_us_dst d).2),
     (58, (tsig_datetime_is_us_dst d).1)] s
      (lookupLast [(36, cbool (dut1Of p ≥ 0)),
     (37, cbool (dut1Of p < 0)),
     (38, cbool (dut1Of p ≥ 0)),
     (40, dut1Abs p &&& 8),
     (41, dut1Abs p &&& 4),
     (42, dut1Abs p &&& 2),
     (43, dut1Abs p &&& 1)] s
      (lookupLast (minuteHourDoyBits d) s (markerBits.getD s 0))) := by
  unfold wwvb_bits
  rw [getD_assign _ _ _ (by rw [length_assign, length_assign, markerBits_length]; exact hs),
    getD_assign _ _ _ (by rw [length_assign, markerBits_length]; exact hs),
    getD_assign _ _ _ (by rw [markerBits_length]; exact hs)]

theorem lookupLast_nil (n x : Nat) : lookupLast [] n x = x := rfl

theorem lookupLast_cons_eq (i v x : Nat) (rest : List (Nat × Nat)) :
    lookupLast ((i, v) :: rest) i x = lookupLast rest i (u8 v) := by
  show lookupLast rest i (if i = i then u8 v else x) = _
  rw [if_pos rfl]

theorem lookupLast_cons_ne (i v n x : Nat) (rest : List (Nat × Nat)) (h : i ≠ n) :
    lookupLast ((i, v) :: rest) n x = lookupLast rest n x := by
  show lookupLast rest n (if i = n then u8 v else x) = _
  rw [if_neg h]

theorem parse_bounds (t : Nat) (ht : t < 4102444800000) :
    (tsig_datetime_parse_timestamp t).min < 60 ∧ (tsig_datetime_parse_timestamp t).hour < 24 ∧
    1 ≤ (tsig_datetime_parse_timestamp t).doy ∧ (tsig_datetime_parse_timestamp t).doy ≤ 366 ∧
    (tsig_datetime_parse_timestamp t).dow ≤ 6 ∧
    1 ≤ (tsig_datetime_parse_timestamp t).mon ∧ (tsig_datetime_parse_timestamp t).mon ≤ 12 ∧
    1 ≤ (tsig_datetime_parse_timestamp t).day ∧ (tsig_datetime_parse_timestamp t).day ≤ 31 := by
  obtain ⟨hv, hdfc, hdoy, -, hdow, hh, hmi, -, -⟩ := parse_facts t ht
  obtain ⟨hy, hm1, hm12, hd1, hdl⟩ := hv
  have hd31 := le_trans hdl (daysInMonth_le _ _)
  rw [monthFirst_eq _ _ hm1 hm12] at hdfc
  refine ⟨by rw [hmi]; omega, by rw [hh]; omega, ?_, ?_, by rw [hdow]; unfold weekday; omega,
    hm1, hm12, hd1, hd31⟩
  all_goals
    generalize (tsig_datetime_parse_timestamp t).year = y at *
    generalize (tsig_datetime_parse_timestamp t).mon = mo at *
    generalize (tsig_datetime_parse_timestamp t).day = D at *
    generalize (tsig_datetime_parse_timestamp t).doy = dy at *
    generalize t / 86400000 = d at *
    generalize daysBeforeYear y = by0 at *
    have hL : (if isLeapYear y = true then 1 else 0 : Nat) ≤ 1 := by split <;> omega
    interval_cases mo <;> simp [List.getD] at hdfc <;>
      generalize (if isLeapYear y = true then 1 else 0 : Nat) = L at * <;>
      omega

theorem bcd_congr (f g : Nat → Nat) (ws : List (Nat × Nat)) (h : ∀ sw ∈ ws, f sw.1 = g sw.1) :
    bcd f ws = bcd g ws := by
  unfold bcd
  congr 1
  apply List.map_congr_left
  intro sw hsw
  rw [h sw hsw]

theorem le_one_mod_ne_marker (x : Nat) (h : x ≤ 1) : x % 256 ≠ 255 := by omega

theorem wwvb_year_ne_marker (d : tsig_datetime_t) :
    ∀ a ∈ [(45, u8 (d.year % 100 / 10) &&& 8),
     (46, u8 (d.year % 100 / 10) &&& 4),
     (47, u8 (d.year % 100 / 10) &&& 2),
     (48, u8 (d.year % 100 / 10) &&& 1),
     (50, u8 (d.year % 10) &&& 8),
     (51, u8 (d.year % 10) &&& 4),
     (52, u8 (d.year % 10) &&& 2),
     (53, u8 (d.year % 10) &&& 1),
     (55, tsig_datetime_is_leap d.year),
     (57, (tsig_datetime_is_us_dst d).2),
     (58, (tsig_datetime_is_us_dst d).1)], a.2 % 256 ≠ 255 := by
  intro a ha
  simp only [List.mem_cons, List.mem_singleton, List.not_mem_nil, or_false] at ha
  rcases ha with h | h | h | h | h | h | h | h | h | h | h <;> rw [h]
  · exact and_mod_ne_marker _ 8 (by decide)
  · exact and_mod_ne_marker _ 4 (by decide)
  · exact and_mod_ne_marker _ 2 (by decide)
  · exact and_mod_ne_marker _ 1 (by decide)
  · exact and_mod_ne_marker _ 8 (by decide)
  · exact and_mod_ne_marker _ 4 (by decide)
  · exact and_mod_ne_marker _ 2 (by decide)
  · exact and_mod_ne_marker _ 1 (by decide)
  · exact le_one_mod_ne_marker _ (is_leap_le_one d.year)
  · exact le_one_mod_ne_marker _ (us_dst_le_one d).2
  · exact le_one_mod_ne_marker _ (us_dst_le_one d).1

theorem wwvb_dut1_ne_marker (p : tsig_params_t) :
    ∀ a ∈ [(36, cbool (dut1Of p ≥ 0)),
     (37, cbool (dut1Of p < 0)),
     (38, cbool (dut1Of p ≥ 0)),
     (40, dut1Abs p &&& 8),
     (41, dut1Abs p &&& 4),
     (42, dut1Abs p &&& 2),
     (43, dut1Abs p &&& 1)], a.2 % 256 ≠ 255 := by
  intro a ha
  simp only [List.mem_cons, List.mem_singleton, List.not_mem_nil, or_false] at ha
  rcases ha with h | h | h | h | h | h | h <;> rw [h]
  · exact le_one_mod_ne_marker _ (cbool_le_one _)
  · exact le_one_mod_ne_marker _ (cbool_le_one _)
  · exact le_one_mod_ne_marker _ (cbool_le_one _)
  · exact and_mod_ne_marker _ 8 (by decide)
  · exact and_mod_ne_marker _ 4 (by decide)
  · exact and_mod_ne_marker _ 2 (by decide)
  · exact and_mod_ne_marker _ 1 (by decide)

theorem wwvb_marker_iff (d : tsig_datetime_t) (p : tsig_params_t) (s : Nat) (hs : s < 60) :
    (wwvb_bits d p).getD s 0 = 255 ↔ s ∈ [0, 9, 19, 29, 39, 49, 59] := by
  rw [wwvb_bits_getD d p s hs]
  constructor
  · intro h
    obtain ⟨h1, -⟩ := lookupLast_marker _ (wwvb_year_ne_marker d) s _ h
    obtain ⟨h2, -⟩ := lookupLast_marker _ (wwvb_dut1_ne_marker p) s _ h1
    obtain ⟨h3, -⟩ := lookupLast_marker _ (minuteHourDoyBits_ne_marker d) s _ h2
    exact (markerBits_marker s hs).1 h3
  · intro h
    simp only [List.mem_cons, List.mem_singleton, List.not_mem_nil, or_false] at h
    rcases h with h | h | h | h | h | h | h <;> rw [h] <;> rfl

theorem bcd_tens7 (m : Nat) (hm : m < 80) :
    40 * sigBit (u8 (u8 (m / 10) &&& 4)) + (20 * sigBit (u8 (u8 (m / 10) &&& 2))
      + (10 * sigBit (u8 (u8 (m / 10) &&& 1)) + (8 * sigBit (u8 (u8 (m % 10) &&& 8))
      + (4 * sigBit (u8 (u8 (m % 10) &&& 4)) + (2 * sigBit (u8 (u8 (m % 10) &&& 2))
      + (1 * sigBit (u8 (u8 (m % 10) &&& 1)) + 0)))))) = m := by
  interval_cases m <;> rfl

theorem bcd_tens6 (m : Nat) (hm : m < 40) :
    20 * sigBit (u8 (u8 (m / 10) &&& 2))
      + (10 * sigBit (u8 (u8 (m / 10) &&& 1)) + (8 * sigBit (u8 (u8 (m % 10) &&& 8))
      + (4 * sigBit (u8 (u8 (m % 10) &&& 4)) + (2 * sigBit (u8 (u8 (m % 10) &&& 2))
      + (1 * sigBit (u8 (u8 (m % 10) &&& 1)) + 0))))) = m := by
  interval_cases m <;> rfl

theorem bcd_tens8 (m : Nat) (hm : m < 100) :
    80 * sigBit (u8 (u8 (m / 10) &&& 8)) + (40 * sigBit (u8 (u8 (m / 10) &&& 4))
      + (20 * sigBit (u8 (u8 (m / 10) &&& 2))
      + (10 * sigBit (u8 (u8 (m / 10) &&& 1)) + (8 * sigBit (u8 (u8 (m % 10) &&& 8))
      + (4 * sigBit (u8 (u8 (m % 10) &&& 4)) + (2 * sigBit (u8 (u8 (m % 10) &&& 2))
      + (1 * sigBit (u8 (u8 (m % 10) &&& 1)) + 0))))))) = m := by
  interval_cases m <;> rfl

theorem bcd_hundreds (m : Nat) (hm : m < 400) :
    200 * sigBit (u8 (u8 (m / 100) &&& 2)) + (100 * sigBit (u8 (u8 (m / 100) &&& 1))
      + (80 * sigBit (u8 (u8 (m % 100 / 10) &&& 8)) + (40 * sigBit (u8 (u8 (m % 100 / 10) &&& 4))
      + (20 * sigBit (u8 (u8 (m % 100 / 10) &&& 2))
      + (10 * sigBit (u8 (u8 (m % 100 / 10) &&& 1)) + (8 * sigBit (u8 (u8 (m % 10) &&& 8))
      + (4 * sigBit (u8 (u8 (m % 10) &&& 4)) + (2 * sigBit (u8 (u8 (m % 10) &&& 2))
      + (1 * sigBit (u8 (u8 (m % 10) &&& 1)) + 0))))))))) = m := by
  have h1 := bcd_tens8 (m % 100) (by omega)
  have e1 : m % 100 % 10 = m % 10 := by omega
  rw [e1] at h1
  have h2 : 200 * sigBit (u8 (u8 (m / 100) &&& 2)) + 100 * sigBit (u8 (u8 (m / 100) &&& 1))
      = 100 * (m / 100) := by
    have : m / 100 < 4 := by omega
    generalize m / 100 = q at this ⊢
    interval_cases q <;> rfl
  omega

/-! ## WWVB: the value of each data bit -/

theorem wwvb_minute_bits (d : tsig_datetime_t) (p : tsig_params_t) :
    (wwvb_bits d p).getD 1 0 = u8 (u8 (d.min / 10) &&& 4) ∧
    (wwvb_bits d p).getD 2 0 = u8 (u8 (d.min / 10) &&& 2) ∧
    (wwvb_bits d p).getD 3 0 = u8 (u8 (d.min / 10) &&& 1) ∧
    (wwvb_bits d p).getD 5 0 = u8 (u8 (d.min % 10) &&& 8) ∧
    (wwvb_bits d p).getD 6 0 = u8 (u8 (d.min % 10) &&& 4) ∧
    (wwvb_bits d p).getD 7 0 = u8 (u8 (d.min % 10) &&& 2) ∧
    (wwvb_bits d p).getD 8 0 = u8 (u8 (d.min % 10) &&& 1) := by
  refine ⟨?_, ?_, ?_, ?_, ?_, ?_, ?_⟩ <;>
  · rw [wwvb_bits_getD d p _ (by decide)]
    simp (disch := decide) only [lookupLast_cons_eq, lookupLast_cons_ne, lookupLast_nil,
      minuteHourDoyBits]

theorem wwvb_hour_bits (d : tsig_datetime_t) (p : tsig_params_t) :
    (wwvb_bits d p).getD 12 0 = u8 (u8 (d.hour / 10) &&& 2) ∧
    (wwvb_bits d p).getD 13 0 = u8 (u8 (d.hour / 10) &&& 1) ∧
    (wwvb_bits d p).getD 15 0 = u8 (u8 (d.hour % 10) &&& 8) ∧
    (wwvb_bits d p).getD 16 0 = u8 (u8 (d.hour % 10) &&& 4) ∧
    (wwvb_bits d p).getD 17 0 = u8 (u8 (d.hour % 10) &&& 2) ∧
    (wwvb_bits d p).getD 18 0 = u8 (u8 (d.hour % 10) &&& 1) := by
  refine ⟨?_, ?_, ?_, ?_, ?_, ?_⟩ <;>
  · rw [wwvb_bits_getD d p _ (by decide)]
    simp (disch := decide) only [lookupLast_cons_eq, lookupLast_cons_ne, lookupLast_nil,
      minuteHourDoyBits]

theorem wwvb_doy_bits (d : tsig_datetime_t) (p : tsig_params_t) :
    (wwvb_bits d p).getD 22 0 = u8 (u8 (d.doy / 100) &&& 2) ∧
    (wwvb_bits d p).getD 23 0 = u8 (u8 (d.doy / 100) &&& 1) ∧
    (wwvb_bits d p).getD 25 0 = u8 (u8 (d.doy % 100 / 10) &&& 8) ∧
    (wwvb_bits d p).getD 26 0 = u8 (u8 (d.doy % 100 / 10) &&& 4) ∧
    (wwvb_bits d p).getD 27 0 = u8 (u8 (d.doy % 100 / 10) &&& 2) ∧
    (wwvb_bits d p).getD 28 0 = u8 (u8 (d.doy % 100 / 10) &&& 1) ∧
    (wwvb_bits d p).getD 30 0 = u8 (u8 (d.doy % 10) &&& 8) ∧
    (wwvb_bits d p).getD 31 0 = u8 (u8 (d.doy % 10) &&& 4) ∧
    (wwvb_bits d p).getD 32 0 = u8 (u8 (d.doy % 10) &&& 2) ∧
    (wwvb_bits d p).getD 33 0 = u8 (u8 (d.doy % 10) &&& 1) := by
  refine ⟨?_, ?_, ?_, ?_, ?_, ?_, ?_, ?_, ?_, ?_⟩ <;>
  · rw [wwvb_bits_getD d p _ (by decide)]
    simp (disch := decide) only [lookupLast_cons_eq, lookupLast_cons_ne, lookupLast_nil,
      minuteHourDoyBits]

theorem wwvb_year_bits (d : tsig_datetime_t) (p : tsig_params_t) :
    (wwvb_bits d p).getD 45 0 = u8 (u8 (d.year % 100 / 10) &&& 8) ∧
    (wwvb_bits d p).getD 46 0 = u8 (u8 (d.year % 100 / 10) &&& 4) ∧
    (wwvb_bits d p).getD 47 0 = u8 (u8 (d.year % 100 / 10) &&& 2) ∧
    (wwvb_bits d p).getD 48 0 = u8 (u8 (d.year % 100 / 10) &&& 1) ∧
    (wwvb_bits d p).getD 50 0 = u8 (u8 (d.year % 10) &&& 8) ∧
    (wwvb_bits d p).getD 51 0 = u8 (u8 (d.year % 10) &&& 4) ∧
    (wwvb_bits d p).getD 52 0 = u8 (u8 (d.year % 10) &&& 2) ∧
    (wwvb_bits d p).getD 53 0 = u8 (u8 (d.year % 10) &&& 1) := by
  refine ⟨?_, ?_, ?_, ?_, ?_, ?_, ?_, ?_⟩ <;>
  · rw [wwvb_bits_getD d p _ (by decide)]
    simp (disch := decide) only [lookupLast_cons_eq, lookupLast_cons_ne, lookupLast_nil,
      minuteHourDoyBits]

theorem wwvb_decodes_core (d : tsig_datetime_t) (params : tsig_params_t) (xl : List Nat)
    (hxl : XmitOk xl) (hmin : d.min < 60) (hhour : d.hour < 24) (hdoy : d.doy ≤ 366) :
    (∀ s, s < 60 → ∃ lo,
      lowThenHigh (tsig_xmit_wwvb d params xl) s lo ∧
      (if s ∈ [0, 9, 19, 29, 39, 49, 59] then lo = 16 else (lo = 4 ∨ lo = 10))) ∧
    bcd (wwvbBit (tsig_xmit_wwvb d params xl))
      [(1, 40), (2, 20), (3, 10), (5, 8), (6, 4), (7, 2), (8, 1)]
      = d.min ∧
    bcd (wwvbBit (tsig_xmit_wwvb d params xl))
      [(12, 20), (13, 10), (15, 8), (16, 4), (17, 2), (18, 1)]
      = d.hour ∧
    bcd (wwvbBit (tsig_xmit_wwvb d params xl))
      [(22, 200), (23, 100), (25, 80), (26, 40), (27, 20), (28, 10), (30, 8), (31, 4), (32, 2),
        (33, 1)]
      = d.doy ∧
    bcd (wwvbBit (tsig_xmit_wwvb d params xl))
      [(45, 80), (46, 40), (47, 20), (48, 10), (50, 8), (51, 4), (52, 2), (53, 1)]
      = d.year % 100 := by
  have hbit : ∀ s, s < 60 → wwvbBit (tsig_xmit_wwvb d params xl) s
      = sigBit ((wwvb_bits d params).getD s 0) := fun s hs => wwvbBit_eq d params xl hxl s hs
  refine ⟨?_, ?_, ?_, ?_, ?_⟩
  · intro s hs
    refine ⟨_, wwvb_seconds d params xl hxl s hs, ?_⟩
    rw [wwvb_lo_cases]
    have hmark := wwvb_marker_iff d params s hs
    by_cases hm : s ∈ [0, 9, 19, 29, 39, 49, 59]
    · rw [if_pos hm, if_pos (hmark.2 hm)]
    · rw [if_neg hm, if_neg (fun h => hm (hmark.1 h))]
      split
      · right; rfl
      · left; rfl
  · obtain ⟨e1, e2, e3, e5, e6, e7, e8⟩ := wwvb_minute_bits d params
    simp (disch := decide) only [bcd, List.map, List.sum_cons, List.sum_nil, hbit, e1, e2, e3,
      e5, e6, e7, e8]
    exact bcd_tens7 d.min (by omega)
  · obtain ⟨e12, e13, e15, e16, e17, e18⟩ := wwvb_hour_bits d params
    simp (disch := decide) only [bcd, List.map, List.sum_cons, List.sum_nil, hbit, e12, e13, e15,
      e16, e17, e18]
    exact bcd_tens6 d.hour (by omega)
  · obtain ⟨e22, e23, e25, e26, e27, e28, e30, e31, e32, e33⟩ := wwvb_doy_bits d params
    simp (disch := decide) only [bcd, List.map, List.sum_cons, List.sum_nil, hbit, e22, e23, e25,
      e26, e27, e28, e30, e31, e32, e33]
    exact bcd_hundreds d.doy (by omega)
  · obtain ⟨e45, e46, e47, e48, e50, e51, e52, e53⟩ := wwvb_year_bits d params
    simp (disch := decide) only [bcd, List.map, List.sum_cons, List.sum_nil, hbit, e45, e46, e47,
      e48, e50, e51, e52, e53]
    have e : d.year % 100 % 10 = d.year % 10 := by omega
    have h := bcd_tens8 (d.year % 100) (by omega)
    rw [e] at h
    exact h

/-! ## Parity bits -/

theorem and_two_pow_cases (x k : Nat) : x &&& 2 ^ k = 0 ∨ x &&& 2 ^ k = 2 ^ k := by
  cases h : x.testBit k
  · left
    apply Nat.eq_of_testBit_eq
    intro i
    rw [Nat.testBit_and, Nat.testBit_two_pow, Nat.zero_testBit]
    by_cases hki : k = i
    · subst hki; rw [h]; rfl
    · rw [decide_eq_false hki, Bool.and_false]
  · right
    apply Nat.eq_of_testBit_eq
    intro i
    rw [Nat.testBit_and, Nat.testBit_two_pow]
    by_cases hki : k = i
    · subst hki; rw [h]; rfl
    · rw [decide_eq_false hki, Bool.and_false]

theorem single_and (x m : Nat) (hm : m = 1 ∨ m = 2 ∨ m = 4 ∨ m = 8) : single (u8 (x &&& m)) := by
  unfold single u8
  rcases hm with h | h | h | h <;> subst h
  · rcases and_two_pow_cases x 0 with h | h <;> simp only [pow_zero] at h <;> rw [h] <;> decide
  · rcases and_two_pow_cases x 1 with h | h <;> simp only [pow_one] at h <;> rw [h] <;> decide
  · rcases and_two_pow_cases x 2 with h | h <;>
      rw [show (2 : Nat) ^ 2 = 4 from rfl] at h <;> rw [h] <;> decide
  · rcases and_two_pow_cases x 3 with h | h <;>
      rw [show (2 : Nat) ^ 3 = 8 from rfl] at h <;> rw [h] <;> decide

theorem single_zero : single 0 := Or.inl rfl

theorem single_le_one {x : Nat} (h : x ≤ 1) : single (u8 x) := by
  unfold single u8
  interval_cases x <;> decide

theorem sigBit_le_one (b : Nat) : sigBit b ≤ 1 := by
  unfold sigBit; split
  · omega
  · split <;> omega

theorem sigBit_u8_of_le_one {x : Nat} (h : x ≤ 1) : sigBit (u8 x) = x := by
  interval_cases x <;> rfl

theorem parityByte_single (p b : Nat) (hb : single b) :
    parityByte p b 8 = if b = 0 then p else (if p = 0 then 1 else 0) := by
  rcases hb with h | h | h | h | h <;> subst h <;> rfl

theorem foldl_parity (l : List Nat) : ∀ p : Nat, p ≤ 1 → (∀ b ∈ l, single b) →
    l.foldl (fun parity byte => parityByte parity byte 8) p = (p + (l.map sigBit).sum) % 2 := by
  induction l with
  | nil => intro p hp _; simp only [List.foldl, List.map, List.sum_nil]; omega
  | cons b rest ih =>
    intro p hp hl
    have hb := hl b (List.mem_cons_self _ _)
    simp only [List.foldl, List.map, List.sum_cons]
    rw [parityByte_single p b hb]
    have hs : sigBit b = if b = 0 then 0 else 1 := by
      rcases hb with h | h | h | h | h <;> subst h <;> rfl
    rw [hs]
    by_cases h0 : b = 0
    · rw [if_pos h0, if_pos h0, ih p hp (fun x hx => hl x (List.mem_cons_of_mem _ hx))]
      omega
    · rw [if_neg h0, if_neg h0, ih _ (by split <;> omega)
        (fun x hx => hl x (List.mem_cons_of_mem _ hx))]
      split <;> omega

theorem bitCount_eq_sum (f : Nat → Nat) (lo n : Nat) :
    ((List.range n).map (fun k => f (lo + k))).sum = bitCount f lo n := by
  induction n with
  | zero => rfl
  | succ n ih =>
    rw [List.range_succ, List.map_append, List.sum_append, ih]
    simp only [List.map, List.sum_cons, List.sum_nil, bitCount, Nat.add_zero]

theorem bitCount_congr (f g : Nat → Nat) (lo n : Nat) (h : ∀ k, k < n → f (lo + k) = g (lo + k)) :
    bitCount f lo n = bitCount g lo n := by
  induction n with
  | zero => rfl
  | succ n ih =>
    show bitCount f lo n + f (lo + n) = bitCount g lo n + g (lo + n)
    rw [ih (fun k hk => h k (by omega)), h n (by omega)]

theorem even_parity_eq (data : List Nat) (lo hi : Nat)
    (h : ∀ k, k < hi - lo → single (data.getD (lo + k) 0)) :
    tsig_even_parity data lo hi = bitCount (fun s => sigBit (data.getD s 0)) lo (hi - lo) % 2 := by
  unfold tsig_even_parity
  rw [foldl_parity _ 0 (by omega) (by
    intro b hb
    obtain ⟨k, hk, rfl⟩ := List.mem_map.1 hb
    exact h k (List.mem_range.1 hk)), List.map_map, ← bitCount_eq_sum, Nat.zero_add]
  rfl

theorem getD_setb_of_ne (bits : List Nat) (i v n : Nat) (h : i ≠ n) :
    (setb bits i v).getD n 0 = bits.getD n 0 := by
  unfold setb
  rw [getD_set, if_neg (fun hh => h hh.1)]

theorem getD_assign_of_not_mem (as : List (Nat × Nat)) : ∀ (bits : List Nat) (n : Nat),
    (∀ a ∈ as, a.1 ≠ n) → (assign bits as).getD n 0 = bits.getD n 0 := by
  induction as with
  | nil => intro bits n _; rfl
  | cons a rest ih =>
    intro bits n h
    show (assign (setb bits a.1 a.2) rest).getD n 0 = _
    rw [ih _ n (fun b hb => h b (List.mem_cons_of_mem _ hb)),
      getD_setb_of_ne _ _ _ _ (h a (List.mem_cons_self _ _))]

/-! ## JJY outside the announcement minutes -/

theorem getD_assign_of_lt (as : List (Nat × Nat)) (bits : List Nat) (n c : Nat)
    (h : ∀ a ∈ as, c ≤ a.1) (hn : n < c) : (assign bits as).getD n 0 = bits.getD n 0 :=
  getD_assign_of_not_mem as bits n (fun a ha => by have := h a ha; omega)

theorem lookupLast_single (as : List (Nat × Nat)) (h : ∀ a ∈ as, single (u8 a.2)) (n : Nat) :
    ∀ x : Nat, single x → single (lookupLast as n x) := by
  induction as with
  | nil => intro x hx; exact hx
  | cons a rest ih =>
    intro x hx
    show single (lookupLast rest n (if a.1 = n then u8 a.2 else x))
    apply ih (fun b hb => h b (List.mem_cons_of_mem _ hb))
    split
    · exact h a (List.mem_cons_self _ _)
    · exact hx

theorem minuteHourDoyBits_single (d : tsig_datetime_t) :
    ∀ a ∈ minuteHourDoyBits d, single (u8 a.2) := by
  intro a ha
  simp only [minuteHourDoyBits, List.mem_cons, List.mem_singleton, List.not_mem_nil,
    or_false] at ha
  rcases ha with h | h | h | h | h | h | h | h | h | h | h | h | h | h | h | h | h | h | h | h
    | h | h | h <;> rw [h] <;> exact single_and _ _ (by decide)

theorem mhd_getD (d : tsig_datetime_t) (s : Nat) (hs : s < 60) :
    (assign markerBits (minuteHourDoyBits d)).getD s 0
      = lookupLast (minuteHourDoyBits d) s (markerBits.getD s 0) :=
  getD_assign _ _ _ (by rw [markerBits_length]; exact hs)

theorem mhd_single (d : tsig_datetime_t) (s : Nat) (hs : s < 60)
    (hm : s ∉ [0, 9, 19, 29, 39, 49, 59]) :
    single ((assign markerBits (minuteHourDoyBits d)).getD s 0) := by
  rw [mhd_getD d s hs]
  apply lookupLast_single _ (minuteHourDoyBits_single d)
  rcases markerBits_values s with h | h
  · exact absurd ((markerBits_marker s hs).1 h) hm
  · rw [h]; exact single_zero

theorem jjy_year_dow_ge (d : tsig_datetime_t) :
    ∀ a ∈ [(41, u8 (d.year % 100 / 10) &&& 8),
     (42, u8 (d.year % 100 / 10) &&& 4),
     (43, u8 (d.year % 100 / 10) &&& 2),
     (44, u8 (d.year % 100 / 10) &&& 1),
     (45, u8 (d.year % 10) &&& 8),
     (46, u8 (d.year % 10) &&& 4),
     (47, u8 (d.year % 10) &&& 2),
     (48, u8 (d.year % 10) &&& 1),
     (50, d.dow &&& 4),
     (51, d.dow &&& 2),
     (52, d.dow &&& 1)], 41 ≤ a.1 ∧ a.2 % 256 ≠ 255 := by
  intro a ha
  simp only [List.mem_cons, List.mem_singleton, List.not_mem_nil, or_false] at ha
  rcases ha with h | h | h | h | h | h | h | h | h | h | h <;> rw [h] <;>
    exact ⟨by dsimp only; omega, and_mod_ne_marker _ _ (by decide)⟩

theorem setEvenParity_eq (bits : List Nat) (i lo hi : Nat) :
    setEvenParity bits i lo hi = assign bits [(i, tsig_even_parity bits lo hi)] := rfl

theorem jjy_bits_regular (d : tsig_datetime_t) (hna : ¬ (d.min = 15 ∨ d.min = 45)) :
    jjy_bits d = assign (assign (assign (assign markerBits (minuteHourDoyBits d))
      [(36, tsig_even_parity (assign markerBits (minuteHourDoyBits d)) 12 19)])
      [(37, tsig_even_parity (assign (assign markerBits (minuteHourDoyBits d))
        [(36, tsig_even_parity (assign markerBits (minuteHourDoyBits d)) 12 19)]) 1 9)])
      [(41, u8 (d.year % 100 / 10) &&& 8),
     (42, u8 (d.year % 100 / 10) &&& 4),
     (43, u8 (d.year % 100 / 10) &&& 2),
     (44, u8 (d.year % 100 / 10) &&& 1),
     (45, u8 (d.year % 10) &&& 8),
     (46, u8 (d.year % 10) &&& 4),
     (47, u8 (d.year % 10) &&& 2),
     (48, u8 (d.year % 10) &&& 1),
     (50, d.dow &&& 4),
     (51, d.dow &&& 2),
     (52, d.dow &&& 1)] := by
  unfold jjy_bits
  rw [if_neg hna]
  simp only [jjy_bits_parity, setEvenParity_eq]

theorem parity_entry_ne_marker (i : Nat) (data : List Nat) (lo hi : Nat) :
    ∀ a ∈ [(i, tsig_even_parity data lo hi)], a.2 % 256 ≠ 255 := by
  intro a ha
  rw [List.mem_singleton.1 ha]
  have h := tsig_even_parity_le_one data lo hi
  generalize tsig_even_parity data lo hi = v at h
  dsimp only
  omega

theorem jjy_bits_length (d : tsig_datetime_t) : (jjy_bits d).length = 60 := by
  unfold jjy_bits jjy_bits_parity setEvenParity
  split
  · rw [length_setb, length_setb, length_assign, markerBits_length]
  · rw [length_assign, length_setb, length_setb, length_assign, markerBits_length]

theorem jjy_bits_getD (d : tsig_datetime_t) (hna : ¬ (d.min = 15 ∨ d.min = 45)) (s : Nat)
    (hs : s < 60) :
    (jjy_bits d).getD s 0 =
      lookupLast [(41, u8 (d.year % 100 / 10) &&& 8),
     (42, u8 (d.year % 100 / 10) &&& 4),
     (43, u8 (d.year % 100 / 10) &&& 2),
     (44, u8 (d.year % 100 / 10) &&& 1),
     (45, u8 (d.year % 10) &&& 8),
     (46, u8 (d.year % 10) &&& 4),
     (47, u8 (d.year % 10) &&& 2),
     (48, u8 (d.year % 10) &&& 1),
     (50, d.dow &&& 4),
     (51, d.dow &&& 2),
     (52, d.dow &&& 1)] s
      (lookupLast [(37, tsig_even_parity (assign (assign markerBits (minuteHourDoyBits d))
          [(36, tsig_even_parity (assign markerBits (minuteHourDoyBits d)) 12 19)]) 1 9)] s
      (lookupLast [(36, tsig_even_parity (assign markerBits (minuteHourDoyBits d)) 12 19)] s
      (lookupLast (minuteHourDoyBits d) s (markerBits.getD s 0)))) := by
  rw [jjy_bits_regular d hna,
    getD_assign _ _ _ (by
      rw [length_assign, length_assign, length_assign, markerBits_length]; exact hs),
    getD_assign _ _ _ (by rw [length_assign, length_assign, markerBits_length]; exact hs),
    getD_assign _ _ _ (by rw [length_assign, markerBits_length]; exact hs),
    getD_assign _ _ _ (by rw [markerBits_length]; exact hs)]

theorem jjy_bits_low (d : tsig_datetime_t) (hna : ¬ (d.min = 15 ∨ d.min = 45)) (s : Nat)
    (hs : s < 36) :
    (jjy_bits d).getD s 0 = (assign markerBits (minuteHourDoyBits d)).getD s 0 := by
  rw [jjy_bits_regular d hna,
    getD_assign_of_lt _ _ s 41 (fun a ha => (jjy_year_dow_ge d a ha).1) (by omega),
    getD_assign_of_lt _ _ s 37 (by
      intro a ha; rw [List.mem_singleton.1 ha]) (by omega),
    getD_assign_of_lt _ _ s 36 (by
      intro a ha; rw [List.mem_singleton.1 ha]) (by omega)]

theorem jjy_seconds (d : tsig_datetime_t) (p : tsig_params_t) (xl : List Nat) (hxl : XmitOk xl)
    (hna : ¬ (d.min = 15 ∨ d.min = 45)) (s : Nat) (hs : s < 60) :
    highThenLow (tsig_xmit_jjy d p xl) s (jjy_hi ((jjy_bits d).getD s 0)) := by
  have h := highLow_seconds ((jjy_bits d).map jjy_hi)
    (by rw [List.length_map, jjy_bits_length])
    (by intro hi hhi; obtain ⟨b, _, hb⟩ := List.mem_map.1 hhi; rw [← hb]; exact jjy_hi_le b)
    xl hxl s hs
  rw [getD_map_lt _ _ _ (by rw [jjy_bits_length]; exact hs)] at h
  have e : tsig_xmit_jjy d p xl = paintHighLow xl 0 ((jjy_bits d).map jjy_hi) := by
    show (if d.min = 15 ∨ d.min = 45 then _ else paintHighLow xl 0 ((jjy_bits d).map jjy_hi)) = _
    rw [if_neg hna]
  rw [e]
  exact h

theorem jjyBit_eq (d : tsig_datetime_t) (p : tsig_params_t) (xl : List Nat) (hxl : XmitOk xl)
    (hna : ¬ (d.min = 15 ∨ d.min = 45)) (s : Nat) (hs : s < 60) :
    jjyBit (tsig_xmit_jjy d p xl) s = sigBit ((jjy_bits d).getD s 0) := by
  unfold jjyBit
  rw [highTicks_of_highThenLow (jjy_seconds d p xl hxl hna s hs) (jjy_hi_le _), jjy_hi_cases]
  unfold sigBit TSIG_WAVEFORM_SYNC_MARKER
  split
  · rfl
  · split <;> rfl

theorem jjy_marker_iff (d : tsig_datetime_t) (hna : ¬ (d.min = 15 ∨ d.min = 45)) (s : Nat)
    (hs : s < 60) : (jjy_bits d).getD s 0 = 255 ↔ s ∈ [0, 9, 19, 29, 39, 49, 59] := by
  rw [jjy_bits_getD d hna s hs]
  constructor
  · intro h
    obtain ⟨h1, -⟩ := lookupLast_marker _ (fun a ha => (jjy_year_dow_ge d a ha).2) s _ h
    obtain ⟨h2, -⟩ := lookupLast_marker _ (parity_entry_ne_marker 37 _ _ _) s _ h1
    obtain ⟨h3, -⟩ := lookupLast_marker _ (parity_entry_ne_marker 36 _ _ _) s _ h2
    obtain ⟨h4, -⟩ := lookupLast_marker _ (minuteHourDoyBits_ne_marker d) s _ h3
    exact (markerBits_marker s hs).1 h4
  · intro h
    simp only [List.mem_cons, List.mem_singleton, List.not_mem_nil, or_false] at h
    rcases h with h | h | h | h | h | h | h <;> subst h <;>
      simp (disch := decide) only [lookupLast_cons_ne, lookupLast_nil, minuteHourDoyBits] <;>
      rfl

theorem jjy_parity_bit (d : tsig_datetime_t) (p : tsig_params_t) (xl : List Nat) (hxl : XmitOk xl)
    (hna : ¬ (d.min = 15 ∨ d.min = 45)) (i lo n : Nat) (hi : i < 60) (hlo : 1 ≤ lo)
    (hn : lo + n < 10 ∨ (10 ≤ lo ∧ lo + n < 20))
    (hv : (jjy_bits d).getD i 0
      = u8 (tsig_even_parity (assign markerBits (minuteHourDoyBits d)) lo (lo + n))) :
    jjyBit (tsig_xmit_jjy d p xl) i = bitCount (jjyBit (tsig_xmit_jjy d p xl)) lo n % 2 := by
  have h2 := even_parity_eq (assign markerBits (minuteHourDoyBits d)) lo (lo + n) (by
    intro k hk
    apply mhd_single d (lo + k) (by omega)
    intro hm
    simp only [List.mem_cons, List.mem_singleton, List.not_mem_nil, or_false] at hm
    omega)
  have e : lo + n - lo = n := by omega
  rw [e] at h2
  have hc := bitCount_congr (jjyBit (tsig_xmit_jjy d p xl))
    (fun s => sigBit ((assign markerBits (minuteHourDoyBits d)).getD s 0)) lo n (by
      intro k hk
      exact (jjyBit_eq d p xl hxl hna (lo + k) (by omega)).trans
        (congrArg sigBit (jjy_bits_low d hna (lo + k) (by omega))))
  rw [jjyBit_eq d p xl hxl hna i hi, hv, sigBit_u8_of_le_one (tsig_even_parity_le_one _ _ _), h2]
  exact congrArg (fun x => x % 2) hc.symm

/-! ## JJY: the value of each data bit -/

theorem jjy_minute_bits (d : tsig_datetime_t) (hna : ¬ (d.min = 15 ∨ d.min = 45)) :
    (jjy_bits d).getD 1 0 = u8 (u8 (d.min / 10) &&& 4) ∧
    (jjy_bits d).getD 2 0 = u8 (u8 (d.min / 10) &&& 2) ∧
    (jjy_bits d).getD 3 0 = u8 (u8 (d.min / 10) &&& 1) ∧
    (jjy_bits d).getD 5 0 = u8 (u8 (d.min % 10) &&& 8) ∧
    (jjy_bits d).getD 6 0 = u8 (u8 (d.min % 10) &&& 4) ∧
    (jjy_bits d).getD 7 0 = u8 (u8 (d.min % 10) &&& 2) ∧
    (jjy_bits d).getD 8 0 = u8 (u8 (d.min % 10) &&& 1) := by
  refine ⟨?_, ?_, ?_, ?_, ?_, ?_, ?_⟩ <;>
  · rw [jjy_bits_getD d hna _ (by decide)]
    simp (disch := decide) only [lookupLast_cons_eq, lookupLast_cons_ne, lookupLast_nil,
      minuteHourDoyBits]

theorem jjy_hour_bits (d : tsig_datetime_t) (hna : ¬ (d.min = 15 ∨ d.min = 45)) :
    (jjy_bits d).getD 12 0 = u8 (u8 (d.hour / 10) &&& 2) ∧
    (jjy_bits d).getD 13 0 = u8 (u8 (d.hour / 10) &&& 1) ∧
    (jjy_bits d).getD 15 0 = u8 (u8 (d.hour % 10) &&& 8) ∧
    (jjy_bits d).getD 16 0 = u8 (u8 (d.hour % 10) &&& 4) ∧
    (jjy_bits d).getD 17 0 = u8 (u8 (d.hour % 10) &&& 2) ∧
    (jjy_bits d).getD 18 0 = u8 (u8 (d.hour % 10) &&& 1) := by
  refine ⟨?_, ?_, ?_, ?_, ?_, ?_⟩ <;>
  · rw [jjy_bits_getD d hna _ (by decide)]
    simp (disch := decide) only [lookupLast_cons_eq, lookupLast_cons_ne, lookupLast_nil,
      minuteHourDoyBits]

theorem jjy_doy_bits (d : tsig_datetime_t) (hna : ¬ (d.min = 15 ∨ d.min = 45)) :
    (jjy_bits d).getD 22 0 = u8 (u8 (d.doy / 100) &&& 2) ∧
    (jjy_bits d).getD 23 0 = u8 (u8 (d.doy / 100) &&& 1) ∧
    (jjy_bits d).getD 25 0 = u8 (u8 (d.doy % 100 / 10) &&& 8) ∧
    (jjy_bits d).getD 26 0 = u8 (u8 (d.doy % 100 / 10) &&& 4) ∧
    (jjy_bits d).getD 27 0 = u8 (u8 (d.doy % 100 / 10) &&& 2) ∧
    (jjy_bits d).getD 28 0 = u8 (u8 (d.doy % 100 / 10) &&& 1) ∧
    (jjy_bits d).getD 30 0 = u8 (u8 (d.doy % 10) &&& 8) ∧
    (jjy_bits d).getD 31 0 = u8 (u8 (d.doy % 10) &&& 4) ∧
    (jjy_bits d).getD 32 0 = u8 (u8 (d.doy % 10) &&& 2) ∧
    (jjy_bits d).getD 33 0 = u8 (u8 (d.doy % 10) &&& 1) := by
  refine ⟨?_, ?_, ?_, ?_, ?_, ?_, ?_, ?_, ?_, ?_⟩ <;>
  · rw [jjy_bits_getD d hna _ (by decide)]
    simp (disch := decide) only [lookupLast_cons_eq, lookupLast_cons_ne, lookupLast_nil,
      minuteHourDoyBits]

theorem jjy_year_bits (d : tsig_datetime_t) (hna : ¬ (d.min = 15 ∨ d.min = 45)) :
    (jjy_bits d).getD 41 0 = u8 (u8 (d.year % 100 / 10) &&& 8) ∧
    (jjy_bits d).getD 42 0 = u8 (u8 (d.year % 100 / 10) &&& 4) ∧
    (jjy_bits d).getD 43 0 = u8 (u8 (d.year % 100 / 10) &&& 2) ∧
    (jjy_bits d).getD 44 0 = u8 (u8 (d.year % 100 / 10) &&& 1) ∧
    (jjy_bits d).getD 45 0 = u8 (u8 (d.year % 10) &&& 8) ∧
    (jjy_bits d).getD 46 0 = u8 (u8 (d.year % 10) &&& 4) ∧
    (jjy_bits d).getD 47 0 = u8 (u8 (d.year % 10) &&& 2) ∧
    (jjy_bits d).getD 48 0 = u8 (u8 (d.year % 10) &&& 1) := by
  refine ⟨?_, ?_, ?_, ?_, ?_, ?_, ?_, ?_⟩ <;>
  · rw [jjy_bits_getD d hna _ (by decide)]
    simp (disch := decide) only [lookupLast_cons_eq, lookupLast_cons_ne, lookupLast_nil,
      minuteHourDoyBits]

theorem jjy_dow_bits (d : tsig_datetime_t) (hna : ¬ (d.min = 15 ∨ d.min = 45)) :
    (jjy_bits d).getD 50 0 = u8 (d.dow &&& 4) ∧
    (jjy_bits d).getD 51 0 = u8 (d.dow &&& 2) ∧
    (jjy_bits d).getD 52 0 = u8 (d.dow &&& 1) := by
  refine ⟨?_, ?_, ?_⟩ <;>
  · rw [jjy_bits_getD d hna _ (by decide)]
    simp (disch := decide) only [lookupLast_cons_eq, lookupLast_cons_ne, lookupLast_nil,
      minuteHourDoyBits]

theorem tsig_even_parity_congr (data other : List Nat) (lo hi : Nat)
    (h : ∀ k, k < hi - lo → data.getD (lo + k) 0 = other.getD (lo + k) 0) :
    tsig_even_parity data lo hi = tsig_even_parity other lo hi := by
  unfold tsig_even_parity
  congr 1
  apply List.map_congr_left
  intro k hk
  exact h k (List.mem_range.1 hk)

theorem jjy_parity_bits (d : tsig_datetime_t) (hna : ¬ (d.min = 15 ∨ d.min = 45)) :
    (jjy_bits d).getD 36 0
      = u8 (tsig_even_parity (assign markerBits (minuteHourDoyBits d)) 12 (12 + 7)) ∧
    (jjy_bits d).getD 37 0
      = u8 (tsig_even_parity (assign markerBits (minuteHourDoyBits d)) 1 (1 + 8)) := by
  constructor
  · rw [jjy_bits_regular d hna,
      getD_assign_of_lt _ _ 36 41 (fun a ha => (jjy_year_dow_ge d a ha).1) (by decide),
      getD_assign_of_lt _ _ 36 37 (by intro a ha; rw [List.mem_singleton.1 ha]) (by decide),
      getD_assign _ _ 36 (by rw [length_assign, markerBits_length]; decide),
      lookupLast_cons_eq, lookupLast_nil]
  · rw [jjy_bits_regular d hna,
      getD_assign_of_lt _ _ 37 41 (fun a ha => (jjy_year_dow_ge d a ha).1) (by decide),
      getD_assign _ _ 37 (by rw [length_assign, length_assign, markerBits_length]; decide),
      lookupLast_cons_eq, lookupLast_nil]
    exact congrArg u8 (tsig_even_parity_congr _ _ 1 9 (fun k hk =>
      getD_assign_of_lt _ _ (1 + k) 36 (by intro a ha; rw [List.mem_singleton.1 ha])
        (by omega)))

theorem bcd_dow (w : Nat) (hw : w ≤ 6) :
    4 * sigBit (u8 (w &&& 4)) + (2 * sigBit (u8 (w &&& 2)) + (1 * sigBit (u8 (w &&& 1)) + 0))
      = w := by
  interval_cases w <;> rfl

theorem jjy_decodes_core (d : tsig_datetime_t) (params : tsig_params_t) (xl : List Nat)
    (hxl : XmitOk xl) (hna : ¬ (d.min = 15 ∨ d.min = 45)) (hmin : d.min < 60)
    (hhour : d.hour < 24) (hdoy : d.doy ≤ 366) (hdow : d.dow ≤ 6) :
    (∀ s, s < 60 → ∃ hi,
      highThenLow (tsig_xmit_jjy d params xl) s hi ∧
      (if s ∈ [0, 9, 19, 29, 39, 49, 59] then hi = 4 else (hi = 10 ∨ hi = 16))) ∧
    bcd (jjyBit (tsig_xmit_jjy d params xl))
      [(1, 40), (2, 20), (3, 10), (5, 8), (6, 4), (7, 2), (8, 1)]
      = d.min ∧
    bcd (jjyBit (tsig_xmit_jjy d params xl))
      [(12, 20), (13, 10), (15, 8), (16, 4), (17, 2), (18, 1)]
      = d.hour ∧
    bcd (jjyBit (tsig_xmit_jjy d params xl))
      [(22, 200), (23, 100), (25, 80), (26, 40), (27, 20), (28, 10), (30, 8), (31, 4), (32, 2),
        (33, 1)]
      = d.doy ∧
    bcd (jjyBit (tsig_xmit_jjy d params xl))
      [(41, 80), (42, 40), (43, 20), (44, 10), (45, 8), (46, 4), (47, 2), (48, 1)]
      = d.year % 100 ∧
    bcd (jjyBit (tsig_xmit_jjy d params xl)) [(50, 4), (51, 2), (52, 1)]
      = d.dow ∧
    jjyBit (tsig_xmit_jjy d params xl) 36
      = bitCount (jjyBit (tsig_xmit_jjy d params xl)) 12 7 % 2 ∧
    jjyBit (tsig_xmit_jjy d params xl) 37
      = bitCount (jjyBit (tsig_xmit_jjy d params xl)) 1 8 % 2 := by
  have hbit : ∀ s, s < 60 → jjyBit (tsig_xmit_jjy d params xl) s
      = sigBit ((jjy_bits d).getD s 0) := fun s hs => jjyBit_eq d params xl hxl hna s hs
  refine ⟨?_, ?_, ?_, ?_, ?_, ?_, ?_, ?_⟩
  · intro s hs
    refine ⟨_, jjy_seconds d params xl hxl hna s hs, ?_⟩
    rw [jjy_hi_cases]
    have hmark := jjy_marker_iff d hna s hs
    by_cases hm : s ∈ [0, 9, 19, 29, 39, 49, 59]
    · rw [if_pos hm, if_pos (hmark.2 hm)]
    · rw [if_neg hm, if_neg (fun h => hm (hmark.1 h))]
      split
      · left; rfl
      · right; rfl
  · obtain ⟨e1, e2, e3, e5, e6, e7, e8⟩ := jjy_minute_bits d hna
    simp (disch := decide) only [bcd, List.map, List.sum_cons, List.sum_nil, hbit, e1, e2, e3,
      e5, e6, e7, e8]
    exact bcd_tens7 d.min (by omega)
  · obtain ⟨e12, e13, e15, e16, e17, e18⟩ := jjy_hour_bits d hna
    simp (disch := decide) only [bcd, List.map, List.sum_cons, List.sum_nil, hbit, e12, e13, e15,
      e16, e17, e18]
    exact bcd_tens6 d.hour (by omega)
  · obtain ⟨e22, e23, e25, e26, e27, e28, e30, e31, e32, e33⟩ := jjy_doy_bits d hna
    simp (disch := decide) only [bcd, List.map, List.sum_cons, List.sum_nil, hbit, e22, e23, e25,
      e26, e27, e28, e30, e31, e32, e33]
    exact bcd_hundreds d.doy (by omega)
  · obtain ⟨e41, e42, e43, e44, e45, e46, e47, e48⟩ := jjy_year_bits d hna
    simp (disch := decide) only [bcd, List.map, List.sum_cons, List.sum_nil, hbit, e41, e42, e43,
      e44, e45, e46, e47, e48]
    have e : d.year % 100 % 10 = d.year % 10 := by omega
    have h := bcd_tens8 (d.year % 100) (by omega)
    rw [e] at h
    exact h
  · obtain ⟨e50, e51, e52⟩ := jjy_dow_bits d hna
    simp (disch := decide) only [bcd, List.map, List.sum_cons, List.sum_nil, hbit, e50, e51, e52]
    exact bcd_dow d.dow hdow
  · exact jjy_parity_bit d params xl hxl hna 36 12 7 (by decide) (by decide)
      (Or.inr ⟨by decide, by decide⟩) (jjy_parity_bits d hna).1
  · exact jjy_parity_bit d params xl hxl hna 37 1 8 (by decide) (by decide)
      (Or.inl (by decide)) (jjy_parity_bits d hna).2

/-! ## DCF77: the three parity bits -/

theorem getD_setb_pred (P : Nat → Prop) (bits : List Nat) (i v n : Nat) (hv : P (u8 v))
    (h0 : P (bits.getD n 0)) : P ((setb bits i v).getD n 0) := by
  unfold setb
  rw [getD_set]
  split
  · exact hv
  · exact h0

theorem getD_assign_pred (P : Nat → Prop) (as : List (Nat × Nat)) (n : Nat)
    (hP : ∀ a ∈ as, P (u8 a.2)) : ∀ bits : List Nat, P (bits.getD n 0) →
    P ((assign bits as).getD n 0) := by
  induction as with
  | nil => intro bits h0; exact h0
  | cons a rest ih =>
    intro bits h0
    show P ((assign (setb bits a.1 a.2) rest).getD n 0)
    exact ih (fun b hb => hP b (List.mem_cons_of_mem _ hb)) _
      (getD_setb_pred P bits a.1 a.2 n (hP a (List.mem_cons_self _ _)) h0)

theorem single_parity (data : List Nat) (lo hi : Nat) :
    single (u8 (tsig_even_parity data lo hi)) :=
  single_le_one (tsig_even_parity_le_one data lo hi)

theorem bitCount_succ (f : Nat → Nat) (lo n : Nat) :
    bitCount f lo (n + 1) = bitCount f lo n + f (lo + n) := rfl

/-- A parity stage: after `bits[i] = tsig_even_parity(bits, lo, lo + n)` the number of
non-zero entries among `lo .. lo + n - 1` and `i` is even. -/
theorem even_parity_stage (A : List Nat) (i lo n : Nat) (hi : i < A.length) (hlo : lo + n ≤ i)
    (hs : ∀ k, k < n → single (A.getD (lo + k) 0)) :
    (bitCount (fun s => sigBit ((setEvenParity A i lo (lo + n)).getD s 0)) lo n
      + sigBit ((setEvenParity A i lo (lo + n)).getD i 0)) % 2 = 0 := by
  have h1 : bitCount (fun s => sigBit ((setEvenParity A i lo (lo + n)).getD s 0)) lo n
      = bitCount (fun s => sigBit (A.getD s 0)) lo n :=
    bitCount_congr _ _ lo n (fun k hk =>
      congrArg sigBit (getD_setb_of_ne A i _ (lo + k) (by omega)))
  have h2 : (setEvenParity A i lo (lo + n)).getD i 0 = u8 (tsig_even_parity A lo (lo + n)) := by
    unfold setEvenParity
    rw [getD_setb _ _ _ _ hi, if_pos rfl]
  have h3 := even_parity_eq A lo (lo + n) (by
    intro k hk
    exact hs k (by omega))
  have e : lo + n - lo = n := by omega
  rw [e] at h3
  rw [h1, h2, sigBit_u8_of_le_one (tsig_even_parity_le_one _ _ _), h3]
  omega

theorem dcf77_minute_single (x : tsig_datetime_t) :
    ∀ a ∈ dcf77_minute_bits x, single (u8 a.2) ∧ 20 ≤ a.1 := by
  intro a ha
  simp only [dcf77_minute_bits, List.mem_cons, List.mem_singleton, List.not_mem_nil,
    or_false] at ha
  rcases ha with h | h | h | h | h | h | h | h <;> rw [h]
  · exact ⟨Or.inr (Or.inl rfl), by dsimp only; omega⟩
  all_goals exact ⟨single_and _ _ (by decide), by dsimp only; omega⟩

theorem dcf77_hour_single (x : tsig_datetime_t) :
    ∀ a ∈ dcf77_hour_bits x, single (u8 a.2) ∧ 29 ≤ a.1 := by
  intro a ha
  simp only [dcf77_hour_bits, List.mem_cons, List.mem_singleton, List.not_mem_nil,
    or_false] at ha
  rcases ha with h | h | h | h | h | h <;> rw [h] <;>
    exact ⟨single_and _ _ (by decide), by dsimp only; omega⟩

theorem dcf77_date_single (x : tsig_datetime_t) :
    ∀ a ∈ dcf77_date_bits x, single (u8 a.2) ∧ 36 ≤ a.1 := by
  intro a ha
  simp only [dcf77_date_bits, List.mem_cons, List.mem_singleton, List.not_mem_nil,
    or_false] at ha
  rcases ha with h | h | h | h | h | h | h | h | h | h | h | h | h | h | h | h | h | h | h | h
    | h | h <;> rw [h] <;> exact ⟨single_and _ _ (by decide), by dsimp only; omega⟩

theorem length_setEvenParity (bits : List Nat) (i lo hi : Nat) :
    (setEvenParity bits i lo hi).length = bits.length := length_setb _ _ _

theorem getD_setEvenParity_of_ne (bits : List Nat) (i lo hi n : Nat) (h : i ≠ n) :
    (setEvenParity bits i lo hi).getD n 0 = bits.getD n 0 :=
  getD_setb_of_ne bits i _ n h

theorem getD_setEvenParity_pred (P : Nat → Prop) (bits : List Nat) (i lo hi n : Nat)
    (hv : ∀ v, v ≤ 1 → P (u8 v)) (h0 : P (bits.getD n 0)) :
    P ((setEvenParity bits i lo hi).getD n 0) :=
  getD_setb_pred P bits i _ n (hv _ (tsig_even_parity_le_one _ _ _)) h0

theorem dcf77_time_bits_parity (bits : List Nat) (x : tsig_datetime_t) (hlen : bits.length = 60)
    (h0 : ∀ s, 21 ≤ s → s < 58 → single (bits.getD s 0)) :
    bitCount (fun s => sigBit ((dcf77_time_bits bits x).getD s 0)) 21 8 % 2 = 0 ∧
    bitCount (fun s => sigBit ((dcf77_time_bits bits x).getD s 0)) 29 7 % 2 = 0 ∧
    bitCount (fun s => sigBit ((dcf77_time_bits bits x).getD s 0)) 36 23 % 2 = 0 := by
  have sA1 : ∀ s, 21 ≤ s → s < 58 → single ((assign bits (dcf77_minute_bits x)).getD s 0) :=
    fun s h1 h2 => getD_assign_pred single _ s (fun a ha => (dcf77_minute_single x a ha).1) _
      (h0 s h1 h2)
  have sP1 : ∀ s, 21 ≤ s → s < 58 →
      single ((setEvenParity (assign bits (dcf77_minute_bits x)) 28 21 28).getD s 0) :=
    fun s h1 h2 => getD_setEvenParity_pred single _ _ _ _ s (fun v hv => single_le_one hv)
      (sA1 s h1 h2)
  have sA2 : ∀ s, 21 ≤ s → s < 58 → single ((assign
      (setEvenParity (assign bits (dcf77_minute_bits x)) 28 21 28)
      (dcf77_hour_bits x)).getD s 0) :=
    fun s h1 h2 => getD_assign_pred single _ s (fun a ha => (dcf77_hour_single x a ha).1) _
      (sP1 s h1 h2)
  have sP2 : ∀ s, 21 ≤ s → s < 58 → single ((setEvenParity (assign
      (setEvenParity (assign bits (dcf77_minute_bits x)) 28 21 28)
      (dcf77_hour_bits x)) 35 29 35).getD s 0) :=
    fun s h1 h2 => getD_setEvenParity_pred single _ _ _ _ s (fun v hv => single_le_one hv)
      (sA2 s h1 h2)
  have sA3 : ∀ s, 21 ≤ s → s < 58 → single ((assign (setEvenParity (assign
      (setEvenParity (assign bits (dcf77_minute_bits x)) 28 21 28)
      (dcf77_hour_bits x)) 35 29 35) (dcf77_date_bits x)).getD s 0) :=
    fun s h1 h2 => getD_assign_pred single _ s (fun a ha => (dcf77_date_single x a ha).1) _
      (sP2 s h1 h2)
  have l1 : (assign bits (dcf77_minute_bits x)).length = 60 := by rw [length_assign, hlen]
  have l2 : (assign (setEvenParity (assign bits (dcf77_minute_bits x)) 28 21 28)
      (dcf77_hour_bits x)).length = 60 := by
    rw [length_assign, length_setEvenParity, l1]
  have l3 : (assign (setEvenParity (assign
      (setEvenParity (assign bits (dcf77_minute_bits x)) 28 21 28)
      (dcf77_hour_bits x)) 35 29 35) (dcf77_date_bits x)).length = 60 := by
    rw [length_assign, length_setEvenParity, l2]
  have e1 := even_parity_stage (assign bits (dcf77_minute_bits x)) 28 21 7 (by rw [l1]; decide)
    (by decide) (fun k hk => sA1 (21 + k) (by omega) (by omega))
  have e2 := even_parity_stage (assign (setEvenParity (assign bits (dcf77_minute_bits x))
    28 21 28) (dcf77_hour_bits x)) 35 29 6 (by rw [l2]; decide)
    (by decide) (fun k hk => sA2 (29 + k) (by omega) (by omega))
  have e3 := even_parity_stage (assign (setEvenParity (assign
      (setEvenParity (assign bits (dcf77_minute_bits x)) 28 21 28)
      (dcf77_hour_bits x)) 35 29 35) (dcf77_date_bits x)) 58 36 22 (by rw [l3]; decide)
    (by decide) (fun k hk => sA3 (36 + k) (by omega) (by omega))
  have k1 : ∀ s, s ≤ 28 → (dcf77_time_bits bits x).getD s 0
      = (setEvenParity (assign bits (dcf77_minute_bits x)) 28 21 (21 + 7)).getD s 0 := by
    intro s hs
    unfold dcf77_time_bits
    rw [getD_setEvenParity_of_ne _ 58 _ _ s (by omega),
      getD_assign_of_lt _ _ s 36 (fun a ha => (dcf77_date_single x a ha).2) (by omega),
      getD_setEvenParity_of_ne _ 35 _ _ s (by omega),
      getD_assign_of_lt _ _ s 29 (fun a ha => (dcf77_hour_single x a ha).2) (by omega)]
  have k2 : ∀ s, s ≤ 35 → (dcf77_time_bits bits x).getD s 0
      = (setEvenParity (assign (setEvenParity (assign bits (dcf77_minute_bits x)) 28 21 28)
          (dcf77_hour_bits x)) 35 29 (29 + 6)).getD s 0 := by
    intro s hs
    unfold dcf77_time_bits
    rw [getD_setEvenParity_of_ne _ 58 _ _ s (by omega),
      getD_assign_of_lt _ _ s 36 (fun a ha => (dcf77_date_single x a ha).2) (by omega)]
  refine ⟨?_, ?_, ?_⟩
  · have c := bitCount_congr (fun s => sigBit ((dcf77_time_bits bits x).getD s 0))
      (fun s => sigBit ((setEvenParity (assign bits (dcf77_minute_bits x)) 28 21
        (21 + 7)).getD s 0)) 21 7 (fun k hk => congrArg sigBit (k1 (21 + k) (by omega)))
    have c2 := congrArg sigBit (k1 28 (by decide))
    show (bitCount (fun s => sigBit ((dcf77_time_bits bits x).getD s 0)) 21 7
      + sigBit ((dcf77_time_bits bits x).getD 28 0)) % 2 = 0
    rw [c, c2]
    exact e1
  · have c := bitCount_congr (fun s => sigBit ((dcf77_time_bits bits x).getD s 0))
      (fun s => sigBit ((setEvenParity (assign (setEvenParity (assign bits
        (dcf77_minute_bits x)) 28 21 28) (dcf77_hour_bits x)) 35 29 (29 + 6)).getD s 0)) 29 6
      (fun k hk => congrArg sigBit (k2 (29 + k) (by omega)))
    have c2 := congrArg sigBit (k2 35 (by decide))
    show (bitCount (fun s => sigBit ((dcf77_time_bits bits x).getD s 0)) 29 6
      + sigBit ((dcf77_time_bits bits x).getD 35 0)) % 2 = 0
    rw [c, c2]
    exact e2
  · exact e3

theorem dcf77_lo_cases (b : Nat) :
    dcf77_lo b = (if b = 255 then 0 else if b ≠ 0 then 4 else 2) := by
  unfold dcf77_lo TSIG_WAVEFORM_SYNC_MARKER; split
  · rfl
  · split <;> rfl

theorem dcf77_lo_le (b : Nat) : dcf77_lo b ≤ 20 := by
  rw [dcf77_lo_cases]; split
  · decide
  · split <;> decide

theorem dcf77_init_length : dcf77_init.length = 60 := by decide

theorem length_dcf77_time_bits (bits : List Nat) (x : tsig_datetime_t) :
    (dcf77_time_bits bits x).length = bits.length := by
  unfold dcf77_time_bits
  rw [length_setEvenParity, length_assign, length_setEvenParity, length_assign,
    length_setEvenParity, length_assign]

theorem dcf77_bits_length (d : tsig_datetime_t) : (dcf77_bits d).length = 60 := by
  unfold dcf77_bits dcf77_bits_of
  rw [length_dcf77_time_bits, length_assign, dcf77_init_length]

theorem dcf77_seconds (d : tsig_datetime_t) (p : tsig_params_t) (xl : List Nat) (hxl : XmitOk xl)
    (s : Nat) (hs : s < 60) :
    lowThenHigh (tsig_xmit_dcf77 d p xl) s (dcf77_lo ((dcf77_bits d).getD s 0)) := by
  have h := lowHigh_seconds ((dcf77_bits d).map dcf77_lo)
    (by rw [List.length_map, dcf77_bits_length])
    (by intro lo hlo; obtain ⟨b, _, hb⟩ := List.mem_map.1 hlo; rw [← hb]; exact dcf77_lo_le b)
    xl hxl s hs
  rw [getD_map_lt _ _ _ (by rw [dcf77_bits_length]; exact hs)] at h
  exact h

theorem dcf77Bit_eq (d : tsig_datetime_t) (p : tsig_params_t) (xl : List Nat) (hxl : XmitOk xl)
    (s : Nat) (hs : s < 60) :
    dcf77Bit (tsig_xmit_dcf77 d p xl) s = sigBit ((dcf77_bits d).getD s 0) := by
  unfold dcf77Bit
  rw [lowTicks_of_lowThenHigh (dcf77_seconds d p xl hxl s hs) (dcf77_lo_le _), dcf77_lo_cases]
  unfold sigBit TSIG_WAVEFORM_SYNC_MARKER
  split
  · rfl
  · split <;> rfl

theorem dcf77_init_zero (s : Nat) (h1 : 21 ≤ s) (h2 : s < 58) : dcf77_init.getD s 0 = 0 := by
  interval_cases s <;> rfl

theorem dcf77_bits_parity (d : tsig_datetime_t) :
    bitCount (fun s => sigBit ((dcf77_bits d).getD s 0)) 21 8 % 2 = 0 ∧
    bitCount (fun s => sigBit ((dcf77_bits d).getD s 0)) 29 7 % 2 = 0 ∧
    bitCount (fun s => sigBit ((dcf77_bits d).getD s 0)) 36 23 % 2 = 0 := by
  unfold dcf77_bits dcf77_bits_of
  apply dcf77_time_bits_parity
  · rw [length_assign, dcf77_init_length]
  · intro s h1 h2
    rw [getD_assign_of_not_mem _ _ s (by
      intro a ha
      simp only [List.mem_cons, List.mem_singleton, List.not_mem_nil, or_false] at ha
      rcases ha with h | h | h <;> rw [h] <;> dsimp only <;> omega), dcf77_init_zero s h1 h2]
    exact single_zero

/-! ## MSF -/

theorem msf_lo_cases (i b : Nat) :
    msf_lo i b = 2 * ((if b = 255 then 5 else if b ≠ 0 then 2 else 1)
      + (if 53 ≤ i ∧ i ≤ 58 then 1 else 0)) := by
  unfold msf_lo TSIG_WAVEFORM_SYNC_MARKER TSIG_WAVEFORM_TICK_MS cbool
  split <;> split <;> try split
  all_goals rfl

theorem msf_lo_le (i b : Nat) : msf_lo i b ≤ 20 := by
  rw [msf_lo_cases]
  split <;> split <;> try split
  all_goals omega

theorem getD_map_range (f : Nat → Nat) (n s : Nat) (h : s < n) :
    ((List.range n).map f).getD s 0 = f s := by
  rw [List.getD_eq_getElem?_getD, List.getElem?_map, List.getElem?_range h]
  rfl

theorem msf_seconds (d : tsig_datetime_t) (p : tsig_params_t) (xl : List Nat) (hxl : XmitOk xl)
    (s : Nat) (hs : s < 60) :
    lowThenHigh (tsig_xmit_msf d p xl) s (msf_lo s ((msf_bits d p).getD s 0)) := by
  have h := lowHigh_seconds ((List.range 60).map (fun i => msf_lo i ((msf_bits d p).getD i 0)))
    (by rw [List.length_map, List.length_range])
    (by intro lo hlo; obtain ⟨b, _, hb⟩ := List.mem_map.1 hlo; rw [← hb]; exact msf_lo_le _ _)
    xl hxl s hs
  rw [getD_map_range _ _ _ hs] at h
  exact h

theorem msf_init_length : msf_init.length = 60 := by decide

theorem length_setOddParity (bits : List Nat) (i lo hi : Nat) :
    (setOddParity bits i lo hi).length = bits.length := length_setb _ _ _

theorem getD_setOddParity_of_ne (bits : List Nat) (i lo hi n : Nat) (h : i ≠ n) :
    (setOddParity bits i lo hi).getD n 0 = bits.getD n 0 :=
  getD_setb_of_ne bits i _ n h

theorem msf_field_single (x : tsig_datetime_t) :
    ∀ a ∈ msf_field_bits x, single (u8 a.2) ∧ 17 ≤ a.1 ∧ a.2 % 256 ≠ 255 := by
  intro a ha
  simp only [msf_field_bits, List.mem_cons, List.mem_singleton, List.not_mem_nil,
    or_false] at ha
  rcases ha with h | h | h | h | h | h | h | h | h | h | h | h | h | h | h | h | h | h | h | h
    | h | h | h | h | h | h | h | h | h | h | h | h | h | h | h <;> rw [h] <;>
    exact ⟨single_and _ _ (by decide), by dsimp only; omega,
      and_mod_ne_marker _ _ (by decide)⟩

theorem msf_dut1_index_le (q : Int) : ∀ a ∈ msf_dut1_bits_of q, a.1 ≤ 16 ∧ a.2 ≤ 1 := by
  intro a ha
  unfold msf_dut1_bits_of at ha
  obtain ⟨k, hk, rfl⟩ := List.mem_map.1 ha
  have hk8 := List.mem_range.1 hk
  refine ⟨?_, cbool_le_one _⟩
  dsimp only
  split <;> omega

theorem tsig_odd_parity_le_one (data : List Nat) (lo hi : Nat) :
    tsig_odd_parity data lo hi ≤ 1 := by
  unfold tsig_odd_parity; split <;> omega

/-- An odd-parity stage: the number of non-zero entries among `lo .. lo + n - 1` plus the
value `tsig_odd_parity(bits, lo, lo + n)` is odd. -/
theorem odd_parity_stage (A : List Nat) (lo n : Nat)
    (hs : ∀ k, k < n → single (A.getD (lo + k) 0)) :
    (bitCount (fun s => sigBit (A.getD s 0)) lo n
      + sigBit (u8 (tsig_odd_parity A lo (lo + n)))) % 2 = 1 := by
  have h3 := even_parity_eq A lo (lo + n) (by
    intro k hk
    exact hs k (by omega))
  have e : lo + n - lo = n := by omega
  rw [e] at h3
  rw [sigBit_u8_of_le_one (tsig_odd_parity_le_one _ _ _)]
  unfold tsig_odd_parity
  rw [h3]
  split <;> omega

theorem msf_bits_length (d : tsig_datetime_t) (p : tsig_params_t) : (msf_bits d p).length = 60 := by
  unfold msf_bits msf_time_bits
  rw [length_setb, length_setOddParity, length_setOddParity, length_setOddParity,
    length_setOddParity, length_setb, length_assign, length_assign, msf_init_length]

theorem msf_init_zero (s : Nat) (h1 : 1 ≤ s) : msf_init.getD s 0 = 0 := by
  by_cases hs : s < 60
  · interval_cases s <;> rfl
  · rw [List.getD_eq_getElem?_getD, List.getElem?_eq_none (by rw [msf_init_length]; omega)]
    rfl

/-- The entries 17..52 of the final array are those of the array after the BCD fields. -/
theorem msf_bits_fields (d : tsig_datetime_t) (p : tsig_params_t) (s : Nat) (hs : s < 53) :
    (msf_bits d p).getD s 0 = (assign (assign msf_init (msf_dut1_bits p))
      (msf_field_bits (msf_xmit_datetime d))).getD s 0 := by
  unfold msf_bits msf_time_bits
  rw [getD_setb_of_ne _ 58 _ s (by omega), getD_setOddParity_of_ne _ 57 _ _ s (by omega),
    getD_setOddParity_of_ne _ 56 _ _ s (by omega), getD_setOddParity_of_ne _ 55 _ _ s (by omega),
    getD_setOddParity_of_ne _ 54 _ _ s (by omega), getD_setb_of_ne _ 53 _ s (by omega)]

theorem msf_fields_single (d : tsig_datetime_t) (p : tsig_params_t) (s : Nat) (h1 : 17 ≤ s)
    (hs : s < 53) :
    single ((assign (assign msf_init (msf_dut1_bits p))
      (msf_field_bits (msf_xmit_datetime d))).getD s 0) := by
  apply getD_assign_pred single _ s (fun a ha => (msf_field_single _ a ha).1)
  rw [getD_assign_of_not_mem _ _ s (by
    intro a ha
    have := (msf_dut1_index_le _ a ha).1
    omega), msf_init_zero s (by omega)]
  exact single_zero

theorem getD_setOddParity_self (bits : List Nat) (i lo hi : Nat) (h : i < bits.length) :
    (setOddParity bits i lo hi).getD i 0 = u8 (tsig_odd_parity bits lo hi) := by
  unfold setOddParity
  rw [getD_setb _ _ _ _ h, if_pos rfl]

theorem tsig_odd_parity_congr (data other : List Nat) (lo hi : Nat)
    (h : ∀ k, k < hi - lo → data.getD (lo + k) 0 = other.getD (lo + k) 0) :
    tsig_odd_parity data lo hi = tsig_odd_parity other lo hi := by
  unfold tsig_odd_parity
  rw [tsig_even_parity_congr data other lo hi h]

/-- The four parity entries of the final array, as parities of the array after the BCD
fields. -/
theorem msf_bits_parity_entries (d : tsig_datetime_t) (p : tsig_params_t) :
    (msf_bits d p).getD 54 0 = u8 (tsig_odd_parity (assign (assign msf_init (msf_dut1_bits p))
      (msf_field_bits (msf_xmit_datetime d))) 17 (17 + 8)) ∧
    (msf_bits d p).getD 55 0 = u8 (tsig_odd_parity (assign (assign msf_init (msf_dut1_bits p))
      (msf_field_bits (msf_xmit_datetime d))) 25 (25 + 11)) ∧
    (msf_bits d p).getD 56 0 = u8 (tsig_odd_parity (assign (assign msf_init (msf_dut1_bits p))
      (msf_field_bits (msf_xmit_datetime d))) 36 (36 + 3)) ∧
    (msf_bits d p).getD 57 0 = u8 (tsig_odd_parity (assign (assign msf_init (msf_dut1_bits p))
      (msf_field_bits (msf_xmit_datetime d))) 39 (39 + 13)) := by
  have l0 : (assign (assign msf_init (msf_dut1_bits p))
      (msf_field_bits (msf_xmit_datetime d))).length = 60 := by
    rw [length_assign, length_assign, msf_init_length]
  unfold msf_bits msf_time_bits
  refine ⟨?_, ?_, ?_, ?_⟩
  · rw [getD_setb_of_ne _ 58 _ 54 (by decide), getD_setOddParity_of_ne _ 57 _ _ 54 (by decide),
      getD_setOddParity_of_ne _ 56 _ _ 54 (by decide),
      getD_setOddParity_of_ne _ 55 _ _ 54 (by decide),
      getD_setOddParity_self _ 54 _ _ (by rw [length_setb, l0]; decide)]
    exact congrArg u8 (tsig_odd_parity_congr _ _ 17 25 (fun k hk =>
      getD_setb_of_ne _ 53 _ (17 + k) (by omega)))
  · rw [getD_setb_of_ne _ 58 _ 55 (by decide), getD_setOddParity_of_ne _ 57 _ _ 55 (by decide),
      getD_setOddParity_of_ne _ 56 _ _ 55 (by decide),
      getD_setOddParity_self _ 55 _ _ (by rw [length_setOddParity, length_setb, l0]; decide)]
    exact congrArg u8 (tsig_odd_parity_congr _ _ 25 36 (fun k hk =>
      (getD_setOddParity_of_ne _ 54 _ _ (25 + k) (by omega)).trans
        (getD_setb_of_ne _ 53 _ (25 + k) (by omega))))
  · rw [getD_setb_of_ne _ 58 _ 56 (by decide), getD_setOddParity_of_ne _ 57 _ _ 56 (by decide),
      getD_setOddParity_self _ 56 _ _ (by
        rw [length_setOddParity, length_setOddParity, length_setb, l0]; decide)]
    exact congrArg u8 (tsig_odd_parity_congr _ _ 36 39 (fun k hk =>
      (getD_setOddParity_of_ne _ 55 _ _ (36 + k) (by omega)).trans
        ((getD_setOddParity_of_ne _ 54 _ _ (36 + k) (by omega)).trans
          (getD_setb_of_ne _ 53 _ (36 + k) (by omega)))))
  · rw [getD_setb_of_ne _ 58 _ 57 (by decide),
      getD_setOddParity_self _ 57 _ _ (by
        rw [length_setOddParity, length_setOddParity, length_setOddParity, length_setb, l0]
        decide)]
    exact congrArg u8 (tsig_odd_parity_congr _ _ 39 52 (fun k hk =>
      (getD_setOddParity_of_ne _ 56 _ _ (39 + k) (by omega)).trans
        ((getD_setOddParity_of_ne _ 55 _ _ (39 + k) (by omega)).trans
          ((getD_setOddParity_of_ne _ 54 _ _ (39 + k) (by omega)).trans
            (getD_setb_of_ne _ 53 _ (39 + k) (by omega))))))

/-- Seconds 1..52 of MSF carry 1 (low for 200 ms) exactly when their entry of `bits` is
non-zero. -/
theorem msfBitA_eq (d : tsig_datetime_t) (p : tsig_params_t) (xl : List Nat) (hxl : XmitOk xl)
    (s : Nat) (hs : s < 53) (hm : (msf_bits d p).getD s 0 ≠ 255) :
    dcf77Bit (tsig_xmit_msf d p xl) s = sigBit ((msf_bits d p).getD s 0) := by
  have hr : ¬ (53 ≤ s ∧ s ≤ 58) := by omega
  unfold dcf77Bit
  rw [lowTicks_of_lowThenHigh (msf_seconds d p xl hxl s (by omega)) (msf_lo_le _ _), msf_lo_cases,
    if_neg hm, if_neg hr]
  unfold sigBit TSIG_WAVEFORM_SYNC_MARKER
  rw [if_neg hm]
  by_cases hb : (msf_bits d p).getD s 0 = 0
  · rw [if_neg (not_not.2 hb), if_neg (not_not.2 hb)]
    rfl
  · rw [if_pos hb, if_pos hb]
    rfl

/-- Seconds 53..58 of MSF carry 1 in their second bit (low for 300 ms) exactly when their
entry of `bits` is non-zero. -/
theorem msfBitB_eq (d : tsig_datetime_t) (p : tsig_params_t) (xl : List Nat) (hxl : XmitOk xl)
    (s : Nat) (h1 : 53 ≤ s) (hs : s ≤ 58) (hm : (msf_bits d p).getD s 0 ≠ 255) :
    msfBitB (tsig_xmit_msf d p xl) s = sigBit ((msf_bits d p).getD s 0) := by
  have hr : 53 ≤ s ∧ s ≤ 58 := ⟨h1, hs⟩
  unfold msfBitB
  rw [lowTicks_of_lowThenHigh (msf_seconds d p xl hxl s (by omega)) (msf_lo_le _ _), msf_lo_cases,
    if_neg hm, if_pos hr]
  unfold sigBit TSIG_WAVEFORM_SYNC_MARKER
  rw [if_neg hm]
  by_cases hb : (msf_bits d p).getD s 0 = 0
  · rw [if_neg (not_not.2 hb), if_neg (not_not.2 hb)]
    rfl
  · rw [if_pos hb, if_pos hb]
    rfl

theorem single_ne_marker {b : Nat} (h : single b) : b ≠ 255 := by
  rcases h with h | h | h | h | h <;> omega

theorem msf_ne_marker_fields (d : tsig_datetime_t) (p : tsig_params_t) (s : Nat) (h1 : 17 ≤ s)
    (hs : s < 53) : (msf_bits d p).getD s 0 ≠ 255 := by
  rw [msf_bits_fields d p s hs]
  exact single_ne_marker (msf_fields_single d p s h1 hs)

theorem msf_dut1_checked (q : Int) (h1 : -8 ≤ q) (h2 : q ≤ 8) : msfDut1Ok q = true := by
  interval_cases q <;> decide

theorem tdiv_100_bounds (x : Int) (h1 : -899 ≤ x) (h2 : x ≤ 899) :
    -8 ≤ Int.tdiv x 100 ∧ Int.tdiv x 100 ≤ 8 := by
  by_cases h : 0 ≤ x
  · rw [Int.tdiv_eq_ediv h (by decide)]
    omega
  · have e : Int.tdiv x 100 = -(Int.tdiv (-x) 100) := by
      rw [Int.neg_tdiv, Int.neg_neg]
    rw [e, Int.tdiv_eq_ediv (by omega) (by decide)]
    omega

theorem msf_bits_dut1 (d : tsig_datetime_t) (p : tsig_params_t) (s : Nat) (h1 : 1 ≤ s)
    (hs : s ≤ 16) :
    (msf_bits d p).getD s 0 = lookupLast (msf_dut1_bits p) s (msf_init.getD s 0) := by
  rw [msf_bits_fields d p s (by omega),
    getD_assign_of_lt _ _ s 17 (fun a ha => (msf_field_single _ a ha).2.1) (by omega),
    getD_assign _ _ s (by rw [msf_init_length]; omega)]

theorem msf_ne_marker_dut1 (d : tsig_datetime_t) (p : tsig_params_t) (s : Nat) (h1 : 1 ≤ s)
    (hs : s ≤ 16) : (msf_bits d p).getD s 0 ≠ 255 := by
  rw [msf_bits_dut1 d p s h1 hs]
  intro h
  have h0 := (lookupLast_marker _ (fun a ha =>
    le_one_mod_ne_marker _ (msf_dut1_index_le _ a ha).2) s _ h).1
  rw [msf_init_zero s h1] at h0
  omega

theorem xmitOk_zeros : XmitOk (List.replicate 150 0) := by
  refine ⟨List.length_replicate _ _, ?_⟩
  intro b hb
  rw [List.eq_of_mem_replicate hb]
  decide

/-! ## BPC -/

theorem bpc_lo_le (b : Nat) (h : bpcOk b) : bpc_lo b ≤ 20 := by
  unfold bpcOk at h
  unfold bpc_lo TSIG_WAVEFORM_SYNC_MARKER TSIG_WAVEFORM_TICK_MS
  split
  · decide
  · rcases h with h | h
    · omega
    · contradiction

theorem bpc_and_ok (x m : Nat) (hm : m ≤ 7) : bpcOk (u8 (x &&& m)) := by
  have : x &&& m ≤ m := Nat.and_le_right
  left; unfold u8; omega

theorem bpc_or_ok (a b : Nat) (ha : a < 8) (hb : b ≤ 1) : bpcOk (u8 (a ||| b)) := by
  have : a ||| b < 2 ^ 3 := Nat.or_lt_two_pow (by omega) (by omega)
  left; unfold u8; omega

theorem getD_setOrEvenParity_pred (P : Nat → Prop) (bits : List Nat) (i v lo hi n : Nat)
    (hv : P (u8 (v ||| tsig_even_parity bits lo hi))) (h0 : P (bits.getD n 0)) :
    P ((setOrEvenParity bits i v lo hi).getD n 0) :=
  getD_setb_pred P bits i _ n hv h0

theorem getD_setOrEvenParity_of_ne (bits : List Nat) (i v lo hi n : Nat) (h : i ≠ n) :
    (setOrEvenParity bits i v lo hi).getD n 0 = bits.getD n 0 :=
  getD_setb_of_ne bits i _ n h

theorem length_setOrEvenParity (bits : List Nat) (i v lo hi : Nat) :
    (setOrEvenParity bits i v lo hi).length = bits.length := length_setb _ _ _

theorem bpc_init_ok (n : Nat) : bpcOk (bpc_init.getD n 0) := by
  unfold bpcOk
  by_cases hn : n < 20
  · interval_cases n <;> decide
  · left
    rw [List.getD_eq_getElem?_getD, List.getElem?_eq_none (by
      have : bpc_init.length = 20 := by decide
      omega)]
    decide

theorem shiftLeft_one_le (c : Nat) (hc : c ≤ 1) : c <<< 1 < 8 := by
  interval_cases c <;> decide

theorem bpc_bits_ok (d : tsig_datetime_t) (n : Nat) : bpcOk ((bpc_bits d).getD n 0) := by
  unfold bpc_bits
  apply getD_setOrEvenParity_pred bpcOk
  · exact bpc_or_ok _ _ (by
      have : (u8 (d.year % 100) >>> 5) &&& 2 ≤ 2 := Nat.and_le_right
      omega) (tsig_even_parity_le_one _ _ _)
  apply getD_assign_pred bpcOk
  · intro a ha
    simp only [List.mem_cons, List.mem_singleton, List.not_mem_nil, or_false] at ha
    rcases ha with h | h | h | h | h | h | h | h <;> rw [h] <;>
      exact bpc_and_ok _ _ (by decide)
  apply getD_setOrEvenParity_pred bpcOk
  · exact bpc_or_ok _ _ (shiftLeft_one_le _ (cbool_le_one _)) (tsig_even_parity_le_one _ _ _)
  apply getD_assign_pred bpcOk
  · intro a ha
    simp only [List.mem_cons, List.mem_singleton, List.not_mem_nil, or_false] at ha
    rcases ha with h | h | h | h | h | h | h <;> rw [h] <;>
      exact bpc_and_ok _ _ (by decide)
  exact bpc_init_ok n

theorem bpc_bits_length (d : tsig_datetime_t) : (bpc_bits d).length = 20 := by
  unfold bpc_bits
  rw [length_setOrEvenParity, length_assign, length_setOrEvenParity, length_assign]
  decide

theorem bpc_bits_ten (d : tsig_datetime_t) : (bpc_bits d).getD 10 0 ≤ 7 := by
  unfold bpc_bits
  rw [getD_setOrEvenParity_of_ne _ 19 _ _ _ 10 (by decide),
    getD_assign_of_lt _ _ 10 11 (by
      intro a ha
      simp only [List.mem_cons, List.mem_singleton, List.not_mem_nil, or_false] at ha
      rcases ha with h | h | h | h | h | h | h | h <;> rw [h] <;> dsimp only <;> omega)
      (by decide)]
  unfold setOrEvenParity
  rw [getD_setb _ _ _ _ (by rw [length_assign]; decide), if_pos rfl]
  have hp := tsig_even_parity_le_one (assign bpc_init
      [(3, (u8 (d.hour % 12) >>> 2) &&& 3),
       (4, u8 (d.hour % 12) &&& 3),
       (5, (d.min >>> 4) &&& 3),
       (6, (d.min >>> 2) &&& 3),
       (7, d.min &&& 3),
       (8, ((if d.dow ≠ 0 then d.dow else 7) >>> 2) &&& 1),
       (9, (if d.dow ≠ 0 then d.dow else 7) &&& 3)]) 1 10
  revert hp
  generalize tsig_even_parity _ 1 10 = par
  intro hp
  have : cbool (d.hour ≥ 12) <<< 1 ||| par < 2 ^ 3 :=
    Nat.or_lt_two_pow (shiftLeft_one_le _ (cbool_le_one _)) (by omega)
  unfold u8
  omega

theorem bpc_pass_zero (d : tsig_datetime_t) : bpc_pass_bits d 0 = bpc_bits d := rfl

theorem bpc_pass_one (d : tsig_datetime_t) : bpc_pass_bits d 1 = bpc_pass1 d := rfl

theorem bpc_pass_two (d : tsig_datetime_t) : bpc_pass_bits d 2 = bpc_pass2 d := rfl

theorem bpc_pass_length (d : tsig_datetime_t) (f : Nat) (hf : f < 3) :
    (bpc_pass_bits d f).length = 20 := by
  interval_cases f
  · rw [bpc_pass_zero]; exact bpc_bits_length d
  · rw [bpc_pass_one]; unfold bpc_pass1
    rw [length_setb, length_setb, bpc_bits_length]
  · rw [bpc_pass_two]; unfold bpc_pass2 bpc_pass1
    rw [length_setb, length_setb, length_setb, bpc_bits_length]

theorem xor_one_ok (b : Nat) (h : b ≤ 7) : bpcOk (u8 (b ^^^ 1)) := by
  unfold bpcOk
  interval_cases b <;> decide

theorem bpc_pass1_ok (d : tsig_datetime_t) (n : Nat) : bpcOk ((bpc_pass1 d).getD n 0) := by
  unfold bpc_pass1
  apply getD_setb_pred bpcOk
  · rw [getD_setb_of_ne _ 1 _ 10 (by decide)]
    exact xor_one_ok _ (bpc_bits_ten d)
  apply getD_setb_pred bpcOk
  · exact Or.inl (by decide)
  exact bpc_bits_ok d n

theorem bpc_pass_ok (d : tsig_datetime_t) (f : Nat) (hf : f < 3) (n : Nat) :
    bpcOk ((bpc_pass_bits d f).getD n 0) := by
  interval_cases f
  · rw [bpc_pass_zero]; exact bpc_bits_ok d n
  · rw [bpc_pass_one]; exact bpc_pass1_ok d n
  · rw [bpc_pass_two]; unfold bpc_pass2
    apply getD_setb_pred bpcOk
    · exact Or.inl (by decide)
    exact bpc_pass1_ok d n

theorem mem_getD {l : List Nat} {b : Nat} (h : b ∈ l) : ∃ n, l.getD n 0 = b := by
  obtain ⟨n, hn, he⟩ := List.getElem_of_mem h
  exact ⟨n, by rw [List.getD_eq_getElem?_getD, List.getElem?_eq_getElem hn, he]; rfl⟩

theorem bpc_los_le (d : tsig_datetime_t) (f : Nat) (hf : f < 3) :
    ∀ lo ∈ (bpc_pass_bits d f).map bpc_lo, lo ≤ 20 := by
  intro lo hlo
  obtain ⟨b, hb, he⟩ := List.mem_map.1 hlo
  obtain ⟨n, hn⟩ := mem_getD hb
  rw [← he, ← hn]
  exact bpc_lo_le _ (bpc_pass_ok d f hf n)

/-- Symbol `s` of frame `f` of the BPC pattern is low for `bpc_lo` of its entry of `bits`. -/
theorem bpc_seconds (d : tsig_datetime_t) (p : tsig_params_t) (xl : List Nat) (hxl : XmitOk xl)
    (f s : Nat) (hf : f < 3) (hs : s < 20) :
    lowThenHigh (tsig_xmit_bpc d p xl) (20 * f + s)
      (bpc_lo ((bpc_pass_bits d f).getD s 0)) := by
  have l0 : ((bpc_pass_bits d 0).map bpc_lo).length = 20 := by
    rw [List.length_map, bpc_pass_length d 0 (by decide)]
  have l1 : ((bpc_pass_bits d 1).map bpc_lo).length = 20 := by
    rw [List.length_map, bpc_pass_length d 1 (by decide)]
  have l2 : ((bpc_pass_bits d 2).map bpc_lo).length = 20 := by
    rw [List.length_map, bpc_pass_length d 2 (by decide)]
  obtain ⟨a1, a2⟩ := paintLowHigh_spec ((bpc_pass_bits d 0).map bpc_lo) xl 0 hxl
    (bpc_los_le d 0 (by decide)) (by rw [l0]; decide)
  obtain ⟨b1, b2⟩ := paintLowHigh_spec ((bpc_pass_bits d 1).map bpc_lo) _ 400 a1
    (bpc_los_le d 1 (by decide)) (by rw [l1]; decide)
  obtain ⟨c1, c2⟩ := paintLowHigh_spec ((bpc_pass_bits d 2).map bpc_lo) _ 800 b1
    (bpc_los_le d 2 (by decide)) (by rw [l2])
  rw [l0] at a2
  rw [l1] at b2
  rw [l2] at c2
  intro k hk
  unfold tsig_xmit_bpc
  rw [← bpc_pass_zero, ← bpc_pass_one, ← bpc_pass_two, c2]
  interval_cases f
  · rw [if_neg (by omega), b2, if_neg (by omega), a2, if_pos (by omega),
      getD_map_lt _ _ _ (by rw [bpc_pass_length d 0 (by decide)]; omega)]
    have e1 : (20 * (20 * 0 + s) + k - 0) / 20 = s := by omega
    have e2 : (20 * (20 * 0 + s) + k - 0) % 20 = k := by omega
    rw [e1, e2]
  · rw [if_neg (by omega), b2, if_pos (by omega),
      getD_map_lt _ _ _ (by rw [bpc_pass_length d 1 (by decide)]; omega)]
    have e1 : (20 * (20 * 1 + s) + k - 400) / 20 = s := by omega
    have e2 : (20 * (20 * 1 + s) + k - 400) % 20 = k := by omega
    rw [e1, e2]
  · rw [if_pos (by omega),
      getD_map_lt _ _ _ (by rw [bpc_pass_length d 2 (by decide)]; omega)]
    have e1 : (20 * (20 * 2 + s) + k - 800) / 20 = s := by omega
    have e2 : (20 * (20 * 2 + s) + k - 800) % 20 = k := by omega
    rw [e1, e2]

/-! ## JJY in the announcement minutes -/

theorem paintPulses_spec (ps : List (Nat × Nat)) : ∀ xl : List Nat, XmitOk xl →
    (∀ p ∈ ps, p.1 + p.2 ≤ 1200) →
    XmitOk (paintPulses xl ps) ∧
    ∀ k, tickHigh (paintPulses xl ps) k = (inPulses ps k || tickHigh xl k) := by
  induction ps with
  | nil =>
    intro xl h _
    exact ⟨h, fun k => by simp [paintPulses, inPulses]⟩
  | cons p rest ih =>
    intro xl h hp
    obtain ⟨a1, a2⟩ := paintHigh_spec p.2 xl p.1 h (hp p (List.mem_cons_self _ _))
    obtain ⟨b1, b2⟩ := ih (paintHigh xl p.1 p.2) a1 (fun q hq => hp q (List.mem_cons_of_mem _ hq))
    refine ⟨b1, fun k => ?_⟩
    show tickHigh (paintPulses (paintHigh xl p.1 p.2) rest) k = _
    rw [b2 k, a2 k]
    show _ = ((decide (p.1 ≤ k ∧ k < p.1 + p.2) || inPulses rest k) || tickHigh xl k)
    cases inPulses rest k <;> cases decide (p.1 ≤ k ∧ k < p.1 + p.2) <;> cases tickHigh xl k <;> rfl

theorem keyElements_eq (items : List (Nat × Nat)) : ∀ (xl : List Nat) (k : Nat),
    (keyElements xl k items).1 = paintPulses xl (pulsesOf k items) := by
  induction items with
  | nil => intro xl k; rfl
  | cons item rest ih =>
    intro xl k
    show (keyElements (paintHigh xl k item.1) (k + item.1 + item.2) rest).1 = _
    rw [ih]
    rfl

theorem jjy_morse_eq (xl : List Nat) :
    tsig_xmit_jjy_morse xl = paintPulses (paintLow xl 800 180) jjyMorsePulses := by
  unfold tsig_xmit_jjy_morse jjyMorsePulses
  rw [keyElements_eq]
  rfl

theorem morseSpan_checked : morseSpanOk = true := by decide!

theorem jjy_morse_spec (xl : List Nat) (hxl : XmitOk xl) :
    XmitOk (tsig_xmit_jjy_morse xl) ∧
    ∀ k, tickHigh (tsig_xmit_jjy_morse xl) k
      = (inPulses jjyMorsePulses k || (!decide (800 ≤ k ∧ k < 800 + 180) && tickHigh xl k)) := by
  obtain ⟨a1, a2⟩ := paintLow_spec 180 xl 800 hxl (by decide)
  obtain ⟨b1, b2⟩ := paintPulses_spec jjyMorsePulses _ a1 (by decide)
  rw [jjy_morse_eq]
  exact ⟨b1, fun k => by rw [b2 k, a2 k]⟩

theorem jjy_bits_announce_49 (d : tsig_datetime_t) (ha : d.min = 15 ∨ d.min = 45) :
    (jjy_bits d).getD 49 0 = 255 := by
  unfold jjy_bits
  rw [if_pos ha]
  unfold jjy_bits_parity
  rw [getD_setEvenParity_of_ne _ 37 _ _ 49 (by decide),
    getD_setEvenParity_of_ne _ 36 _ _ 49 (by decide),
    getD_assign_of_not_mem _ _ 49 (by
      intro a h
      simp only [minuteHourDoyBits, List.mem_cons, List.mem_singleton, List.not_mem_nil,
        or_false] at h
      rcases h with h | h | h | h | h | h | h | h | h | h | h | h | h | h | h | h | h | h | h
        | h | h | h | h <;> rw [h] <;> dsimp only <;> omega)]
  rfl

theorem jjy_announce_ticks (d : tsig_datetime_t) (p : tsig_params_t) (xl : List Nat)
    (hxl : XmitOk xl) (ha : d.min = 15 ∨ d.min = 45) :
    (∀ k, 800 ≤ k → k < 980 → tickHigh (tsig_xmit_jjy d p xl) k = inPulses jjyMorsePulses k) ∧
    (∀ k, 980 ≤ k → k < 1000 → tickHigh (tsig_xmit_jjy d p xl) k = decide (k < 984)) := by
  have hl : (jjy_bits d).length = 60 := jjy_bits_length d
  have l1 : ((List.take 40 (jjy_bits d)).map jjy_hi).length = 40 := by
    rw [List.length_map, List.length_take, hl]; rfl
  have l2 : ((List.drop 49 (jjy_bits d)).map jjy_hi).length = 11 := by
    rw [List.length_map, List.length_drop, hl]
  have hle : ∀ l : List Nat, ∀ hi ∈ l.map jjy_hi, hi ≤ 20 := by
    intro l hi hhi
    obtain ⟨b, _, hb⟩ := List.mem_map.1 hhi
    rw [← hb]; exact jjy_hi_le b
  obtain ⟨a1, -⟩ := paintHighLow_spec ((List.take 40 (jjy_bits d)).map jjy_hi) xl 0 hxl
    (hle _) (by rw [l1]; decide)
  obtain ⟨b1, b2⟩ := jjy_morse_spec _ a1
  obtain ⟨-, c2⟩ := paintHighLow_spec ((List.drop 49 (jjy_bits d)).map jjy_hi) _ 980 b1
    (hle _) (by rw [l2])
  rw [l2] at c2
  have e : tsig_xmit_jjy d p xl = paintHighLow (tsig_xmit_jjy_morse
      (paintHighLow xl 0 ((List.take 40 (jjy_bits d)).map jjy_hi))) 980
      ((List.drop 49 (jjy_bits d)).map jjy_hi) := by
    show (if d.min = 15 ∨ d.min = 45 then _ else _) = _
    rw [if_pos ha]
    rfl
  rw [e]
  constructor
  · intro k h1 h2
    rw [c2 k, if_neg (by omega), b2 k]
    have : decide (800 ≤ k ∧ k < 800 + 180) = true := decide_eq_true (by omega)
    rw [this]
    simp
  · intro k h1 h2
    rw [c2 k, if_pos (by omega)]
    have e1 : (k - 980) / 20 = 0 := by omega
    have e2 : (k - 980) % 20 = k - 980 := by omega
    have e3 : ((List.drop 49 (jjy_bits d)).map jjy_hi).getD 0 0 = 4 := by
      rw [getD_map_lt _ _ _ (by rw [List.length_drop, hl]; decide),
        List.getD_eq_getElem?_getD, List.getElem?_drop, ← List.getD_eq_getElem?_getD]
      show jjy_hi ((jjy_bits d).getD 49 0) = 4
      rw [jjy_bits_announce_49 d ha]
      rfl
    rw [e1, e2, e3]
    by_cases h : k < 984
    · rw [decide_eq_true h, decide_eq_true (show k - 980 < 4 by omega)]
    · rw [decide_eq_false h, decide_eq_false (show ¬ k - 980 < 4 by omega)]

/-! ## The lifecycle state and the carrier set-up -/

theorem generate_loop_next (state : Int) (settled : Nat → Bool) (n : Nat) :
    ∀ (i : Nat) (r : tsig_waveform_ctx_t × Int),
      (generate_loop state settled n i r).2 = r.2 ∨
      (state = TSIG_STATE_FADE_IN ∧ (generate_loop state settled n i r).2 = TSIG_STATE_RUNNING) ∨
      (state = TSIG_STATE_FADE_OUT ∧
        (generate_loop state settled n i r).2 = TSIG_STATE_SUSPEND) := by
  induction n with
  | zero => intro i r; exact Or.inl rfl
  | succ n ih =>
    intro i r
    obtain ⟨ctx, next⟩ := r
    unfold generate_loop
    split_ifs with h1 h2 h3 h4 h5 h6
    all_goals
      first
        | exact ih _ _
        | (rcases ih (i + 1) (_, TSIG_STATE_RUNNING) with h | h | h
           · exact Or.inr (Or.inl ⟨h1, h⟩)
           · exact Or.inr (Or.inl h)
           · exact Or.inr (Or.inr h))
        | (rcases ih (i + 1) (_, TSIG_STATE_SUSPEND) with h | h | h
           · exact Or.inr (Or.inr ⟨h4, h⟩)
           · exact Or.inr (Or.inl h)
           · exact Or.inr (Or.inr h))

theorem finish_process_state (m : tsig_module) (state next : Int)
    (h : m.tsig_ctx.state = state) : (finish_process m state next).tsig_ctx.state = next := by
  unfold finish_process
  split
  · rfl
  · rename_i hn
    rw [h]
    exact (not_not.1 hn).symm

theorem delay_finished_state (m : tsig_module) :
    (is_state_transition_delay_finished m).1.tsig_ctx.state = m.tsig_ctx.state := by
  unfold is_state_transition_delay_finished
  split_ifs <;> rfl

theorem tsig_gcd_loop_eq (fuel : Nat) : ∀ a b : Nat, b < fuel →
    tsig_gcd_loop fuel a b = Nat.gcd a b := by
  induction fuel with
  | zero => intro a b h; omega
  | succ n ih =>
    intro a b h
    unfold tsig_gcd_loop
    split
    · rename_i hb
      rw [hb, Nat.gcd_zero_right]
    · rename_i hb
      have hlt : a % b < b := Nat.mod_lt _ (Nat.pos_of_ne_zero hb)
      rw [ih b (a % b) (by omega), Nat.gcd_comm a b, Nat.gcd_rec b a, Nat.gcd_comm]

theorem tsig_gcd_eq (a b : Nat) : tsig_gcd a b = Nat.gcd a b :=
  tsig_gcd_loop_eq (b + 1) a b (Nat.lt_succ_self b)

theorem phase_advance_eq (ctx : tsig_waveform_ctx_t) (hb : ctx.phase_base ≤ 2147483648)
    (hp : ctx.phase < ctx.phase_base) (hd : ctx.phase_delta < ctx.phase_base) :
    phase_advance ctx
      = { ctx with phase := (ctx.phase + ctx.phase_delta) % ctx.phase_base } := by
  unfold phase_advance
  rw [u32_of_lt (show ctx.phase + ctx.phase_delta < 4294967296 by omega)]
  congr 1
  split
  · rename_i h
    rw [sub32_of_le h (by omega)]
    rw [Nat.mod_eq_sub_mod h, Nat.mod_eq_of_lt (by omega)]
  · rename_i h
    rw [Nat.mod_eq_of_lt (by omega)]

theorem phase_iterate (n : Nat) : ∀ ctx : tsig_waveform_ctx_t,
    ctx.phase_base ≤ 2147483648 → ctx.phase < ctx.phase_base →
    ctx.phase_delta < ctx.phase_base →
    Nat.iterate phase_advance n ctx
      = { ctx with phase := (ctx.phase + n * ctx.phase_delta) % ctx.phase_base } := by
  induction n with
  | zero =>
    intro ctx hb hp hd
    show ctx = _
    rw [Nat.zero_mul, Nat.add_zero, Nat.mod_eq_of_lt hp]
  | succ n ih =>
    intro ctx hb hp hd
    have hpos : 0 < ctx.phase_base := by omega
    have h := ih { ctx with phase := (ctx.phase + ctx.phase_delta) % ctx.phase_base } hb
      (Nat.mod_lt _ hpos) hd
    show Nat.iterate phase_advance n (phase_advance ctx) = _
    rw [phase_advance_eq ctx hb hp hd]
    refine h.trans ?_
    show ({ ctx with phase := ((ctx.phase + ctx.phase_delta) % ctx.phase_base
      + n * ctx.phase_delta) % ctx.phase_base } : tsig_waveform_ctx_t) = _
    congr 1
    rw [Nat.mod_add_mod]
    congr 1
    rw [Nat.succ_mul]
    omega

/-! ### The fuelled loop -/

theorem forU8_zero {σ : Type} (hi : Nat) (body : Nat → σ → Option σ) (i : Nat) (s : σ) :
    forU8 hi body 0 i s = none := rfl

theorem forU8_succ {σ : Type} (hi : Nat) (body : Nat → σ → Option σ) (fuel i : Nat) (s : σ) :
    forU8 hi body (fuel + 1) i s =
      if i ≤ hi then (body i s).bind (fun t => forU8 hi body fuel (u8 (i + 1)) t) else some s :=
  rfl

/-- More fuel and a body that returns more often keep a result. -/
theorem forU8_mono {σ : Type} (hi : Nat) (body body1 : Nat → σ → Option σ)
    (hb : ∀ i s t, body i s = some t → body1 i s = some t) :
    ∀ (fuel fuel1 i : Nat) (s t : σ), fuel ≤ fuel1 → forU8 hi body fuel i s = some t →
      forU8 hi body1 fuel1 i s = some t := by
  intro fuel
  induction fuel with
  | zero => intro fuel1 i s t _ h; simp [forU8_zero] at h
  | succ n ih =>
    intro fuel1 i s t hle h
    obtain ⟨m, rfl⟩ : ∃ m, fuel1 = m + 1 := ⟨fuel1 - 1, by omega⟩
    rw [forU8_succ] at h ⊢
    by_cases hi1 : i ≤ hi
    · rw [if_pos hi1] at h ⊢
      obtain ⟨x, hx, hx2⟩ := Option.bind_eq_some.1 h
      rw [hb i s x hx]
      exact ih m (u8 (i + 1)) x t (by omega) hx2
    · rw [if_neg hi1] at h ⊢
      exact h

/-- A loop `for (uint8_t i = ...; i <= 255; i++)` does not end. -/
theorem forU8_diverges {σ : Type} (body : Nat → σ → Option σ) :
    ∀ (fuel i : Nat) (s : σ), i ≤ 255 → forU8 255 body fuel i s = none := by
  intro fuel
  induction fuel with
  | zero => intro i s _; rfl
  | succ n ih =>
    intro i s hi
    rw [forU8_succ, if_pos hi]
    cases hb : body i s with
    | none => rfl
    | some t =>
      simp only [Option.bind]
      exact ih (u8 (i + 1)) t (by unfold u8; omega)

/-- A loop with a bound below 255 and a body that returns ends, given 257 units of fuel. -/
theorem forU8_total {σ : Type} (hi : Nat) (hhi : hi ≤ 254) (body : Nat → σ → Option σ)
    (hb : ∀ i s, ∃ t, body i s = some t) :
    ∀ (fuel i : Nat) (s : σ), i ≤ 255 → 257 ≤ fuel + i → ∃ t, forU8 hi body fuel i s = some t := by
  intro fuel
  induction fuel with
  | zero => intro i s h1 h2; omega
  | succ n ih =>
    intro i s h1 h2
    rw [forU8_succ]
    by_cases hi1 : i ≤ hi
    · rw [if_pos hi1]
      obtain ⟨t, ht⟩ := hb i s
      rw [ht]
      simp only [Option.bind]
      have hu : u8 (i + 1) = i + 1 := by unfold u8; omega
      rw [hu]
      exact ih (i + 1) t (by omega) (by omega)
    · rw [if_neg hi1]; exact ⟨s, rfl⟩

theorem u8i_natCast (n : Nat) (h : n < 256) : u8i (n : Int) = n := by
  unfold u8i; omega

theorem u8_small (n : Nat) (h : n < 256) : u8 n = n := by
  unfold u8; omega

theorem edist_min_natCast (a b : Nat) : edist_min (a : Int) (b : Int) = ((min a b : Nat) : Int) := by
  unfold edist_min; split <;> omega

theorem edist_max_natCast (a b : Nat) : edist_max (a : Int) (b : Int) = ((max a b : Nat) : Int) := by
  unfold edist_max; split <;> omega

/-! ### Fuel of `edist_calc` -/

theorem edist_row_mono (fuel fuel1 : Nat) (hle : fuel ≤ fuel1) (s1 idxs1 s2 idxs2 : List Nat)
    (len2 i : Nat) (st t : edist_rows)
    (h : edist_row fuel s1 idxs1 s2 idxs2 len2 i st = some t) :
    edist_row fuel1 s1 idxs1 s2 idxs2 len2 i st = some t := by
  unfold edist_row at h ⊢
  obtain ⟨c, hc, hc2⟩ := Option.map_eq_some'.1 h
  rw [forU8_mono _ _ _ (fun _ _ _ hh => hh) fuel fuel1 _ _ _ hle hc]
  simpa using hc2

theorem edist_rows_init_mono (fuel fuel1 : Nat) (hle : fuel ≤ fuel1) (len1 len2 : Nat)
    (t : edist_rows) (h : edist_rows_init fuel len1 len2 = some t) :
    edist_rows_init fuel1 len1 len2 = some t := by
  unfold edist_rows_init at h ⊢
  obtain ⟨c, hc, hc2⟩ := Option.map_eq_some'.1 h
  rw [forU8_mono _ _ _ (fun _ _ _ hh => hh) fuel fuel1 _ _ _ hle hc]
  simpa using hc2

theorem edist_calc_ordered_mono (fuel fuel1 : Nat) (hle : fuel ≤ fuel1)
    (s1 idxs1 : List Nat) (len1 : Nat) (s2 idxs2 : List Nat) (len2 v : Nat)
    (h : edist_calc_ordered fuel s1 idxs1 len1 s2 idxs2 len2 = some v) :
    edist_calc_ordered fuel1 s1 idxs1 len1 s2 idxs2 len2 = some v := by
  unfold edist_calc_ordered at h ⊢
  by_cases h0 : len2 = 0
  · rw [if_pos h0] at h ⊢; exact h
  rw [if_neg h0] at h ⊢
  by_cases h1 : len2 = 1
  · rw [if_pos h1] at h ⊢; exact h
  rw [if_neg h1] at h ⊢
  by_cases h2 : len2 = 2
  · rw [if_pos h2] at h ⊢; exact h
  rw [if_neg h2] at h ⊢
  obtain ⟨st, hst, hv⟩ := Option.map_eq_some'.1 h
  obtain ⟨st0, hst0, hrun⟩ := Option.bind_eq_some.1 hst
  rw [edist_rows_init_mono fuel fuel1 hle len1 len2 st0 hst0]
  simp only [Option.bind]
  rw [forU8_mono _ _ _ (fun i s t hh => edist_row_mono fuel fuel1 hle s1 idxs1 s2 idxs2 len2 i s t hh)
    fuel fuel1 _ _ _ hle hrun]
  simpa using hv

/-- A value returned with some fuel is returned with any larger fuel. -/
theorem edist_calc_mono (fuel fuel1 : Nat) (hle : fuel ≤ fuel1)
    (s1 idxs1 : List Nat) (len1 : Nat) (s2 idxs2 : List Nat) (len2 v : Nat)
    (h : edist_calc fuel s1 idxs1 len1 s2 idxs2 len2 = some v) :
    edist_calc fuel1 s1 idxs1 len1 s2 idxs2 len2 = some v := by
  unfold edist_calc at h ⊢
  split at h
  · rename_i hlt; rw [if_pos hlt]; exact edist_calc_ordered_mono fuel fuel1 hle _ _ _ _ _ _ _ h
  · rename_i hlt; rw [if_neg hlt]; exact edist_calc_ordered_mono fuel fuel1 hle _ _ _ _ _ _ _ h

theorem edist_mono (fuel fuel1 : Nat) (hle : fuel ≤ fuel1) (a b : List Nat) (v : Nat)
    (h : edist fuel a b = some v) : edist fuel1 a b = some v :=
  edist_calc_mono fuel fuel1 hle _ _ _ _ _ _ _ h

/-- With 255 code points in the longer string and at least three in the shorter one the
row loop `for (uint8_t i = 1; i <= len1; i++)` does not end. -/
theorem edist_calc_ordered_255 (fuel : Nat) (s1 idxs1 s2 idxs2 : List Nat) (len2 : Nat)
    (h3 : 3 ≤ len2) : edist_calc_ordered fuel s1 idxs1 255 s2 idxs2 len2 = none := by
  unfold edist_calc_ordered
  rw [if_neg (by omega), if_neg (by omega), if_neg (by omega)]
  cases hinit : edist_rows_init fuel 255 len2 with
  | none => rfl
  | some st =>
    simp only [Option.bind]
    rw [forU8_diverges _ fuel 1 st (by omega)]
    rfl

/-! ### One row of `edist_calc` -/

theorem transpose_cell_length (s1 idxs1 s2 idxs2 : List Nat) (i : Nat) (buf2 b : List Nat)
    (j : Nat) : (edist_transpose_cell s1 idxs1 s2 idxs2 i buf2 b j).length = b.length := by
  unfold edist_transpose_cell
  split <;> simp

theorem transpose_cell_frame (s1 idxs1 s2 idxs2 : List Nat) (i : Nat) (buf2 b : List Nat)
    (j k : Nat) (h : k ≠ j) :
    (edist_transpose_cell s1 idxs1 s2 idxs2 i buf2 b j).getD k 0 = b.getD k 0 := by
  unfold edist_transpose_cell
  split
  · rw [getD_set, if_neg (fun hh => h hh.1.symm)]
  · rfl

theorem transpose_cell_diag (s1 idxs1 s2 idxs2 : List Nat) (i : Nat) (buf1 buf2 b : List Nat)
    (j : Nat) (hj : j < b.length) :
    (edist_transpose_cell s1 idxs1 s2 idxs2 i buf2 (b.set j (buf1.getD (j - 1) 0)) j).getD j 0
      = diag_value s1 idxs1 s2 idxs2 i buf1 buf2 j := by
  unfold edist_transpose_cell diag_value
  split
  · rw [getD_set, if_pos ⟨rfl, by simpa using hj⟩, getD_set, if_pos ⟨rfl, hj⟩]
  · rw [getD_set, if_pos ⟨rfl, hj⟩]

theorem cell_length (s1 idxs1 s2 idxs2 : List Nat) (i : Nat) (buf1 buf2 : List Nat) (j : Nat)
    (c : edist_cols) :
    (edist_cell s1 idxs1 s2 idxs2 i buf1 buf2 j c).buf0.length = c.buf0.length := by
  unfold edist_cell
  simp [transpose_cell_length]

theorem cell_frame (s1 idxs1 s2 idxs2 : List Nat) (i : Nat) (buf1 buf2 : List Nat) (j : Nat)
    (c : edist_cols) (k : Nat) (h : k ≠ j) :
    (edist_cell s1 idxs1 s2 idxs2 i buf1 buf2 j c).buf0.getD k 0 = c.buf0.getD k 0 := by
  unfold edist_cell
  simp only
  rw [transpose_cell_frame _ _ _ _ _ _ _ _ _ h, getD_set, if_neg (fun hh => h hh.1.symm)]

theorem cell_diag (s1 idxs1 s2 idxs2 : List Nat) (i : Nat) (buf1 buf2 : List Nat) (j : Nat)
    (c : edist_cols) (hup : c.up_left = buf1.getD (j - 1) 0) (hj : j < c.buf0.length)
    (he : edist_utf16_eq s1 idxs1 (u8i ((i : Int) - 1)) s2 idxs2 (u8i ((j : Int) - 1)) ≠ 0) :
    (edist_cell s1 idxs1 s2 idxs2 i buf1 buf2 j c).buf0.getD j 0
      = diag_value s1 idxs1 s2 idxs2 i buf1 buf2 j := by
  unfold edist_cell
  simp only
  have hv : edist_cell_value s1 idxs1 s2 idxs2 i buf1 j c = buf1.getD (j - 1) 0 := by
    unfold edist_cell_value
    rw [if_neg he, hup]
  rw [hv]
  exact transpose_cell_diag s1 idxs1 s2 idxs2 i buf1 buf2 c.buf0 j hj

/-- The column loop of a row: it ends, writes the columns from `j0` to `r` only, and a
column whose code points are equal gets its `diag_value`. -/
theorem cells_spec (s1 idxs1 s2 idxs2 : List Nat) (i : Nat) (buf1 buf2 : List Nat) (r : Nat)
    (hr : r ≤ 254) :
    ∀ (fuel j0 : Nat) (c : edist_cols), j0 ≤ 255 → 257 ≤ fuel + j0 →
      ∃ c1, forU8 r (fun j c => some (edist_cell s1 idxs1 s2 idxs2 i buf1 buf2 j c)) fuel j0 c
            = some c1 ∧
        c1.buf0.length = c.buf0.length ∧
        (∀ k, (k < j0 ∨ r < k) → c1.buf0.getD k 0 = c.buf0.getD k 0) ∧
        (c.up_left = buf1.getD (j0 - 1) 0 → ∀ k, j0 ≤ k → k ≤ r → k < c.buf0.length →
          edist_utf16_eq s1 idxs1 (u8i ((i : Int) - 1)) s2 idxs2 (u8i ((k : Int) - 1)) ≠ 0 →
          c1.buf0.getD k 0 = diag_value s1 idxs1 s2 idxs2 i buf1 buf2 k) := by
  intro fuel
  induction fuel with
  | zero => intro j0 c h1 h2; omega
  | succ n ih =>
    intro j0 c h1 h2
    rw [forU8_succ]
    by_cases hj : j0 ≤ r
    · rw [if_pos hj]
      simp only [Option.bind]
      rw [u8_small (j0 + 1) (by omega)]
      obtain ⟨c1, hc1, hlen, hframe, hdiag⟩ :=
        ih (j0 + 1) (edist_cell s1 idxs1 s2 idxs2 i buf1 buf2 j0 c) (by omega) (by omega)
      refine ⟨c1, hc1, ?_, ?_, ?_⟩
      · rw [hlen, cell_length]
      · intro k hk
        rw [hframe k (by omega), cell_frame _ _ _ _ _ _ _ _ _ _ (by omega)]
      · intro hup k hk1 hk2 hk3 he
        by_cases hkj : k = j0
        · subst hkj
          rw [hframe k (by omega)]
          exact cell_diag s1 idxs1 s2 idxs2 i buf1 buf2 k c hup hk3 he
        · exact hdiag (by simp [edist_cell]) k (by omega) hk2 (by rw [cell_length]; exact hk3) he
    · rw [if_neg hj]
      refine ⟨c, rfl, rfl, fun _ _ => rfl, ?_⟩
      intro _ k hk1 hk2
      omega

theorem row_first_length (s1 idxs1 s2 idxs2 : List Nat) (i : Nat) (st : edist_rows) :
    (edist_row_first s1 idxs1 s2 idxs2 i st).buf0.length = st.buf2.length := by
  unfold edist_row_first
  simp [transpose_cell_length]

theorem row_first_frame (s1 idxs1 s2 idxs2 : List Nat) (i : Nat) (st : edist_rows) (k : Nat)
    (h0 : k ≠ 0) (hl : k ≠ edist_row_l st) :
    (edist_row_first s1 idxs1 s2 idxs2 i st).buf0.getD k 0 = st.buf2.getD k 0 := by
  unfold edist_row_first
  simp only
  rw [transpose_cell_frame _ _ _ _ _ _ _ _ _ hl, getD_set, if_neg (fun hh => hl hh.1.symm),
    getD_set, if_neg (fun hh => h0 hh.1.symm)]

theorem row_last_length (s1 idxs1 s2 idxs2 : List Nat) (len2 i : Nat) (st : edist_rows)
    (c : edist_cols) :
    (edist_row_last s1 idxs1 s2 idxs2 len2 i st c).buf0.length = c.buf0.length := by
  unfold edist_row_last
  simp only
  split
  · rfl
  · simp [transpose_cell_length]

theorem row_last_frame (s1 idxs1 s2 idxs2 : List Nat) (len2 i : Nat) (st : edist_rows)
    (c : edist_cols) (k : Nat) (hk : k ≠ edist_row_r len2 st + 1) :
    (edist_row_last s1 idxs1 s2 idxs2 len2 i st c).buf0.getD k 0 = c.buf0.getD k 0 := by
  unfold edist_row_last
  simp only
  split
  · rfl
  · rw [transpose_cell_frame _ _ _ _ _ _ _ _ _ hk, getD_set, if_neg (fun hh => hk hh.1.symm)]

/-- One round of the row loop: it ends; the buffers rotate; outside column 0, column `l`,
the columns of the column loop and column `r + 1` the new `buf0` is the old `buf2`; a
column of the column loop whose code points are equal gets its `diag_value`. -/
theorem row_spec (fuel : Nat) (hfuel : 257 ≤ fuel) (s1 idxs1 s2 idxs2 : List Nat)
    (len2 i : Nat) (st : edist_rows) (hr : edist_row_r len2 st ≤ 254)
    (hl : edist_row_l st ≤ 254) :
    ∃ st1, edist_row fuel s1 idxs1 s2 idxs2 len2 i st = some st1 ∧
      st1.buf1 = st.buf0 ∧ st1.buf2 = st.buf1 ∧
      st1.llimit = i16 (st.llimit + 1) ∧ st1.rlimit = u8 (st.rlimit + 1) ∧
      st1.buf0.length = st.buf2.length ∧
      (∀ k, k ≠ 0 → k ≠ edist_row_l st →
        ¬ (edist_row_l st < k ∧ k ≤ edist_row_r len2 st) → k ≠ edist_row_r len2 st + 1 →
        st1.buf0.getD k 0 = st.buf2.getD k 0) ∧
      (∀ k, edist_row_l st < k → k ≤ edist_row_r len2 st → k < st.buf2.length →
        edist_utf16_eq s1 idxs1 (u8i ((i : Int) - 1)) s2 idxs2 (u8i ((k : Int) - 1)) ≠ 0 →
        st1.buf0.getD k 0 = diag_value s1 idxs1 s2 idxs2 i st.buf0 st.buf1 k) := by
  obtain ⟨c1, hc1, hlen, hframe, hdiag⟩ :=
    cells_spec s1 idxs1 s2 idxs2 i st.buf0 st.buf1 (edist_row_r len2 st) hr fuel
      (edist_row_l st + 1) (edist_row_first s1 idxs1 s2 idxs2 i st) (by omega) (by omega)
  refine ⟨edist_row_last s1 idxs1 s2 idxs2 len2 i st c1, ?_, rfl, rfl, rfl, rfl, ?_, ?_, ?_⟩
  · unfold edist_row
    rw [u8_small _ (by omega), hc1]
    rfl
  · rw [row_last_length, hlen, row_first_length]
  · intro k h0 h1 h2 h3
    rw [row_last_frame _ _ _ _ _ _ _ _ _ h3, hframe k (by omega), row_first_frame _ _ _ _ _ _ _ h0 h1]
  · intro k h1 h2 h3 he
    rw [row_last_frame _ _ _ _ _ _ _ _ _ (by omega)]
    exact hdiag (by simp [edist_row_first]) k (by omega) h2 (by rw [row_first_length]; exact h3) he

/-! ### Two strings of 172 code points: `rlimit` wraps in row 171 -/

theorem row_l_val (st : edist_rows) (i : Nat) (h : st.llimit = (i : Int) - 84) (hi : i ≤ 300) :
    edist_row_l st = max (i - 84) 1 := by
  unfold edist_row_l edist_max u8i
  rw [h]
  split <;> omega

theorem row_r_val (st : edist_rows) (n : Nat) (h : st.rlimit = n) :
    edist_row_r 172 st = min n 172 := by
  unfold edist_row_r edist_min u8i
  rw [h]
  split <;> omega

theorem long_step (fuel : Nat) (hfuel : 257 ≤ fuel) (s1 idxs1 s2 idxs2 : List Nat) (c : Nat)
    (hc : c ≤ 254) (i : Nat) (hi : i ≤ 168) (st : edist_rows) (hinv : long_inv c i st)
    (he : edist_utf16_eq s1 idxs1 (u8i (((i + 1 : Nat) : Int) - 1)) s2 idxs2
      (u8i (((i + 4 : Nat) : Int) - 1)) ≠ 0) :
    ∃ st1, edist_row fuel s1 idxs1 s2 idxs2 172 (i + 1) st = some st1 ∧
      long_inv c (i + 1) st1 := by
  obtain ⟨h1, h2, h3, h4, h5, h6, h7⟩ := hinv
  have hl := row_l_val st i h1 (by omega)
  have hr := row_r_val st (85 + i) h2
  obtain ⟨st1, hst1, hb1, hb2, hll, hrl, hlen, _, hdiag⟩ :=
    row_spec fuel hfuel s1 idxs1 s2 idxs2 172 (i + 1) st (by omega) (by omega)
  refine ⟨st1, hst1, ?_, ?_, ?_, ?_, ?_, ?_, ?_⟩
  · rw [hll, h1]; unfold i16; omega
  · rw [hrl, h2]; unfold u8; omega
  · rw [hlen, h5]
  · rw [hb1, h3]
  · rw [hb2, h4]
  · rw [hdiag (i + 4) (by omega) (by omega) (by omega) he]
    unfold diag_value
    split
    · rename_i hcond
      rcases h7 with h7 | h7
      · omega
      · have e1 : i + 4 - 1 = i + 3 := by omega
        have e2 : i + 4 - 2 = i + 2 := by omega
        rw [e1, e2, h6]
        unfold edist_min u8i
        split <;> omega
    · have e1 : i + 4 - 1 = i + 3 := by omega
      rw [e1, h6]
  · right
    rw [hb1]
    have e1 : i + 1 + 2 = i + 3 := by omega
    rw [e1, h6]
    omega

/-- Rows 170, 171 and 172 for two strings of 172 code points: in row 171 `rlimit++` wraps
from 255 to 0, so row 172 has `r = 0` and leaves column 172 as row 169 wrote it. -/
theorem long_tail (fuel : Nat) (hfuel : 257 ≤ fuel) (s1 idxs1 s2 idxs2 : List Nat) (c : Nat)
    (g : Nat) (hg : 4 ≤ g) (st : edist_rows) (hinv : long_inv c 169 st) :
    ∃ st1, forU8 172 (edist_row fuel s1 idxs1 s2 idxs2 172) g 170 st = some st1 ∧
      st1.buf0.getD 172 0 = c := by
  obtain ⟨h1, h2, h3, h4, h5, h6, _⟩ := hinv
  -- row 170
  obtain ⟨sa, hsa, ha1, ha2, hall, harl, halen, _, _⟩ :=
    row_spec fuel hfuel s1 idxs1 s2 idxs2 172 170 st
      (by rw [row_r_val st _ h2]; omega) (by rw [row_l_val st 169 h1 (by omega)]; omega)
  have hall1 : sa.llimit = ((170 : Nat) : Int) - 84 := by rw [hall, h1]; unfold i16; omega
  have harl1 : sa.rlimit = 255 := by rw [harl, h2]; rfl
  -- row 171
  obtain ⟨sb, hsb, hb1, hb2, hbll, hbrl, hblen, _, _⟩ :=
    row_spec fuel hfuel s1 idxs1 s2 idxs2 172 171 sa
      (by rw [row_r_val sa _ harl1]; omega) (by rw [row_l_val sa 170 hall1 (by omega)]; omega)
  have hbll1 : sb.llimit = ((171 : Nat) : Int) - 84 := by rw [hbll, hall1]; unfold i16; omega
  have hbrl1 : sb.rlimit = 0 := by rw [hbrl, harl1]; rfl
  -- row 172
  have hlc := row_l_val sb 171 hbll1 (by omega)
  have hrc := row_r_val sb 0 hbrl1
  obtain ⟨sc, hsc, _, _, _, _, _, hcframe, _⟩ :=
    row_spec fuel hfuel s1 idxs1 s2 idxs2 172 172 sb (by omega) (by omega)
  obtain ⟨g3, rfl⟩ : ∃ g3, g = g3 + 4 := ⟨g - 4, by omega⟩
  refine ⟨sc, ?_, ?_⟩
  · rw [forU8_succ, if_pos (by omega), hsa]
    simp only [Option.bind]
    rw [show u8 (170 + 1) = 171 from rfl, forU8_succ, if_pos (by omega), hsb]
    simp only [Option.bind]
    rw [show u8 (171 + 1) = 172 from rfl, forU8_succ, if_pos (by omega), hsc]
    simp only [Option.bind]
    rw [show u8 (172 + 1) = 173 from rfl, forU8_succ, if_neg (by omega)]
  · rw [hcframe 172 (by omega) (by omega) (by omega) (by omega), hb2, ha1]
    exact h6

/-- Rows `i + 1` to 172 for two strings of 172 code points whose code points three
columns right of the diagonal are equal: the value returned is the entry `c` that the
state after row `i` has three columns right of the diagonal. -/
theorem long_rows (fuel : Nat) (hfuel : 257 ≤ fuel) (s1 idxs1 s2 idxs2 : List Nat) (c : Nat)
    (hc : c ≤ 254) (i0 : Nat)
    (he : ∀ i, i0 ≤ i → i ≤ 168 →
      edist_utf16_eq s1 idxs1 (u8i (((i + 1 : Nat) : Int) - 1)) s2 idxs2
        (u8i (((i + 4 : Nat) : Int) - 1)) ≠ 0) :
    ∀ (m i g : Nat) (st : edist_rows), i + m = 169 → i0 ≤ i → long_inv c i st → 173 ≤ g + i →
      ∃ st1, forU8 172 (edist_row fuel s1 idxs1 s2 idxs2 172) g (i + 1) st = some st1 ∧
        st1.buf0.getD 172 0 = c := by
  intro m
  induction m with
  | zero =>
    intro i g st hm _ hinv hg
    have hi : i = 169 := by omega
    subst hi
    exact long_tail fuel hfuel s1 idxs1 s2 idxs2 c g (by omega) st hinv
  | succ n ih =>
    intro i g st hm hi0 hinv hg
    obtain ⟨st1, hst1, hinv1⟩ :=
      long_step fuel hfuel s1 idxs1 s2 idxs2 c hc i (by omega) st hinv (he i hi0 (by omega))
    obtain ⟨g1, rfl⟩ : ∃ g1, g = g1 + 1 := ⟨g - 1, by omega⟩
    obtain ⟨st2, hst2, hres⟩ := ih (i + 1) g1 st1 (by omega) (by omega) hinv1 (by omega)
    refine ⟨st2, ?_, hres⟩
    rw [forU8_succ, if_pos (by omega), hst1]
    simp only [Option.bind]
    rw [u8_small _ (by omega)]
    exact hst2

/-! ### Strings without surrogates -/

theorem getD_range1 (n i : Nat) (h : i < n) : (List.range' 1 n).getD i 0 = i + 1 := by
  rw [List.getD_eq_getElem?_getD, List.getElem?_range' _ _ h]
  simp; omega

theorem pair_plain (n i : Nat) (h : i < n) : edist_is_surrogate_pair (List.range' 1 n) i = 0 := by
  unfold edist_is_surrogate_pair cbool
  rw [getD_range1 n i h]
  by_cases h0 : i = 0
  · subst h0; simp
  · rw [if_pos h0, getD_range1 n (i - 1) (by omega)]
    rw [if_neg (by omega)]

/-- With index maps of strings without surrogates, `edist_utf16_eq` compares code units. -/
theorem eq_plain (s1 s2 : List Nat) (n i j : Nat) (hn : n ≤ 255) (hi : i < n) (hj : j < n) :
    edist_utf16_eq s1 (List.range' 1 n) i s2 (List.range' 1 n) j
      = cbool (s1.getD i 0 = s2.getD j 0) := by
  unfold edist_utf16_eq
  rw [pair_plain n i hi, pair_plain n j hj, getD_range1 n i hi, getD_range1 n j hj]
  have e1 : u8i (((i + 1 : Nat) : Int) - 1 - ((0 : Nat) : Int)) = i := by unfold u8i; omega
  have e2 : u8i (((j + 1 : Nat) : Int) - 1 - ((0 : Nat) : Int)) = j := by unfold u8i; omega
  rw [e1, e2]
  simp

theorem getD_replicate_lt (n a i : Nat) (h : i < n) : (List.replicate n a).getD i 0 = a := by
  rw [List.getD_eq_getElem?_getD, List.getElem?_replicate, if_pos h]
  rfl

set_option maxRecDepth 100000 in
theorem make_idxs_a172 : edist_make_idxs (List.replicate 172 97) 172 (List.replicate 172 0)
    = (List.range' 1 172, 172) := by decide!

set_option maxRecDepth 100000 in
theorem make_idxs_ba171 :
    edist_make_idxs (98 :: List.replicate 171 97) 172 (List.replicate 172 0)
      = (List.range' 1 172, 172) := by decide!

set_option maxRecDepth 100000 in
theorem rows_init_172 : (edist_rows_init 257 172 172).map
    (fun st => decide (st.llimit = -84 ∧ st.rlimit = 85 ∧ st.buf0.length = 173 ∧
      st.buf1.length = 173 ∧ st.buf2.length = 173 ∧ st.buf0.getD 3 0 = 3)) = some true := by
  decide!

set_option maxRecDepth 100000 in
theorem row1_ba171 : ((edist_rows_init 257 172 172).bind fun st =>
      edist_row 257 (98 :: List.replicate 171 97) (List.range' 1 172) (List.replicate 172 97)
        (List.range' 1 172) 172 1 st).map
    (fun st => decide (st.llimit = -83 ∧ st.rlimit = 86 ∧ st.buf0.length = 173 ∧
      st.buf1.length = 173 ∧ st.buf2.length = 173 ∧
      st.buf0.getD 4 0 = 4 ∧ st.buf1.getD 3 0 = 3)) = some true := by decide!

theorem calc_172_unfold (fuel : Nat) (s1 idxs1 s2 idxs2 : List Nat) :
    edist_calc fuel s1 idxs1 172 s2 idxs2 172 =
      ((edist_rows_init fuel 172 172).bind fun st =>
        forU8 172 (edist_row fuel s1 idxs1 s2 idxs2 172) fuel 1 st).map fun st =>
          st.buf0.getD 172 0 := by
  unfold edist_calc edist_calc_ordered
  rw [if_neg (by omega), if_neg (by omega), if_neg (by omega), if_neg (by omega)]

/-- Two strings of 172 code points whose code points three columns right of the diagonal
are equal: `edist_calc` returns 3, the entry of row 169 in column 172. -/
theorem long_calc0 (fuel : Nat) (hfuel : 257 ≤ fuel) (s1 idxs1 s2 idxs2 : List Nat)
    (he : ∀ i, i ≤ 168 →
      edist_utf16_eq s1 idxs1 (u8i (((i + 1 : Nat) : Int) - 1)) s2 idxs2
        (u8i (((i + 4 : Nat) : Int) - 1)) ≠ 0) :
    edist_calc fuel s1 idxs1 172 s2 idxs2 172 = some 3 := by
  obtain ⟨st0, hst0, hp⟩ := Option.map_eq_some'.1 rows_init_172
  obtain ⟨h1, h2, h3, h4, h5, h6⟩ := of_decide_eq_true hp
  have hinit := edist_rows_init_mono 257 fuel hfuel 172 172 st0 hst0
  have hinv : long_inv 3 0 st0 := ⟨by rw [h1]; rfl, by rw [h2], h3, h4, h5, h6, Or.inl rfl⟩
  obtain ⟨st1, hst1, hres⟩ :=
    long_rows fuel hfuel s1 idxs1 s2 idxs2 3 (by omega) 0 (fun i _ hi => he i hi) 169 0 fuel st0
      (by omega) (by omega) hinv (by omega)
  rw [calc_172_unfold, hinit]
  simp only [Option.bind]
  rw [hst1]
  exact congrArg some hres

/-- The same when the first code point of the first string differs from all code points
of the second and the rest is as before: row 1 is evaluated, and the value is 4. -/
theorem long_calc1 (fuel : Nat) (hfuel : 257 ≤ fuel) :
    edist_calc fuel (98 :: List.replicate 171 97) (List.range' 1 172) 172
      (List.replicate 172 97) (List.range' 1 172) 172 = some 4 := by
  obtain ⟨st1, hst1, hp⟩ := Option.map_eq_some'.1 row1_ba171
  obtain ⟨st0, hst0, hrow⟩ := Option.bind_eq_some.1 hst1
  obtain ⟨h1, h2, h3, h4, h5, h6, h7⟩ := of_decide_eq_true hp
  have hinit := edist_rows_init_mono 257 fuel hfuel 172 172 st0 hst0
  have hrow1 := edist_row_mono 257 fuel hfuel _ _ _ _ _ _ _ _ hrow
  have hinv : long_inv 4 1 st1 :=
    ⟨by rw [h1]; rfl, by rw [h2], h3, h4, h5, h6, Or.inr (by rw [h7])⟩
  have he : ∀ i, 1 ≤ i → i ≤ 168 →
      edist_utf16_eq (98 :: List.replicate 171 97) (List.range' 1 172)
        (u8i (((i + 1 : Nat) : Int) - 1)) (List.replicate 172 97) (List.range' 1 172)
        (u8i (((i + 4 : Nat) : Int) - 1)) ≠ 0 := by
    intro i hi1 hi2
    have e1 : u8i (((i + 1 : Nat) : Int) - 1) = i := by unfold u8i; omega
    have e2 : u8i (((i + 4 : Nat) : Int) - 1) = i + 3 := by unfold u8i; omega
    rw [e1, e2, eq_plain _ _ 172 i (i + 3) (by omega) (by omega) (by omega)]
    obtain ⟨k, rfl⟩ : ∃ k, i = k + 1 := ⟨i - 1, by omega⟩
    rw [List.getD_cons_succ, getD_replicate_lt _ _ _ (by omega), getD_replicate_lt _ _ _ (by omega)]
    decide
  obtain ⟨g, rfl⟩ : ∃ g, fuel = g + 1 := ⟨fuel - 1, by omega⟩
  obtain ⟨st2, hst2, hres⟩ :=
    long_rows (g + 1) hfuel _ _ _ _ 4 (by omega) 1 he 168 1 g st1
      (by omega) (by omega) hinv (by omega)
  rw [calc_172_unfold, hinit]
  simp only [Option.bind]
  rw [forU8_succ, if_pos (by omega), hrow1]
  simp only [Option.bind]
  rw [show u8 (1 + 1) = 1 + 1 from rfl, hst2]
  exact congrArg some hres

/-! ### Facts for the claims on `edist_calc` -/

theorem osa_rows_diag (cost : Nat → Nat → Nat) (tr : Nat → Nat → Bool)
    (hc : ∀ i, cost i i = 0) : ∀ i, (osa_rows cost tr i).2 i = 0 := by
  intro i
  induction i with
  | zero => rfl
  | succ n ih =>
    show osa_next cost tr n (osa_rows cost tr n).1 (osa_rows cost tr n).2 (n + 1) = 0
    unfold osa_next
    have h := hc n
    omega

/-- The optimal string alignment distance of a string to itself is 0. -/
theorem osa_self (a : List (List Nat)) : osa a a = 0 := by
  unfold osa
  exact osa_rows_diag _ _ (fun i => by simp) a.length

set_option maxRecDepth 100000 in
theorem make_idxs_a255 : (edist_make_idxs (List.replicate 255 97) 255 (List.replicate 255 0)).2
    = 255 := by decide!

/-- The call `edist_calc(s, s)` for `s` of 172 times U+0061 returns 3. -/
theorem edist_a172 (fuel : Nat) (hfuel : 257 ≤ fuel) :
    edist fuel (List.replicate 172 97) (List.replicate 172 97) = some 3 := by
  unfold edist
  rw [List.length_replicate, make_idxs_a172]
  apply long_calc0 fuel hfuel
  intro i hi
  have e1 : u8i (((i + 1 : Nat) : Int) - 1) = i := by unfold u8i; omega
  have e2 : u8i (((i + 4 : Nat) : Int) - 1) = i + 3 := by unfold u8i; omega
  rw [e1, e2, eq_plain _ _ 172 i (i + 3) (by omega) (by omega) (by omega),
    getD_replicate_lt _ _ _ (by omega), getD_replicate_lt _ _ _ (by omega)]
  decide

/-- The call `edist_calc(s1, s2)` for `s1` of 172 times U+0061 and `s2` of U+0062 and
171 times U+0061 returns 3. -/
theorem edist_a172_ba171 (fuel : Nat) (hfuel : 257 ≤ fuel) :
    edist fuel (List.replicate 172 97) (98 :: List.replicate 171 97) = some 3 := by
  unfold edist
  rw [List.length_replicate, make_idxs_a172]
  rw [show (98 :: List.replicate 171 97).length = 172 by rw [List.length_cons, List.length_replicate], make_idxs_ba171]
  apply long_calc0 fuel hfuel
  intro i hi
  have e1 : u8i (((i + 1 : Nat) : Int) - 1) = i := by unfold u8i; omega
  have e2 : u8i (((i + 4 : Nat) : Int) - 1) = i + 3 := by unfold u8i; omega
  rw [e1, e2, eq_plain _ _ 172 i (i + 3) (by omega) (by omega) (by omega),
    getD_replicate_lt _ _ _ (by omega), List.getD_cons_succ, getD_replicate_lt _ _ _ (by omega)]
  decide

/-- The call with the two strings exchanged returns 4. -/
theorem edist_ba171_a172 (fuel : Nat) (hfuel : 257 ≤ fuel) :
    edist fuel (98 :: List.replicate 171 97) (List.replicate 172 97) = some 4 := by
  unfold edist
  rw [List.length_replicate, make_idxs_a172]
  rw [show (98 :: List.replicate 171 97).length = 172 by rw [List.length_cons, List.length_replicate], make_idxs_ba171]
  exact long_calc1 fuel hfuel

/-- The call `edist_calc(s, s)` for `s` of 255 times U+0061 does not return. -/
theorem edist_a255 (fuel : Nat) :
    edist fuel (List.replicate 255 97) (List.replicate 255 97) = none := by
  unfold edist
  rw [List.length_replicate, make_idxs_a255]
  unfold edist_calc
  rw [if_neg (by omega)]
  exact edist_calc_ordered_255 fuel _ _ _ _ 255 (by omega)

/-! ### Fuel of `edist_run_query` -/

theorem run_query_step_mono (fuel fuel1 : Nat) (hle : fuel ≤ fuel1) (q t : edist_query) (i : Nat)
    (h : run_query_step fuel q i = some t) : run_query_step fuel1 q i = some t := by
  unfold run_query_step at h ⊢
  dsimp only at h ⊢
  by_cases hc : i < q.ctx.locales.length ∧ i < q.ctx.buf.length
  · rw [if_pos hc] at h ⊢
    obtain ⟨ts, hts, h2⟩ := Option.bind_eq_some.1 h
    obtain ⟨ns, hns, h3⟩ := Option.bind_eq_some.1 h2
    rw [edist_calc_mono fuel fuel1 hle _ _ _ _ _ _ _ hts]
    simp only [Option.bind]
    rw [edist_calc_mono fuel fuel1 hle _ _ _ _ _ _ _ hns]
    exact h3
  · rw [if_neg hc] at h
    exact absurd h (by simp)

theorem run_query_loop_mono (fuel fuel1 : Nat) (hle : fuel ≤ fuel1) :
    ∀ (n i : Nat) (q t : edist_query), run_query_loop fuel n i q = some t →
      run_query_loop fuel1 n i q = some t := by
  intro n
  induction n with
  | zero => intro i q t h; exact h
  | succ m ih =>
    intro i q t h
    unfold run_query_loop at h ⊢
    obtain ⟨x, hx, h2⟩ := Option.bind_eq_some.1 h
    rw [run_query_step_mono fuel fuel1 hle q x i hx]
    exact ih (i + 1) x t h2

theorem edist_run_query_mono (fuel fuel1 : Nat) (hle : fuel ≤ fuel1) (ctx t : edist_ctx_t)
    (len : Nat) (h : edist_run_query fuel ctx len = some t) :
    edist_run_query fuel1 ctx len = some t := by
  unfold edist_run_query at h ⊢
  obtain ⟨qy, hqy, h2⟩ := Option.bind_eq_some.1 h
  rw [hqy] at h ⊢
  simp only [Option.bind] at h ⊢
  obtain ⟨q, hq, h3⟩ := Option.map_eq_some'.1 h
  rw [run_query_loop_mono fuel fuel1 hle _ _ _ _ hq]
  simpa using h3

theorem az_scores_mono (fuel fuel1 : Nat) (hle : fuel ≤ fuel1) (v : List Nat)
    (h : az_scores fuel = some v) : az_scores fuel1 = some v := by
  unfold az_scores at h ⊢
  obtain ⟨c1, hc1, h2⟩ := Option.bind_eq_some.1 h
  rw [hc1] at h ⊢
  simp only [Option.bind] at h ⊢
  obtain ⟨c2, hc2, h3⟩ := Option.bind_eq_some.1 h
  rw [hc2] at h ⊢
  simp only [Option.bind] at h ⊢
  obtain ⟨c3, hc3, h4⟩ := Option.map_eq_some'.1 h
  rw [edist_run_query_mono fuel fuel1 hle _ _ _ hc3]
  simpa using h4

/-! ### `edist_load_locale` -/

theorem take_set_succ (v : Nat) : ∀ (l : List Nat) (n : Nat), n < l.length →
    (l.set n v).take (n + 1) = l.take n ++ [v] := by
  intro l
  induction l with
  | nil => intro n h; simp at h
  | cons a t ih =>
    intro n h
    cases n with
    | zero => simp
    | succ m =>
      simp only [List.set_cons_succ, List.take_succ_cons, List.cons_append]
      rw [ih m (by simpa using h)]

theorem foldl_set_range (f : Nat → Nat) (dst : List Nat) :
    ∀ n, n ≤ dst.length →
      ((List.range n).foldl (fun d k => d.set k (f k)) dst).length = dst.length ∧
      ((List.range n).foldl (fun d k => d.set k (f k)) dst).take n = (List.range n).map f ∧
      ((List.range n).foldl (fun d k => d.set k (f k)) dst).drop n = dst.drop n := by
  intro n
  induction n with
  | zero => intro _; simp
  | succ m ih =>
    intro h
    obtain ⟨h1, h2, h3⟩ := ih (by omega)
    rw [List.range_succ, List.foldl_append, List.map_append]
    simp only [List.foldl_cons, List.foldl_nil, List.map_cons, List.map_nil]
    refine ⟨by rw [List.length_set, h1], ?_, ?_⟩
    · rw [take_set_succ _ _ _ (by omega), h2]
    · rw [List.drop_set_of_lt _ _ (by omega), ← List.drop_drop, h3, List.drop_drop]

theorem memcpy16_spec (dst buf : List Nat) (off n : Nat) (h1 : n ≤ dst.length)
    (h2 : off + 2 * n ≤ buf.length) :
    ∃ r, memcpy16 dst buf off n = some r ∧ r.length = dst.length ∧
      r.take n = buf_units buf off n ∧ r.drop n = dst.drop n := by
  unfold memcpy16
  rw [if_pos ⟨h1, h2⟩]
  exact ⟨_, rfl, foldl_set_range (rd16 buf off) dst n h1⟩

theorem getD_lt_of_all (buf : List Nat) (hb : ∀ b ∈ buf, b < 256) (i : Nat) :
    buf.getD i 0 < 256 := by
  by_cases h : i < buf.length
  · rw [List.getD_eq_getElem _ _ h]
    exact hb _ (List.getElem_mem _)
  · rw [List.getD_eq_default _ _ (by omega)]
    omega

theorem rd16_eq (buf : List Nat) (hb : ∀ b ∈ buf, b < 256) (i : Nat) :
    rd16 buf 0 i = buf.getD (2 * i) 0 + 256 * buf.getD (2 * i + 1) 0 := by
  have h1 := getD_lt_of_all buf hb (2 * i)
  have h2 := getD_lt_of_all buf hb (2 * i + 1)
  unfold rd16 u16
  simp only [Nat.zero_add]
  omega

theorem hyphen_iff (buf : List Nat) (hb : ∀ b ∈ buf, b < 256) (i : Nat) :
    (buf.getD (2 * i) 0 = 45 ∧ buf.getD (2 * i + 1) 0 = 0) ↔ rd16 buf 0 i = 45 := by
  have h1 := getD_lt_of_all buf hb (2 * i)
  have h2 := getD_lt_of_all buf hb (2 * i + 1)
  rw [rd16_eq buf hb]
  omega

theorem buf_units_succ (buf : List Nat) (off n : Nat) :
    buf_units buf off (n + 1) = buf_units buf off n ++ [rd16 buf off n] := by
  unfold buf_units
  rw [List.range_succ, List.map_append]
  rfl

theorem buf_units_length (buf : List Nat) (off n : Nat) : (buf_units buf off n).length = n := by
  unfold buf_units; simp

theorem count_le_units (buf : List Nat) (n : Nat) : (buf_units buf 0 n).count 45 ≤ n := by
  have h := List.count_le_length 45 (buf_units buf 0 n)
  rwa [buf_units_length] at h

theorem hyphens_spec (buf : List Nat) (hb : ∀ b ∈ buf, b < 256) :
    ∀ n, n < 256 →
      (List.range n).foldl
        (fun hyphens i => u8 (hyphens + cbool (buf.getD (2 * i) 0 = 45 ∧ buf.getD (2 * i + 1) 0 = 0)))
        0 = (buf_units buf 0 n).count 45 := by
  intro n
  induction n with
  | zero => intro _; rfl
  | succ m ih =>
    intro h
    rw [List.range_succ, List.foldl_append, buf_units_succ, List.count_append, ih (by omega)]
    simp only [List.foldl_cons, List.foldl_nil]
    have hc := count_le_units buf m
    by_cases hx : rd16 buf 0 m = 45
    · have hy := (hyphen_iff buf hb m).2 hx
      rw [hx]
      simp only [cbool, if_pos hy, List.count_singleton_self]
      unfold u8; omega
    · have hy : ¬ (buf.getD (2 * m) 0 = 45 ∧ buf.getD (2 * m + 1) 0 = 0) :=
        fun hh => hx ((hyphen_iff buf hb m).1 hh)
      have h0 : List.count 45 [rd16 buf 0 m] = 0 := by
        rw [List.count_singleton]; simp; exact fun hh => hx hh
      simp only [cbool, if_neg hy, h0]
      unfold u8; omega

theorem has_script_subtag_spec (buf : List Nat) (hb : ∀ b ∈ buf, b < 256) (n : Nat)
    (hn : 2 * n ≤ buf.length) (h256 : n < 256) :
    edist_has_script_subtag buf n = some (cbool ((buf_units buf 0 n).count 45 > 1)) := by
  unfold edist_has_script_subtag
  rw [if_pos hn, hyphens_spec buf hb n h256]
theorem push16_spec (arr : List Nat) (p v : Nat) (h : p < arr.length) :
    ∃ arr1, push16 (arr, p) v = some (arr1, p + 1) ∧ arr1.length = arr.length ∧
      arr1.take (p + 1) = arr.take p ++ [u16 v] := by
  unfold push16
  rw [if_pos h]
  exact ⟨_, rfl, by rw [List.length_set], take_set_succ _ _ _ h⟩

theorem shl_or (hi lo : Nat) (h : lo < 256) : hi <<< 8 ||| lo = lo + 256 * hi := by
  have e := Nat.mul_add_lt_is_or (show lo < 2 ^ 8 by omega) hi
  rw [Nat.shiftLeft_eq, Nat.mul_comm, ← e]
  omega

theorem load_tag_succ (buf tag : List Nat) (n : Nat) :
    load_tag buf tag (n + 1) = (load_tag buf tag n).bind fun x => load_tag_unit buf x n := by
  unfold load_tag
  rw [List.range_succ, List.foldl_append]
  rfl

theorem load_tag_unit_spec (buf : List Nat) (hb : ∀ b ∈ buf, b < 256) (arr : List Nat) (p i : Nat)
    (hfit : p + (if rd16 buf 0 i = 45 then 6 else 1) ≤ arr.length) :
    ∃ arr1, load_tag_unit buf (arr, p) i = some (arr1, p + (if rd16 buf 0 i = 45 then 6 else 1)) ∧
      arr1.length = arr.length ∧
      arr1.take (p + (if rd16 buf 0 i = 45 then 6 else 1)) =
        arr.take p ++ (if rd16 buf 0 i = 45 then [45, 0, 0, 0, 0, 45] else [rd16 buf 0 i]) := by
  have hlo := getD_lt_of_all buf hb (2 * i)
  have hhi := getD_lt_of_all buf hb (2 * i + 1)
  have hv : u16 (buf.getD (2 * i + 1) 0 <<< 8 ||| buf.getD (2 * i) 0) = rd16 buf 0 i := by
    rw [shl_or _ _ hlo, rd16_eq buf hb]; unfold u16; omega
  unfold load_tag_unit
  by_cases hx : rd16 buf 0 i = 45
  · rw [if_pos hx] at hfit
    simp only [if_pos hx, if_pos ((hyphen_iff buf hb i).2 hx)]
    obtain ⟨a1, e1, l1, t1⟩ := push16_spec arr p
      (buf.getD (2 * i + 1) 0 <<< 8 ||| buf.getD (2 * i) 0) (by omega)
    obtain ⟨a2, e2, l2, t2⟩ := push16_spec a1 (p + 1) 0 (by omega)
    obtain ⟨a3, e3, l3, t3⟩ := push16_spec a2 (p + 1 + 1) 0 (by omega)
    obtain ⟨a4, e4, l4, t4⟩ := push16_spec a3 (p + 1 + 1 + 1) 0 (by omega)
    obtain ⟨a5, e5, l5, t5⟩ := push16_spec a4 (p + 1 + 1 + 1 + 1) 0 (by omega)
    obtain ⟨a6, e6, l6, t6⟩ := push16_spec a5 (p + 1 + 1 + 1 + 1 + 1) 45 (by omega)
    refine ⟨a6, ?_, by omega, ?_⟩
    · rw [e1]; simp only [Option.bind]
      rw [e2]; simp only [Option.bind]
      rw [e3]; simp only [Option.bind]
      rw [e4]; simp only [Option.bind]
      rw [e5]; simp only [Option.bind]
      rw [e6]
    · have e : p + 6 = p + 1 + 1 + 1 + 1 + 1 + 1 := by omega
      rw [e, t6, t5, t4, t3, t2, t1, hv, hx]
      simp [u16]
  · rw [if_neg hx] at hfit
    have hy : ¬ (buf.getD (2 * i) 0 = 45 ∧ buf.getD (2 * i + 1) 0 = 0) :=
      fun hh => hx ((hyphen_iff buf hb i).1 hh)
    simp only [if_neg hx, if_neg hy]
    obtain ⟨a1, e1, l1, t1⟩ := push16_spec arr p
      (buf.getD (2 * i + 1) 0 <<< 8 ||| buf.getD (2 * i) 0) (by omega)
    refine ⟨a1, ?_, l1, ?_⟩
    · rw [e1]; rfl
    · rw [t1, hv]

theorem inject_every_snoc (l : List Nat) (x : Nat) :
    inject_every (l ++ [x]) = inject_every l ++ (if x = 45 then [45, 0, 0, 0, 0, 45] else [x]) := by
  unfold inject_every
  simp [List.flatMap_append]

theorem inject_every_length (l : List Nat) :
    (inject_every l).length = l.length + 5 * l.count 45 := by
  induction l with
  | nil => rfl
  | cons a t ih =>
    have e : inject_every (a :: t) = (if a = 45 then [45, 0, 0, 0, 0, 45] else [a]) ++ inject_every t := by
      unfold inject_every; simp [List.flatMap_cons]
    rw [e, List.length_append, ih]
    by_cases ha : a = 45
    · subst ha; simp; omega
    · rw [if_neg ha, List.count_cons_of_ne (fun hh => ha hh.symm)]; simp; omega

theorem load_tag_spec (buf : List Nat) (hb : ∀ b ∈ buf, b < 256) (tag : List Nat) :
    ∀ n, n + 5 * (buf_units buf 0 n).count 45 ≤ tag.length →
      ∃ arr, load_tag buf tag n = some (arr, n + 5 * (buf_units buf 0 n).count 45) ∧
        arr.length = tag.length ∧
        arr.take (n + 5 * (buf_units buf 0 n).count 45) = inject_every (buf_units buf 0 n) := by
  intro n
  induction n with
  | zero => intro _; exact ⟨tag, rfl, rfl, by simp [buf_units, inject_every]⟩
  | succ m ih =>
    intro h
    rw [buf_units_succ, List.count_append] at h ⊢
    have hc : List.count 45 [rd16 buf 0 m] = if rd16 buf 0 m = 45 then 1 else 0 := by
      by_cases hx : rd16 buf 0 m = 45
      · rw [hx]; rfl
      · rw [if_neg hx, List.count_singleton]; simp; exact hx
    rw [hc] at h ⊢
    have hk : (if rd16 buf 0 m = 45 then 6 else 1) =
        1 + 5 * (if rd16 buf 0 m = 45 then 1 else 0) := by
      by_cases hx : rd16 buf 0 m = 45
      · rw [if_pos hx, if_pos hx]
      · rw [if_neg hx, if_neg hx]
    generalize (if rd16 buf 0 m = 45 then 1 else 0) = d at h hk ⊢
    obtain ⟨arr, e, hl, ht⟩ := ih (by omega)
    have hfit : m + 5 * (buf_units buf 0 m).count 45 + (if rd16 buf 0 m = 45 then 6 else 1)
        ≤ arr.length := by
      rw [hl, hk]; omega
    obtain ⟨arr1, e1, hl1, ht1⟩ := load_tag_unit_spec buf hb arr _ m hfit
    have hp : m + 5 * (buf_units buf 0 m).count 45 + (if rd16 buf 0 m = 45 then 6 else 1) =
        m + 1 + 5 * (List.count 45 (buf_units buf 0 m) + d) := by
      rw [hk]; omega
    rw [hp] at e1 ht1
    refine ⟨arr1, ?_, by rw [hl1, hl], ?_⟩
    · rw [load_tag_succ, e]; exact e1
    · rw [ht1, ht, inject_every_snoc]

theorem inject_every_cons (a : Nat) (t : List Nat) :
    inject_every (a :: t) = (if a = 45 then [45, 0, 0, 0, 0, 45] else [a]) ++ inject_every t := by
  unfold inject_every; simp [List.flatMap_cons]

theorem inject_every_none : ∀ (l : List Nat), l.count 45 = 0 → inject_every l = l := by
  intro l
  induction l with
  | nil => intro _; rfl
  | cons a t ih =>
    intro h
    have ha : ¬ a = 45 := by
      intro e; subst e; simp at h
    rw [List.count_cons_of_ne (fun hh => ha hh.symm)] at h
    rw [inject_every_cons, if_neg ha, ih h]
    rfl

theorem inject_every_one : ∀ (l : List Nat), l.count 45 = 1 → inject_every l = inject_script l := by
  intro l
  induction l with
  | nil => intro h; simp at h
  | cons a t ih =>
    intro h
    by_cases ha : a = 45
    · subst ha
      rw [List.count_cons_self] at h
      rw [inject_every_cons, if_pos rfl, inject_every_none t (by omega)]
      rfl
    · rw [List.count_cons_of_ne (fun hh => ha hh.symm)] at h
      rw [inject_every_cons, if_neg ha, ih h]
      simp [inject_script, ha]

theorem getD_set_self (l : List user_locale_t) (i : Nat) (x : user_locale_t) (h : i < l.length) :
    (l.set i x).getD i user_locale_zero = x := by
  rw [List.getD_eq_getElem _ _ (by rw [List.length_set]; exact h)]
  simp

/-! ### `edist_calc` returns -/

theorem edist_row_total (fuel : Nat) (hf : 257 ≤ fuel) (s1 idxs1 s2 idxs2 : List Nat)
    (len2 : Nat) (h2 : len2 ≤ 254) (i : Nat) (st : edist_rows) :
    ∃ t, edist_row fuel s1 idxs1 s2 idxs2 len2 i st = some t := by
  unfold edist_row
  have hr : edist_row_r len2 st ≤ 254 := by
    unfold edist_row_r
    rw [edist_min_natCast, u8i_natCast _ (by omega)]
    omega
  obtain ⟨c, hc⟩ := forU8_total (edist_row_r len2 st) hr
    (fun j c => some (edist_cell s1 idxs1 s2 idxs2 i st.buf0 st.buf1 j c))
    (fun _ _ => ⟨_, rfl⟩) fuel (u8 (edist_row_l st + 1))
    (edist_row_first s1 idxs1 s2 idxs2 i st) (by unfold u8; omega) (by omega)
  rw [hc]
  exact ⟨_, rfl⟩

theorem edist_rows_init_total (fuel : Nat) (hf : 257 ≤ fuel) (len1 len2 : Nat) (h2 : len2 ≤ 254)
    (h3 : 1 ≤ len2) :
    ∃ t, edist_rows_init fuel len1 len2 = some t := by
  unfold edist_rows_init
  have hr : u8i (((len2 : Int) - 1) / 2) ≤ 254 := by
    unfold u8i; omega
  obtain ⟨c, hc⟩ := forU8_total _ hr (fun i (b : List Nat) => some (b.set i i))
    (fun _ _ => ⟨_, rfl⟩) fuel 0 (List.replicate (u8i (edist_max len1 len2 + 1)) 0)
    (by omega) (by omega)
  rw [hc]
  exact ⟨_, rfl⟩

theorem edist_calc_ordered_total (fuel : Nat) (hf : 257 ≤ fuel) (s1 idxs1 : List Nat) (len1 : Nat)
    (s2 idxs2 : List Nat) (len2 : Nat) (h1 : len1 ≤ 254) (h2 : len2 ≤ 254) :
    ∃ v, edist_calc_ordered fuel s1 idxs1 len1 s2 idxs2 len2 = some v := by
  unfold edist_calc_ordered
  by_cases e0 : len2 = 0
  · rw [if_pos e0]; exact ⟨_, rfl⟩
  rw [if_neg e0]
  by_cases e1 : len2 = 1
  · rw [if_pos e1]; exact ⟨_, rfl⟩
  rw [if_neg e1]
  by_cases e2 : len2 = 2
  · rw [if_pos e2]; exact ⟨_, rfl⟩
  rw [if_neg e2]
  obtain ⟨st0, hst0⟩ := edist_rows_init_total fuel hf len1 len2 h2 (by omega)
  obtain ⟨st, hst⟩ := forU8_total len1 h1 (edist_row fuel s1 idxs1 s2 idxs2 len2)
    (fun i s => edist_row_total fuel hf s1 idxs1 s2 idxs2 len2 h2 i s) fuel 1 st0
    (by omega) (by omega)
  rw [hst0]
  simp only [Option.bind]
  rw [hst]
  exact ⟨_, rfl⟩

/-- With at most 254 code points in each string and 257 units of fuel `edist_calc` returns. -/
theorem edist_calc_total (fuel : Nat) (hf : 257 ≤ fuel) (s1 idxs1 : List Nat) (len1 : Nat)
    (s2 idxs2 : List Nat) (len2 : Nat) (h1 : len1 ≤ 254) (h2 : len2 ≤ 254) :
    ∃ v, edist_calc fuel s1 idxs1 len1 s2 idxs2 len2 = some v := by
  unfold edist_calc
  split
  · exact edist_calc_ordered_total fuel hf _ _ _ _ _ _ h2 h1
  · exact edist_calc_ordered_total fuel hf _ _ _ _ _ _ h1 h2

/-! ### `edist_utf16_swap_first_two` twice -/

theorem swap_shift_spec (p : List Nat) :
    ∀ (x : Nat) (r : List Nat), ∃ y, swap_shift (p ++ x :: r) p.length = y :: (p ++ r) := by
  induction p using List.reverseRecOn with
  | nil => intro x r; exact ⟨x, rfl⟩
  | append_singleton q z ih =>
    intro x r
    obtain ⟨y, hy⟩ := ih z (z :: r)
    refine ⟨y, ?_⟩
    have hlen : (q ++ [z]).length = q.length + 1 := by simp
    have hget : (q ++ [z] ++ x :: r).getD q.length 0 = z := by
      rw [List.append_assoc, List.getD_append_right _ _ _ _ (Nat.le_refl _), Nat.sub_self]
      rfl
    have hset : (q ++ [z] ++ x :: r).set (q.length + 1) z = q ++ z :: z :: r := by
      rw [List.append_assoc, List.set_append_right _ _ (by omega)]
      simp
    rw [hlen]
    show swap_shift ((q ++ [z] ++ x :: r).set (q.length + 1) ((q ++ [z] ++ x :: r).getD q.length 0))
      q.length = _
    rw [hget, hset, hy]
    simp

theorem swap_round (p : List Nat) (x : Nat) (r : List Nat) (hc : p.length + 1 ≤ 255) :
    (swap_shift (p ++ x :: r) (u8i (((p.length + 1 : Nat) : Int) - 1))).set 0
      ((p ++ x :: r).getD (p.length + 1 - 1) 0) = x :: (p ++ r) := by
  have e : u8i (((p.length + 1 : Nat) : Int) - 1) = p.length := by unfold u8i; omega
  obtain ⟨y, hy⟩ := swap_shift_spec p x r
  rw [e, hy, Nat.add_sub_cancel, List.getD_append_right _ _ _ _ (Nat.le_refl _), Nat.sub_self]
  rfl

theorem swap_rotate_spec (c : Nat) (hc : c ≤ 255) :
    ∀ (k : Nat) (a b r : List Nat), b.length = k → a.length + b.length = c →
      swap_rotate c k (a ++ b ++ r) = b ++ a ++ r := by
  intro k
  induction k with
  | zero =>
    intro a b r hb _
    have : b = [] := List.length_eq_zero.1 hb
    subst this
    simp [swap_rotate]
  | succ n ih =>
    intro a b r hb hab
    obtain ⟨q, x, rfl⟩ : ∃ q x, b = q ++ [x] := by
      rcases List.eq_nil_or_concat b with h | ⟨q, x, h⟩
      · subst h; simp at hb
      · exact ⟨q, x, by simpa using h⟩
    have hq : q.length = n := by simpa using hb
    have hlen : (a ++ q).length + 1 = c := by
      simp only [List.length_append, List.length_singleton] at hab ⊢; omega
    have hs : a ++ (q ++ [x]) ++ r = (a ++ q) ++ x :: r := by simp
    show swap_rotate c n ((swap_shift (a ++ (q ++ [x]) ++ r) (u8i ((c : Int) - 1))).set 0
      ((a ++ (q ++ [x]) ++ r).getD (c - 1) 0)) = _
    rw [hs, ← hlen, swap_round (a ++ q) x r (by omega)]
    have h2 := ih ([x] ++ a) q r hq (by
      simp only [List.length_append, List.length_singleton] at hlen ⊢; omega)
    rw [hlen]
    simpa using h2

theorem swap_first_two_twice (s : List Nat) (i0 i1 : Nat) (rest : List Nat) (h0 : i0 ≤ i1)
    (h1 : i1 ≤ s.length) (h2 : i1 ≤ 255) :
    edist_utf16_swap_first_two (edist_utf16_swap_first_two s (i0 :: i1 :: rest)).1
      (edist_utf16_swap_first_two s (i0 :: i1 :: rest)).2 = (s, i0 :: i1 :: rest) := by
  have e1 : u8i ((i1 : Int) - (i0 : Int)) = i1 - i0 := by unfold u8i; omega
  have e2 : u8 (i1 - i0 + i0) = i1 := by unfold u8; omega
  have e3 : u8i ((i1 : Int) - ((i1 - i0 : Nat) : Int)) = i0 := by unfold u8i; omega
  have e4 : u8 (i0 + (i1 - i0)) = i1 := by unfold u8; omega
  have hs : s = s.take i0 ++ (s.drop i0).take (i1 - i0) ++ s.drop i1 := by
    rw [List.append_assoc]
    conv_lhs => rw [← List.take_append_drop i0 s]
    congr 1
    conv_lhs => rw [← List.take_append_drop (i1 - i0) (s.drop i0)]
    rw [List.drop_drop]
    congr 2
    omega
  have hA : (s.take i0).length = i0 := by rw [List.length_take]; omega
  have hB : ((s.drop i0).take (i1 - i0)).length = i1 - i0 := by
    rw [List.length_take, List.length_drop]; omega
  have r1 : swap_rotate i1 (i1 - i0) s =
      (s.drop i0).take (i1 - i0) ++ s.take i0 ++ s.drop i1 := by
    conv_lhs => rw [hs]
    exact swap_rotate_spec i1 h2 (i1 - i0) _ _ _ hB (by rw [hA, hB]; omega)
  have r2 : swap_rotate i1 i0 ((s.drop i0).take (i1 - i0) ++ s.take i0 ++ s.drop i1) = s := by
    conv_rhs => rw [hs]
    exact swap_rotate_spec i1 h2 i0 _ _ _ hA (by rw [hA, hB]; omega)
  unfold edist_utf16_swap_first_two
  simp only [List.getD_cons_zero, List.getD_cons_succ, List.set_cons_zero, List.set_cons_succ,
    e1, e2, r1, e3, e4, r2]

/-! ### `edist_make_idxs` -/

theorem is_surrogate_iff (c : Nat) : edist_is_surrogate c ≠ 0 ↔ surrogate_unit c = true := by
  unfold edist_is_surrogate surrogate_unit cbool EDIST_UTF16_MIN_SURROGATE
    EDIST_UTF16_MAX_SURROGATE
  by_cases h : 55296 ≤ c ∧ c ≤ 57343
  · simp [h]
  · simp [h]

theorem drop_eq_cons (s : List Nat) (i : Nat) (h : i < s.length) :
    s.drop i = s.getD i 0 :: s.drop (i + 1) := by
  rw [List.getD_eq_getElem _ _ h]
  exact List.drop_eq_getElem_cons h

/-- One round of the loop of `edist_make_idxs` against the specification's steps. -/
theorem ends_step (s : List Nat) (i : Nat) (h : i < s.length) (h255 : s.length ≤ 255) :
    code_point_ends (s.drop i) i =
      (if edist_is_surrogate (s.getD i 0) ≠ 0 then
        u8 (u8 (i + 1) +
          cbool (u8 (i + 1) < s.length ∧ edist_is_surrogate (s.getD (u8 (i + 1)) 0) ≠ 0))
       else u8 (i + 1)) ::
      code_point_ends
        (s.drop (if edist_is_surrogate (s.getD i 0) ≠ 0 then
          u8 (u8 (i + 1) +
            cbool (u8 (i + 1) < s.length ∧ edist_is_surrogate (s.getD (u8 (i + 1)) 0) ≠ 0))
         else u8 (i + 1)))
        (if edist_is_surrogate (s.getD i 0) ≠ 0 then
          u8 (u8 (i + 1) +
            cbool (u8 (i + 1) < s.length ∧ edist_is_surrogate (s.getD (u8 (i + 1)) 0) ≠ 0))
         else u8 (i + 1)) ∧
    i < (if edist_is_surrogate (s.getD i 0) ≠ 0 then
        u8 (u8 (i + 1) +
          cbool (u8 (i + 1) < s.length ∧ edist_is_surrogate (s.getD (u8 (i + 1)) 0) ≠ 0))
       else u8 (i + 1)) ∧
    (if edist_is_surrogate (s.getD i 0) ≠ 0 then
        u8 (u8 (i + 1) +
          cbool (u8 (i + 1) < s.length ∧ edist_is_surrogate (s.getD (u8 (i + 1)) 0) ≠ 0))
       else u8 (i + 1)) ≤ s.length := by
  have e1 : u8 (i + 1) = i + 1 := by unfold u8; omega
  rw [e1, drop_eq_cons s i h]
  by_cases h1 : i + 1 < s.length
  · rw [drop_eq_cons s (i + 1) h1]
    by_cases hc : edist_is_surrogate (s.getD i 0) ≠ 0
    · by_cases hd : edist_is_surrogate (s.getD (i + 1) 0) ≠ 0
      · have e2 : u8 (i + 1 + cbool (i + 1 < s.length ∧ edist_is_surrogate (s.getD (i + 1) 0) ≠ 0))
            = i + 2 := by
          unfold cbool; rw [if_pos ⟨h1, hd⟩]; unfold u8; omega
        rw [if_pos hc, e2]
        refine ⟨?_, by omega, by omega⟩
        conv_lhs => unfold code_point_ends
        rw [if_pos ⟨(is_surrogate_iff _).1 hc, (is_surrogate_iff _).1 hd⟩]
      · have e2 : u8 (i + 1 + cbool (i + 1 < s.length ∧ edist_is_surrogate (s.getD (i + 1) 0) ≠ 0))
            = i + 1 := by
          unfold cbool; rw [if_neg (fun hh => hd hh.2)]; unfold u8; omega
        rw [if_pos hc, e2]
        refine ⟨?_, by omega, by omega⟩
        conv_lhs => unfold code_point_ends
        rw [if_neg (fun hh => hd ((is_surrogate_iff _).2 hh.2)), drop_eq_cons s (i + 1) h1]
    · rw [if_neg hc]
      refine ⟨?_, by omega, by omega⟩
      conv_lhs => unfold code_point_ends
      rw [if_neg (fun hh => hc ((is_surrogate_iff _).2 hh.1)), drop_eq_cons s (i + 1) h1]
  · have hnil : s.drop (i + 1) = [] := List.drop_eq_nil_of_le (by omega)
    have e2 : u8 (i + 1 + cbool (i + 1 < s.length ∧ edist_is_surrogate (s.getD (i + 1) 0) ≠ 0))
        = i + 1 := by
      unfold cbool; rw [if_neg (fun hh => h1 hh.1)]; unfold u8; omega
    rw [e2, ite_self, hnil]
    exact ⟨rfl, by omega, by omega⟩

theorem ends_length_le : ∀ (n : Nat) (l : List Nat) (p : Nat), l.length ≤ n →
    (code_point_ends l p).length ≤ l.length := by
  intro n
  induction n with
  | zero =>
    intro l p h
    have : l = [] := List.length_eq_zero.1 (by omega)
    subst this; simp [code_point_ends]
  | succ m ih =>
    intro l p h
    match l, h with
    | [], _ => simp [code_point_ends]
    | [_], _ => simp [code_point_ends]
    | c :: d :: t, h =>
      unfold code_point_ends
      simp only [List.length_cons] at h
      split
      · have := ih t (p + 2) (by omega)
        simp only [List.length_cons]; omega
      · have := ih (d :: t) (p + 1) (by simp only [List.length_cons]; omega)
        simp only [List.length_cons] at this ⊢; omega

theorem make_idxs_loop_spec (s : List Nat) (h255 : s.length ≤ 255) :
    ∀ (n i len : Nat) (out : List Nat), i ≤ s.length → s.length - i ≤ n → len ≤ i →
      len + (s.length - i) ≤ out.length →
      (make_idxs_loop s s.length n i len out).2 = len + (code_point_ends (s.drop i) i).length ∧
      (make_idxs_loop s s.length n i len out).1 =
        out.take len ++ code_point_ends (s.drop i) i ++
          out.drop (len + (code_point_ends (s.drop i) i).length) := by
  intro n
  induction n with
  | zero =>
    intro i len out hi hn _ _
    have hnil : s.drop i = [] := List.drop_eq_nil_of_le (by omega)
    rw [hnil]
    simp [make_idxs_loop, code_point_ends]
  | succ m ih =>
    intro i len out hi hn hlen hout
    by_cases hlt : i < s.length
    · obtain ⟨e, hj1, hj2⟩ := ends_step s i hlt h255
      unfold make_idxs_loop
      rw [if_pos hlt, e]
      generalize (if edist_is_surrogate (s.getD i 0) ≠ 0 then
        u8 (u8 (i + 1) +
          cbool (u8 (i + 1) < s.length ∧ edist_is_surrogate (s.getD (u8 (i + 1)) 0) ≠ 0))
        else u8 (i + 1)) = j at hj1 hj2 ⊢
      have e1 : u8 (len + 1) = len + 1 := by unfold u8; omega
      rw [e1]
      obtain ⟨r1, r2⟩ := ih j (len + 1) (out.set len j) hj2 (by omega) (by omega)
        (by rw [List.length_set]; omega)
      have hle := ends_length_le _ (s.drop j) j (Nat.le_refl _)
      rw [List.length_drop] at hle
      refine ⟨by rw [r1, List.length_cons]; omega, ?_⟩
      rw [r2, take_set_succ _ _ _ (by omega), List.drop_set_of_lt _ _ (by omega), List.length_cons]
      have e3 : len + 1 + (code_point_ends (s.drop j) j).length =
          len + ((code_point_ends (s.drop j) j).length + 1) := by omega
      rw [e3]
      simp
    · have hnil : s.drop i = [] := List.drop_eq_nil_of_le (by omega)
      unfold make_idxs_loop
      rw [if_neg hlt, hnil]
      simp [code_point_ends]

/-- The index map and the length written by `edist_make_idxs` are the specification's. -/
theorem make_idxs_spec (s out : List Nat) (h255 : s.length ≤ 255) (ho : s.length ≤ out.length) :
    (edist_make_idxs s s.length out).2 = (code_point_ends s 0).length ∧
    (edist_make_idxs s s.length out).1 =
      code_point_ends s 0 ++ out.drop (code_point_ends s 0).length := by
  have h := make_idxs_loop_spec s h255 s.length 0 0 out (by omega) (by omega) (by omega) (by omega)
  simpa [edist_make_idxs] using h

theorem ends_props : ∀ (n : Nat) (l : List Nat) (p : Nat), l.length ≤ n →
    (∀ x ∈ code_point_ends l p, p < x ∧ x ≤ p + l.length) ∧
    List.Pairwise (fun a b => a < b) (code_point_ends l p) ∧
    (l ≠ [] → (code_point_ends l p).getLast? = some (p + l.length)) := by
  intro n
  induction n with
  | zero =>
    intro l p h
    have : l = [] := List.length_eq_zero.1 (by omega)
    subst this; simp [code_point_ends]
  | succ m ih =>
    intro l p h
    match l, h with
    | [], _ => simp [code_point_ends]
    | [_], _ => simp [code_point_ends]
    | [c, d], h =>
      unfold code_point_ends
      split
      · simp [code_point_ends]
      · simp [code_point_ends]; omega
    | c :: d :: e :: t, h =>
      unfold code_point_ends
      simp only [List.length_cons] at h
      split
      · obtain ⟨a1, a2, a3⟩ := ih (e :: t) (p + 2) (by simp only [List.length_cons]; omega)
        refine ⟨?_, ?_, ?_⟩
        · intro x hx
          rcases List.mem_cons.1 hx with hx | hx
          · subst hx; simp only [List.length_cons]; omega
          · have := a1 x hx; simp only [List.length_cons] at this ⊢; omega
        · exact List.Pairwise.cons (fun x hx => by have := a1 x hx; omega) a2
        · intro _
          have h3 := a3 (by simp)
          cases hq : code_point_ends (e :: t) (p + 2) with
          | nil => rw [hq] at h3; simp at h3
          | cons y ys =>
            rw [hq] at h3
            rw [List.getLast?_cons_cons, h3]
            simp only [List.length_cons]; congr 1; omega
      · obtain ⟨a1, a2, a3⟩ := ih (d :: e :: t) (p + 1) (by simp only [List.length_cons]; omega)
        refine ⟨?_, ?_, ?_⟩
        · intro x hx
          rcases List.mem_cons.1 hx with hx | hx
          · subst hx; simp only [List.length_cons]; omega
          · have := a1 x hx; simp only [List.length_cons] at this ⊢; omega
        · exact List.Pairwise.cons (fun x hx => by have := a1 x hx; omega) a2
        · intro _
          have h3 := a3 (by simp)
          cases hq : code_point_ends (d :: e :: t) (p + 1) with
          | nil => rw [hq] at h3; simp at h3
          | cons y ys =>
            rw [hq] at h3
            rw [List.getLast?_cons_cons, h3]
            simp only [List.length_cons]; congr 1; omega

theorem ends_plain : ∀ (l : List Nat) (p : Nat), (∀ c ∈ l, surrogate_unit c = false) →
    code_point_ends l p = (List.range l.length).map (fun k => p + k + 1) := by
  intro l
  induction l with
  | nil => intro p _; rfl
  | cons c t ih =>
    intro p h
    have hc : ¬ surrogate_unit c = true := by
      rw [h c (List.mem_cons_self _ _)]; simp
    have ht := ih (p + 1) (fun x hx => h x (List.mem_cons_of_mem _ hx))
    have hr : (List.range (c :: t).length).map (fun k => p + k + 1) =
        (p + 1) :: (List.range t.length).map (fun k => p + 1 + k + 1) := by
      rw [List.length_cons, List.range_succ_eq_map, List.map_cons, List.map_map]
      congr 1
      apply List.map_congr_left
      intro k _
      simp only [Function.comp, Nat.succ_eq_add_one]; omega
    rw [hr, ← ht]
    cases t with
    | nil => rfl
    | cons d u =>
      conv_lhs => unfold code_point_ends
      rw [if_neg (fun hh => hc hh.1)]

/-! ### `edist_calc` leaves its arguments as they were -/

theorem swap_twice_made (a out : List Nat) (ha : a.length ≤ 255) (ho : a.length ≤ out.length)
    (h2 : 2 ≤ (edist_make_idxs a a.length out).2) :
    edist_utf16_swap_first_two
      (edist_utf16_swap_first_two a (edist_make_idxs a a.length out).1).1
      (edist_utf16_swap_first_two a (edist_make_idxs a a.length out).1).2 =
      (a, (edist_make_idxs a a.length out).1) := by
  obtain ⟨e1, e2⟩ := make_idxs_spec a out ha ho
  obtain ⟨p1, p2, _⟩ := ends_props a.length a 0 (Nat.le_refl _)
  rw [e1] at h2
  rw [e2]
  match hq : code_point_ends a 0, h2 with
  | i0 :: i1 :: rest, _ =>
    rw [hq] at p1 p2
    have h01 : i0 < i1 := (List.pairwise_cons.1 p2).1 i1 (List.mem_cons_self _ _)
    have h1 := (p1 i1 (by simp)).2
    exact swap_first_two_twice a i0 i1 _ (by omega) (by omega) (by omega)

theorem calc_arrays_made (a b outa outb : List Nat) (ha : a.length ≤ 255) (hb : b.length ≤ 255)
    (hoa : a.length ≤ outa.length) (hob : b.length ≤ outb.length) :
    edist_calc_arrays a (edist_make_idxs a a.length outa).1 (edist_make_idxs a a.length outa).2
      b (edist_make_idxs b b.length outb).1 (edist_make_idxs b b.length outb).2 =
      ((a, (edist_make_idxs a a.length outa).1), (b, (edist_make_idxs b b.length outb).1)) := by
  unfold edist_calc_arrays
  split
  · split
    · rename_i h
      rw [swap_twice_made a outa ha hoa (by omega)]
    · rfl
  · split
    · rename_i h
      rw [swap_twice_made b outb hb hob (by omega)]
    · rfl

/-! ### Index maps of a string at the start of a longer array -/

theorem getD_take_lt (s : List Nat) (cu i : Nat) (h : i < cu) :
    (s.take cu).getD i 0 = s.getD i 0 := by
  simp only [List.getD_eq_getElem?_getD, List.getElem?_take, if_pos h]

theorem make_idxs_loop_take (s : List Nat) (cu : Nat) :
    ∀ (n i len : Nat) (out : List Nat),
      make_idxs_loop s cu n i len out = make_idxs_loop (s.take cu) cu n i len out := by
  intro n
  induction n with
  | zero => intro i len out; rfl
  | succ m ih =>
    intro i len out
    unfold make_idxs_loop
    by_cases hlt : i < cu
    · rw [if_pos hlt, if_pos hlt, getD_take_lt s cu i hlt]
      have hc : cbool (u8 (i + 1) < cu ∧ edist_is_surrogate (s.getD (u8 (i + 1)) 0) ≠ 0) =
          cbool (u8 (i + 1) < cu ∧ edist_is_surrogate ((s.take cu).getD (u8 (i + 1)) 0) ≠ 0) := by
        by_cases h1 : u8 (i + 1) < cu
        · rw [getD_take_lt s cu _ h1]
        · unfold cbool
          rw [if_neg (fun hh => h1 hh.1), if_neg (fun hh => h1 hh.1)]
      rw [hc]
      exact ih _ _ _
    · rw [if_neg hlt, if_neg hlt]

/-- The index map of the first `cu` code units of an array. -/
theorem make_idxs_initial (s out : List Nat) (cu : Nat) (hcu : cu ≤ s.length) (h255 : cu ≤ 255)
    (ho : cu ≤ out.length) :
    (edist_make_idxs s cu out).2 = (code_point_ends (s.take cu) 0).length ∧
    (edist_make_idxs s cu out).1 =
      code_point_ends (s.take cu) 0 ++ out.drop (code_point_ends (s.take cu) 0).length := by
  have hl : (s.take cu).length = cu := by rw [List.length_take]; omega
  have h := make_idxs_spec (s.take cu) out (by omega) (by omega)
  rw [hl] at h
  unfold edist_make_idxs at h ⊢
  rw [make_idxs_loop_take]
  exact h

theorem swap_twice_initial (s out : List Nat) (cu : Nat) (hcu : cu ≤ s.length) (h255 : cu ≤ 255)
    (ho : cu ≤ out.length) (h2 : 2 ≤ (edist_make_idxs s cu out).2) :
    edist_utf16_swap_first_two
      (edist_utf16_swap_first_two s (edist_make_idxs s cu out).1).1
      (edist_utf16_swap_first_two s (edist_make_idxs s cu out).1).2 =
      (s, (edist_make_idxs s cu out).1) := by
  obtain ⟨e1, e2⟩ := make_idxs_initial s out cu hcu h255 ho
  obtain ⟨p1, p2, _⟩ := ends_props (s.take cu).length (s.take cu) 0 (Nat.le_refl _)
  have hl : (s.take cu).length = cu := by rw [List.length_take]; omega
  rw [e1] at h2
  rw [e2]
  match hq : code_point_ends (s.take cu) 0, h2 with
  | i0 :: i1 :: rest, _ =>
    rw [hq] at p1 p2
    have h01 : i0 < i1 := (List.pairwise_cons.1 p2).1 i1 (List.mem_cons_self _ _)
    have h1 := (p1 i1 (by simp)).2
    exact swap_first_two_twice s i0 i1 _ (by omega) (by omega) (by omega)

theorem make_idxs_len_le (s out : List Nat) (cu : Nat) (hcu : cu ≤ s.length) (h255 : cu ≤ 255)
    (ho : cu ≤ out.length) : (edist_make_idxs s cu out).2 ≤ cu := by
  rw [(make_idxs_initial s out cu hcu h255 ho).1]
  have h := ends_length_le _ (s.take cu) 0 (Nat.le_refl _)
  rw [List.length_take] at h
  omega

theorem calc_arrays_same (q qi : List Nat) (ql : Nat) (s idxs : List Nat) (sl : Nat)
    (hq : ql = 2 → edist_utf16_swap_first_two (edist_utf16_swap_first_two q qi).1
      (edist_utf16_swap_first_two q qi).2 = (q, qi))
    (hs : sl = 2 → edist_utf16_swap_first_two (edist_utf16_swap_first_two s idxs).1
      (edist_utf16_swap_first_two s idxs).2 = (s, idxs)) :
    edist_calc_arrays q qi ql s idxs sl = ((q, qi), (s, idxs)) := by
  unfold edist_calc_arrays
  split
  · split
    · rename_i h; rw [hq h]
    · rfl
  · split
    · rename_i h; rw [hs h]
    · rfl

/-! ### `edist_run_query` -/

theorem set_getD_same : ∀ (l : List user_locale_t) (i : Nat), i < l.length →
    l.set i (l.getD i user_locale_zero) = l := by
  intro l
  induction l with
  | nil => intro i h; simp at h
  | cons a t ih =>
    intro i h
    cases i with
    | zero => rfl
    | succ j =>
      rw [List.getD_cons_succ, List.set_cons_succ, ih j (by simpa using h)]

theorem run_query_step_spec (fuel : Nat) (hf : 257 ≤ fuel) (q : edist_query) (i : Nat)
    (hi : i < q.ctx.locales.length) (hb : i < q.ctx.buf.length) (hql : q.query_len ≤ 254)
    (hqs : q.query_len = 2 →
      edist_utf16_swap_first_two (edist_utf16_swap_first_two q.query q.query_idxs).1
        (edist_utf16_swap_first_two q.query q.query_idxs).2 = (q.query, q.query_idxs))
    (rest : List Nat) (hidx : q.ctx.idxs = 1 :: 2 :: rest)
    (ht : 2 ≤ (q.ctx.locales.getD i user_locale_zero).tag.length)
    (hn : 2 ≤ (q.ctx.locales.getD i user_locale_zero).name.length)
    (htl : (q.ctx.locales.getD i user_locale_zero).tag_len ≤ 254)
    (hnl : (q.ctx.locales.getD i user_locale_zero).name_len ≤ 254) :
    run_query_step fuel q i =
      some { q with
        ctx := { q.ctx with
          buf := q.ctx.buf.set i (locale_score fuel q.query q.query_idxs q.query_len q.ctx.idxs
            (q.ctx.locales.getD i user_locale_zero)) } } := by
  obtain ⟨ts, hts⟩ := edist_calc_total fuel hf q.query q.query_idxs q.query_len
    (q.ctx.locales.getD i user_locale_zero).tag q.ctx.idxs
    (q.ctx.locales.getD i user_locale_zero).tag_len hql htl
  obtain ⟨ns, hns⟩ := edist_calc_total fuel hf q.query q.query_idxs q.query_len
    (q.ctx.locales.getD i user_locale_zero).name q.ctx.idxs
    (q.ctx.locales.getD i user_locale_zero).name_len hql hnl
  have ha := calc_arrays_same q.query q.query_idxs q.query_len
    (q.ctx.locales.getD i user_locale_zero).tag q.ctx.idxs
    (q.ctx.locales.getD i user_locale_zero).tag_len hqs
    (fun _ => by rw [hidx]; exact swap_first_two_twice _ 1 2 rest (by omega) ht (by omega))
  have hb2 := calc_arrays_same q.query q.query_idxs q.query_len
    (q.ctx.locales.getD i user_locale_zero).name q.ctx.idxs
    (q.ctx.locales.getD i user_locale_zero).name_len hqs
    (fun _ => by rw [hidx]; exact swap_first_two_twice _ 1 2 rest (by omega) hn (by omega))
  unfold run_query_step locale_score
  dsimp only
  rw [if_pos ⟨hi, hb⟩, ha]
  dsimp only
  rw [hb2, hts, hns]
  dsimp only [Option.bind, Option.getD]
  rw [set_getD_same _ _ hi]

theorem run_query_loop_spec (fuel : Nat) (hf : 257 ≤ fuel) (rest : List Nat) :
    ∀ (n i : Nat) (q : edist_query), i + n ≤ q.ctx.locales.length → i + n ≤ q.ctx.buf.length →
      q.query_len ≤ 254 →
      (q.query_len = 2 →
        edist_utf16_swap_first_two (edist_utf16_swap_first_two q.query q.query_idxs).1
          (edist_utf16_swap_first_two q.query q.query_idxs).2 = (q.query, q.query_idxs)) →
      q.ctx.idxs = 1 :: 2 :: rest →
      (∀ k, k < i + n →
        2 ≤ (q.ctx.locales.getD k user_locale_zero).tag.length ∧
        2 ≤ (q.ctx.locales.getD k user_locale_zero).name.length ∧
        (q.ctx.locales.getD k user_locale_zero).tag_len ≤ 254 ∧
        (q.ctx.locales.getD k user_locale_zero).name_len ≤ 254) →
      ∃ buf1, run_query_loop fuel n i q = some { q with ctx := { q.ctx with buf := buf1 } } ∧
        buf1.length = q.ctx.buf.length ∧
        (∀ k, i ≤ k → k < i + n → buf1.getD k 0 =
          locale_score fuel q.query q.query_idxs q.query_len q.ctx.idxs
            (q.ctx.locales.getD k user_locale_zero)) ∧
        (∀ k, k < i → buf1.getD k 0 = q.ctx.buf.getD k 0) := by
  intro n
  induction n with
  | zero =>
    intro i q _ _ _ _ _ _
    exact ⟨q.ctx.buf, rfl, rfl, fun k h1 h2 => by omega, fun _ _ => rfl⟩
  | succ m ih =>
    intro i q h1 h2 hql hqs hidx hloc
    obtain ⟨a1, a2, a3, a4⟩ := hloc i (by omega)
    have hstep := run_query_step_spec fuel hf q i (by omega) (by omega) hql hqs rest hidx a1 a2 a3 a4
    obtain ⟨buf1, e, hl, hs, hk⟩ := ih (i + 1)
      { q with
        ctx := { q.ctx with
          buf := q.ctx.buf.set i (locale_score fuel q.query q.query_idxs q.query_len q.ctx.idxs
            (q.ctx.locales.getD i user_locale_zero)) } }
      (by show i + 1 + m ≤ q.ctx.locales.length; omega)
      (by show i + 1 + m ≤ (q.ctx.buf.set i _).length; rw [List.length_set]; omega)
      hql hqs hidx (fun k hk => hloc k (by omega))
    refine ⟨buf1, ?_, ?_, ?_, ?_⟩
    · unfold run_query_loop
      rw [hstep]
      exact e
    · rw [hl]; exact List.length_set _ _ _
    · intro k hk1 hk2
      by_cases hki : k = i
      · subst hki
        rw [hk k (by omega)]
        show (q.ctx.buf.set k _).getD k 0 = _
        simp only [List.getD_eq_getElem?_getD, List.getElem?_set_self (show k < q.ctx.buf.length by omega),
          Option.getD_some]
      · exact hs k (by omega) (by omega)
    · intro k hk1
      rw [hk k (by omega)]
      show (q.ctx.buf.set i _).getD k 0 = _
      simp only [List.getD_eq_getElem?_getD, List.getElem?_set_ne (show i ≠ k by omega)]

/-! ### Parity of the BPC symbols -/

theorem bpc_stage1 (a3 a4 a5 a6 a7 a8 a9 : Nat) :
    assign bpc_init [(3, a3), (4, a4), (5, a5), (6, a6), (7, a7), (8, a8), (9, a9)] =
      [255, 0, 0, u8 a3, u8 a4, u8 a5, u8 a6, u8 a7, u8 a8, u8 a9,
        0, 0, 0, 0, 0, 0, 0, 0, 0, 0] := rfl

theorem bpc_stage2 (v lo hi a0 a1 a2 a3 a4 a5 a6 a7 a8 a9 : Nat) (t : List Nat) :
    setOrEvenParity (a0 :: a1 :: a2 :: a3 :: a4 :: a5 :: a6 :: a7 :: a8 :: a9 :: 0 :: t)
        10 v lo hi =
      a0 :: a1 :: a2 :: a3 :: a4 :: a5 :: a6 :: a7 :: a8 :: a9 ::
        u8 (v ||| tsig_even_parity
          (a0 :: a1 :: a2 :: a3 :: a4 :: a5 :: a6 :: a7 :: a8 :: a9 :: 0 :: t) lo hi) :: t := rfl

theorem bpc_stage3 (a0 a1 a2 a3 a4 a5 a6 a7 a8 a9 a10 b11 b12 b13 b14 b15 b16 b17 b18 : Nat) :
    assign [a0, a1, a2, a3, a4, a5, a6, a7, a8, a9, a10, 0, 0, 0, 0, 0, 0, 0, 0, 0]
        [(11, b11), (12, b12), (13, b13), (14, b14), (15, b15), (16, b16), (17, b17), (18, b18)] =
      [a0, a1, a2, a3, a4, a5, a6, a7, a8, a9, a10,
        u8 b11, u8 b12, u8 b13, u8 b14, u8 b15, u8 b16, u8 b17, u8 b18, 0] := rfl

theorem bpc_stage4 (w lo hi a0 a1 a2 a3 a4 a5 a6 a7 a8 a9 a10 b11 b12 b13 b14 b15 b16 b17 b18 :
    Nat) :
    setOrEvenParity [a0, a1, a2, a3, a4, a5, a6, a7, a8, a9, a10,
        b11, b12, b13, b14, b15, b16, b17, b18, 0] 19 w lo hi =
      [a0, a1, a2, a3, a4, a5, a6, a7, a8, a9, a10, b11, b12, b13, b14, b15, b16, b17, b18,
        u8 (w ||| tsig_even_parity [a0, a1, a2, a3, a4, a5, a6, a7, a8, a9, a10,
          b11, b12, b13, b14, b15, b16, b17, b18, 0] lo hi)] := rfl

theorem u8_and_le (x m : Nat) (hm : m ≤ 3) : u8 (x &&& m) ≤ 3 := by
  have := Nat.and_le_right (n := x) (m := m)
  unfold u8; omega

/-- The shape of the array `bits` of `tsig_xmit_bpc`. -/
theorem bpc_bits_shape (d : tsig_datetime_t) :
    ∃ x3 x4 x5 x6 x7 x8 x9 y11 y12 y13 y14 y15 y16 y17 y18 w,
      (x3 ≤ 3 ∧ x4 ≤ 3 ∧ x5 ≤ 3 ∧ x6 ≤ 3 ∧ x7 ≤ 3 ∧ x8 ≤ 3 ∧ x9 ≤ 3) ∧
      (y11 ≤ 3 ∧ y12 ≤ 3 ∧ y13 ≤ 3 ∧ y14 ≤ 3 ∧ y15 ≤ 3 ∧ y16 ≤ 3 ∧ y17 ≤ 3 ∧ y18 ≤ 3) ∧
      bpc_bits d =
        [255, 0, 0, x3, x4, x5, x6, x7, x8, x9,
          u8 (cbool (d.hour ≥ 12) <<< 1 ||| tsig_even_parity
            [255, 0, 0, x3, x4, x5, x6, x7, x8, x9, 0, 0, 0, 0, 0, 0, 0, 0, 0, 0] 1 10),
          y11, y12, y13, y14, y15, y16, y17, y18,
          u8 ((w &&& 2) ||| tsig_even_parity
            [255, 0, 0, x3, x4, x5, x6, x7, x8, x9,
              u8 (cbool (d.hour ≥ 12) <<< 1 ||| tsig_even_parity
                [255, 0, 0, x3, x4, x5, x6, x7, x8, x9, 0, 0, 0, 0, 0, 0, 0, 0, 0, 0] 1 10),
              y11, y12, y13, y14, y15, y16, y17, y18, 0] 11 19)] := by
  refine ⟨u8 ((u8 (d.hour % 12) >>> 2) &&& 3), u8 (u8 (d.hour % 12) &&& 3),
    u8 ((d.min >>> 4) &&& 3), u8 ((d.min >>> 2) &&& 3), u8 (d.min &&& 3),
    u8 (((if d.dow ≠ 0 then d.dow else 7) >>> 2) &&& 1),
    u8 ((if d.dow ≠ 0 then d.dow else 7) &&& 3), u8 ((d.day >>> 4) &&& 1),
    u8 ((d.day >>> 2) &&& 3), u8 (d.day &&& 3), u8 ((d.mon >>> 2) &&& 3), u8 (d.mon &&& 3),
    u8 ((u8 (d.year % 100) >>> 4) &&& 3), u8 ((u8 (d.year % 100) >>> 2) &&& 3),
    u8 (u8 (d.year % 100) &&& 3), u8 (d.year % 100) >>> 5, ?_, ?_, ?_⟩
  · exact ⟨u8_and_le _ _ (by omega), u8_and_le _ _ (by omega), u8_and_le _ _ (by omega),
      u8_and_le _ _ (by omega), u8_and_le _ _ (by omega), u8_and_le _ _ (by omega),
      u8_and_le _ _ (by omega)⟩
  · exact ⟨u8_and_le _ _ (by omega), u8_and_le _ _ (by omega), u8_and_le _ _ (by omega),
      u8_and_le _ _ (by omega), u8_and_le _ _ (by omega), u8_and_le _ _ (by omega),
      u8_and_le _ _ (by omega), u8_and_le _ _ (by omega)⟩
  · unfold bpc_bits
    rw [bpc_stage1, bpc_stage2, bpc_stage3, bpc_stage4]

theorem parityByte_checked : parityByteOk = true := by decide!

theorem parityByte_ones (p b : Nat) (hp : p ≤ 1) (hb : b < 256) :
    parityByte p b 8 = (p + ones b) % 2 := by
  have h := allBelow_spec _ 2 (allBelow_spec _ 256 parityByte_checked b hb) p (by omega)
  exact eq_of_beq h

theorem foldl_parity_ones (l : List Nat) : ∀ p : Nat, p ≤ 1 → (∀ b ∈ l, b < 256) →
    l.foldl (fun parity byte => parityByte parity byte 8) p = (p + (l.map ones).sum) % 2 := by
  induction l with
  | nil => intro p hp _; simp only [List.foldl, List.map, List.sum_nil]; omega
  | cons b rest ih =>
    intro p hp hl
    simp only [List.foldl, List.map, List.sum_cons]
    rw [parityByte_ones p b hp (hl b (List.mem_cons_self _ _)),
      ih _ (by omega) (fun x hx => hl x (List.mem_cons_of_mem _ hx))]
    omega

theorem parity_first (c0 c1 c2 c3 c4 c5 c6 c7 c8 c9 : Nat) (t : List Nat)
    (h : c1 < 256 ∧ c2 < 256 ∧ c3 < 256 ∧ c4 < 256 ∧ c5 < 256 ∧ c6 < 256 ∧ c7 < 256 ∧ c8 < 256 ∧
      c9 < 256) :
    tsig_even_parity (c0 :: c1 :: c2 :: c3 :: c4 :: c5 :: c6 :: c7 :: c8 :: c9 :: t) 1 10 =
      (ones c1 + ones c2 + ones c3 + ones c4 + ones c5 + ones c6 + ones c7 + ones c8 + ones c9)
        % 2 := by
  obtain ⟨h1, h2, h3, h4, h5, h6, h7, h8, h9⟩ := h
  have e : tsig_even_parity (c0 :: c1 :: c2 :: c3 :: c4 :: c5 :: c6 :: c7 :: c8 :: c9 :: t) 1 10 =
      [c1, c2, c3, c4, c5, c6, c7, c8, c9].foldl
        (fun parity byte => parityByte parity byte 8) 0 := rfl
  rw [e, foldl_parity_ones _ 0 (by omega) (by
    intro b hb
    simp only [List.mem_cons, List.mem_singleton, List.not_mem_nil, or_false] at hb
    rcases hb with r | r | r | r | r | r | r | r | r <;> rw [r] <;> assumption)]
  simp only [List.map, List.sum_cons, List.sum_nil]
  omega

theorem parity_second (c0 c1 c2 c3 c4 c5 c6 c7 c8 c9 c10 c11 c12 c13 c14 c15 c16 c17 c18 : Nat)
    (t : List Nat)
    (h : c11 < 256 ∧ c12 < 256 ∧ c13 < 256 ∧ c14 < 256 ∧ c15 < 256 ∧ c16 < 256 ∧ c17 < 256 ∧
      c18 < 256) :
    tsig_even_parity (c0 :: c1 :: c2 :: c3 :: c4 :: c5 :: c6 :: c7 :: c8 :: c9 :: c10 :: c11 ::
        c12 :: c13 :: c14 :: c15 :: c16 :: c17 :: c18 :: t) 11 19 =
      (ones c11 + ones c12 + ones c13 + ones c14 + ones c15 + ones c16 + ones c17 + ones c18)
        % 2 := by
  obtain ⟨h1, h2, h3, h4, h5, h6, h7, h8⟩ := h
  have e : tsig_even_parity (c0 :: c1 :: c2 :: c3 :: c4 :: c5 :: c6 :: c7 :: c8 :: c9 :: c10 ::
      c11 :: c12 :: c13 :: c14 :: c15 :: c16 :: c17 :: c18 :: t) 11 19 =
      [c11, c12, c13, c14, c15, c16, c17, c18].foldl
        (fun parity byte => parityByte parity byte 8) 0 := rfl
  rw [e, foldl_parity_ones _ 0 (by omega) (by
    intro b hb
    simp only [List.mem_cons, List.mem_singleton, List.not_mem_nil, or_false] at hb
    rcases hb with r | r | r | r | r | r | r | r <;> rw [r] <;> assumption)]
  simp only [List.map, List.sum_cons, List.sum_nil]
  omega

theorem pm_or (pm e : Nat) (hpm : pm ≤ 1) (he : e ≤ 1) :
    u8 (pm <<< 1 ||| e) = 2 * pm + e ∧ u8 (u8 (pm <<< 1 ||| e) ^^^ 1) = 2 * pm + (1 - e) := by
  interval_cases pm <;> interval_cases e <;> decide

theorem and_two_or (w e : Nat) (he : e ≤ 1) : u8 ((w &&& 2) ||| e) % 2 = e ∧
    u8 ((w &&& 2) ||| e) ≤ 3 := by
  rcases and_two_pow_cases w 1 with h | h <;> simp only [pow_one] at h <;> rw [h] <;>
    interval_cases e <;> decide

theorem bpc_pass1_form (c0 c1 c2 c3 c4 c5 c6 c7 c8 c9 c10 c11 c12 c13 c14 c15 c16 c17 c18 c19 :
    Nat) :
    setb (setb [c0, c1, c2, c3, c4, c5, c6, c7, c8, c9, c10, c11, c12, c13, c14, c15, c16, c17,
        c18, c19] 1 (1 <<< 1)) 10
      ((setb [c0, c1, c2, c3, c4, c5, c6, c7, c8, c9, c10, c11, c12, c13, c14, c15, c16, c17,
        c18, c19] 1 (1 <<< 1)).getD 10 0 ^^^ 1) =
      [c0, 2, c2, c3, c4, c5, c6, c7, c8, c9, u8 (c10 ^^^ 1), c11, c12, c13, c14, c15, c16, c17,
        c18, c19] := rfl

theorem bpc_pass2_form (c0 c1 c2 c3 c4 c5 c6 c7 c8 c9 c10 c11 c12 c13 c14 c15 c16 c17 c18 c19 :
    Nat) :
    setb [c0, c1, c2, c3, c4, c5, c6, c7, c8, c9, c10, c11, c12, c13, c14, c15, c16, c17,
        c18, c19] 1 (1 <<< 2) =
      [c0, 4, c2, c3, c4, c5, c6, c7, c8, c9, c10, c11, c12, c13, c14, c15, c16, c17,
        c18, c19] := rfl

theorem ones_values : ones 0 = 0 ∧ ones 2 = 1 ∧ ones 4 = 1 := by decide

theorem entries_le (f c2 c3 c4 c5 c6 c7 c8 c9 c10 c11 c12 c13 c14 c15 c16 c17 c18 c19 : Nat)
    (h : f ≤ 7 ∧ c2 ≤ 7 ∧ c3 ≤ 7 ∧ c4 ≤ 7 ∧ c5 ≤ 7 ∧ c6 ≤ 7 ∧ c7 ≤ 7 ∧ c8 ≤ 7 ∧ c9 ≤ 7 ∧ c10 ≤ 7 ∧
      c11 ≤ 7 ∧ c12 ≤ 7 ∧ c13 ≤ 7 ∧ c14 ≤ 7 ∧ c15 ≤ 7 ∧ c16 ≤ 7 ∧ c17 ≤ 7 ∧ c18 ≤ 7 ∧ c19 ≤ 7)
    (i : Nat) (h1 : 1 ≤ i) (h20 : i < 20) :
    [255, f, c2, c3, c4, c5, c6, c7, c8, c9, c10, c11, c12, c13, c14, c15, c16, c17, c18,
      c19].getD i 0 ≤ 7 := by
  obtain ⟨a1, a2, a3, a4, a5, a6, a7, a8, a9, a10, a11, a12, a13, a14, a15, a16, a17, a18, a19⟩ := h
  interval_cases i <;> assumption

theorem parity_sums (f c2 c3 c4 c5 c6 c7 c8 c9 c10 c11 c12 c13 c14 c15 c16 c17 c18 c19 : Nat) :
    bitCount (fun s => ones ([255, f, c2, c3, c4, c5, c6, c7, c8, c9, c10, c11, c12, c13, c14,
      c15, c16, c17, c18, c19].getD s 0)) 1 9 =
      0 + ones f + ones c2 + ones c3 + ones c4 + ones c5 + ones c6 + ones c7 + ones c8 +
        ones c9 ∧
    bitCount (fun s => ones ([255, f, c2, c3, c4, c5, c6, c7, c8, c9, c10, c11, c12, c13, c14,
      c15, c16, c17, c18, c19].getD s 0)) 11 8 =
      0 + ones c11 + ones c12 + ones c13 + ones c14 + ones c15 + ones c16 + ones c17 +
        ones c18 :=
  ⟨rfl, rfl⟩

/-- In each of the three passes symbol 10 is the am/pm bit and the even parity of
symbols 1..9 of that pass, and the low bit of symbol 19 is the even parity of symbols
11..18; no symbol after the marker exceeds 7. -/
theorem bpc_pass_parity (d : tsig_datetime_t) (p : Nat) (hp : p < 3) :
    ∃ e, e ≤ 1 ∧ (bpc_pass_bits d p).getD 10 0 = 2 * cbool (d.hour ≥ 12) + e ∧
      (bitCount (fun s => ones ((bpc_pass_bits d p).getD s 0)) 1 9 + e) % 2 = 0 ∧
      (bitCount (fun s => ones ((bpc_pass_bits d p).getD s 0)) 11 8 +
        (bpc_pass_bits d p).getD 19 0 % 2) % 2 = 0 ∧
      (∀ i, 1 ≤ i → i < 20 → (bpc_pass_bits d p).getD i 0 ≤ 7) ∧
      (bpc_pass_bits d p).getD 10 0 =
        if p = 0 then (bpc_bits d).getD 10 0 else u8 ((bpc_bits d).getD 10 0 ^^^ 1) := by
  obtain ⟨x3, x4, x5, x6, x7, x8, x9, y11, y12, y13, y14, y15, y16, y17, y18, w,
    ⟨hx3, hx4, hx5, hx6, hx7, hx8, hx9⟩, ⟨hy11, hy12, hy13, hy14, hy15, hy16, hy17, hy18⟩, hb⟩ :=
    bpc_bits_shape d
  have hpar1 := parity_first 255 0 0 x3 x4 x5 x6 x7 x8 x9 [0, 0, 0, 0, 0, 0, 0, 0, 0, 0]
    ⟨by omega, by omega, by omega, by omega, by omega, by omega, by omega, by omega, by omega⟩
  have hpm := cbool_le_one (d.hour ≥ 12)
  obtain ⟨o0, o2, o4⟩ := ones_values
  rw [hpar1, o0] at hb
  generalize hS : (0 + 0 + ones x3 + ones x4 + ones x5 + ones x6 + ones x7 + ones x8 + ones x9)
    = S at hb
  obtain ⟨t1, t2⟩ := pm_or (cbool (d.hour ≥ 12)) (S % 2) hpm (by omega)
  rw [t1] at hb
  have hpar2 := parity_second 255 0 0 x3 x4 x5 x6 x7 x8 x9 (2 * cbool (d.hour ≥ 12) + S % 2)
    y11 y12 y13 y14 y15 y16 y17 y18 [0]
    ⟨by omega, by omega, by omega, by omega, by omega, by omega, by omega, by omega⟩
  rw [hpar2] at hb
  generalize hS2 : (ones y11 + ones y12 + ones y13 + ones y14 + ones y15 + ones y16 + ones y17 +
    ones y18) = S2 at hb
  obtain ⟨z1, z2⟩ := and_two_or w (S2 % 2) (by omega)
  generalize hZ : u8 (w &&& 2 ||| S2 % 2) = Z at hb z1 z2
  have ht2 : u8 ((2 * cbool (d.hour ≥ 12) + S % 2) ^^^ 1) = 2 * cbool (d.hour ≥ 12) + (1 - S % 2) := by
    rw [← t1]; exact t2
  interval_cases p
  · rw [bpc_pass_zero, hb]
    obtain ⟨s1, s2⟩ := parity_sums 0 0 x3 x4 x5 x6 x7 x8 x9 (2 * cbool (d.hour ≥ 12) + S % 2)
      y11 y12 y13 y14 y15 y16 y17 y18 Z
    refine ⟨S % 2, by omega, rfl, ?_, ?_, ?_, rfl⟩
    · rw [s1, o0]; omega
    · rw [s2]
      show (0 + ones y11 + ones y12 + ones y13 + ones y14 + ones y15 + ones y16 + ones y17 +
        ones y18 + Z % 2) % 2 = 0
      omega
    · exact entries_le _ _ _ _ _ _ _ _ _ _ _ _ _ _ _ _ _ _ _
        ⟨by omega, by omega, by omega, by omega, by omega, by omega, by omega, by omega, by omega,
          (show _ ≤ 7 by omega),
          by omega, by omega, by omega, by omega, by omega, by omega, by omega, by omega, by omega⟩
  · rw [bpc_pass_one]
    unfold bpc_pass1
    rw [hb, bpc_pass1_form, ht2]
    obtain ⟨s1, s2⟩ := parity_sums 2 0 x3 x4 x5 x6 x7 x8 x9 (2 * cbool (d.hour ≥ 12) + (1 - S % 2))
      y11 y12 y13 y14 y15 y16 y17 y18 Z
    refine ⟨1 - S % 2, by omega, rfl, ?_, ?_, ?_, ?_⟩
    · rw [s1, o0, o2]; omega
    · rw [s2]
      show (0 + ones y11 + ones y12 + ones y13 + ones y14 + ones y15 + ones y16 + ones y17 +
        ones y18 + Z % 2) % 2 = 0
      omega
    · exact entries_le _ _ _ _ _ _ _ _ _ _ _ _ _ _ _ _ _ _ _
        ⟨by omega, by omega, by omega, by omega, by omega, by omega, by omega, by omega, by omega,
          (show _ ≤ 7 by omega),
          by omega, by omega, by omega, by omega, by omega, by omega, by omega, by omega, by omega⟩
    · show 2 * cbool (d.hour ≥ 12) + (1 - S % 2) = u8 ((2 * cbool (d.hour ≥ 12) + S % 2) ^^^ 1)
      rw [ht2]
  · rw [bpc_pass_two]
    unfold bpc_pass2 bpc_pass1
    rw [hb, bpc_pass1_form, bpc_pass2_form, ht2]
    obtain ⟨s1, s2⟩ := parity_sums 4 0 x3 x4 x5 x6 x7 x8 x9 (2 * cbool (d.hour ≥ 12) + (1 - S % 2))
      y11 y12 y13 y14 y15 y16 y17 y18 Z
    refine ⟨1 - S % 2, by omega, rfl, ?_, ?_, ?_, ?_⟩
    · rw [s1, o0, o4]; omega
    · rw [s2]
      show (0 + ones y11 + ones y12 + ones y13 + ones y14 + ones y15 + ones y16 + ones y17 +
        ones y18 + Z % 2) % 2 = 0
      omega
    · exact entries_le _ _ _ _ _ _ _ _ _ _ _ _ _ _ _ _ _ _ _
        ⟨by omega, by omega, by omega, by omega, by omega, by omega, by omega, by omega, by omega,
          (show _ ≤ 7 by omega),
          by omega, by omega, by omega, by omega, by omega, by omega, by omega, by omega, by omega⟩
    · show 2 * cbool (d.hour ≥ 12) + (1 - S % 2) = u8 ((2 * cbool (d.hour ≥ 12) + S % 2) ^^^ 1)
      rw [ht2]

theorem bitCount_shift (f : Nat → Nat) (c lo n : Nat) :
    bitCount f (c + lo) n = bitCount (fun s => f (c + s)) lo n := by
  induction n with
  | zero => rfl
  | succ m ih =>
    show bitCount f (c + lo) m + f (c + lo + m) = bitCount (fun s => f (c + s)) lo m + f (c + (lo + m))
    rw [ih, Nat.add_assoc]

/-- The symbol read back from second `20 p + i` is entry `i` of `bits` in pass `p`. -/
theorem bpc_symbol_eq (d : tsig_datetime_t) (params : tsig_params_t) (xl : List Nat)
    (hxl : XmitOk xl) (p : Nat) (hp : p < 3) (i : Nat) (h1 : 1 ≤ i) (h20 : i < 20) :
    bpcSymbol (tsig_xmit_bpc d params xl) (20 * p + i) = (bpc_pass_bits d p).getD i 0 := by
  obtain ⟨_, _, _, _, _, h7, _⟩ := bpc_pass_parity d p hp
  have hb := h7 i h1 h20
  unfold bpcSymbol
  rw [lowTicks_of_lowThenHigh (bpc_seconds d params xl hxl p i hp h20)
    (bpc_lo_le _ (Or.inl hb))]
  unfold bpc_lo TSIG_WAVEFORM_SYNC_MARKER TSIG_WAVEFORM_TICK_MS
  rw [if_neg (by omega)]
  omega

theorem xor_one_cases (v : Nat) (h : v ≤ 7) :
    u8 (v ^^^ 1) ≠ v ∧ u8 (v ^^^ 1) / 2 = v / 2 ∧ u8 (v ^^^ 1) % 2 = 1 - v % 2 := by
  interval_cases v <;> decide

/-- Symbol 10 of the three repeats, read back from seconds 10, 30 and 50. -/
theorem bpc_symbol_ten (d : tsig_datetime_t) (params : tsig_params_t) (xl : List Nat)
    (hxl : XmitOk xl) :
    (bpc_bits d).getD 10 0 ≤ 7 ∧
    bpcSymbol (tsig_xmit_bpc d params xl) 10 = (bpc_bits d).getD 10 0 ∧
    bpcSymbol (tsig_xmit_bpc d params xl) 30 = u8 ((bpc_bits d).getD 10 0 ^^^ 1) ∧
    bpcSymbol (tsig_xmit_bpc d params xl) 50 = u8 ((bpc_bits d).getD 10 0 ^^^ 1) := by
  obtain ⟨_, _, _, _, _, h7, e0⟩ := bpc_pass_parity d 0 (by decide)
  obtain ⟨_, _, _, _, _, _, e1⟩ := bpc_pass_parity d 1 (by decide)
  obtain ⟨_, _, _, _, _, _, e2⟩ := bpc_pass_parity d 2 (by decide)
  have s0 := bpc_symbol_eq d params xl hxl 0 (by decide) 10 (by decide) (by decide)
  have s1 := bpc_symbol_eq d params xl hxl 1 (by decide) 10 (by decide) (by decide)
  have s2 := bpc_symbol_eq d params xl hxl 2 (by decide) 10 (by decide) (by decide)
  rw [e0, if_pos rfl] at s0
  rw [e1, if_neg (by decide)] at s1
  rw [e2, if_neg (by decide)] at s2
  have h10 := h7 10 (by decide) (by decide)
  rw [bpc_pass_zero] at h10
  exact ⟨h10, s0, s1, s2⟩

/-! ### Carrier set-up, phase anchor, fade and delay -/

theorem subharmonic_cases (t : Nat) :
    tsig_calculate_subharmonic t = 5 ∨ tsig_calculate_subharmonic t = 7 := by
  unfold tsig_calculate_subharmonic
  split
  · exact Or.inl rfl
  · exact Or.inr rfl

theorem generate_loop_succ (state : Int) (settled : Nat → Bool) (n i : Nat)
    (r : tsig_waveform_ctx_t × Int) :
    generate_loop state settled (n + 1) i r =
      generate_loop state settled n (i + 1) (generate_step state settled i r) := by
  obtain ⟨ctx, next⟩ := r
  rfl

theorem generate_step_fade (state : Int) (settled : Nat → Bool) (i : Nat)
    (r : tsig_waveform_ctx_t × Int) (h : r.1.fade_gain ≤ r.1.max_fade_gain)
    (hmax : r.1.max_fade_gain < 4294967296) :
    (generate_step state settled i r).1.max_fade_gain = r.1.max_fade_gain ∧
    (generate_step state settled i r).1.fade_gain ≤ r.1.max_fade_gain ∧
    (generate_step state settled i r).1.fade_gain =
      (if state = TSIG_STATE_FADE_IN then
        (if r.1.fade_gain < r.1.max_fade_gain then r.1.fade_gain + 1 else r.1.fade_gain)
       else if state = TSIG_STATE_FADE_OUT then
        (if 0 < r.1.fade_gain then r.1.fade_gain - 1 else r.1.fade_gain)
       else r.1.fade_gain) ∧
    ((generate_step state settled i r).2 = r.2 ∨
      ((generate_step state settled i r).2 = TSIG_STATE_RUNNING ∧ state = TSIG_STATE_FADE_IN ∧
        r.1.fade_gain = r.1.max_fade_gain) ∨
      ((generate_step state settled i r).2 = TSIG_STATE_SUSPEND ∧ state = TSIG_STATE_FADE_OUT ∧
        r.1.fade_gain = 0)) := by
  unfold generate_step
  by_cases h1 : state = TSIG_STATE_FADE_IN
  · rw [if_pos h1, if_pos h1]
    by_cases h2 : r.1.fade_gain < r.1.max_fade_gain
    · rw [if_pos h2, if_pos h2]
      have e : u32 (r.1.fade_gain + 1) = r.1.fade_gain + 1 := by unfold u32; omega
      refine ⟨rfl, ?_, ?_, Or.inl rfl⟩
      · show u32 (r.1.fade_gain + 1) ≤ _; rw [e]; omega
      · show u32 (r.1.fade_gain + 1) = _; rw [e]
    · rw [if_neg h2, if_neg h2]
      by_cases h3 : settled i = true
      · rw [if_pos h3]
        exact ⟨rfl, h, rfl, Or.inr (Or.inl ⟨rfl, h1, by omega⟩)⟩
      · rw [if_neg h3]
        exact ⟨rfl, h, rfl, Or.inl rfl⟩
  · rw [if_neg h1, if_neg h1]
    by_cases h4 : state = TSIG_STATE_FADE_OUT
    · rw [if_pos h4, if_pos h4]
      by_cases h5 : r.1.fade_gain ≠ 0
      · rw [if_pos h5, if_pos (show 0 < r.1.fade_gain by omega)]
        refine ⟨rfl, ?_, rfl, Or.inl rfl⟩
        show r.1.fade_gain - 1 ≤ _; omega
      · rw [if_neg h5, if_neg (show ¬ 0 < r.1.fade_gain by omega)]
        by_cases h3 : settled i = true
        · rw [if_pos h3]
          exact ⟨rfl, h, rfl, Or.inr (Or.inr ⟨rfl, h4, by omega⟩)⟩
        · rw [if_neg h3]
          exact ⟨rfl, h, rfl, Or.inl rfl⟩
    · rw [if_neg h4, if_neg h4]
      exact ⟨rfl, h, rfl, Or.inl rfl⟩

theorem generate_loop_fade (state : Int) (settled : Nat → Bool) (n : Nat) :
    ∀ (i : Nat) (r : tsig_waveform_ctx_t × Int), r.1.fade_gain ≤ r.1.max_fade_gain →
      r.1.max_fade_gain < 4294967296 →
      (generate_loop state settled n i r).1.max_fade_gain = r.1.max_fade_gain ∧
      (generate_loop state settled n i r).1.fade_gain ≤ r.1.max_fade_gain := by
  induction n with
  | zero => intro i r h _; exact ⟨rfl, h⟩
  | succ m ih =>
    intro i r h hmax
    obtain ⟨a1, a2, _, _⟩ := generate_step_fade state settled i r h hmax
    obtain ⟨b1, b2⟩ := ih (i + 1) (generate_step state settled i r) (by rw [a1]; exact a2)
      (by rw [a1]; exact hmax)
    rw [generate_loop_succ]
    exact ⟨b1.trans a1, by rw [a1] at b2; exact b2⟩

theorem cb_wait (m : tsig_module) (now : ℚ) (settled : Nat → Bool)
    (hs : m.tsig_ctx.state = TSIG_STATE_STARTUP ∨ m.tsig_ctx.state = TSIG_STATE_SUSPEND)
    (h2 : 2 ≤ m.tsig_ctx.delay_quantums) :
    tsig_awp_process_cb m now settled =
      { m with tsig_ctx := { m.tsig_ctx with delay_quantums := m.tsig_ctx.delay_quantums - 1 } } := by
  have hd : is_state_transition_delay_finished m =
      ({ m with tsig_ctx := { m.tsig_ctx with
          delay_quantums := m.tsig_ctx.delay_quantums - 1 } }, false) := by
    unfold is_state_transition_delay_finished
    rw [if_pos (by omega), if_neg (by omega)]
  unfold tsig_awp_process_cb
  rcases hs with h | h
  · rw [if_pos h, hd]
    unfold finish_process
    simp
  · rw [if_neg (by rw [h]; decide), if_neg (by rw [h]; decide), if_neg (by rw [h]; decide),
      if_pos h, hd]
    unfold finish_process
    simp

theorem cb_fire (m : tsig_module) (now : ℚ) (settled : Nat → Bool)
    (hs : m.tsig_ctx.state = TSIG_STATE_STARTUP ∨ m.tsig_ctx.state = TSIG_STATE_SUSPEND)
    (h1 : m.tsig_ctx.delay_quantums = 1) :
    (tsig_awp_process_cb m now settled).tsig_ctx.state =
      (if m.tsig_ctx.state = TSIG_STATE_STARTUP then TSIG_STATE_REQ_PARAMS else TSIG_STATE_IDLE) ∧
    (tsig_awp_process_cb m now settled).tsig_ctx.delay_quantums =
      (rearm_state_transition_delay m).tsig_ctx.delay_quantums ∧
    (tsig_awp_process_cb m now settled).notified = m.notified ++
      [if m.tsig_ctx.state = TSIG_STATE_STARTUP then TSIG_STATE_REQ_PARAMS else TSIG_STATE_IDLE] := by
  have hd : is_state_transition_delay_finished m =
      (rearm_state_transition_delay
        { m with tsig_ctx := { m.tsig_ctx with delay_quantums := 0 } }, true) := by
    unfold is_state_transition_delay_finished
    rw [if_pos (by omega), if_pos (by omega)]
  unfold tsig_awp_process_cb
  rcases hs with h | h
  · rw [if_pos h, hd]
    dsimp only
    rw [if_pos rfl, if_pos h]
    unfold finish_process
    rw [if_pos (by rw [h]; decide)]
    exact ⟨rfl, rfl, rfl⟩
  · rw [if_neg (by rw [h]; decide), if_neg (by rw [h]; decide), if_neg (by rw [h]; decide),
      if_pos h, hd]
    dsimp only
    rw [if_pos rfl, if_neg (by rw [h]; decide)]
    unfold finish_process
    rw [if_pos (by rw [h]; decide)]
    exact ⟨rfl, rfl, rfl⟩

theorem cb_countdown (m : tsig_module) (now : ℚ) (settled : Nat → Bool)
    (hs : m.tsig_ctx.state = TSIG_STATE_STARTUP ∨ m.tsig_ctx.state = TSIG_STATE_SUSPEND) :
    ∀ k, k < m.tsig_ctx.delay_quantums →
      Nat.iterate (fun x => tsig_awp_process_cb x now settled) k m =
        { m with tsig_ctx := { m.tsig_ctx with
            delay_quantums := m.tsig_ctx.delay_quantums - k } } := by
  intro k
  induction k with
  | zero => intro _; rfl
  | succ j ih =>
    intro h
    have hw := cb_wait
      { m with tsig_ctx := { m.tsig_ctx with
          delay_quantums := m.tsig_ctx.delay_quantums - j } } now settled hs
      (by show 2 ≤ m.tsig_ctx.delay_quantums - j; omega)
    rw [Function.iterate_succ_apply', ih (by omega), hw]
    show ({ m with tsig_ctx := { m.tsig_ctx with
      delay_quantums := m.tsig_ctx.delay_quantums - j - 1 } } : tsig_module) = _
    rw [Nat.sub_sub]

theorem cb_idle (m : tsig_module) (now : ℚ) (settled : Nat → Bool)
    (hs : m.tsig_ctx.state = TSIG_STATE_REQ_PARAMS ∨ m.tsig_ctx.state = TSIG_STATE_IDLE) :
    tsig_awp_process_cb m now settled = m := by
  unfold tsig_awp_process_cb
  rcases hs with h | h <;>
    rw [if_neg (by rw [h]; decide), if_neg (by rw [h]; decide), if_neg (by rw [h]; decide),
      if_neg (by rw [h]; decide)]

theorem cb_iterate_last (m : tsig_module) (now : ℚ) (settled : Nat → Bool)
    (hs : m.tsig_ctx.state = TSIG_STATE_STARTUP ∨ m.tsig_ctx.state = TSIG_STATE_SUSPEND)
    (hN : 1 ≤ m.tsig_ctx.delay_quantums) :
    Nat.iterate (fun x => tsig_awp_process_cb x now settled) m.tsig_ctx.delay_quantums m =
      tsig_awp_process_cb
        { m with tsig_ctx := { m.tsig_ctx with delay_quantums := 1 } } now settled := by
  obtain ⟨n, hn⟩ : ∃ n, m.tsig_ctx.delay_quantums = n + 1 :=
    ⟨m.tsig_ctx.delay_quantums - 1, by omega⟩
  have h1 : Nat.iterate (fun x => tsig_awp_process_cb x now settled) (n + 1) m =
      tsig_awp_process_cb (Nat.iterate (fun x => tsig_awp_process_cb x now settled) n m)
        now settled := Function.iterate_succ_apply' _ _ _
  rw [cb_countdown m now settled hs n (by omega)] at h1
  have e : m.tsig_ctx.delay_quantums - n = 1 := by omega
  rw [e] at h1
  rw [hn]
  exact h1

/-! ### The encoders overwrite the whole pattern and nothing else -/

theorem byteBits_checked : byteBitsOk = true := by decide!

theorem byte_of_bits (x : Nat) (hx : x < 256) :
    byteOfBits (fun t => x &&& (1 <<< t) != 0) = x :=
  eq_of_beq (allBelow_spec _ 256 byteBits_checked x hx)

theorem byteOfBits_congr (f g : Nat → Bool) (h : ∀ t, t < 8 → f t = g t) :
    byteOfBits f = byteOfBits g := by
  unfold byteOfBits
  congr 1
  apply List.map_congr_left
  intro t ht
  rw [h t (List.mem_range.1 ht)]

/-- Two 150-byte patterns with the same 1200 ticks are equal. -/
theorem pattern_ext (a b : List Nat) (ha : XmitOk a) (hb : XmitOk b)
    (h : ∀ k, k < 1200 → tickHigh a k = tickHigh b k) : a = b := by
  apply List.ext_getElem (by rw [ha.1, hb.1])
  intro i h1 h2
  have hi : i < 150 := by rw [ha.1] at h1; exact h1
  have ea : a.getD i 0 = a[i] := List.getD_eq_getElem _ _ h1
  have eb : b.getD i 0 = b[i] := List.getD_eq_getElem _ _ h2
  rw [← ea, ← eb, ← byte_of_bits _ (getD_lt_of_ok ha i), ← byte_of_bits _ (getD_lt_of_ok hb i)]
  apply byteOfBits_congr
  intro t ht
  have hk := h (8 * i + t) (by omega)
  unfold tickHigh at hk
  have e1 : (8 * i + t) / 8 = i := by omega
  have e2 : (8 * i + t) % 8 = t := by omega
  rw [e1, e2] at hk
  exact hk

theorem agree_lowHigh (los : List Nat) (a b : List Nat) (j : Nat) (ha : XmitOk a)
    (hb : XmitOk b) (h20 : ∀ lo ∈ los, lo ≤ 20) (hj : j + 20 * los.length ≤ 1200)
    (h : ∀ k, k < j → tickHigh a k = tickHigh b k) :
    XmitOk (paintLowHigh a j los) ∧ XmitOk (paintLowHigh b j los) ∧
    ∀ k, k < j + 20 * los.length →
      tickHigh (paintLowHigh a j los) k = tickHigh (paintLowHigh b j los) k := by
  obtain ⟨a1, a2⟩ := paintLowHigh_spec los a j ha h20 hj
  obtain ⟨b1, b2⟩ := paintLowHigh_spec los b j hb h20 hj
  refine ⟨a1, b1, fun k hk => ?_⟩
  rw [a2 k, b2 k]
  by_cases hc : j ≤ k ∧ k < j + 20 * los.length
  · rw [if_pos hc, if_pos hc]
  · rw [if_neg hc, if_neg hc]
    exact h k (by omega)

theorem agree_highLow (his : List Nat) (a b : List Nat) (j : Nat) (ha : XmitOk a)
    (hb : XmitOk b) (h20 : ∀ hi ∈ his, hi ≤ 20) (hj : j + 20 * his.length ≤ 1200)
    (h : ∀ k, k < j → tickHigh a k = tickHigh b k) :
    XmitOk (paintHighLow a j his) ∧ XmitOk (paintHighLow b j his) ∧
    ∀ k, k < j + 20 * his.length →
      tickHigh (paintHighLow a j his) k = tickHigh (paintHighLow b j his) k := by
  obtain ⟨a1, a2⟩ := paintHighLow_spec his a j ha h20 hj
  obtain ⟨b1, b2⟩ := paintHighLow_spec his b j hb h20 hj
  refine ⟨a1, b1, fun k hk => ?_⟩
  rw [a2 k, b2 k]
  by_cases hc : j ≤ k ∧ k < j + 20 * his.length
  · rw [if_pos hc, if_pos hc]
  · rw [if_neg hc, if_neg hc]
    exact h k (by omega)

theorem agree_morse (a b : List Nat) (ha : XmitOk a) (hb : XmitOk b)
    (h : ∀ k, k < 800 → tickHigh a k = tickHigh b k) :
    XmitOk (tsig_xmit_jjy_morse a) ∧ XmitOk (tsig_xmit_jjy_morse b) ∧
    ∀ k, k < 980 → tickHigh (tsig_xmit_jjy_morse a) k = tickHigh (tsig_xmit_jjy_morse b) k := by
  obtain ⟨a1, a2⟩ := jjy_morse_spec a ha
  obtain ⟨b1, b2⟩ := jjy_morse_spec b hb
  refine ⟨a1, b1, fun k hk => ?_⟩
  rw [a2 k, b2 k]
  by_cases hc : 800 ≤ k ∧ k < 800 + 180
  · rw [decide_eq_true hc]; rfl
  · rw [decide_eq_false hc, h k (by omega)]

/-! Lengths and painting at the start of a longer array. -/

theorem setTick_append (xl ext : List Nat) (j : Nat) (h : j / 8 < xl.length) :
    setTick (xl ++ ext) j = setTick xl j ++ ext ∧ (setTick xl j).length = xl.length := by
  unfold setTick
  rw [List.set_append_left _ _ h, List.getD_append _ _ _ _ h, List.length_set]
  exact ⟨rfl, rfl⟩

theorem clearTick_append (xl ext : List Nat) (j : Nat) (h : j / 8 < xl.length) :
    clearTick (xl ++ ext) j = clearTick xl j ++ ext ∧ (clearTick xl j).length = xl.length := by
  unfold clearTick
  rw [List.set_append_left _ _ h, List.getD_append _ _ _ _ h, List.length_set]
  exact ⟨rfl, rfl⟩

theorem paintHigh_length (n : Nat) : ∀ (xl : List Nat) (j : Nat),
    (paintHigh xl j n).length = xl.length := by
  induction n with
  | zero => intro xl j; rfl
  | succ m ih =>
    intro xl j
    show (paintHigh (setTick xl j) (j + 1) m).length = _
    rw [ih]
    unfold setTick
    rw [List.length_set]

theorem paintLow_length (n : Nat) : ∀ (xl : List Nat) (j : Nat),
    (paintLow xl j n).length = xl.length := by
  induction n with
  | zero => intro xl j; rfl
  | succ m ih =>
    intro xl j
    show (paintLow (clearTick xl j) (j + 1) m).length = _
    rw [ih]
    unfold clearTick
    rw [List.length_set]

theorem paintHigh_append (ext : List Nat) (n : Nat) : ∀ (xl : List Nat) (j : Nat),
    j + n ≤ 8 * xl.length → paintHigh (xl ++ ext) j n = paintHigh xl j n ++ ext := by
  induction n with
  | zero => intro xl j _; rfl
  | succ m ih =>
    intro xl j h
    obtain ⟨e1, e2⟩ := setTick_append xl ext j (by omega)
    show paintHigh (setTick (xl ++ ext) j) (j + 1) m = paintHigh (setTick xl j) (j + 1) m ++ ext
    rw [e1, ih (setTick xl j) (j + 1) (by rw [e2]; omega)]

theorem paintLow_append (ext : List Nat) (n : Nat) : ∀ (xl : List Nat) (j : Nat),
    j + n ≤ 8 * xl.length → paintLow (xl ++ ext) j n = paintLow xl j n ++ ext := by
  induction n with
  | zero => intro xl j _; rfl
  | succ m ih =>
    intro xl j h
    obtain ⟨e1, e2⟩ := clearTick_append xl ext j (by omega)
    show paintLow (clearTick (xl ++ ext) j) (j + 1) m = paintLow (clearTick xl j) (j + 1) m ++ ext
    rw [e1, ih (clearTick xl j) (j + 1) (by rw [e2]; omega)]

theorem paintLowHigh_append (ext : List Nat) (los : List Nat) : ∀ (xl : List Nat) (j : Nat),
    (∀ lo ∈ los, lo ≤ 20) → j + 20 * los.length ≤ 8 * xl.length →
    paintLowHigh (xl ++ ext) j los = paintLowHigh xl j los ++ ext ∧
    (paintLowHigh xl j los).length = xl.length := by
  induction los with
  | nil => intro xl j _ _; exact ⟨rfl, rfl⟩
  | cons lo rest ih =>
    intro xl j h20 hj
    have hlo := h20 lo (List.mem_cons_self _ _)
    simp only [List.length_cons] at hj
    have hl : (paintHigh (paintLow xl j lo) (j + lo) (TSIG_WAVEFORM_TICKS_PER_SEC - lo)).length
        = xl.length := by rw [paintHigh_length, paintLow_length]
    obtain ⟨r1, r2⟩ := ih (paintHigh (paintLow xl j lo) (j + lo) (TSIG_WAVEFORM_TICKS_PER_SEC - lo))
      (j + lo + (TSIG_WAVEFORM_TICKS_PER_SEC - lo))
      (fun x hx => h20 x (List.mem_cons_of_mem _ hx)) (by rw [hl, ticks_per_sec]; omega)
    refine ⟨?_, by
      show (paintLowHigh (paintHigh (paintLow xl j lo) (j + lo) (TSIG_WAVEFORM_TICKS_PER_SEC - lo))
        (j + lo + (TSIG_WAVEFORM_TICKS_PER_SEC - lo)) rest).length = _
      rw [r2, hl]⟩
    show paintLowHigh (paintHigh (paintLow (xl ++ ext) j lo) (j + lo)
      (TSIG_WAVEFORM_TICKS_PER_SEC - lo)) (j + lo + (TSIG_WAVEFORM_TICKS_PER_SEC - lo)) rest = _
    rw [paintLow_append ext lo xl j (by omega),
      paintHigh_append ext _ (paintLow xl j lo) (j + lo)
        (by rw [paintLow_length, ticks_per_sec]; omega), r1]
    rfl

theorem paintHighLow_append (ext : List Nat) (his : List Nat) : ∀ (xl : List Nat) (j : Nat),
    (∀ hi ∈ his, hi ≤ 20) → j + 20 * his.length ≤ 8 * xl.length →
    paintHighLow (xl ++ ext) j his = paintHighLow xl j his ++ ext ∧
    (paintHighLow xl j his).length = xl.length := by
  induction his with
  | nil => intro xl j _ _; exact ⟨rfl, rfl⟩
  | cons hi rest ih =>
    intro xl j h20 hj
    have hhi := h20 hi (List.mem_cons_self _ _)
    simp only [List.length_cons] at hj
    have hl : (paintLow (paintHigh xl j hi) (j + hi) (TSIG_WAVEFORM_TICKS_PER_SEC - hi)).length
        = xl.length := by rw [paintLow_length, paintHigh_length]
    obtain ⟨r1, r2⟩ := ih (paintLow (paintHigh xl j hi) (j + hi) (TSIG_WAVEFORM_TICKS_PER_SEC - hi))
      (j + hi + (TSIG_WAVEFORM_TICKS_PER_SEC - hi))
      (fun x hx => h20 x (List.mem_cons_of_mem _ hx)) (by rw [hl, ticks_per_sec]; omega)
    refine ⟨?_, by
      show (paintHighLow (paintLow (paintHigh xl j hi) (j + hi) (TSIG_WAVEFORM_TICKS_PER_SEC - hi))
        (j + hi + (TSIG_WAVEFORM_TICKS_PER_SEC - hi)) rest).length = _
      rw [r2, hl]⟩
    show paintHighLow (paintLow (paintHigh (xl ++ ext) j hi) (j + hi)
      (TSIG_WAVEFORM_TICKS_PER_SEC - hi)) (j + hi + (TSIG_WAVEFORM_TICKS_PER_SEC - hi)) rest = _
    rw [paintHigh_append ext hi xl j (by omega),
      paintLow_append ext _ (paintHigh xl j hi) (j + hi)
        (by rw [paintHigh_length, ticks_per_sec]; omega), r1]
    rfl

theorem paintPulses_append (ext : List Nat) (ps : List (Nat × Nat)) : ∀ (xl : List Nat),
    (∀ p ∈ ps, p.1 + p.2 ≤ 8 * xl.length) →
    paintPulses (xl ++ ext) ps = paintPulses xl ps ++ ext ∧
    (paintPulses xl ps).length = xl.length := by
  induction ps with
  | nil => intro xl _; exact ⟨rfl, rfl⟩
  | cons p rest ih =>
    intro xl hp
    have h1 := hp p (List.mem_cons_self _ _)
    obtain ⟨r1, r2⟩ := ih (paintHigh xl p.1 p.2) (fun q hq => by
      rw [paintHigh_length]; exact hp q (List.mem_cons_of_mem _ hq))
    refine ⟨?_, by
      show (paintPulses (paintHigh xl p.1 p.2) rest).length = _
      rw [r2, paintHigh_length]⟩
    show paintPulses (paintHigh (xl ++ ext) p.1 p.2) rest = _
    rw [paintHigh_append ext p.2 xl p.1 h1, r1]
    rfl

theorem morse_append (ext xl : List Nat) (h : xl.length = 150) :
    tsig_xmit_jjy_morse (xl ++ ext) = tsig_xmit_jjy_morse xl ++ ext ∧
    (tsig_xmit_jjy_morse xl).length = xl.length := by
  rw [jjy_morse_eq, jjy_morse_eq, paintLow_append ext 180 xl 800 (by rw [h]; decide)]
  have hp : ∀ p ∈ jjyMorsePulses, p.1 + p.2 ≤ 8 * (paintLow xl 800 180).length := by
    rw [paintLow_length, h]
    decide
  obtain ⟨r1, r2⟩ := paintPulses_append ext jjyMorsePulses (paintLow xl 800 180) hp
  exact ⟨r1, by rw [r2, paintLow_length]⟩

/-! ### The five encoders -/

theorem xmitOk_ones : XmitOk (List.replicate 150 255) := by
  refine ⟨List.length_replicate _ _, ?_⟩
  intro b hb
  rw [List.eq_of_mem_replicate hb]
  decide

/-- A run of 60 seconds painted low-then-high from tick 0 overwrites the pattern. -/
theorem frame_lowHigh (los : List Nat) (hlen : los.length = 60) (h20 : ∀ lo ∈ los, lo ≤ 20)
    (xl1 xl2 ext : List Nat) (h1 : XmitOk xl1) (h2 : XmitOk xl2) :
    paintLowHigh xl1 0 los = paintLowHigh xl2 0 los ∧
    paintLowHigh (xl1 ++ ext) 0 los = paintLowHigh xl1 0 los ++ ext ∧
    XmitOk (paintLowHigh xl1 0 los) := by
  obtain ⟨a1, a2, a3⟩ := agree_lowHigh los xl1 xl2 0 h1 h2 h20 (by rw [hlen])
    (fun k hk => absurd hk (by omega))
  refine ⟨pattern_ext _ _ a1 a2 (fun k hk => a3 k (by rw [hlen]; omega)), ?_, a1⟩
  exact (paintLowHigh_append ext los xl1 0 h20 (by rw [hlen, h1.1])).1

theorem frame_highLow (his : List Nat) (hlen : his.length = 60) (h20 : ∀ hi ∈ his, hi ≤ 20)
    (xl1 xl2 ext : List Nat) (h1 : XmitOk xl1) (h2 : XmitOk xl2) :
    paintHighLow xl1 0 his = paintHighLow xl2 0 his ∧
    paintHighLow (xl1 ++ ext) 0 his = paintHighLow xl1 0 his ++ ext ∧
    XmitOk (paintHighLow xl1 0 his) := by
  obtain ⟨a1, a2, a3⟩ := agree_highLow his xl1 xl2 0 h1 h2 h20 (by rw [hlen])
    (fun k hk => absurd hk (by omega))
  refine ⟨pattern_ext _ _ a1 a2 (fun k hk => a3 k (by rw [hlen]; omega)), ?_, a1⟩
  exact (paintHighLow_append ext his xl1 0 h20 (by rw [hlen, h1.1])).1

theorem frame_wwvb (d : tsig_datetime_t) (p : tsig_params_t) (xl1 xl2 ext : List Nat)
    (h1 : XmitOk xl1) (h2 : XmitOk xl2) :
    tsig_xmit_wwvb d p xl1 = tsig_xmit_wwvb d p xl2 ∧
    tsig_xmit_wwvb d p (xl1 ++ ext) = tsig_xmit_wwvb d p xl1 ++ ext ∧
    XmitOk (tsig_xmit_wwvb d p xl1) :=
  frame_lowHigh ((wwvb_bits d p).map wwvb_lo) (by rw [List.length_map, wwvb_bits_length])
    (by intro lo hlo; obtain ⟨b, _, hb⟩ := List.mem_map.1 hlo; rw [← hb]; exact wwvb_lo_le b)
    xl1 xl2 ext h1 h2

theorem frame_dcf77 (d : tsig_datetime_t) (p : tsig_params_t) (xl1 xl2 ext : List Nat)
    (h1 : XmitOk xl1) (h2 : XmitOk xl2) :
    tsig_xmit_dcf77 d p xl1 = tsig_xmit_dcf77 d p xl2 ∧
    tsig_xmit_dcf77 d p (xl1 ++ ext) = tsig_xmit_dcf77 d p xl1 ++ ext ∧
    XmitOk (tsig_xmit_dcf77 d p xl1) :=
  frame_lowHigh ((dcf77_bits d).map dcf77_lo) (by rw [List.length_map, dcf77_bits_length])
    (by intro lo hlo; obtain ⟨b, _, hb⟩ := List.mem_map.1 hlo; rw [← hb]; exact dcf77_lo_le b)
    xl1 xl2 ext h1 h2

theorem frame_msf (d : tsig_datetime_t) (p : tsig_params_t) (xl1 xl2 ext : List Nat)
    (h1 : XmitOk xl1) (h2 : XmitOk xl2) :
    tsig_xmit_msf d p xl1 = tsig_xmit_msf d p xl2 ∧
    tsig_xmit_msf d p (xl1 ++ ext) = tsig_xmit_msf d p xl1 ++ ext ∧
    XmitOk (tsig_xmit_msf d p xl1) :=
  frame_lowHigh ((List.range 60).map (fun i => msf_lo i ((msf_bits d p).getD i 0)))
    (by rw [List.length_map, List.length_range])
    (by intro lo hlo; obtain ⟨b, _, hb⟩ := List.mem_map.1 hlo; rw [← hb]; exact msf_lo_le _ _)
    xl1 xl2 ext h1 h2

theorem frame_bpc (d : tsig_datetime_t) (p : tsig_params_t) (xl1 xl2 ext : List Nat)
    (h1 : XmitOk xl1) (h2 : XmitOk xl2) :
    tsig_xmit_bpc d p xl1 = tsig_xmit_bpc d p xl2 ∧
    tsig_xmit_bpc d p (xl1 ++ ext) = tsig_xmit_bpc d p xl1 ++ ext ∧
    XmitOk (tsig_xmit_bpc d p xl1) := by
  have l0 : ((bpc_pass_bits d 0).map bpc_lo).length = 20 := by
    rw [List.length_map, bpc_pass_length d 0 (by decide)]
  have l1 : ((bpc_pass_bits d 1).map bpc_lo).length = 20 := by
    rw [List.length_map, bpc_pass_length d 1 (by decide)]
  have l2 : ((bpc_pass_bits d 2).map bpc_lo).length = 20 := by
    rw [List.length_map, bpc_pass_length d 2 (by decide)]
  obtain ⟨a1, a2, a3⟩ := agree_lowHigh ((bpc_pass_bits d 0).map bpc_lo) xl1 xl2 0 h1 h2
    (bpc_los_le d 0 (by decide)) (by rw [l0]; decide) (fun k hk => absurd hk (by omega))
  obtain ⟨b1, b2, b3⟩ := agree_lowHigh ((bpc_pass_bits d 1).map bpc_lo) _ _ 400 a1 a2
    (bpc_los_le d 1 (by decide)) (by rw [l1]; decide) (fun k hk => a3 k (by rw [l0]; omega))
  obtain ⟨c1, c2, c3⟩ := agree_lowHigh ((bpc_pass_bits d 2).map bpc_lo) _ _ 800 b1 b2
    (bpc_los_le d 2 (by decide)) (by rw [l2]) (fun k hk => b3 k (by rw [l1]; omega))
  obtain ⟨p1, q1⟩ := paintLowHigh_append ext ((bpc_pass_bits d 0).map bpc_lo) xl1 0
    (bpc_los_le d 0 (by decide)) (by rw [l0, h1.1]; decide)
  obtain ⟨p2, q2⟩ := paintLowHigh_append ext ((bpc_pass_bits d 1).map bpc_lo)
    (paintLowHigh xl1 0 ((bpc_pass_bits d 0).map bpc_lo)) 400
    (bpc_los_le d 1 (by decide)) (by rw [l1, q1, h1.1]; decide)
  obtain ⟨p3, _⟩ := paintLowHigh_append ext ((bpc_pass_bits d 2).map bpc_lo)
    (paintLowHigh (paintLowHigh xl1 0 ((bpc_pass_bits d 0).map bpc_lo)) 400
      ((bpc_pass_bits d 1).map bpc_lo)) 800
    (bpc_los_le d 2 (by decide)) (by rw [l2, q2, q1, h1.1])
  unfold tsig_xmit_bpc
  rw [← bpc_pass_zero, ← bpc_pass_one, ← bpc_pass_two]
  refine ⟨pattern_ext _ _ c1 c2 (fun k hk => c3 k (by rw [l2]; omega)), ?_, c1⟩
  rw [p1, p2, p3]

theorem frame_jjy (d : tsig_datetime_t) (p : tsig_params_t) (xl1 xl2 ext : List Nat)
    (h1 : XmitOk xl1) (h2 : XmitOk xl2) :
    tsig_xmit_jjy d p xl1 = tsig_xmit_jjy d p xl2 ∧
    tsig_xmit_jjy d p (xl1 ++ ext) = tsig_xmit_jjy d p xl1 ++ ext ∧
    XmitOk (tsig_xmit_jjy d p xl1) := by
  have hhi : ∀ (l : List Nat), ∀ hi ∈ l.map jjy_hi, hi ≤ 20 := by
    intro l hi hhi
    obtain ⟨b, _, hb⟩ := List.mem_map.1 hhi
    rw [← hb]; exact jjy_hi_le b
  by_cases ha : d.min = 15 ∨ d.min = 45
  · have e : ∀ xl, tsig_xmit_jjy d p xl =
        paintHighLow (tsig_xmit_jjy_morse (paintHighLow xl 0 (((jjy_bits d).take 40).map jjy_hi)))
          980 (((jjy_bits d).drop 49).map jjy_hi) := by
      intro xl
      show (if d.min = 15 ∨ d.min = 45 then _ else _) = _
      rw [if_pos ha]
      rfl
    have l0 : (((jjy_bits d).take 40).map jjy_hi).length = 40 := by
      rw [List.length_map, List.length_take, jjy_bits_length]; decide
    have l1 : (((jjy_bits d).drop 49).map jjy_hi).length = 11 := by
      rw [List.length_map, List.length_drop, jjy_bits_length]
    obtain ⟨a1, a2, a3⟩ := agree_highLow (((jjy_bits d).take 40).map jjy_hi) xl1 xl2 0 h1 h2
      (hhi _) (by rw [l0]; decide) (fun k hk => absurd hk (by omega))
    obtain ⟨b1, b2, b3⟩ := agree_morse _ _ a1 a2 (fun k hk => a3 k (by rw [l0]; omega))
    obtain ⟨c1, c2, c3⟩ := agree_highLow (((jjy_bits d).drop 49).map jjy_hi) _ _ 980 b1 b2
      (hhi _) (by rw [l1]) (fun k hk => b3 k hk)
    obtain ⟨p1, q1⟩ := paintHighLow_append ext (((jjy_bits d).take 40).map jjy_hi) xl1 0
      (hhi _) (by rw [l0, h1.1]; decide)
    obtain ⟨p2, q2⟩ := morse_append ext (paintHighLow xl1 0 (((jjy_bits d).take 40).map jjy_hi))
      (by rw [q1, h1.1])
    obtain ⟨p3, _⟩ := paintHighLow_append ext (((jjy_bits d).drop 49).map jjy_hi)
      (tsig_xmit_jjy_morse (paintHighLow xl1 0 (((jjy_bits d).take 40).map jjy_hi))) 980
      (hhi _) (by rw [l1, q2, q1, h1.1])
    rw [e, e, e]
    refine ⟨pattern_ext _ _ c1 c2 (fun k hk => c3 k (by rw [l1]; omega)), ?_, c1⟩
    rw [p1, p2, p3]
  · have e : ∀ xl, tsig_xmit_jjy d p xl = paintHighLow xl 0 ((jjy_bits d).map jjy_hi) := by
      intro xl
      show (if d.min = 15 ∨ d.min = 45 then _ else _) = _
      rw [if_neg ha]
    rw [e, e, e]
    exact frame_highLow ((jjy_bits d).map jjy_hi) (by rw [List.length_map, jjy_bits_length])
      (hhi _) xl1 xl2 ext h1 h2

/-! ### The value of `edist_calc` is a byte -/

theorem forU8_inv {σ : Type} (P : σ → Prop) (hi : Nat) (body : Nat → σ → Option σ)
    (hb : ∀ i s t, i ≤ hi → P s → body i s = some t → P t) :
    ∀ (fuel i : Nat) (s t : σ), P s → forU8 hi body fuel i s = some t → P t := by
  intro fuel
  induction fuel with
  | zero => intro i s t _ h; simp [forU8_zero] at h
  | succ n ih =>
    intro i s t hs h
    rw [forU8_succ] at h
    by_cases hi1 : i ≤ hi
    · rw [if_pos hi1] at h
      obtain ⟨x, hx, hx2⟩ := Option.bind_eq_some.1 h
      exact ih _ x t (hb i s x hi1 hs hx) hx2
    · rw [if_neg hi1] at h
      cases h
      exact hs

theorem u8i_lt (x : Int) : u8i x < 256 := by
  unfold u8i; omega

theorem bytes_set (l : List Nat) (i v : Nat) (hl : ∀ x ∈ l, x < 256) (hv : v < 256) :
    ∀ x ∈ l.set i v, x < 256 := by
  intro x hx
  rcases List.mem_or_eq_of_mem_set hx with h | h
  · exact hl x h
  · rw [h]; exact hv

theorem bytes_transpose (s1 idxs1 s2 idxs2 : List Nat) (i : Nat) (buf2 b : List Nat) (j : Nat)
    (hb : ∀ x ∈ b, x < 256) :
    ∀ x ∈ edist_transpose_cell s1 idxs1 s2 idxs2 i buf2 b j, x < 256 := by
  unfold edist_transpose_cell
  split
  · exact bytes_set _ _ _ hb (u8i_lt _)
  · exact hb

theorem cell_value_lt (s1 idxs1 s2 idxs2 : List Nat) (i : Nat) (buf1 : List Nat) (j : Nat)
    (c : edist_cols) (h : c.up_left < 256) :
    edist_cell_value s1 idxs1 s2 idxs2 i buf1 j c < 256 := by
  unfold edist_cell_value
  split
  · exact u8i_lt _
  · exact h

theorem bytes_cell (s1 idxs1 s2 idxs2 : List Nat) (i : Nat) (buf1 buf2 : List Nat) (j : Nat)
    (c : edist_cols) (h1 : ∀ x ∈ buf1, x < 256)
    (hc : (∀ x ∈ c.buf0, x < 256) ∧ c.up_left < 256 ∧ c.left < 256) :
    (∀ x ∈ (edist_cell s1 idxs1 s2 idxs2 i buf1 buf2 j c).buf0, x < 256) ∧
    (edist_cell s1 idxs1 s2 idxs2 i buf1 buf2 j c).up_left < 256 ∧
    (edist_cell s1 idxs1 s2 idxs2 i buf1 buf2 j c).left < 256 := by
  have hv := cell_value_lt s1 idxs1 s2 idxs2 i buf1 j c hc.2.1
  exact ⟨bytes_transpose _ _ _ _ _ _ _ _ (bytes_set _ _ _ hc.1 hv), getD_lt_of_all buf1 h1 j, hv⟩

theorem bytes_row (fuel : Nat) (s1 idxs1 s2 idxs2 : List Nat) (len2 i : Nat) (hi : i < 256)
    (st t : edist_rows)
    (hst : (∀ x ∈ st.buf0, x < 256) ∧ (∀ x ∈ st.buf1, x < 256) ∧ (∀ x ∈ st.buf2, x < 256))
    (h : edist_row fuel s1 idxs1 s2 idxs2 len2 i st = some t) :
    (∀ x ∈ t.buf0, x < 256) ∧ (∀ x ∈ t.buf1, x < 256) ∧ (∀ x ∈ t.buf2, x < 256) := by
  unfold edist_row at h
  obtain ⟨c, hc, hc2⟩ := Option.map_eq_some'.1 h
  have hfv : edist_first_value s1 idxs1 s2 idxs2 i st < 256 := by
    unfold edist_first_value
    split
    · exact u8i_lt _
    · exact getD_lt_of_all _ hst.1 _
  have h0 : (∀ x ∈ (edist_row_first s1 idxs1 s2 idxs2 i st).buf0, x < 256) ∧
      (edist_row_first s1 idxs1 s2 idxs2 i st).up_left < 256 ∧
      (edist_row_first s1 idxs1 s2 idxs2 i st).left < 256 :=
    ⟨bytes_transpose _ _ _ _ _ _ _ _ (bytes_set _ _ _ (bytes_set _ _ _ hst.2.2 hi) hfv),
      getD_lt_of_all _ hst.1 _, hfv⟩
  have hcols := forU8_inv
    (fun c : edist_cols => (∀ x ∈ c.buf0, x < 256) ∧ c.up_left < 256 ∧ c.left < 256) _ _
    (fun j c t _ hc ht => by
      cases ht
      exact bytes_cell s1 idxs1 s2 idxs2 i st.buf0 st.buf1 j c hst.1 hc)
    fuel _ _ c h0 hc
  have hlv : edist_last_value s1 idxs1 s2 idxs2 len2 i st c < 256 := by
    unfold edist_last_value
    split
    · exact u8i_lt _
    · exact hcols.2.1
  rw [← hc2]
  refine ⟨?_, hst.1, hst.2.1⟩
  show ∀ x ∈ (if edist_row_r len2 st = len2 then c.buf0 else _), x < 256
  split
  · exact hcols.1
  · exact bytes_transpose _ _ _ _ _ _ _ _ (bytes_set _ _ _ hcols.1 hlv)

theorem bytes_replicate (n : Nat) : ∀ x ∈ List.replicate n 0, x < 256 := by
  intro x hx
  rw [List.eq_of_mem_replicate hx]
  decide

theorem bytes_rows_init (fuel len1 len2 : Nat) (h2 : len2 ≤ 254) (h3 : 1 ≤ len2) (t : edist_rows)
    (h : edist_rows_init fuel len1 len2 = some t) :
    (∀ x ∈ t.buf0, x < 256) ∧ (∀ x ∈ t.buf1, x < 256) ∧ (∀ x ∈ t.buf2, x < 256) := by
  unfold edist_rows_init at h
  obtain ⟨b, hb, hb2⟩ := Option.map_eq_some'.1 h
  have hr : u8i (((len2 : Int) - 1) / 2) ≤ 254 := by
    unfold u8i; omega
  have hbuf := forU8_inv (fun l : List Nat => ∀ x ∈ l, x < 256) _ _
    (fun i s t hi hs ht => by
      cases ht
      exact bytes_set _ _ _ hs (by omega))
    fuel _ _ b (bytes_replicate _) hb
  rw [← hb2]
  exact ⟨hbuf, bytes_replicate _, bytes_replicate _⟩

theorem edist_calc_ordered_lt (fuel : Nat) (s1 idxs1 : List Nat) (len1 : Nat)
    (s2 idxs2 : List Nat) (len2 v : Nat) (h1 : len1 ≤ 254) (h2 : len2 ≤ 254)
    (h : edist_calc_ordered fuel s1 idxs1 len1 s2 idxs2 len2 = some v) : v < 256 := by
  unfold edist_calc_ordered at h
  by_cases e0 : len2 = 0
  · rw [if_pos e0] at h; cases h; omega
  rw [if_neg e0] at h
  by_cases e1 : len2 = 1
  · rw [if_pos e1] at h; cases h
    unfold edist_calc_le2
    split <;> exact u8i_lt _
  rw [if_neg e1] at h
  by_cases e2 : len2 = 2
  · rw [if_pos e2] at h; cases h; exact u8i_lt _
  rw [if_neg e2] at h
  obtain ⟨st, hst, hv⟩ := Option.map_eq_some'.1 h
  obtain ⟨st0, hst0, hrun⟩ := Option.bind_eq_some.1 hst
  have hinit := bytes_rows_init fuel len1 len2 h2 (by omega) st0 hst0
  have hrows := forU8_inv
    (fun r : edist_rows =>
      (∀ x ∈ r.buf0, x < 256) ∧ (∀ x ∈ r.buf1, x < 256) ∧ (∀ x ∈ r.buf2, x < 256)) _ _
    (fun i s t hi hs ht => bytes_row fuel s1 idxs1 s2 idxs2 len2 i (by omega) s t hs ht)
    fuel _ _ st hinit hrun
  rw [← hv]
  exact getD_lt_of_all _ hrows.1 _

/-- A value returned by `edist_calc` for strings of at most 254 code points is below 256. -/
theorem edist_calc_lt (fuel : Nat) (s1 idxs1 : List Nat) (len1 : Nat) (s2 idxs2 : List Nat)
    (len2 v : Nat) (h1 : len1 ≤ 254) (h2 : len2 ≤ 254)
    (h : edist_calc fuel s1 idxs1 len1 s2 idxs2 len2 = some v) : v < 256 := by
  unfold edist_calc at h
  split at h
  · exact edist_calc_ordered_lt fuel _ _ _ _ _ _ v h2 h1 h
  · exact edist_calc_ordered_lt fuel _ _ _ _ _ _ v h1 h2 h

/-! ### Runs of the lifecycle -/

theorem render_step_state (m : tsig_module) (now : ℚ) (settled : Nat → Bool) :
    (tsig_awp_process_cb m now settled).tsig_ctx.state = m.tsig_ctx.state ∨
    m.tsig_ctx.state < (tsig_awp_process_cb m now settled).tsig_ctx.state ∨
    (m.tsig_ctx.state = TSIG_STATE_SUSPEND ∧
      (tsig_awp_process_cb m now settled).tsig_ctx.state = TSIG_STATE_IDLE) := by
  unfold tsig_awp_process_cb
  split_ifs with h1 hf h3 h4 h5 h6
  · rw [finish_process_state _ _ _ (delay_finished_state m)]
    right; left; rw [h1]; decide
  · rw [finish_process_state _ _ _ (delay_finished_state m)]
    left; rfl
  · rw [finish_process_state _ _ _ rfl]
    right; left; rw [h3]; decide
  · rw [finish_process_state _ _ _ rfl]
    rcases generate_loop_next m.tsig_ctx.state settled TSIG_RENDER_QUANTUM 0
      (m.tsig_ctx.waveform_ctx, m.tsig_ctx.state) with h | h | h
    · left; exact h
    · right; left
      show _ < (generate_loop m.tsig_ctx.state settled TSIG_RENDER_QUANTUM 0 _).2
      rw [h.2, h.1]; decide
    · right; left
      show _ < (generate_loop m.tsig_ctx.state settled TSIG_RENDER_QUANTUM 0 _).2
      rw [h.2, h.1]; decide
  · rw [finish_process_state _ _ _ (delay_finished_state m)]
    right; right; exact ⟨h5, rfl⟩
  · rw [finish_process_state _ _ _ (delay_finished_state m)]
    left; rfl
  · left; rfl

theorem stop_step_state (m : tsig_module) (h : m.tsig_ctx.state < TSIG_STATE_SUSPEND) :
    (tsig_stop m).tsig_ctx.state = m.tsig_ctx.state ∨
    m.tsig_ctx.state < (tsig_stop m).tsig_ctx.state ∨
    (tsig_stop m).tsig_ctx.state = TSIG_STATE_IDLE := by
  unfold tsig_stop
  split
  · right; right; rfl
  · rename_i hge
    show TSIG_STATE_FADE_OUT = m.tsig_ctx.state ∨ m.tsig_ctx.state < TSIG_STATE_FADE_OUT ∨
      TSIG_STATE_FADE_OUT = TSIG_STATE_IDLE
    unfold TSIG_STATE_SUSPEND at h
    unfold TSIG_STATE_FADE_OUT
    omega

theorem op_step_state (m : tsig_module) (op : tsig_op)
    (h : tsig_op_in_protocol m op = true) :
    (tsig_op_run m op).tsig_ctx.state = m.tsig_ctx.state ∨
    m.tsig_ctx.state < (tsig_op_run m op).tsig_ctx.state ∨
    (tsig_op_run m op).tsig_ctx.state = TSIG_STATE_IDLE := by
  cases op with
  | render now settled =>
    rcases render_step_state m now settled with h1 | h1 | h1
    · exact Or.inl h1
    · exact Or.inr (Or.inl h1)
    · exact Or.inr (Or.inr h1.2)
  | start =>
    have hs : m.tsig_ctx.state ≤ TSIG_STATE_STARTUP := of_decide_eq_true h
    show TSIG_STATE_STARTUP = m.tsig_ctx.state ∨ m.tsig_ctx.state < TSIG_STATE_STARTUP ∨
      TSIG_STATE_STARTUP = TSIG_STATE_IDLE
    omega
  | load_params offset station jjy_khz dut1 noclip =>
    have hs : m.tsig_ctx.state ≤ TSIG_STATE_LOAD_PARAMS := of_decide_eq_true h
    show TSIG_STATE_LOAD_PARAMS = m.tsig_ctx.state ∨ m.tsig_ctx.state < TSIG_STATE_LOAD_PARAMS ∨
      TSIG_STATE_LOAD_PARAMS = TSIG_STATE_IDLE
    omega
  | stop => exact stop_step_state m (of_decide_eq_true h)

theorem tsig_states_length (ops : List tsig_op) :
    ∀ m : tsig_module, (tsig_states m ops).length = ops.length + 1 := by
  induction ops with
  | nil => intro m; rfl
  | cons op ops ih => intro m; show (tsig_states _ ops).length + 1 = _; rw [ih]; rfl

theorem tsig_states_zero (m : tsig_module) (ops : List tsig_op) :
    (tsig_states m ops).getD 0 0 = m.tsig_ctx.state := by
  cases ops <;> rfl

theorem tsig_states_succ (m : tsig_module) (op : tsig_op) (ops : List tsig_op) (k : Nat) :
    (tsig_states m (op :: ops)).getD (k + 1) 0 = (tsig_states (tsig_op_run m op) ops).getD k 0 :=
  rfl

/-- In a run that keeps to the protocol and does not come to IDLE after its start, the
state number never goes down. -/
theorem tsig_states_from_start (ops : List tsig_op) :
    ∀ (m : tsig_module) (j : Nat), tsig_run_in_protocol m ops = true → j ≤ ops.length →
      (∀ k, 1 ≤ k → k ≤ j → (tsig_states m ops).getD k 0 ≠ TSIG_STATE_IDLE) →
      m.tsig_ctx.state ≤ (tsig_states m ops).getD j 0 := by
  induction ops with
  | nil =>
    intro m j _ hj _
    have : j = 0 := by simpa using hj
    rw [this]; exact le_of_eq rfl
  | cons op ops ih =>
    intro m j hp hj hk
    cases j with
    | zero => rw [tsig_states_zero]
    | succ j =>
      have hp2 : tsig_op_in_protocol m op = true ∧
          tsig_run_in_protocol (tsig_op_run m op) ops = true := by
        simpa [tsig_run_in_protocol] using hp
      have h1 : (tsig_op_run m op).tsig_ctx.state ≠ TSIG_STATE_IDLE := by
        have := hk 1 (le_refl 1) (by omega)
        rw [tsig_states_succ, tsig_states_zero] at this
        exact this
      have hstep : m.tsig_ctx.state ≤ (tsig_op_run m op).tsig_ctx.state := by
        rcases op_step_state m op hp2.1 with h | h | h
        · exact le_of_eq h.symm
        · exact le_of_lt h
        · exact absurd h h1
      rw [tsig_states_succ]
      refine le_trans hstep (ih (tsig_op_run m op) j hp2.2 (by simpa using hj) ?_)
      intro k hk1 hk2
      have := hk (k + 1) (by omega) (by omega)
      rw [tsig_states_succ] at this
      exact this

theorem tsig_states_mono (ops : List tsig_op) :
    ∀ (m : tsig_module) (i j : Nat), tsig_run_in_protocol m ops = true → i ≤ j →
      j ≤ ops.length →
      (∀ k, i < k → k ≤ j → (tsig_states m ops).getD k 0 ≠ TSIG_STATE_IDLE) →
      (tsig_states m ops).getD i 0 ≤ (tsig_states m ops).getD j 0 := by
  induction ops with
  | nil =>
    intro m i j _ hij hj _
    have h0 : j = 0 := by simpa using hj
    have h1 : i = 0 := by omega
    rw [h0, h1]
  | cons op ops ih =>
    intro m i j hp hij hj hk
    cases i with
    | zero =>
      rw [tsig_states_zero]
      exact tsig_states_from_start (op :: ops) m j hp hj (fun k h1 h2 => hk k (by omega) h2)
    | succ i =>
      cases j with
      | zero => omega
      | succ j =>
        have hp2 : tsig_op_in_protocol m op = true ∧
            tsig_run_in_protocol (tsig_op_run m op) ops = true := by
          simpa [tsig_run_in_protocol] using hp
        rw [tsig_states_succ, tsig_states_succ]
        refine ih (tsig_op_run m op) i j hp2.2 (by omega) (by simpa using hj) ?_
        intro k hk1 hk2
        have := hk (k + 1) (by omega) (by omega)
        rw [tsig_states_succ] at this
        exact this

theorem tsig_states_step (ops : List tsig_op) :
    ∀ (m : tsig_module) (k : Nat), tsig_run_in_protocol m ops = true → k < ops.length →
      (tsig_states m ops).getD (k + 1) 0 = (tsig_states m ops).getD k 0 ∨
      (tsig_states m ops).getD k 0 < (tsig_states m ops).getD (k + 1) 0 ∨
      (tsig_states m ops).getD (k + 1) 0 = TSIG_STATE_IDLE := by
  induction ops with
  | nil => intro m k _ hk; simp at hk
  | cons op ops ih =>
    intro m k hp hk
    have hp2 : tsig_op_in_protocol m op = true ∧
        tsig_run_in_protocol (tsig_op_run m op) ops = true := by
      simpa [tsig_run_in_protocol] using hp
    cases k with
    | zero =>
      rw [tsig_states_succ, tsig_states_zero, tsig_states_zero]
      exact op_step_state m op hp2.1
    | succ k =>
      rw [tsig_states_succ, tsig_states_succ]
      exact ih (tsig_op_run m op) k hp2.2 (by simpa using hk)

/-- C1: for every integer millisecond timestamp `t` with `0 ≤ t < 4102444800000`, the parser
returns the Gregorian civil date of that instant: `(year, mon, day)` is a valid calendar
date whose day number counted from 1970-01-01 by the reference `days_from_civil` is
`t div 86400000`, and `hour*3600000 + min*60000 + sec*1000 + msec = t mod 86400000`
with `hour < 24`, `min < 60`, `sec < 60`, `msec < 1000`. -/
theorem parse_timestamp_civil (t : Nat) (ht : t < 4102444800000) :
    validDate (tsig_datetime_parse_timestamp t).year (tsig_datetime_parse_timestamp t).mon
      (tsig_datetime_parse_timestamp t).day ∧
    days_from_civil (tsig_datetime_parse_timestamp t).year (tsig_datetime_parse_timestamp t).mon
      (tsig_datetime_parse_timestamp t).day = t / 86400000 ∧
    (tsig_datetime_parse_timestamp t).hour * 3600000 + (tsig_datetime_parse_timestamp t).min * 60000
      + (tsig_datetime_parse_timestamp t).sec * 1000 + (tsig_datetime_parse_timestamp t).msec
      = t % 86400000 ∧
    (tsig_datetime_parse_timestamp t).hour < 24 ∧ (tsig_datetime_parse_timestamp t).min < 60 ∧
    (tsig_datetime_parse_timestamp t).sec < 60 ∧ (tsig_datetime_parse_timestamp t).msec < 1000 := by
  obtain ⟨h1, h2, -, -, -, h6, h7, h8, h9⟩ := parse_facts t ht
  refine ⟨h1, h2, ?_, ?_, ?_, ?_, ?_⟩ <;> omega

/-- Witness of C1 at 2024-03-31 01:00:00 UTC. -/
theorem parse_timestamp_civil_witness :
    1711846800000 < 4102444800000 ∧
    days_from_civil (tsig_datetime_parse_timestamp 1711846800000).year
      (tsig_datetime_parse_timestamp 1711846800000).mon
      (tsig_datetime_parse_timestamp 1711846800000).day = 1711846800000 / 86400000 :=
  ⟨by decide, (parse_timestamp_civil 1711846800000 (by decide)).2.1⟩

/-- C2: for every year `y` in `[0, 10000]`, `tsig_datetime_is_leap y` is non-zero exactly
when `y mod 4 = 0` and (`y mod 100 ≠ 0` or `y mod 400 = 0`). -/
theorem is_leap_gregorian (y : Nat) (hy : y ≤ 10000) :
    tsig_datetime_is_leap y ≠ 0 ↔ (y % 4 = 0 ∧ (y % 100 ≠ 0 ∨ y % 400 = 0)) := by
  simp only [tsig_datetime_is_leap, u16_of_lt (show y < 65536 by omega)]
  by_cases h4 : y % 4 = 0 <;> by_cases h100 : y % 100 = 0 <;> by_cases h400 : y % 400 = 0 <;>
    simp [h4, h100, h400]

/-- Witness of C2 at the year 2000. -/
theorem is_leap_gregorian_witness :
    2000 ≤ 10000 ∧ (tsig_datetime_is_leap 2000 ≠ 0 ↔
      (2000 % 4 = 0 ∧ (2000 % 100 ≠ 0 ∨ 2000 % 400 = 0))) :=
  ⟨by decide, is_leap_gregorian 2000 (by decide)⟩

/-- C3 at a failing input: 2024-03-01 00:00:00 UTC lies before the March changeover of
2024 (01:00 UTC on the last Sunday of March), yet `tsig_datetime_is_eu_dst` returns 1
there; after the changeover, at 2024-03-31 01:00:00 UTC, it returns 0. -/
theorem eu_dst_flag_inverted :
    (tsig_datetime_parse_timestamp 1709251200000).year = 2024 ∧
    1709251200000 / 60000 < euChangeoverMinute 2024 3 ∧
    (tsig_datetime_is_eu_dst (tsig_datetime_parse_timestamp 1709251200000)).1 = 1 ∧
    euChangeoverMinute 2024 3 ≤ 1711846800000 / 60000 ∧
    1711846800000 / 60000 < euChangeoverMinute 2024 10 ∧
    (tsig_datetime_is_eu_dst (tsig_datetime_parse_timestamp 1711846800000)).1 = 0 := by
  decide!

/-- C4 as stated fails: with `t = 1711846800000` (2024-03-31 01:00:00 UTC) it is not the
case that the flag is 0 at `t - 60000`, non-zero at `t`, and `in_mins` is 0 at `t`. -/
theorem eu_dst_spring_counterexample :
    ¬ ((tsig_datetime_is_eu_dst (tsig_datetime_parse_timestamp (1711846800000 - 60000))).1 = 0 ∧
       (tsig_datetime_is_eu_dst (tsig_datetime_parse_timestamp 1711846800000)).1 ≠ 0 ∧
       (tsig_datetime_is_eu_dst (tsig_datetime_parse_timestamp 1711846800000)).2 = 0) := by
  decide!

/-- C4 amended: `t = 1711846800000` ms is the EU changeover of March 2024 (01:00 UTC on
2024-03-31); the `in_mins` value reported one minute earlier is 1, and the value reported
at 01:00 UTC is `TSIG_DATETIME_NOT_SOON`. -/
theorem eu_dst_spring_in_mins :
    1711846800000 / 60000 = euChangeoverMinute 2024 3 ∧
    (tsig_datetime_is_eu_dst (tsig_datetime_parse_timestamp (1711846800000 - 60000))).2 = 1 ∧
    (tsig_datetime_is_eu_dst (tsig_datetime_parse_timestamp 1711846800000)).2
      = TSIG_DATETIME_NOT_SOON := by
  decide!

/-- C5: for `d = parse t` with `t` in the supported range, the value stored through
`out_in_mins` by `tsig_datetime_is_eu_dst` is the exact number of minutes from the start of
the minute of `d` to the next EU changeover (01:00 UTC on the last Sunday of March or
October; the first one strictly after that minute) when that changeover is at most 1500
minutes away, and `TSIG_DATETIME_NOT_SOON` otherwise. -/
theorem eu_dst_in_mins (t : Nat) (ht : t < 4102444800000) :
    t / 60000 < nextEuChangeover (tsig_datetime_parse_timestamp t).year (t / 60000) ∧
    (tsig_datetime_is_eu_dst (tsig_datetime_parse_timestamp t)).2 =
      if nextEuChangeover (tsig_datetime_parse_timestamp t).year (t / 60000) - t / 60000 ≤ 1500
      then nextEuChangeover (tsig_datetime_parse_timestamp t).year (t / 60000) - t / 60000
      else TSIG_DATETIME_NOT_SOON := by
  obtain ⟨hv, hdfc, -, -, hdow, hhour, hmin, -, -⟩ := parse_facts t ht
  obtain ⟨hy, hm1, hm12, hd1, hdl⟩ := hv
  obtain ⟨hM, hh24, hmi60⟩ := minute_split t
  rw [← hhour, ← hmin] at hM
  rw [← hhour] at hh24
  rw [← hmin] at hmi60
  have hd31 := le_trans hdl (daysInMonth_le _ _)
  have hw : (tsig_datetime_parse_timestamp t).dow ≤ 6 := by
    rw [hdow]; unfold weekday; omega
  rw [eu_dst_in_mins_eq _ hd1 hd31 hw hh24 hmi60, lsomOf_parse t ht]
  unfold nextEuChangeover
  rw [monthFirst_eq _ _ hm1 hm12] at hdfc
  have hcM := euChangeoverMinute_eq (tsig_datetime_parse_timestamp t).year 3 (by decide) (by decide)
  have hcO := euChangeoverMinute_eq (tsig_datetime_parse_timestamp t).year 10 (by decide) (by decide)
  have hcN := euChangeoverMinute_eq ((tsig_datetime_parse_timestamp t).year + 1) 3
    (by decide) (by decide)
  rw [daysBeforeYear_succ _ hy, yearLength_leap] at hcN
  have bM := lastSunday31_bounds (tsig_datetime_parse_timestamp t).year 3
  have bO := lastSunday31_bounds (tsig_datetime_parse_timestamp t).year 10
  have bN := lastSunday31_bounds ((tsig_datetime_parse_timestamp t).year + 1) 3
  generalize (tsig_datetime_parse_timestamp t).year = y at *
  generalize (tsig_datetime_parse_timestamp t).mon = mo at *
  generalize (tsig_datetime_parse_timestamp t).day = D at *
  generalize (tsig_datetime_parse_timestamp t).hour = hour at *
  generalize (tsig_datetime_parse_timestamp t).min = mi at *
  generalize t / 86400000 = d at *
  generalize t / 60000 = M at *
  generalize daysBeforeYear y = by0 at *
  generalize euChangeoverMinute y 3 = cM at *
  generalize euChangeoverMinute y 10 = cO at *
  generalize euChangeoverMinute (y + 1) 3 = cN at *
  have hL : (if isLeapYear y = true then 1 else 0 : Nat) ≤ 1 := by split <;> omega
  have hL1 : (if isLeapYear (y + 1) = true then 1 else 0 : Nat) ≤ 1 := by split <;> omega
  subst hM
  clear hhour hmin hy hdl ht hdow hw
  interval_cases mo <;>
    simp [List.getD] at hdfc hcM hcO hcN <;>
    simp only [TSIG_DATETIME_NOT_SOON, Nat.reduceEqDiff, true_and, false_and,
      if_false, if_true, or_false, or_true, true_or, false_or] <;>
    generalize (if isLeapYear y = true then 1 else 0 : Nat) = L at * <;>
    generalize (if isLeapYear (y + 1) = true then 1 else 0 : Nat) = L1 at * <;>
    generalize lastSunday31 y 3 = lsM at * <;>
    generalize lastSunday31 y 10 = lsO at * <;>
    generalize lastSunday31 (y + 1) 3 = lsN at *
  · have h1 : d * 1440 + hour * 60 + mi < cM := by omega
    simp only [if_pos h1]
    subst hcM
    exact eu_far _ _ _ _ hh24 hmi60 (by omega)
  · have h1 : d * 1440 + hour * 60 + mi < cM := by omega
    simp only [if_pos h1]
    subst hcM
    exact eu_far _ _ _ _ hh24 hmi60 (by omega)
  · have h2 : d * 1440 + hour * 60 + mi < cO := by omega
    simp only [if_pos h2]
    subst hcM hcO
    exact eu_window d D lsM hour mi _ _ hh24 hmi60 (by omega) (by omega)
  · have h1 : ¬ (d * 1440 + hour * 60 + mi < cM) := by omega
    have h2 : d * 1440 + hour * 60 + mi < cO := by omega
    simp only [if_neg h1, if_pos h2]
    subst hcO
    exact eu_far _ _ _ _ hh24 hmi60 (by omega)
  · have h1 : ¬ (d * 1440 + hour * 60 + mi < cM) := by omega
    have h2 : d * 1440 + hour * 60 + mi < cO := by omega
    simp only [if_neg h1, if_pos h2]
    subst hcO
    exact eu_far _ _ _ _ hh24 hmi60 (by omega)
  · have h1 : ¬ (d * 1440 + hour * 60 + mi < cM) := by omega
    have h2 : d * 1440 + hour * 60 + mi < cO := by omega
    simp only [if_neg h1, if_pos h2]
    subst hcO
    exact eu_far _ _ _ _ hh24 hmi60 (by omega)
  · have h1 : ¬ (d * 1440 + hour * 60 + mi < cM) := by omega
    have h2 : d * 1440 + hour * 60 + mi < cO := by omega
    simp only [if_neg h1, if_pos h2]
    subst hcO
    exact eu_far _ _ _ _ hh24 hmi60 (by omega)
  · have h1 : ¬ (d * 1440 + hour * 60 + mi < cM) := by omega
    have h2 : d * 1440 + hour * 60 + mi < cO := by omega
    simp only [if_neg h1, if_pos h2]
    subst hcO
    exact eu_far _ _ _ _ hh24 hmi60 (by omega)
  · have h1 : ¬ (d * 1440 + hour * 60 + mi < cM) := by omega
    have h2 : d * 1440 + hour * 60 + mi < cO := by omega
    simp only [if_neg h1, if_pos h2]
    subst hcO
    exact eu_far _ _ _ _ hh24 hmi60 (by omega)
  · have h1 : ¬ (d * 1440 + hour * 60 + mi < cM) := by omega
    simp only [if_neg h1]
    subst hcO hcN
    exact eu_window d D lsO hour mi _ _ hh24 hmi60 (by omega) (by omega)
  · have h1 : ¬ (d * 1440 + hour * 60 + mi < cM) := by omega
    have h2 : ¬ (d * 1440 + hour * 60 + mi < cO) := by omega
    simp only [if_neg h1, if_neg h2]
    subst hcN
    exact eu_far _ _ _ _ hh24 hmi60 (by omega)
  · have h1 : ¬ (d * 1440 + hour * 60 + mi < cM) := by omega
    have h2 : ¬ (d * 1440 + hour * 60 + mi < cO) := by omega
    simp only [if_neg h1, if_neg h2]
    subst hcN
    exact eu_far _ _ _ _ hh24 hmi60 (by omega)

/-- Witness of C5 at 2024-03-31 00:30 UTC. -/
theorem eu_dst_in_mins_witness :
    1711845000000 < 4102444800000 ∧
    (tsig_datetime_is_eu_dst (tsig_datetime_parse_timestamp 1711845000000)).2 =
      if nextEuChangeover (tsig_datetime_parse_timestamp 1711845000000).year
          (1711845000000 / 60000) - 1711845000000 / 60000 ≤ 1500
      then nextEuChangeover (tsig_datetime_parse_timestamp 1711845000000).year
          (1711845000000 / 60000) - 1711845000000 / 60000
      else TSIG_DATETIME_NOT_SOON :=
  ⟨by decide, (eu_dst_in_mins 1711845000000 (by decide)).2⟩

/-- The examples of the specification: 2024-03-31 00:30 UTC gives 30 minutes, and
2024-06-15 00:00 UTC gives `TSIG_DATETIME_NOT_SOON` with the flag set. -/
theorem eu_dst_examples :
    (tsig_datetime_is_eu_dst (tsig_datetime_parse_timestamp 1711845000000)).2 = 30 ∧
    tsig_datetime_is_eu_dst (tsig_datetime_parse_timestamp 1718409600000)
      = (1, TSIG_DATETIME_NOT_SOON) := by
  decide!

/-- C6: for `d = parse t` with `t` in the supported range, the flag returned by
`tsig_datetime_is_us_dst` (summer time at the start of the UTC day) is set iff the date
of `d` is strictly after the second Sunday of March and on or before the first Sunday of
November of `d.year`, and the flag stored through `out_end` is set iff the date is on or
after the second Sunday of March and strictly before the first Sunday of November. -/
theorem us_dst_flags (t : Nat) (ht : t < 4102444800000) :
    ((tsig_datetime_is_us_dst (tsig_datetime_parse_timestamp t)).1 ≠ 0 ↔
      days_from_civil (tsig_datetime_parse_timestamp t).year 3
          (firstSunday (tsig_datetime_parse_timestamp t).year 3 + 7) < t / 86400000 ∧
      t / 86400000 ≤ days_from_civil (tsig_datetime_parse_timestamp t).year 11
          (firstSunday (tsig_datetime_parse_timestamp t).year 11)) ∧
    ((tsig_datetime_is_us_dst (tsig_datetime_parse_timestamp t)).2 ≠ 0 ↔
      days_from_civil (tsig_datetime_parse_timestamp t).year 3
          (firstSunday (tsig_datetime_parse_timestamp t).year 3 + 7) ≤ t / 86400000 ∧
      t / 86400000 < days_from_civil (tsig_datetime_parse_timestamp t).year 11
          (firstSunday (tsig_datetime_parse_timestamp t).year 11)) := by
  obtain ⟨hv, hdfc, -, -, hdow, -⟩ := parse_facts t ht
  obtain ⟨hy, hm1, hm12, hd1, hdl⟩ := hv
  have hd31 := le_trans hdl (daysInMonth_le _ _)
  have hw : (tsig_datetime_parse_timestamp t).dow ≤ 6 := by
    rw [hdow]; unfold weekday; omega
  simp only [tsig_datetime_is_us_dst]
  rw [sunday_offset _ _ _ hd1 hd31 hw (by split <;> decide) (by split <;> decide)]
  unfold firstSunday
  rw [monthFirst_eq _ _ hm1 hm12] at hdfc
  rw [monthFirst_eq _ 3 (by decide) (by decide), monthFirst_eq _ 3 (by decide) (by decide),
    monthFirst_eq _ 11 (by decide) (by decide), monthFirst_eq _ 11 (by decide) (by decide)]
  unfold weekday at hdow ⊢
  generalize (tsig_datetime_parse_timestamp t).year = y at *
  generalize (tsig_datetime_parse_timestamp t).mon = mo at *
  generalize (tsig_datetime_parse_timestamp t).day = D at *
  generalize (tsig_datetime_parse_timestamp t).dow = w at *
  generalize t / 86400000 = d at *
  generalize daysBeforeYear y = by0 at *
  have hL : (if isLeapYear y = true then 1 else 0 : Nat) ≤ 1 := by split <;> omega
  subst hdow
  interval_cases mo <;> simp [List.getD] at hdfc ⊢ <;>
    generalize (if isLeapYear y = true then 1 else 0 : Nat) = L at * <;>
    omega

/-- Witness of C6 on 2024-03-10 (12:00 UTC), the second Sunday of March 2024: the
start-of-day flag is clear and the end-of-day flag is set. -/
theorem us_dst_flags_witness :
    1710072000000 < 4102444800000 ∧
    ¬ ((tsig_datetime_is_us_dst (tsig_datetime_parse_timestamp 1710072000000)).1 ≠ 0) ∧
    (tsig_datetime_is_us_dst (tsig_datetime_parse_timestamp 1710072000000)).2 ≠ 0 :=
  ⟨by decide,
   fun h => absurd ((us_dst_flags 1710072000000 (by decide)).1.mp h) (by decide!),
   (us_dst_flags 1710072000000 (by decide)).2.mpr (by decide!)⟩

/-- C7 (fails): at the station-local time 2024-03-01 01:00:00 CET (`t = 1709254800000`, that is
00:00 UTC, four weeks before the change to summer time) the frame written by
`tsig_xmit_dcf77` announces summer time (second 17 carries 1, second 18 carries 0) and its
hour field, read least significant bit first, is 2 with minute 1, although the German civil
time of the upcoming minute is 01:01 CET. At the witness of the claim, 2024-01-01 00:00 CET
(`t = 1704067200000`), second 20 carries 1, the minute field is 1 and the hour field is 0,
as the claim says. -/
theorem dcf77_march_hour :
    (dcf77Bit (tsig_xmit_dcf77 (tsig_datetime_parse_timestamp 1709254800000)
        (tsig_params_t.mk 0 1 0 0 0) (List.replicate 150 0)) 17 = 1 ∧
      dcf77Bit (tsig_xmit_dcf77 (tsig_datetime_parse_timestamp 1709254800000)
        (tsig_params_t.mk 0 1 0 0 0) (List.replicate 150 0)) 18 = 0 ∧
      bcd (dcf77Bit (tsig_xmit_dcf77 (tsig_datetime_parse_timestamp 1709254800000)
        (tsig_params_t.mk 0 1 0 0 0) (List.replicate 150 0)))
        [(21, 1), (22, 2), (23, 4), (24, 8), (25, 10), (26, 20), (27, 40)] = 1 ∧
      bcd (dcf77Bit (tsig_xmit_dcf77 (tsig_datetime_parse_timestamp 1709254800000)
        (tsig_params_t.mk 0 1 0 0 0) (List.replicate 150 0)))
        [(29, 1), (30, 2), (31, 4), (32, 8), (33, 10), (34, 20)] = 2) ∧
    (dcf77Bit (tsig_xmit_dcf77 (tsig_datetime_parse_timestamp 1704067200000)
        (tsig_params_t.mk 0 1 0 0 0) (List.replicate 150 0)) 20 = 1 ∧
      bcd (dcf77Bit (tsig_xmit_dcf77 (tsig_datetime_parse_timestamp 1704067200000)
        (tsig_params_t.mk 0 1 0 0 0) (List.replicate 150 0)))
        [(21, 1), (22, 2), (23, 4), (24, 8), (25, 10), (26, 20), (27, 40)] = 1 ∧
      bcd (dcf77Bit (tsig_xmit_dcf77 (tsig_datetime_parse_timestamp 1704067200000)
        (tsig_params_t.mk 0 1 0 0 0) (List.replicate 150 0)))
        [(29, 1), (30, 2), (31, 4), (32, 8), (33, 10), (34, 20)] = 0) := by
  have hb : ∀ t s, s < 60 → dcf77Bit (tsig_xmit_dcf77 (tsig_datetime_parse_timestamp t)
      (tsig_params_t.mk 0 1 0 0 0) (List.replicate 150 0)) s
        = sigBit ((dcf77_bits (tsig_datetime_parse_timestamp t)).getD s 0) :=
    fun t s hs => dcf77Bit_eq _ _ _ xmitOk_zeros s hs
  have hc : ∀ t ws, (∀ sw ∈ ws, sw.1 < 60) →
      bcd (dcf77Bit (tsig_xmit_dcf77 (tsig_datetime_parse_timestamp t)
        (tsig_params_t.mk 0 1 0 0 0) (List.replicate 150 0))) ws
        = bcd (fun s => sigBit ((dcf77_bits (tsig_datetime_parse_timestamp t)).getD s 0)) ws :=
    fun t ws h => bcd_congr _ _ ws (fun sw hsw => hb t sw.1 (h sw hsw))
  rw [hb _ 17 (by decide), hb _ 18 (by decide), hb _ 20 (by decide),
    hc 1709254800000 [(21, 1), (22, 2), (23, 4), (24, 8), (25, 10), (26, 20), (27, 40)]
      (by decide),
    hc 1709254800000 [(29, 1), (30, 2), (31, 4), (32, 8), (33, 10), (34, 20)] (by decide),
    hc 1704067200000 [(21, 1), (22, 2), (23, 4), (24, 8), (25, 10), (26, 20), (27, 40)]
      (by decide),
    hc 1704067200000 [(29, 1), (30, 2), (31, 4), (32, 8), (33, 10), (34, 20)] (by decide)]
  decide!

/-- C8: for `d = parse t` with `t` in the supported range, every `params` and every 150-byte
`xmit_level`, each second of the pattern written by `tsig_xmit_wwvb` is low first and then
high, low for 16 ticks (800 ms) exactly at seconds 0, 9, 19, 29, 39, 49, 59 and for 4 ticks
(200 ms, bit 0) or 10 ticks (500 ms, bit 1) elsewhere; and the bits, read most significant
first with BCD weights, give `d.min` (seconds 1-3, 5-8), `d.hour` (12-13, 15-18), `d.doy`
(22-23, 25-28, 30-33) and `d.year % 100` (45-48, 50-53). -/
theorem wwvb_pattern_decodes (t : Nat) (ht : t < supportedEnd) (params : tsig_params_t)
    (xl : List Nat) (hxl : XmitOk xl) :
    (∀ s, s < 60 → ∃ lo,
      lowThenHigh (tsig_xmit_wwvb (tsig_datetime_parse_timestamp t) params xl) s lo ∧
      (if s ∈ [0, 9, 19, 29, 39, 49, 59] then lo = 16 else (lo = 4 ∨ lo = 10))) ∧
    bcd (wwvbBit (tsig_xmit_wwvb (tsig_datetime_parse_timestamp t) params xl))
      [(1, 40), (2, 20), (3, 10), (5, 8), (6, 4), (7, 2), (8, 1)]
      = (tsig_datetime_parse_timestamp t).min ∧
    bcd (wwvbBit (tsig_xmit_wwvb (tsig_datetime_parse_timestamp t) params xl))
      [(12, 20), (13, 10), (15, 8), (16, 4), (17, 2), (18, 1)]
      = (tsig_datetime_parse_timestamp t).hour ∧
    bcd (wwvbBit (tsig_xmit_wwvb (tsig_datetime_parse_timestamp t) params xl))
      [(22, 200), (23, 100), (25, 80), (26, 40), (27, 20), (28, 10), (30, 8), (31, 4), (32, 2),
        (33, 1)]
      = (tsig_datetime_parse_timestamp t).doy ∧
    bcd (wwvbBit (tsig_xmit_wwvb (tsig_datetime_parse_timestamp t) params xl))
      [(45, 80), (46, 40), (47, 20), (48, 10), (50, 8), (51, 4), (52, 2), (53, 1)]
      = (tsig_datetime_parse_timestamp t).year % 100 := by
  obtain ⟨hmin, hhour, -, hdoy, -⟩ := parse_bounds t ht
  exact wwvb_decodes_core _ params xl hxl hmin hhour hdoy

/-- Witness of C8 at 2024-06-01 00:00 UTC (day 153 of the year): the day-of-year field. -/
theorem wwvb_pattern_decodes_witness :
    1717200000000 < supportedEnd ∧ XmitOk (List.replicate 150 0) ∧
    bcd (wwvbBit (tsig_xmit_wwvb (tsig_datetime_parse_timestamp 1717200000000)
      (tsig_params_t.mk 0 4 0 0 0) (List.replicate 150 0)))
      [(22, 200), (23, 100), (25, 80), (26, 40), (27, 20), (28, 10), (30, 8), (31, 4), (32, 2),
        (33, 1)]
      = (tsig_datetime_parse_timestamp 1717200000000).doy :=
  ⟨by decide, xmitOk_zeros, (wwvb_pattern_decodes 1717200000000 (by decide)
    (tsig_params_t.mk 0 4 0 0 0) (List.replicate 150 0) xmitOk_zeros).2.2.2.1⟩

/-- C9: for `d = parse t` with `t` in the supported range and `d.min` neither 15 nor 45, every
`params` and every 150-byte `xmit_level`, each second of the pattern written by
`tsig_xmit_jjy` is high first and then low, high for 4 ticks (200 ms) exactly at seconds 0,
9, 19, 29, 39, 49, 59 and for 10 ticks (500 ms, bit 1) or 16 ticks (800 ms, bit 0)
elsewhere; the bits, read most significant first with BCD weights, give `d.min` (seconds
1-3, 5-8), `d.hour` (12-13, 15-18), `d.doy` (22-23, 25-28, 30-33), `d.year % 100` (41-48)
and `d.dow` (50-52); and second 36 carries the parity of the number of ones in seconds
12..18, second 37 that of seconds 1..8. -/
theorem jjy_pattern_decodes (t : Nat) (ht : t < supportedEnd) (params : tsig_params_t)
    (xl : List Nat) (hxl : XmitOk xl)
    (hna : ¬ ((tsig_datetime_parse_timestamp t).min = 15 ∨
      (tsig_datetime_parse_timestamp t).min = 45)) :
    (∀ s, s < 60 → ∃ hi,
      highThenLow (tsig_xmit_jjy (tsig_datetime_parse_timestamp t) params xl) s hi ∧
      (if s ∈ [0, 9, 19, 29, 39, 49, 59] then hi = 4 else (hi = 10 ∨ hi = 16))) ∧
    bcd (jjyBit (tsig_xmit_jjy (tsig_datetime_parse_timestamp t) params xl))
      [(1, 40), (2, 20), (3, 10), (5, 8), (6, 4), (7, 2), (8, 1)]
      = (tsig_datetime_parse_timestamp t).min ∧
    bcd (jjyBit (tsig_xmit_jjy (tsig_datetime_parse_timestamp t) params xl))
      [(12, 20), (13, 10), (15, 8), (16, 4), (17, 2), (18, 1)]
      = (tsig_datetime_parse_timestamp t).hour ∧
    bcd (jjyBit (tsig_xmit_jjy (tsig_datetime_parse_timestamp t) params xl))
      [(22, 200), (23, 100), (25, 80), (26, 40), (27, 20), (28, 10), (30, 8), (31, 4), (32, 2),
        (33, 1)]
      = (tsig_datetime_parse_timestamp t).doy ∧
    bcd (jjyBit (tsig_xmit_jjy (tsig_datetime_parse_timestamp t) params xl))
      [(41, 80), (42, 40), (43, 20), (44, 10), (45, 8), (46, 4), (47, 2), (48, 1)]
      = (tsig_datetime_parse_timestamp t).year % 100 ∧
    bcd (jjyBit (tsig_xmit_jjy (tsig_datetime_parse_timestamp t) params xl)) [(50, 4), (51, 2),
      (52, 1)]
      = (tsig_datetime_parse_timestamp t).dow ∧
    jjyBit (tsig_xmit_jjy (tsig_datetime_parse_timestamp t) params xl) 36
      = bitCount (jjyBit (tsig_xmit_jjy (tsig_datetime_parse_timestamp t) params xl)) 12 7 % 2 ∧
    jjyBit (tsig_xmit_jjy (tsig_datetime_parse_timestamp t) params xl) 37
      = bitCount (jjyBit (tsig_xmit_jjy (tsig_datetime_parse_timestamp t) params xl)) 1 8 % 2 := by
  obtain ⟨hmin, hhour, -, hdoy, hdow, -⟩ := parse_bounds t ht
  exact jjy_decodes_core _ params xl hxl hna hmin hhour hdoy hdow

/-- Witness of C9 at 2024-06-01 00:00 JST: the hour parity of second 36. -/
theorem jjy_pattern_decodes_witness :
    1717200000000 < supportedEnd ∧ XmitOk (List.replicate 150 0) ∧
    jjyBit (tsig_xmit_jjy (tsig_datetime_parse_timestamp 1717200000000)
      (tsig_params_t.mk 0 2 0 0 0) (List.replicate 150 0)) 36
      = bitCount (jjyBit (tsig_xmit_jjy (tsig_datetime_parse_timestamp 1717200000000)
          (tsig_params_t.mk 0 2 0 0 0) (List.replicate 150 0))) 12 7 % 2 :=
  ⟨by decide, xmitOk_zeros, (jjy_pattern_decodes 1717200000000 (by decide)
    (tsig_params_t.mk 0 2 0 0 0) (List.replicate 150 0) xmitOk_zeros (by decide!)).2.2.2.2.2.2.1⟩

/-- C10 as stated fails at its last tick: at 2024-03-15 00:15 JST (`t = 1710461700000`) tick 980
of the pattern written by `tsig_xmit_jjy` is high although the keying of "JJY JJY" ended
sixteen ticks earlier (ticks 965..979 are low): tick 980 is the first tick of the marker of
second 49, which is high for ticks 980..983. -/
theorem jjy_morse_tick_980 :
    tickHigh (tsig_xmit_jjy (tsig_datetime_parse_timestamp 1710461700000)
      (tsig_params_t.mk 0 2 0 0 0) (List.replicate 150 0)) 980 = true ∧
    (∀ k, 965 ≤ k → k < 980 →
      tickHigh (tsig_xmit_jjy (tsig_datetime_parse_timestamp 1710461700000)
        (tsig_params_t.mk 0 2 0 0 0) (List.replicate 150 0)) k = false) := by
  obtain ⟨h1, h2⟩ := jjy_announce_ticks (tsig_datetime_parse_timestamp 1710461700000)
    (tsig_params_t.mk 0 2 0 0 0) (List.replicate 150 0) xmitOk_zeros (by decide!)
  refine ⟨h2 980 (by decide) (by decide), fun k hk1 hk2 => ?_⟩
  rw [h1 k (by omega) hk2]
  interval_cases k <;> rfl

/-- C10, amended: for every datetime whose minute is 15 or 45, every `params` and every
150-byte `xmit_level`, the ticks 810..979 of the pattern written by `tsig_xmit_jjy` are
low at tick 810 and from tick 811 on carry the keying of "JJY JJY" (`callsignTicks`, 154
ticks: J = dit dah dah dah, Y = dah dit dah dah, dit 2 ticks, dah 5 ticks, 1 low tick
between elements, 6 between letters, 10 between words), every tick after the keying
being low. -/
theorem jjy_morse_span (d : tsig_datetime_t) (params : tsig_params_t) (xl : List Nat)
    (hxl : XmitOk xl) (ha : d.min = 15 ∨ d.min = 45) :
    callsignTicks.length = 154 ∧
    ∀ k, 810 ≤ k → k < 980 →
      tickHigh (tsig_xmit_jjy d params xl) k
        = (decide (811 ≤ k) && callsignTicks.getD (k - 811) false) := by
  have hc := morseSpan_checked
  unfold morseSpanOk at hc
  rw [Bool.and_eq_true, beq_iff_eq] at hc
  refine ⟨hc.1, fun k h1 h2 => ?_⟩
  rw [(jjy_announce_ticks d params xl hxl ha).1 k (by omega) h2]
  have h := allBelow_spec _ _ hc.2 k h2
  simp only [Bool.or_eq_true, decide_eq_true_eq, beq_iff_eq] at h
  rcases h with h | h
  · omega
  · exact h

/-- Witness of the amended C10 at 2024-03-15 00:15 JST: tick 811 is the first tick of the
first dit. -/
theorem jjy_morse_span_witness :
    XmitOk (List.replicate 150 0) ∧
    tickHigh (tsig_xmit_jjy (tsig_datetime_parse_timestamp 1710461700000)
      (tsig_params_t.mk 0 2 0 0 0) (List.replicate 150 0)) 811 = true :=
  ⟨xmitOk_zeros, (jjy_morse_span (tsig_datetime_parse_timestamp 1710461700000)
    (tsig_params_t.mk 0 2 0 0 0) (List.replicate 150 0) xmitOk_zeros (by decide!)).2 811
      (by decide) (by decide)⟩

/-- C11 (fails): at 2024-03-01 00:00:00 UTC (`t = 1709251200000`, four weeks before the change
to summer time) the frame written by `tsig_xmit_msf` has hour field 1 and minute field 1
(read most significant bit first) and second 58 carries 1 in its second bit, although the
UK civil time of the upcoming minute is 00:01 GMT, not BST. Second 0 is low for 10 ticks
(500 ms), as the claim says. -/
theorem msf_march_hour :
    bcd (dcf77Bit (tsig_xmit_msf (tsig_datetime_parse_timestamp 1709251200000)
      (tsig_params_t.mk 0 3 0 0 0) (List.replicate 150 0)))
      [(39, 20), (40, 10), (41, 8), (42, 4), (43, 2), (44, 1)] = 1 ∧
    bcd (dcf77Bit (tsig_xmit_msf (tsig_datetime_parse_timestamp 1709251200000)
      (tsig_params_t.mk 0 3 0 0 0) (List.replicate 150 0)))
      [(45, 40), (46, 20), (47, 10), (48, 8), (49, 4), (50, 2), (51, 1)] = 1 ∧
    msfBitB (tsig_xmit_msf (tsig_datetime_parse_timestamp 1709251200000)
      (tsig_params_t.mk 0 3 0 0 0) (List.replicate 150 0)) 58 = 1 ∧
    lowThenHigh (tsig_xmit_msf (tsig_datetime_parse_timestamp 1709251200000)
      (tsig_params_t.mk 0 3 0 0 0) (List.replicate 150 0)) 0 10 := by
  have hb : ∀ s, 17 ≤ s → s < 53 →
      dcf77Bit (tsig_xmit_msf (tsig_datetime_parse_timestamp 1709251200000)
        (tsig_params_t.mk 0 3 0 0 0) (List.replicate 150 0)) s
        = sigBit ((msf_bits (tsig_datetime_parse_timestamp 1709251200000)
            (tsig_params_t.mk 0 3 0 0 0)).getD s 0) :=
    fun s h1 hs => msfBitA_eq _ _ _ xmitOk_zeros s hs (msf_ne_marker_fields _ _ s h1 hs)
  have hc : ∀ ws, (∀ sw ∈ ws, 17 ≤ sw.1 ∧ sw.1 < 53) →
      bcd (dcf77Bit (tsig_xmit_msf (tsig_datetime_parse_timestamp 1709251200000)
        (tsig_params_t.mk 0 3 0 0 0) (List.replicate 150 0))) ws
        = bcd (fun s => sigBit ((msf_bits (tsig_datetime_parse_timestamp 1709251200000)
            (tsig_params_t.mk 0 3 0 0 0)).getD s 0)) ws :=
    fun ws h => bcd_congr _ _ ws (fun sw hsw => hb sw.1 (h sw hsw).1 (h sw hsw).2)
  have h58 : (msf_bits (tsig_datetime_parse_timestamp 1709251200000)
      (tsig_params_t.mk 0 3 0 0 0)).getD 58 0 = 1 := by decide!
  have h0 : msf_lo 0 ((msf_bits (tsig_datetime_parse_timestamp 1709251200000)
      (tsig_params_t.mk 0 3 0 0 0)).getD 0 0) = 10 := by decide!
  refine ⟨?_, ?_, ?_, ?_⟩
  · rw [hc _ (by decide)]
    decide!
  · rw [hc _ (by decide)]
    decide!
  · rw [msfBitB_eq _ _ _ xmitOk_zeros 58 (by decide) (by decide) (by rw [h58]; decide), h58]
    rfl
  · have h := msf_seconds (tsig_datetime_parse_timestamp 1709251200000)
      (tsig_params_t.mk 0 3 0 0 0) (List.replicate 150 0) xmitOk_zeros 0 (by decide)
    rw [h0] at h
    exact h

/-- C12 (fails): for every datetime, every `params` and every 150-byte `xmit_level`, second 41
of the pattern written by `tsig_xmit_bpc` (symbol 1 of the third frame, `bits[1] = 1 << 2`)
is low for 10 ticks, that is 500 ms, which is the duration of no symbol value in 0..3; and
second 21 (symbol 1 of the second frame, `bits[1] = 1 << 1`) is low for 6 ticks, 300 ms. The
three markers are all high: seconds 0, 20 and 40 are low for 0 ticks. -/
theorem bpc_frame_index_symbol (datetime : tsig_datetime_t) (params : tsig_params_t)
    (xl : List Nat) (hxl : XmitOk xl) :
    lowThenHigh (tsig_xmit_bpc datetime params xl) 41 10 ∧
    lowThenHigh (tsig_xmit_bpc datetime params xl) 21 6 ∧
    lowThenHigh (tsig_xmit_bpc datetime params xl) 0 0 ∧
    lowThenHigh (tsig_xmit_bpc datetime params xl) 20 0 ∧
    lowThenHigh (tsig_xmit_bpc datetime params xl) 40 0 := by
  have h41 : bpc_lo ((bpc_pass_bits datetime 2).getD 1 0) = 10 := by
    rw [bpc_pass_two]; unfold bpc_pass2
    rw [getD_setb _ _ _ _ (by
      have := bpc_pass_length datetime 1 (by decide)
      rw [bpc_pass_one] at this
      rw [this]; decide), if_pos rfl]
    rfl
  have h21 : bpc_lo ((bpc_pass_bits datetime 1).getD 1 0) = 6 := by
    rw [bpc_pass_one]; unfold bpc_pass1
    rw [getD_setb_of_ne _ 10 _ 1 (by decide),
      getD_setb _ _ _ _ (by rw [bpc_bits_length]; decide), if_pos rfl]
    rfl
  have e0 : (bpc_bits datetime).getD 0 0 = 255 := by
    unfold bpc_bits
    rw [getD_setOrEvenParity_of_ne _ 19 _ _ _ 0 (by decide),
      getD_assign_of_lt _ _ 0 11 (by
        intro a ha
        simp only [List.mem_cons, List.mem_singleton, List.not_mem_nil, or_false] at ha
        rcases ha with h | h | h | h | h | h | h | h <;> rw [h] <;> dsimp only <;> omega)
        (by decide),
      getD_setOrEvenParity_of_ne _ 10 _ _ _ 0 (by decide),
      getD_assign_of_lt _ _ 0 3 (by
        intro a ha
        simp only [List.mem_cons, List.mem_singleton, List.not_mem_nil, or_false] at ha
        rcases ha with h | h | h | h | h | h | h <;> rw [h] <;> dsimp only <;> omega)
        (by decide)]
    rfl
  have h0 : bpc_lo ((bpc_pass_bits datetime 0).getD 0 0) = 0 := by
    rw [bpc_pass_zero, e0]; rfl
  have h20 : bpc_lo ((bpc_pass_bits datetime 1).getD 0 0) = 0 := by
    rw [bpc_pass_one]; unfold bpc_pass1
    rw [getD_setb_of_ne _ 10 _ 0 (by decide), getD_setb_of_ne _ 1 _ 0 (by decide), e0]; rfl
  have h40 : bpc_lo ((bpc_pass_bits datetime 2).getD 0 0) = 0 := by
    rw [bpc_pass_two]; unfold bpc_pass2 bpc_pass1
    rw [getD_setb_of_ne _ 1 _ 0 (by decide), getD_setb_of_ne _ 10 _ 0 (by decide),
      getD_setb_of_ne _ 1 _ 0 (by decide), e0]; rfl
  have s41 := bpc_seconds datetime params xl hxl 2 1 (by decide) (by decide)
  have s21 := bpc_seconds datetime params xl hxl 1 1 (by decide) (by decide)
  have s0 := bpc_seconds datetime params xl hxl 0 0 (by decide) (by decide)
  have s20 := bpc_seconds datetime params xl hxl 1 0 (by decide) (by decide)
  have s40 := bpc_seconds datetime params xl hxl 2 0 (by decide) (by decide)
  rw [h41] at s41
  rw [h21] at s21
  rw [h0] at s0
  rw [h20] at s20
  rw [h40] at s40
  exact ⟨s41, s21, s0, s20, s40⟩

/-- Witness of the behaviour at 2024-06-01 00:00 (`t = 1717200000000`) on an all-zero
`xmit_level`. -/
theorem bpc_frame_index_symbol_witness :
    XmitOk (List.replicate 150 0) ∧
    lowThenHigh (tsig_xmit_bpc (tsig_datetime_parse_timestamp 1717200000000)
      (tsig_params_t.mk 0 0 0 0 0) (List.replicate 150 0)) 41 10 :=
  ⟨xmitOk_zeros, (bpc_frame_index_symbol (tsig_datetime_parse_timestamp 1717200000000)
    (tsig_params_t.mk 0 0 0 0 0) (List.replicate 150 0) xmitOk_zeros).1⟩

/-- C13 fails by a defect of the code. For `s` of 172 times U+0061 (index map and length
from `edist_make_idxs`) `edist_calc(s, s)` returns 3, with any fuel from 257 on: `rlimit`
is a `uint8_t`, starts at `(172 - 1) / 2 = 85`, and `rlimit++` wraps from 255 to 0 at the
end of row 171, so that row 172 has `r = 0`, does not reach column 172, and the value
returned is the one row 169 left in the buffer. For `s` of 255 times U+0061 the call does
not return with any fuel, the test `i <= len1` of the row loop being true for every
`uint8_t i`. For a short string the value is 0. -/
theorem edist_self_long :
    (∀ k, edist (257 + k) (List.replicate 172 97) (List.replicate 172 97) = some 3) ∧
    (∀ fuel, edist fuel (List.replicate 255 97) (List.replicate 255 97) = none) ∧
    (∀ k, edist (20 + k) (units "kitten") (units "kitten") = some 0) :=
  ⟨fun k => edist_a172 (257 + k) (by omega), edist_a255,
    fun k => edist_mono 20 (20 + k) (by omega) _ _ _ (by decide!)⟩

/-- C14 fails by a defect of the code. For `s1` of 172 times U+0061 and `s2` of U+0062
followed by 171 times U+0061 (172 code points each, index maps from `edist_make_idxs`),
`edist_calc(s1, s2)` returns 3 and `edist_calc(s2, s1)` returns 4, with any fuel from 257
on: by the wrap of the `uint8_t rlimit` both calls return the entry of row 169 and column
172, which is the distance of 169 code points of the first string to the whole second
string, and that is not symmetric. -/
theorem edist_not_symmetric (k : Nat) :
    edist (257 + k) (List.replicate 172 97) (98 :: List.replicate 171 97) = some 3 ∧
    edist (257 + k) (98 :: List.replicate 171 97) (List.replicate 172 97) = some 4 :=
  ⟨edist_a172_ba171 (257 + k) (by omega), edist_ba171_a172 (257 + k) (by omega)⟩

/-- C15 as stated fails: for a = "xca", b = "xac", c = "xabc" the values returned are
`edist(a, c) = 3`, `edist(a, b) = 1` and `edist(b, c) = 1`, and 3 is more than 1 + 1. -/
theorem edist_triangle_fails :
    ∃ x y z, (∀ k, edist (20 + k) (units "xca") (units "xabc") = some x) ∧
      (∀ k, edist (20 + k) (units "xca") (units "xac") = some y) ∧
      (∀ k, edist (20 + k) (units "xac") (units "xabc") = some z) ∧ ¬ x ≤ y + z :=
  ⟨3, 1, 1, fun k => edist_mono 20 (20 + k) (by omega) _ _ _ (by decide!),
    fun k => edist_mono 20 (20 + k) (by omega) _ _ _ (by decide!),
    fun k => edist_mono 20 (20 + k) (by omega) _ _ _ (by decide!), by decide⟩

/-- C15, amended: the triangle inequality is not a property of `edist_calc`; there are
strings for which it fails. On a = "xca", b = "xac", c = "xabc" the function returns 1
(a to b), 1 (b to c) and 3 (a to c), and each of these three values is the optimal string
alignment distance `osa` of that pair, computed on the full table (adjacent transposition
counted once, a transposed pair never edited again); on "kitten", "sitten", "sitting",
where no transposition is involved, it returns 1, 2 and 3 and the inequality holds. -/
theorem edist_triangle_values (k : Nat) :
    (edist (20 + k) (units "xca") (units "xac")
        = some (osa (codePoints (units "xca")) (codePoints (units "xac"))) ∧
      osa (codePoints (units "xca")) (codePoints (units "xac")) = 1) ∧
    (edist (20 + k) (units "xac") (units "xabc")
        = some (osa (codePoints (units "xac")) (codePoints (units "xabc"))) ∧
      osa (codePoints (units "xac")) (codePoints (units "xabc")) = 1) ∧
    (edist (20 + k) (units "xca") (units "xabc")
        = some (osa (codePoints (units "xca")) (codePoints (units "xabc"))) ∧
      osa (codePoints (units "xca")) (codePoints (units "xabc")) = 3) ∧
    edist (20 + k) (units "kitten") (units "sitten") = some 1 ∧
    edist (20 + k) (units "sitten") (units "sitting") = some 2 ∧
    edist (20 + k) (units "kitten") (units "sitting") = some 3 :=
  ⟨⟨edist_mono 20 (20 + k) (by omega) _ _ _ (by decide!), by decide!⟩,
    ⟨edist_mono 20 (20 + k) (by omega) _ _ _ (by decide!), by decide!⟩,
    ⟨edist_mono 20 (20 + k) (by omega) _ _ _ (by decide!), by decide!⟩,
    edist_mono 20 (20 + k) (by omega) _ _ _ (by decide!),
    edist_mono 20 (20 + k) (by omega) _ _ _ (by decide!),
    edist_mono 20 (20 + k) (by omega) _ _ _ (by decide!)⟩

/-- C16 fails by a defect of the code. When the shorter string has two code points,
`edist_calc` returns the lesser of `edist_calc_le2` on the string and on the string with
its two code points exchanged, without counting the exchange: `edist("ab", "ba")` is 0,
not 1. With three code points in both strings the row loop is used and the values are as
claimed: `edist("abc", "bac") = 1` and `edist("abc", "cab") = 2`. -/
theorem edist_transposition_values (k : Nat) :
    edist (20 + k) (units "ab") (units "ba") = some 0 ∧
    edist (20 + k) (units "abc") (units "bac") = some 1 ∧
    edist (20 + k) (units "abc") (units "cab") = some 2 :=
  ⟨edist_mono 20 (20 + k) (by omega) _ _ _ (by decide!),
    edist_mono 20 (20 + k) (by omega) _ _ _ (by decide!),
    edist_mono 20 (20 + k) (by omega) _ _ _ (by decide!)⟩

/-- C17 fails by a defect of the code, the one of C16. With U+1F596 as the surrogate pair
D83D DD96, `edist_make_idxs` counts one code point for the pair, and
the distance of U+1F596 to itself is 0 as claimed; but the distance of U+0061 U+1F596 to U+1F596 U+0061,
two code points each, goes through the exchange of the first two code points that is not
counted, and is 0, not 1. -/
theorem edist_surrogate_values (k : Nat) :
    (edist_make_idxs [0xd83d, 0xdd96] 2 [0, 0]).2 = 1 ∧
    (edist_make_idxs [97, 0xd83d, 0xdd96] 3 [0, 0, 0]) = ([1, 3, 0], 2) ∧
    edist (20 + k) [0xd83d, 0xdd96] [0xd83d, 0xdd96] = some 0 ∧
    edist (20 + k) [97, 0xd83d, 0xdd96] [0xd83d, 0xdd96, 97] = some 0 :=
  ⟨by decide!, by decide!, edist_mono 20 (20 + k) (by omega) _ _ _ (by decide!),
    edist_mono 20 (20 + k) (by omega) _ _ _ (by decide!)⟩

/-- C18 fails by a defect of the code, the one of C13. For two copies of the string of 172
times U+0061 the banded computation returns 3, where the last entry of the full table
with adjacent transposition, the optimal string alignment distance, is 0: the `uint8_t
rlimit` wraps from 255 to 0 at the end of row 171 and row 172 is restricted to `r = 0`.
On the witness the two agree: `edist("kitten", "sitting") = 3`. -/
theorem edist_band_long :
    (∀ k, edist (257 + k) (List.replicate 172 97) (List.replicate 172 97) = some 3) ∧
    osa (codePoints (List.replicate 172 97)) (codePoints (List.replicate 172 97)) = 0 ∧
    (∀ k, edist (20 + k) (units "kitten") (units "sitting") = some 3) ∧
    osa (codePoints (units "kitten")) (codePoints (units "sitting")) = 3 :=
  ⟨fun k => edist_a172 (257 + k) (by omega), osa_self _,
    fun k => edist_mono 20 (20 + k) (by omega) _ _ _ (by decide!), by decide!⟩

set_option maxRecDepth 100000 in
/-- C19 as stated fails: with one locale loaded, a query of 41 code units does not fit
the 40 code units of the scratch array `query` of `edist_run_query`; the copy leaves
the array and no scores are produced, whatever the fuel. -/
theorem run_query_long :
    ∃ c1, edist_load_locale
        (edist_pack (edist_reset (edist_get_buf_ptr edist_ctx_zero))
          (units "en-US" ++ units "English (US)")) 5 12 = some c1 ∧
      c1.count = 1 ∧
      ∀ fuel, edist_run_query fuel (edist_pack c1 (List.replicate 41 97)) 41 = none := by
  have hl : (edist_load_locale
      (edist_pack (edist_reset (edist_get_buf_ptr edist_ctx_zero))
        (units "en-US" ++ units "English (US)")) 5 12).map (fun c => c.count) = some 1 := by
    decide!
  obtain ⟨c1, h1, h2⟩ := Option.map_eq_some'.1 hl
  refine ⟨c1, h1, h2, fun fuel => ?_⟩
  unfold edist_run_query memcpy16
  rw [if_neg (by
    intro hh
    have h3 := hh.1
    rw [List.length_replicate] at h3
    exact absurd h3 (by decide))]
  rfl

/-- C19, amended: let the context be well formed (a buffer of 256 bytes, 200 locale
slots of which `count <= 200` are loaded, each loaded locale with its 12 tag and 40
name code units and `tag_len <= 12`, `name_len <= 40`, the index map that
`edist_get_buf_ptr` builds) and let `len <= 40`. Then `edist_run_query(len)` returns
(257 units of fuel are enough), the scratch array `query` holds the first `len` code
units that were in the buffer, and for every `i < count` both calls of `edist_calc`
return and byte `i` of the buffer is the lesser of `edist_calc(query, tag_i)` and
`edist_calc(query, name_i)`. -/
theorem run_query_scores (fuel : Nat) (ctx : edist_ctx_t) (len : Nat) (hf : 257 ≤ fuel)
    (hlen : len ≤ EDIST_MAX_CODE_UNITS) (hbuf : ctx.buf.length = EDIST_MAX_BUF_SIZE)
    (hloc : ctx.locales.length = EDIST_MAX_LOCALES) (hcount : ctx.count ≤ EDIST_MAX_LOCALES)
    (hidx : ctx.idxs = (edist_get_buf_ptr edist_ctx_zero).idxs)
    (hok : ∀ k, k < ctx.count →
      (ctx.locales.getD k user_locale_zero).tag.length = EDIST_MAX_TAG_CODE_UNITS ∧
      (ctx.locales.getD k user_locale_zero).name.length = EDIST_MAX_NAME_CODE_UNITS ∧
      (ctx.locales.getD k user_locale_zero).tag_len ≤ EDIST_MAX_TAG_CODE_UNITS ∧
      (ctx.locales.getD k user_locale_zero).name_len ≤ EDIST_MAX_NAME_CODE_UNITS) :
    ∃ q ctx1, memcpy16 (List.replicate EDIST_MAX_CODE_UNITS 0) ctx.buf 0 len = some q ∧
      q.take len = buf_units ctx.buf 0 len ∧
      edist_run_query fuel ctx len = some ctx1 ∧
      ∀ i, i < ctx.count → ∃ ts ns,
        edist_calc fuel q
          (edist_make_idxs q len (List.replicate EDIST_MAX_CODE_UNITS 0)).1
          (edist_make_idxs q len (List.replicate EDIST_MAX_CODE_UNITS 0)).2
          (ctx.locales.getD i user_locale_zero).tag ctx.idxs
          (ctx.locales.getD i user_locale_zero).tag_len = some ts ∧
        edist_calc fuel q
          (edist_make_idxs q len (List.replicate EDIST_MAX_CODE_UNITS 0)).1
          (edist_make_idxs q len (List.replicate EDIST_MAX_CODE_UNITS 0)).2
          (ctx.locales.getD i user_locale_zero).name ctx.idxs
          (ctx.locales.getD i user_locale_zero).name_len = some ns ∧
        ctx1.buf.getD i 0 = min ts ns := by
  simp only [EDIST_MAX_BUF_SIZE, EDIST_MAX_LOCALES, EDIST_MAX_TAG_CODE_UNITS, EDIST_MAX_CODE_UNITS,
    EDIST_MAX_NAME_CODE_UNITS] at hlen hbuf hloc hcount hok ⊢
  have hrl : (List.replicate 40 0 : List Nat).length = 40 := List.length_replicate _ _
  obtain ⟨q, eq1, lq, tq, _⟩ := memcpy16_spec (List.replicate 40 0) ctx.buf 0 len
    (by rw [hrl]; exact hlen) (by omega)
  rw [hrl] at lq
  have hidx2 : ctx.idxs = 1 :: 2 :: (edist_get_buf_ptr edist_ctx_zero).idxs.drop 2 := by
    rw [hidx]; decide
  have hql := make_idxs_len_le q (List.replicate 40 0) len (by omega) (by omega)
    (by rw [hrl]; exact hlen)
  have hqs := swap_twice_initial q (List.replicate 40 0) len (by omega) (by omega)
    (by rw [hrl]; exact hlen)
  obtain ⟨buf1, e, _, hs, _⟩ := run_query_loop_spec fuel hf _ ctx.count 0
    { query := q
      query_idxs := (edist_make_idxs q len (List.replicate 40 0)).1
      query_len := (edist_make_idxs q len (List.replicate 40 0)).2
      ctx := ctx }
    (by show 0 + ctx.count ≤ ctx.locales.length; omega)
    (by show 0 + ctx.count ≤ ctx.buf.length; omega)
    (by show (edist_make_idxs q len (List.replicate 40 0)).2 ≤ 254; omega)
    (fun h2 => hqs (by
      have : (edist_make_idxs q len (List.replicate 40 0)).2 = 2 := h2
      omega))
    hidx2
    (fun k hk => by
      obtain ⟨a1, a2, a3, a4⟩ := hok k (by omega)
      show 2 ≤ (ctx.locales.getD k user_locale_zero).tag.length ∧
        2 ≤ (ctx.locales.getD k user_locale_zero).name.length ∧
        (ctx.locales.getD k user_locale_zero).tag_len ≤ 254 ∧
        (ctx.locales.getD k user_locale_zero).name_len ≤ 254
      omega)
  refine ⟨q, { ctx with buf := buf1 }, eq1, tq, ?_, ?_⟩
  · unfold edist_run_query
    simp only [EDIST_MAX_CODE_UNITS, EDIST_MAX_NAME_CODE_UNITS]
    rw [eq1]
    simp only [Option.bind]
    rw [e]
    rfl
  · intro i hi
    obtain ⟨a1, a2, a3, a4⟩ := hok i hi
    obtain ⟨ts, hts⟩ := edist_calc_total fuel hf q (edist_make_idxs q len (List.replicate 40 0)).1
      (edist_make_idxs q len (List.replicate 40 0)).2
      (ctx.locales.getD i user_locale_zero).tag ctx.idxs
      (ctx.locales.getD i user_locale_zero).tag_len (by omega) (by omega)
    obtain ⟨ns, hns⟩ := edist_calc_total fuel hf q (edist_make_idxs q len (List.replicate 40 0)).1
      (edist_make_idxs q len (List.replicate 40 0)).2
      (ctx.locales.getD i user_locale_zero).name ctx.idxs
      (ctx.locales.getD i user_locale_zero).name_len (by omega) (by omega)
    refine ⟨ts, ns, hts, hns, ?_⟩
    have h := hs i (by omega) (by omega)
    show buf1.getD i 0 = _
    rw [h]
    unfold locale_score
    dsimp only
    rw [hts, hns]
    have hlt := edist_calc_lt fuel _ _ _ _ _ _ ts (by omega) (by omega) hts
    show u8i (edist_min (ts : Int) (ns : Int)) = min ts ns
    rw [edist_min_natCast, u8i_natCast _ (by omega)]

set_option maxRecDepth 100000 in
/-- Witness for C19: the specification's example, two loaded locales and the query "az",
meets the hypotheses, and its scores are 10 and 8. -/
theorem run_query_scores_witness :
    (∃ q ctx1, memcpy16 (List.replicate EDIST_MAX_CODE_UNITS 0) az_ctx.buf 0 2 = some q ∧
      q.take 2 = buf_units az_ctx.buf 0 2 ∧
      edist_run_query 257 az_ctx 2 = some ctx1 ∧
      ∀ i, i < az_ctx.count → ∃ ts ns,
        edist_calc 257 q
          (edist_make_idxs q 2 (List.replicate EDIST_MAX_CODE_UNITS 0)).1
          (edist_make_idxs q 2 (List.replicate EDIST_MAX_CODE_UNITS 0)).2
          (az_ctx.locales.getD i user_locale_zero).tag az_ctx.idxs
          (az_ctx.locales.getD i user_locale_zero).tag_len = some ts ∧
        edist_calc 257 q
          (edist_make_idxs q 2 (List.replicate EDIST_MAX_CODE_UNITS 0)).1
          (edist_make_idxs q 2 (List.replicate EDIST_MAX_CODE_UNITS 0)).2
          (az_ctx.locales.getD i user_locale_zero).name az_ctx.idxs
          (az_ctx.locales.getD i user_locale_zero).name_len = some ns ∧
        ctx1.buf.getD i 0 = min ts ns) ∧
    az_ctx.count = 2 ∧ buf_units az_ctx.buf 0 2 = units "az" :=
  ⟨run_query_scores 257 az_ctx 2 (by decide) (by decide) (by decide!) (by decide!) (by decide!)
    (by decide!) (by decide!), by decide!, by decide!⟩

/-- C20 as stated fails: after reset, the two loads and the query "az", the score of
("az-AZ", "Azerbaijani (Azerbaijan)") in byte 1 of the buffer is 8, not 3. -/
theorem az_score_not_three :
    ∃ s0 s1, (∀ k, az_scores (20 + k) = some [s0, s1]) ∧ ¬ s1 = 3 :=
  ⟨10, 8, fun k => az_scores_mono 20 (20 + k) (by omega) _ (by decide!), by decide⟩

/-- C20, amended: after reset, loading ("en-US", "English (US)") and ("az-AZ",
"Azerbaijani (Azerbaijan)") in that order and running the query "az" leaves the scores
10 and 8 in bytes 0 and 1 of the buffer. The tags are stored with the script subtag
injected, ten code units each; the query "az" has both its code points in
"az-\0\0\0\0-AZ" (score 10 - 2 = 8) and none in "en-\0\0\0\0-US" (score 10), and the
display names score 22 and 12. -/
theorem az_scores_values (k : Nat) :
    az_scores (20 + k) = some [10, 8] ∧
    edist (20 + k) (units "az") [97, 122, 45, 0, 0, 0, 0, 45, 65, 90] = some 8 ∧
    edist (20 + k) (units "az") [101, 110, 45, 0, 0, 0, 0, 45, 85, 83] = some 10 ∧
    edist (20 + k) (units "az") (units "Azerbaijani (Azerbaijan)") = some 22 ∧
    edist (20 + k) (units "az") (units "English (US)") = some 12 :=
  ⟨az_scores_mono 20 (20 + k) (by omega) _ (by decide!),
    edist_mono 20 (20 + k) (by omega) _ _ _ (by decide!),
    edist_mono 20 (20 + k) (by omega) _ _ _ (by decide!),
    edist_mono 20 (20 + k) (by omega) _ _ _ (by decide!),
    edist_mono 20 (20 + k) (by omega) _ _ _ (by decide!)⟩

set_option maxRecDepth 100000 in
/-- C21 as stated fails: the tag "az-Cyrl-AZ-xx" has three hyphens and 13 code units, and
`edist_load_locale` copies its 26 bytes into the 12 code units of `locale->tag`; the
copy leaves the array, so the tag is not stored unchanged. -/
theorem load_locale_long_tag :
    (buf_units (edist_pack (edist_reset (edist_get_buf_ptr edist_ctx_zero))
        (units "az-Cyrl-AZ-xx" ++ units "X")).buf 0 13).count 45 = 3 ∧
    edist_load_locale
      (edist_pack (edist_reset (edist_get_buf_ptr edist_ctx_zero))
        (units "az-Cyrl-AZ-xx" ++ units "X")) 13 1 = none := by
  decide!

/-- C21, amended: let the buffer hold 256 bytes, fewer than 200 locales be loaded, the
next locale have its 12 tag and 40 name code units, and `name_len <= 40`. For a tag
of `tag_len` code units with exactly one hyphen and `tag_len + 5 <= 12`,
`edist_load_locale` returns with the stored tag equal to the input code units up to
and including the hyphen, four zero code units, a hyphen and the remaining code units,
and the stored tag length `tag_len + 5`; for a tag with two or more hyphens and
`tag_len <= 12` the tag is stored unchanged with length `tag_len`. In both cases the
stored name is the `name_len` code units that follow the tag in the buffer, the stored
name length is `name_len`, and the count of locales goes up by one. -/
theorem load_locale_stores (ctx : edist_ctx_t) (tag_len name_len : Nat)
    (hbuf : ctx.buf.length = EDIST_MAX_BUF_SIZE) (hbytes : ∀ b ∈ ctx.buf, b < 256)
    (hloc : ctx.locales.length = EDIST_MAX_LOCALES) (hcount : ctx.count < EDIST_MAX_LOCALES)
    (htag : (ctx.locales.getD ctx.count user_locale_zero).tag.length = EDIST_MAX_TAG_CODE_UNITS)
    (hname : (ctx.locales.getD ctx.count user_locale_zero).name.length =
      EDIST_MAX_NAME_CODE_UNITS)
    (hnl : name_len ≤ EDIST_MAX_NAME_CODE_UNITS)
    (hh : (buf_units ctx.buf 0 tag_len).count 45 = 1 ∧ tag_len + 5 ≤ EDIST_MAX_TAG_CODE_UNITS ∨
      2 ≤ (buf_units ctx.buf 0 tag_len).count 45 ∧ tag_len ≤ EDIST_MAX_TAG_CODE_UNITS) :
    ∃ ctx1, edist_load_locale ctx tag_len name_len = some ctx1 ∧
      ctx1.count = ctx.count + 1 ∧
      ((buf_units ctx.buf 0 tag_len).count 45 = 1 →
        (ctx1.locales.getD ctx.count user_locale_zero).tag_len = tag_len + 5 ∧
        (ctx1.locales.getD ctx.count user_locale_zero).tag.take (tag_len + 5) =
          inject_script (buf_units ctx.buf 0 tag_len)) ∧
      (2 ≤ (buf_units ctx.buf 0 tag_len).count 45 →
        (ctx1.locales.getD ctx.count user_locale_zero).tag_len = tag_len ∧
        (ctx1.locales.getD ctx.count user_locale_zero).tag.take tag_len =
          buf_units ctx.buf 0 tag_len) ∧
      (ctx1.locales.getD ctx.count user_locale_zero).name_len = name_len ∧
      (ctx1.locales.getD ctx.count user_locale_zero).name.take name_len =
        buf_units ctx.buf (2 * tag_len) name_len := by
  simp only [EDIST_MAX_BUF_SIZE, EDIST_MAX_LOCALES, EDIST_MAX_TAG_CODE_UNITS,
    EDIST_MAX_NAME_CODE_UNITS] at hbuf hloc hcount htag hname hnl hh
  have ht12 : tag_len ≤ 12 := by omega
  have hoff : u8 (tag_len * 2) = 2 * tag_len := by unfold u8; omega
  obtain ⟨nm, enm, lnm, tnm, _⟩ := memcpy16_spec
    (ctx.locales.getD ctx.count user_locale_zero).name ctx.buf (2 * tag_len) name_len
    (by omega) (by omega)
  unfold edist_load_locale
  rw [if_pos (by omega), has_script_subtag_spec ctx.buf hbytes tag_len (by omega) (by omega), hoff,
    enm]
  simp only [Option.bind, Option.map]
  rcases hh with ⟨h1, h5⟩ | ⟨h2, _⟩
  · have hc : cbool ((buf_units ctx.buf 0 tag_len).count 45 > 1) = 0 := by
      rw [h1]; rfl
    obtain ⟨arr, earr, larr, tarr⟩ := load_tag_spec ctx.buf hbytes
      (ctx.locales.getD ctx.count user_locale_zero).tag tag_len (by omega)
    rw [h1] at earr tarr
    rw [hc, if_neg (by decide), if_pos (by omega), earr]
    refine ⟨_, rfl, by show u8 (ctx.count + 1) = ctx.count + 1; unfold u8; omega, ?_, ?_, ?_, ?_⟩
    · intro _
      rw [getD_set_self _ _ _ (by omega)]
      refine ⟨by show u8 (tag_len + 5) = tag_len + 5; unfold u8; omega, ?_⟩
      show arr.take (tag_len + 5) = _
      rw [← inject_every_one _ h1]
      exact tarr
    · intro h2; omega
    · rw [getD_set_self _ _ _ (by omega)]
    · rw [getD_set_self _ _ _ (by omega)]
      exact tnm
  · have hc : cbool ((buf_units ctx.buf 0 tag_len).count 45 > 1) = 1 := by
      unfold cbool; rw [if_pos (by omega)]
    obtain ⟨tg, etg, ltg, ttg, _⟩ := memcpy16_spec
      (ctx.locales.getD ctx.count user_locale_zero).tag ctx.buf 0 tag_len (by omega) (by omega)
    rw [hc, if_pos (by decide), etg]
    refine ⟨_, rfl, by show u8 (ctx.count + 1) = ctx.count + 1; unfold u8; omega, ?_, ?_, ?_, ?_⟩
    · intro h1; omega
    · intro _
      rw [getD_set_self _ _ _ (by omega)]
      exact ⟨rfl, ttg⟩
    · rw [getD_set_self _ _ _ (by omega)]
    · rw [getD_set_self _ _ _ (by omega)]
      exact tnm

set_option maxRecDepth 100000 in
/-- Witness for C21: after reset, with "az-AZ" and "Azerbaijani (Azerbaijan)" packed in
the buffer, `edist_load_locale(5, 24)` stores the tag "az-\0\0\0\0-AZ" with length 10 and
the 24 code units of the name. -/
theorem load_locale_stores_witness :
    ∃ ctx1, edist_load_locale
        (edist_pack (edist_reset (edist_get_buf_ptr edist_ctx_zero))
          (units "az-AZ" ++ units "Azerbaijani (Azerbaijan)")) 5 24 = some ctx1 ∧
      ctx1.count = 1 ∧
      (ctx1.locales.getD 0 user_locale_zero).tag_len = 10 ∧
      (ctx1.locales.getD 0 user_locale_zero).tag.take 10 =
        [97, 122, 45, 0, 0, 0, 0, 45, 65, 90] ∧
      (ctx1.locales.getD 0 user_locale_zero).name_len = 24 ∧
      (ctx1.locales.getD 0 user_locale_zero).name.take 24 = units "Azerbaijani (Azerbaijan)" := by
  have h1 : (buf_units (edist_pack (edist_reset (edist_get_buf_ptr edist_ctx_zero))
      (units "az-AZ" ++ units "Azerbaijani (Azerbaijan)")).buf 0 5).count 45 = 1 := by decide!
  obtain ⟨ctx1, e, hc, ht, _, hn, hnm⟩ := load_locale_stores
    (edist_pack (edist_reset (edist_get_buf_ptr edist_ctx_zero))
      (units "az-AZ" ++ units "Azerbaijani (Azerbaijan)")) 5 24
    (by decide!) (by decide!) (by decide!) (by decide!) (by decide!) (by decide!) (by decide!)
    (Or.inl ⟨h1, by decide⟩)
  refine ⟨ctx1, e, hc, (ht h1).1, ?_, hn, ?_⟩
  · exact (ht h1).2.trans (by decide!)
  · exact hnm.trans (by decide!)

/-- C22: for every module state, `tsig_stop` sets the lifecycle state to `TSIG_STATE_IDLE` when
the state was before `TSIG_STATE_FADE_IN` and to `TSIG_STATE_FADE_OUT` otherwise, and it
calls the JavaScript callback exactly once, with that new state; for the eight lifecycle
states, "before FADE_IN" means IDLE, STARTUP, REQ_PARAMS or LOAD_PARAMS. -/
theorem tsig_stop_state (m : tsig_module) :
    (tsig_stop m).tsig_ctx.state
      = (if m.tsig_ctx.state < TSIG_STATE_FADE_IN then TSIG_STATE_IDLE
         else TSIG_STATE_FADE_OUT) ∧
    (tsig_stop m).notified = m.notified ++ [(tsig_stop m).tsig_ctx.state] ∧
    (∀ s : Int, 0 ≤ s ∧ s ≤ 7 → (s < TSIG_STATE_FADE_IN ↔
      s = TSIG_STATE_IDLE ∨ s = TSIG_STATE_STARTUP ∨ s = TSIG_STATE_REQ_PARAMS
        ∨ s = TSIG_STATE_LOAD_PARAMS)) := by
  refine ⟨?_, ?_, ?_⟩
  · unfold tsig_stop; split <;> rfl
  · unfold tsig_stop; split <;> rfl
  · intro s hs
    unfold TSIG_STATE_FADE_IN TSIG_STATE_IDLE TSIG_STATE_STARTUP TSIG_STATE_REQ_PARAMS
      TSIG_STATE_LOAD_PARAMS
    omega

set_option maxRecDepth 100000 in
/-- C23 as stated fails: the controller operations do not look at the state they are
called in. From `tsig_init` at 48000 Hz, run start, 174 render callbacks,
`tsig_load_params`, two render callbacks, stop, two render callbacks and stop again.
Every step but the last keeps to `tsig_op_in_protocol`, the last does not; after step
179 (the first stop) the state is FADE_OUT, after step 181 it is SUSPEND, and the second
stop, in SUSPEND, sets it back to FADE_OUT: a cycle FADE_OUT, SUSPEND, FADE_OUT that
never meets IDLE. In the same way a second start in REQ_PARAMS gives STARTUP, REQ_PARAMS,
STARTUP, and a second `tsig_load_params` in FADE_IN gives LOAD_PARAMS, FADE_IN,
LOAD_PARAMS, FADE_IN. -/
theorem lifecycle_cycle_without_idle :
    (tsig_run_in_protocol (tsig_init tsig_module_zero 48000)
        run_stop_in_suspend.dropLast = true ∧
      tsig_run_in_protocol (tsig_init tsig_module_zero 48000) run_stop_in_suspend = false ∧
      (tsig_states (tsig_init tsig_module_zero 48000) run_stop_in_suspend).drop 179 =
        [TSIG_STATE_FADE_OUT, TSIG_STATE_FADE_OUT, TSIG_STATE_SUSPEND, TSIG_STATE_FADE_OUT]) ∧
    (tsig_states (tsig_init tsig_module_zero 48000) run_start_in_req_params).drop 174 =
      [TSIG_STATE_STARTUP, TSIG_STATE_REQ_PARAMS, TSIG_STATE_STARTUP] ∧
    (tsig_states (tsig_init tsig_module_zero 48000) run_load_params_in_fade_in).drop 176 =
      [TSIG_STATE_LOAD_PARAMS, TSIG_STATE_FADE_IN, TSIG_STATE_LOAD_PARAMS,
        TSIG_STATE_FADE_IN] := by
  decide!

/-- C23, amended: let a run of render callbacks and controller operations keep to
`tsig_op_in_protocol`, that is, `tsig_start` is called only in IDLE or STARTUP,
`tsig_load_params` only in a state up to LOAD_PARAMS and `tsig_stop` only before SUSPEND
(the documented calling sequence does: start in IDLE, load_params in REQ_PARAMS, one
stop). Then every step keeps the lifecycle state, or moves it to a state with a greater
number, or moves it to IDLE; and the graph has no cycle that avoids IDLE: if the run is
in a state other than IDLE after `i` steps, in another state at some step between, and in
the first state again after `j` steps, then it is in IDLE at some step between. -/
theorem lifecycle_acyclic_in_protocol (m : tsig_module) (ops : List tsig_op)
    (hp : tsig_run_in_protocol m ops = true) :
    (∀ k, k < ops.length →
      (tsig_states m ops).getD (k + 1) 0 = (tsig_states m ops).getD k 0 ∨
      (tsig_states m ops).getD k 0 < (tsig_states m ops).getD (k + 1) 0 ∨
      (tsig_states m ops).getD (k + 1) 0 = TSIG_STATE_IDLE) ∧
    (∀ i j, i < j → j ≤ ops.length →
      (tsig_states m ops).getD i 0 ≠ TSIG_STATE_IDLE →
      (tsig_states m ops).getD j 0 = (tsig_states m ops).getD i 0 →
      (∃ k, i < k ∧ k < j ∧ (tsig_states m ops).getD k 0 ≠ (tsig_states m ops).getD i 0) →
      ∃ k, i < k ∧ k < j ∧ (tsig_states m ops).getD k 0 = TSIG_STATE_IDLE) := by
  refine ⟨fun k hk => tsig_states_step ops m k hp hk, ?_⟩
  intro i j hij hj hne hs hchg
  by_contra hno
  have hni : ∀ k, i < k → k ≤ j → (tsig_states m ops).getD k 0 ≠ TSIG_STATE_IDLE := by
    intro k h1 h2 hk
    rcases Nat.lt_or_ge k j with h3 | h3
    · exact hno ⟨k, h1, h3, hk⟩
    · have e : k = j := by omega
      rw [e, hs] at hk
      exact hne hk
  obtain ⟨k, h1, h2, h3⟩ := hchg
  have a := tsig_states_mono ops m i k hp (by omega) (by omega)
    (fun x hx1 hx2 => hni x hx1 (by omega))
  have b := tsig_states_mono ops m k j hp (by omega) hj
    (fun x hx1 hx2 => hni x (by omega) hx2)
  rw [hs] at b
  exact h3 (le_antisymm b a)

set_option maxRecDepth 100000 in
/-- Witness for C23: the documented calling sequence at 48000 Hz, start, 174 render
callbacks, load_params, 16 render callbacks, stop, 190 render callbacks, start, keeps to
the protocol; the state is STARTUP after step 1, REQ_PARAMS after step 175 and STARTUP
again after step 384, so it was IDLE in between. -/
theorem lifecycle_acyclic_in_protocol_witness :
    tsig_run_in_protocol (tsig_init tsig_module_zero 48000) run_full_cycle = true ∧
    (tsig_states (tsig_init tsig_module_zero 48000) run_full_cycle).getD 1 0
      = TSIG_STATE_STARTUP ∧
    (tsig_states (tsig_init tsig_module_zero 48000) run_full_cycle).getD 175 0
      = TSIG_STATE_REQ_PARAMS ∧
    (tsig_states (tsig_init tsig_module_zero 48000) run_full_cycle).getD 384 0
      = TSIG_STATE_STARTUP ∧
    ∃ k, 1 < k ∧ k < 384 ∧
      (tsig_states (tsig_init tsig_module_zero 48000) run_full_cycle).getD k 0
        = TSIG_STATE_IDLE :=
  ⟨by decide!, by decide!, by decide!, by decide!,
    (lifecycle_acyclic_in_protocol (tsig_init tsig_module_zero 48000) run_full_cycle
      (by decide!)).2 1 384 (by decide) (by decide!) (by decide!) (by decide!)
      ⟨175, by decide, by decide, by decide!⟩⟩

/-- C24: for every `uint32_t` value of `target_hz`, `tsig_calculate_subharmonic` returns 5 when
`target_hz / 5 ≤ 10000` and 7 otherwise; `tsig_calculate_target_hz` returns 60000 for JJY
with the 60 kHz selection (`jjy_khz = TSIG_JJYKHZ_60`) and the carrier of the station table
otherwise; so JJY at 60 kHz gets the subharmonic 7, and 60000 / 7 = 8571 Hz (rounded down). -/
theorem subharmonic_selection (target_hz : Nat) (h : target_hz < 4294967296)
    (params : tsig_params_t) :
    tsig_calculate_subharmonic target_hz = (if target_hz / 5 ≤ 10000 then 5 else 7) ∧
    (params.station = TSIG_STATION_JJY ∧ params.jjy_khz = TSIG_JJYKHZ_60 →
      tsig_calculate_target_hz params = 60000) ∧
    (¬ (params.station = TSIG_STATION_JJY ∧ params.jjy_khz = TSIG_JJYKHZ_60) →
      tsig_calculate_target_hz params = stationTargetHz.getD params.station 0) ∧
    tsig_calculate_subharmonic 60000 = 7 ∧ 60000 / 7 = 8571 := by
  refine ⟨?_, ?_, ?_, by decide, by decide⟩
  · unfold tsig_calculate_subharmonic
    rw [u32_of_lt h]
    rfl
  · intro hj
    unfold tsig_calculate_target_hz
    rw [if_neg (by rw [hj.1, hj.2]; decide)]
  · intro hj
    unfold tsig_calculate_target_hz
    rw [if_pos (by
      by_cases h1 : params.station = TSIG_STATION_JJY
      · right; intro h2; exact hj ⟨h1, h2⟩
      · left; exact h1)]

/-- Witness of C24: JJY at 60 kHz. -/
theorem subharmonic_selection_witness :
    60000 < 4294967296 ∧
    tsig_calculate_subharmonic
      (tsig_calculate_target_hz (tsig_params_t.mk 0 TSIG_STATION_JJY TSIG_JJYKHZ_60 0 0)) = 7 :=
  ⟨by decide, ((subharmonic_selection 60000 (by decide)
    (tsig_params_t.mk 0 TSIG_STATION_JJY TSIG_JJYKHZ_60 0 0)).2.1 ⟨rfl, rfl⟩).symm ▸
    (subharmonic_selection 60000 (by decide)
      (tsig_params_t.mk 0 TSIG_STATION_JJY TSIG_JJYKHZ_60 0 0)).2.2.2.1⟩

/-- C25 as stated fails: for WWVB the carrier is 60000 Hz and 60000 / 5 = 12000 exceeds the
threshold 10000, so `tsig_calculate_subharmonic` returns 7, not 5; at a sample rate of
48000 Hz `tsig_waveform_init` sets `phase_delta / phase_base` to 5 / 28, which is
60000 / (48000 * 7), not 60000 / (48000 * 5) = 1 / 4. -/
theorem wwvb_subharmonic_is_seven :
    tsig_calculate_subharmonic
      (tsig_calculate_target_hz (tsig_params_t.mk 0 TSIG_STATION_WWVB 0 0 0)) = 7 ∧
    (tsig_waveform_init { tsig_module_zero.tsig_ctx.waveform_ctx with sample_rate := 48000 }
      (tsig_params_t.mk 0 TSIG_STATION_WWVB 0 0 0) 0).phase_delta = 5 ∧
    (tsig_waveform_init { tsig_module_zero.tsig_ctx.waveform_ctx with sample_rate := 48000 }
      (tsig_params_t.mk 0 TSIG_STATION_WWVB 0 0 0) 0).phase_base = 28 := by
  decide!

/-- C25, amended: with `params.station = TSIG_STATION_WWVB` and a sample rate `sr` with
`0 < sr` and `sr * 7 < 2^32`, `tsig_waveform_init` selects the 7th subharmonic and sets
`phase_delta / phase_base = 60000 / (sr * 7)` in lowest terms, so the emitted sinusoid has
frequency 60000 / 7 Hz (about 8571 Hz). -/
theorem wwvb_carrier_ratio (ctx : tsig_waveform_ctx_t) (params : tsig_params_t) (now : ℚ)
    (hs : params.station = TSIG_STATION_WWVB) (h0 : 0 < ctx.sample_rate)
    (h1 : ctx.sample_rate * 7 < 4294967296) :
    tsig_calculate_subharmonic (tsig_calculate_target_hz params) = 7 ∧
    (tsig_waveform_init ctx params now).phase_delta * (ctx.sample_rate * 7)
      = 60000 * (tsig_waveform_init ctx params now).phase_base ∧
    0 < (tsig_waveform_init ctx params now).phase_base ∧
    Nat.gcd (tsig_waveform_init ctx params now).phase_delta
      (tsig_waveform_init ctx params now).phase_base = 1 := by
  have ht : tsig_calculate_target_hz params = 60000 := by
    unfold tsig_calculate_target_hz
    rw [if_pos (Or.inl (by rw [hs]; decide)), hs]
    rfl
  have hsub : tsig_calculate_subharmonic 60000 = 7 := by decide
  have hd : (tsig_waveform_init ctx params now).phase_delta
      = 60000 / Nat.gcd 60000 (ctx.sample_rate * 7) := by
    show tsig_calculate_target_hz params / tsig_gcd (tsig_calculate_target_hz params)
      (u32 (ctx.sample_rate * tsig_calculate_subharmonic (tsig_calculate_target_hz params))) = _
    rw [ht, hsub, u32_of_lt h1, tsig_gcd_eq]
  have hb : (tsig_waveform_init ctx params now).phase_base
      = ctx.sample_rate * 7 / Nat.gcd 60000 (ctx.sample_rate * 7) := by
    show u32 (ctx.sample_rate * tsig_calculate_subharmonic (tsig_calculate_target_hz params))
      / tsig_gcd (tsig_calculate_target_hz params)
      (u32 (ctx.sample_rate * tsig_calculate_subharmonic (tsig_calculate_target_hz params))) = _
    rw [ht, hsub, u32_of_lt h1, tsig_gcd_eq]
  rw [hd, hb, ht]
  have hg : 0 < Nat.gcd 60000 (ctx.sample_rate * 7) := Nat.gcd_pos_of_pos_left _ (by decide)
  obtain ⟨a, ha⟩ := Nat.gcd_dvd_left 60000 (ctx.sample_rate * 7)
  obtain ⟨b, hb2⟩ := Nat.gcd_dvd_right 60000 (ctx.sample_rate * 7)
  refine ⟨hsub, ?_, ?_, ?_⟩
  · generalize Nat.gcd 60000 (ctx.sample_rate * 7) = g at *
    generalize ctx.sample_rate * 7 = x at *
    rw [hb2, Nat.mul_div_cancel_left _ hg]
    have e : 60000 / g = a := by
      rw [ha, Nat.mul_div_cancel_left _ hg]
    rw [e]
    calc a * (g * b) = (g * a) * b := by ring
      _ = 60000 * b := by rw [← ha]
  · exact Nat.div_pos (Nat.le_of_dvd (by omega) (Nat.gcd_dvd_right _ _)) hg
  · exact Nat.coprime_div_gcd_div_gcd hg

/-- Witness of the amended C25 at 44100 Hz. -/
theorem wwvb_carrier_ratio_witness :
    (0 < 44100 ∧ 44100 * 7 < 4294967296) ∧
    Nat.gcd (tsig_waveform_init
        { tsig_module_zero.tsig_ctx.waveform_ctx with sample_rate := 44100 }
        (tsig_params_t.mk 0 TSIG_STATION_WWVB 0 0 0) 0).phase_delta
      (tsig_waveform_init
        { tsig_module_zero.tsig_ctx.waveform_ctx with sample_rate := 44100 }
        (tsig_params_t.mk 0 TSIG_STATION_WWVB 0 0 0) 0).phase_base = 1 :=
  ⟨by decide, (wwvb_carrier_ratio
    { tsig_module_zero.tsig_ctx.waveform_ctx with sample_rate := 44100 }
    (tsig_params_t.mk 0 TSIG_STATION_WWVB 0 0 0) 0 rfl (by decide) (by decide)).2.2.2⟩

/-- C26 as stated fails for a very large `phase_base`: with `phase_base = 2^32 - 1` and
`phase = phase_delta = 2^32 - 2` (both below `phase_base`) the 32-bit sum wraps, and one
phase advance gives `2^32 - 4` where `(phase + phase_delta) mod phase_base` is `2^32 - 3`. -/
theorem phase_advance_wraps :
    (phase_advance { tsig_module_zero.tsig_ctx.waveform_ctx with
      phase_base := 4294967295, phase := 4294967294, phase_delta := 4294967294 }).phase
      = 4294967292 ∧
    (4294967294 + 4294967294) % 4294967295 = 4294967293 := by
  decide

/-- C26, amended: for every waveform context with `phase_base ≤ 2^31`, `phase < phase_base`
and `phase_delta < phase_base`, one phase advance of `tsig_waveform_generate` sets `phase`
to `(phase + phase_delta) mod phase_base` and changes nothing else, and after exactly
`phase_base` consecutive advances the context, `phase` included, is what it was. -/
theorem phase_advance_mod (ctx : tsig_waveform_ctx_t) (hb : ctx.phase_base ≤ 2147483648)
    (hp : ctx.phase < ctx.phase_base) (hd : ctx.phase_delta < ctx.phase_base) :
    phase_advance ctx = { ctx with phase := (ctx.phase + ctx.phase_delta) % ctx.phase_base } ∧
    Nat.iterate phase_advance ctx.phase_base ctx = ctx := by
  refine ⟨phase_advance_eq ctx hb hp hd, ?_⟩
  rw [phase_iterate ctx.phase_base ctx hb hp hd, Nat.add_mul_mod_self_left,
    Nat.mod_eq_of_lt hp]

/-- Witness of the amended C26: `phase_delta / phase_base = 5 / 28` (WWVB at 48000 Hz),
starting from phase 3. -/
theorem phase_advance_mod_witness :
    ((28 : Nat) ≤ 2147483648 ∧ (3 : Nat) < 28 ∧ (5 : Nat) < 28) ∧
    (phase_advance { tsig_module_zero.tsig_ctx.waveform_ctx with
      phase_base := 28, phase := 3, phase_delta := 5 }).phase = 8 :=
  ⟨by decide, congrArg tsig_waveform_ctx_t.phase (phase_advance_mod
    { tsig_module_zero.tsig_ctx.waveform_ctx with phase_base := 28, phase := 3, phase_delta := 5 }
    (by decide) (by decide) (by decide)).1⟩

/-- C27: for every `t` in `[0, 4102444800000)`, the `doy` field of `parse t` is the ordinal of
the returned date within the returned year: the number of days of the months before `mon`
(29 for February in leap years) plus `day`; so `1 ≤ doy ≤ 365 + is_leap(year)`; `mon` is in
1..12, `day` in 1..31 (and at most the length of the month), `dow` in 0..6, and `dow` is
the day of the week of day `t / 86400000` counted with Sunday = 0 (1970-01-01 being a
Thursday), so `dow = 0` exactly on Sundays. -/
theorem parse_doy_ordinal (t : Nat) (ht : t < 4102444800000) :
    (tsig_datetime_parse_timestamp t).doy
      = daysBeforeMonth (tsig_datetime_parse_timestamp t).year
          (tsig_datetime_parse_timestamp t).mon + (tsig_datetime_parse_timestamp t).day ∧
    1 ≤ (tsig_datetime_parse_timestamp t).doy ∧
    (tsig_datetime_parse_timestamp t).doy
      ≤ 365 + tsig_datetime_is_leap (tsig_datetime_parse_timestamp t).year ∧
    1 ≤ (tsig_datetime_parse_timestamp t).mon ∧ (tsig_datetime_parse_timestamp t).mon ≤ 12 ∧
    1 ≤ (tsig_datetime_parse_timestamp t).day ∧ (tsig_datetime_parse_timestamp t).day ≤ 31 ∧
    (tsig_datetime_parse_timestamp t).day
      ≤ daysInMonth (tsig_datetime_parse_timestamp t).year
          (tsig_datetime_parse_timestamp t).mon ∧
    (tsig_datetime_parse_timestamp t).dow ≤ 6 ∧
    (tsig_datetime_parse_timestamp t).dow = weekday (t / 86400000) ∧
    ((tsig_datetime_parse_timestamp t).dow = 0 ↔ (t / 86400000) % 7 = 3) := by
  obtain ⟨hv, hdfc, hdoy, hy2100, hdow, -⟩ := parse_facts t ht
  obtain ⟨hy, hm1, hm12, hd1, hdl⟩ := hv
  have hd31 := le_trans hdl (daysInMonth_le _ _)
  have hord : (tsig_datetime_parse_timestamp t).doy
      = daysBeforeMonth (tsig_datetime_parse_timestamp t).year
          (tsig_datetime_parse_timestamp t).mon + (tsig_datetime_parse_timestamp t).day := by
    unfold days_from_civil at hdfc
    omega
  have hleap : tsig_datetime_is_leap (tsig_datetime_parse_timestamp t).year
      = (if isLeapYear (tsig_datetime_parse_timestamp t).year = true then 1 else 0) := by
    simp only [tsig_datetime_is_leap, isLeapYear,
      u16_of_lt (show (tsig_datetime_parse_timestamp t).year < 65536 by omega)]
  refine ⟨hord, by omega, ?_, hm1, hm12, hd1, hd31, hdl, ?_, hdow, ?_⟩
  · rw [hord, hleap, daysBeforeMonth_table _ _ hm1 hm12]
    unfold daysInMonth at hdl
    generalize (tsig_datetime_parse_timestamp t).year = y at *
    generalize (tsig_datetime_parse_timestamp t).mon = mo at *
    generalize (tsig_datetime_parse_timestamp t).day = D at *
    by_cases hl : isLeapYear y = true <;> interval_cases mo <;>
      simp [List.getD, hl] at hdl ⊢ <;> omega
  · rw [hdow]; unfold weekday; omega
  · rw [hdow]; unfold weekday; omega

/-- Witness of C27 on 2024-12-31 (`t = 1735603200000`), the 366th day of a leap year. -/
theorem parse_doy_ordinal_witness :
    1735603200000 < 4102444800000 ∧ (tsig_datetime_parse_timestamp 1735603200000).doy
      = daysBeforeMonth (tsig_datetime_parse_timestamp 1735603200000).year
          (tsig_datetime_parse_timestamp 1735603200000).mon
        + (tsig_datetime_parse_timestamp 1735603200000).day :=
  ⟨by decide, (parse_doy_ordinal 1735603200000 (by decide)).1⟩

/-- C28: for every datetime, every `params` and every 150-byte `xmit_level`, the frame written
by `tsig_xmit_dcf77` passes its three even-parity checks: the number of seconds carrying 1
(carrier low for 200 ms, that is 4 ticks) is even among seconds 21..28, among seconds 29..35
and among seconds 36..58. -/
theorem dcf77_parity_checks (datetime : tsig_datetime_t) (params : tsig_params_t)
    (xl : List Nat) (hxl : XmitOk xl) :
    bitCount (dcf77Bit (tsig_xmit_dcf77 datetime params xl)) 21 8 % 2 = 0 ∧
    bitCount (dcf77Bit (tsig_xmit_dcf77 datetime params xl)) 29 7 % 2 = 0 ∧
    bitCount (dcf77Bit (tsig_xmit_dcf77 datetime params xl)) 36 23 % 2 = 0 := by
  obtain ⟨h1, h2, h3⟩ := dcf77_bits_parity datetime
  have c1 := bitCount_congr (dcf77Bit (tsig_xmit_dcf77 datetime params xl))
    (fun s => sigBit ((dcf77_bits datetime).getD s 0)) 21 8
    (fun k hk => dcf77Bit_eq datetime params xl hxl (21 + k) (by omega))
  have c2 := bitCount_congr (dcf77Bit (tsig_xmit_dcf77 datetime params xl))
    (fun s => sigBit ((dcf77_bits datetime).getD s 0)) 29 7
    (fun k hk => dcf77Bit_eq datetime params xl hxl (29 + k) (by omega))
  have c3 := bitCount_congr (dcf77Bit (tsig_xmit_dcf77 datetime params xl))
    (fun s => sigBit ((dcf77_bits datetime).getD s 0)) 36 23
    (fun k hk => dcf77Bit_eq datetime params xl hxl (36 + k) (by omega))
  exact ⟨c1.symm ▸ h1, c2.symm ▸ h2, c3.symm ▸ h3⟩

/-- Witness of C28 at 2024-06-01 00:00 CET on an all-zero `xmit_level`. -/
theorem dcf77_parity_checks_witness :
    XmitOk (List.replicate 150 0) ∧
    bitCount (dcf77Bit (tsig_xmit_dcf77 (tsig_datetime_parse_timestamp 1717200000000)
      (tsig_params_t.mk 0 1 0 0 0) (List.replicate 150 0))) 36 23 % 2 = 0 :=
  ⟨xmitOk_zeros, (dcf77_parity_checks (tsig_datetime_parse_timestamp 1717200000000)
    (tsig_params_t.mk 0 1 0 0 0) (List.replicate 150 0) xmitOk_zeros).2.2⟩

/-- C29: for every datetime, every `params` and every 150-byte `xmit_level`, the frame written
by `tsig_xmit_msf` passes its four odd-parity checks: the number of seconds carrying 1 (low
for 200 ms) among seconds 17..24, plus the second bit of second 54 (1 when the second is low
for 300 ms), is odd; likewise seconds 25..35 with second 55, seconds 36..38 with second 56,
and seconds 39..51 with second 57. -/
theorem msf_parity_checks (datetime : tsig_datetime_t) (params : tsig_params_t)
    (xl : List Nat) (hxl : XmitOk xl) :
    (bitCount (dcf77Bit (tsig_xmit_msf datetime params xl)) 17 8
      + msfBitB (tsig_xmit_msf datetime params xl) 54) % 2 = 1 ∧
    (bitCount (dcf77Bit (tsig_xmit_msf datetime params xl)) 25 11
      + msfBitB (tsig_xmit_msf datetime params xl) 55) % 2 = 1 ∧
    (bitCount (dcf77Bit (tsig_xmit_msf datetime params xl)) 36 3
      + msfBitB (tsig_xmit_msf datetime params xl) 56) % 2 = 1 ∧
    (bitCount (dcf77Bit (tsig_xmit_msf datetime params xl)) 39 13
      + msfBitB (tsig_xmit_msf datetime params xl) 57) % 2 = 1 := by
  obtain ⟨p54, p55, p56, p57⟩ := msf_bits_parity_entries datetime params
  have ha : ∀ lo n, 17 ≤ lo → lo + n ≤ 53 →
      bitCount (dcf77Bit (tsig_xmit_msf datetime params xl)) lo n
        = bitCount (fun s => sigBit ((assign (assign msf_init (msf_dut1_bits params))
            (msf_field_bits (msf_xmit_datetime datetime))).getD s 0)) lo n :=
    fun lo n h1 h2 => bitCount_congr _ _ lo n (fun k hk =>
      (msfBitA_eq datetime params xl hxl (lo + k) (by omega)
        (msf_ne_marker_fields datetime params (lo + k) (by omega) (by omega))).trans
      (congrArg sigBit (msf_bits_fields datetime params (lo + k) (by omega))))
  have hb : ∀ i v, 53 ≤ i → i ≤ 58 → v ≤ 1 → (msf_bits datetime params).getD i 0 = u8 v →
      msfBitB (tsig_xmit_msf datetime params xl) i = sigBit (u8 v) :=
    fun i v h1 h2 hv he => (msfBitB_eq datetime params xl hxl i h1 h2 (by
      rw [he]; unfold u8; omega)).trans (congrArg sigBit he)
  have hsingle : ∀ lo n, 17 ≤ lo → lo + n ≤ 53 → ∀ k, k < n →
      single ((assign (assign msf_init (msf_dut1_bits params))
        (msf_field_bits (msf_xmit_datetime datetime))).getD (lo + k) 0) :=
    fun lo n h1 h2 k hk => msf_fields_single datetime params (lo + k) (by omega) (by omega)
  refine ⟨?_, ?_, ?_, ?_⟩
  · rw [ha 17 8 (by decide) (by decide),
      hb 54 _ (by decide) (by decide) (tsig_odd_parity_le_one _ _ _) p54]
    exact odd_parity_stage _ 17 8 (hsingle 17 8 (by decide) (by decide))
  · rw [ha 25 11 (by decide) (by decide),
      hb 55 _ (by decide) (by decide) (tsig_odd_parity_le_one _ _ _) p55]
    exact odd_parity_stage _ 25 11 (hsingle 25 11 (by decide) (by decide))
  · rw [ha 36 3 (by decide) (by decide),
      hb 56 _ (by decide) (by decide) (tsig_odd_parity_le_one _ _ _) p56]
    exact odd_parity_stage _ 36 3 (hsingle 36 3 (by decide) (by decide))
  · rw [ha 39 13 (by decide) (by decide),
      hb 57 _ (by decide) (by decide) (tsig_odd_parity_le_one _ _ _) p57]
    exact odd_parity_stage _ 39 13 (hsingle 39 13 (by decide) (by decide))

/-- Witness of C29 at 2024-06-01 00:00 UTC on an all-zero `xmit_level`. -/
theorem msf_parity_checks_witness :
    XmitOk (List.replicate 150 0) ∧
    (bitCount (dcf77Bit (tsig_xmit_msf (tsig_datetime_parse_timestamp 1717200000000)
      (tsig_params_t.mk 0 3 0 0 0) (List.replicate 150 0))) 39 13
      + msfBitB (tsig_xmit_msf (tsig_datetime_parse_timestamp 1717200000000)
        (tsig_params_t.mk 0 3 0 0 0) (List.replicate 150 0)) 57) % 2 = 1 :=
  ⟨xmitOk_zeros, (msf_parity_checks (tsig_datetime_parse_timestamp 1717200000000)
    (tsig_params_t.mk 0 3 0 0 0) (List.replicate 150 0) xmitOk_zeros).2.2.2⟩

/-- C30: for every `params` with `-899 ≤ dut1 ≤ 899`, every datetime and every 150-byte
`xmit_level`, with `q = dut1 / 100` (truncating, so `|q| ≤ 8`), a second `s` in 1..16 of the
pattern written by `tsig_xmit_msf` carries 1 (low for 200 ms) exactly when `s ≤ |q|` if
`q ≥ 0`, and exactly when `9 ≤ s ≤ 8 + |q|` if `q < 0`; it carries 0 otherwise. -/
theorem msf_dut1_unary (datetime : tsig_datetime_t) (params : tsig_params_t) (xl : List Nat)
    (hxl : XmitOk xl) (h1 : -899 ≤ params.dut1) (h2 : params.dut1 ≤ 899) (s : Nat)
    (hs1 : 1 ≤ s) (hs16 : s ≤ 16) :
    (Int.tdiv params.dut1 100).natAbs ≤ 8 ∧
    dcf77Bit (tsig_xmit_msf datetime params xl) s = dut1Unary (Int.tdiv params.dut1 100) s := by
  obtain ⟨b1, b2⟩ := tdiv_100_bounds params.dut1 h1 h2
  refine ⟨by omega, ?_⟩
  rw [msfBitA_eq datetime params xl hxl s (by omega)
    (msf_ne_marker_dut1 datetime params s hs1 hs16), msf_bits_dut1 datetime params s hs1 hs16]
  have hq : dut1Of params = Int.tdiv params.dut1 100 := by
    unfold dut1Of i8
    omega
  unfold msf_dut1_bits
  rw [hq]
  have hc := allBelow_spec _ _ (msf_dut1_checked _ b1 b2) s (by omega)
  simp only [Bool.or_eq_true, beq_iff_eq] at hc
  rcases hc with hc | hc
  · omega
  · exact hc

/-- Witness of C30: `dut1 = -300` ms, second 11 (the last of the three seconds 9..11 that
carry 1). -/
theorem msf_dut1_unary_witness :
    XmitOk (List.replicate 150 0) ∧
    dcf77Bit (tsig_xmit_msf (tsig_datetime_parse_timestamp 1717200000000)
      (tsig_params_t.mk 0 3 0 (-300) 0) (List.replicate 150 0)) 11 = 1 :=
  ⟨xmitOk_zeros, (msf_dut1_unary (tsig_datetime_parse_timestamp 1717200000000)
    (tsig_params_t.mk 0 3 0 (-300) 0) (List.replicate 150 0) xmitOk_zeros (by decide) (by decide)
    11 (by decide) (by decide)).2⟩

/-- C31: for every datetime, every `params`, every 150-byte `xmit_level` and each of the
three repeats `p = 0, 1, 2` of the BPC frame, the symbol read back from second
`20 p + 10` is `2 * is_pm + e` with `is_pm = (hour >= 12)` and `e` the even-parity bit
of the symbols read back from seconds `20 p + 1 .. 20 p + 9` (the number of 1 bits in them
plus `e` is even), and the low bit of the symbol of second `20 p + 19` is the even parity
of the symbols of seconds `20 p + 11 .. 20 p + 18`. -/
theorem bpc_parity_symbols (datetime : tsig_datetime_t) (params : tsig_params_t)
    (xl : List Nat) (hxl : XmitOk xl) (p : Nat) (hp : p < 3) :
    ∃ e, e ≤ 1 ∧
      bpcSymbol (tsig_xmit_bpc datetime params xl) (20 * p + 10) =
        2 * cbool (datetime.hour ≥ 12) + e ∧
      (bitCount (fun s => ones (bpcSymbol (tsig_xmit_bpc datetime params xl) s)) (20 * p + 1) 9
        + e) % 2 = 0 ∧
      (bitCount (fun s => ones (bpcSymbol (tsig_xmit_bpc datetime params xl) s)) (20 * p + 11) 8
        + bpcSymbol (tsig_xmit_bpc datetime params xl) (20 * p + 19) % 2) % 2 = 0 := by
  obtain ⟨e, he, h10, hs1, hs2, _, _⟩ := bpc_pass_parity datetime p hp
  refine ⟨e, he, ?_, ?_, ?_⟩
  · rw [bpc_symbol_eq datetime params xl hxl p hp 10 (by decide) (by decide), h10]
  · rw [bitCount_shift, bitCount_congr _ (fun s => ones ((bpc_pass_bits datetime p).getD s 0)) 1 9
      (fun k hk => by
        show ones (bpcSymbol (tsig_xmit_bpc datetime params xl) (20 * p + (1 + k))) = _
        rw [bpc_symbol_eq datetime params xl hxl p hp (1 + k) (by omega) (by omega)])]
    exact hs1
  · rw [bitCount_shift, bitCount_congr _ (fun s => ones ((bpc_pass_bits datetime p).getD s 0)) 11 8
      (fun k hk => by
        show ones (bpcSymbol (tsig_xmit_bpc datetime params xl) (20 * p + (11 + k))) = _
        rw [bpc_symbol_eq datetime params xl hxl p hp (11 + k) (by omega) (by omega)]),
      bpc_symbol_eq datetime params xl hxl p hp 19 (by decide) (by decide)]
    exact hs2

/-- Witness for C31 at 2024-06-01 00:00 on an all-zero `xmit_level`, third repeat. -/
theorem bpc_parity_symbols_witness :
    XmitOk (List.replicate 150 0) ∧ 2 < 3 ∧
    ∃ e, e ≤ 1 ∧
      bpcSymbol (tsig_xmit_bpc (tsig_datetime_parse_timestamp 1717200000000)
        (tsig_params_t.mk 0 0 0 0 0) (List.replicate 150 0)) (20 * 2 + 10) =
        2 * cbool ((tsig_datetime_parse_timestamp 1717200000000).hour ≥ 12) + e ∧
      (bitCount (fun s => ones (bpcSymbol (tsig_xmit_bpc
          (tsig_datetime_parse_timestamp 1717200000000)
          (tsig_params_t.mk 0 0 0 0 0) (List.replicate 150 0)) s)) (20 * 2 + 1) 9 + e) % 2 = 0 ∧
      (bitCount (fun s => ones (bpcSymbol (tsig_xmit_bpc
          (tsig_datetime_parse_timestamp 1717200000000)
          (tsig_params_t.mk 0 0 0 0 0) (List.replicate 150 0)) s)) (20 * 2 + 11) 8
        + bpcSymbol (tsig_xmit_bpc (tsig_datetime_parse_timestamp 1717200000000)
          (tsig_params_t.mk 0 0 0 0 0) (List.replicate 150 0)) (20 * 2 + 19) % 2) % 2 = 0 :=
  ⟨xmitOk_zeros, by decide, bpc_parity_symbols (tsig_datetime_parse_timestamp 1717200000000)
    (tsig_params_t.mk 0 0 0 0 0) (List.replicate 150 0) xmitOk_zeros 2 (by decide)⟩

/-- C32 as stated fails: on 2024-06-01 00:00 (all-zero `xmit_level`) the symbol of second 50
(third repeat) differs from the symbol of second 10 (first repeat). -/
theorem bpc_third_repeat_differs :
    bpcSymbol (tsig_xmit_bpc (tsig_datetime_parse_timestamp 1717200000000)
        (tsig_params_t.mk 0 0 0 0 0) (List.replicate 150 0)) 50 ≠
      bpcSymbol (tsig_xmit_bpc (tsig_datetime_parse_timestamp 1717200000000)
        (tsig_params_t.mk 0 0 0 0 0) (List.replicate 150 0)) 10 := by
  obtain ⟨h7, s0, _, s2⟩ := bpc_symbol_ten (tsig_datetime_parse_timestamp 1717200000000)
    (tsig_params_t.mk 0 0 0 0 0) (List.replicate 150 0) xmitOk_zeros
  rw [s0, s2]
  exact (xor_one_cases _ h7).1

/-- C32, amended: `bits[10] ^= 1` runs once, before the second repeat is painted, and
the array keeps the value for the third repeat. For every datetime, `params` and 150-byte
`xmit_level`, the symbol of second 30 is the symbol of second 10 with its low bit
flipped (same high bit), and the symbol of second 50 equals the symbol of second 30. -/
theorem bpc_symbol_ten_repeats (datetime : tsig_datetime_t) (params : tsig_params_t)
    (xl : List Nat) (hxl : XmitOk xl) :
    bpcSymbol (tsig_xmit_bpc datetime params xl) 30 / 2 =
      bpcSymbol (tsig_xmit_bpc datetime params xl) 10 / 2 ∧
    bpcSymbol (tsig_xmit_bpc datetime params xl) 30 % 2 =
      1 - bpcSymbol (tsig_xmit_bpc datetime params xl) 10 % 2 ∧
    bpcSymbol (tsig_xmit_bpc datetime params xl) 50 =
      bpcSymbol (tsig_xmit_bpc datetime params xl) 30 := by
  obtain ⟨h7, s0, s1, s2⟩ := bpc_symbol_ten datetime params xl hxl
  obtain ⟨_, c2, c3⟩ := xor_one_cases _ h7
  rw [s0, s1, s2]
  exact ⟨c2, c3, rfl⟩

/-- Witness for the amended C32 at 2024-06-01 00:00 on an all-zero `xmit_level`. -/
theorem bpc_symbol_ten_repeats_witness :
    XmitOk (List.replicate 150 0) ∧
    bpcSymbol (tsig_xmit_bpc (tsig_datetime_parse_timestamp 1717200000000)
        (tsig_params_t.mk 0 0 0 0 0) (List.replicate 150 0)) 50 =
      bpcSymbol (tsig_xmit_bpc (tsig_datetime_parse_timestamp 1717200000000)
        (tsig_params_t.mk 0 0 0 0 0) (List.replicate 150 0)) 30 :=
  ⟨xmitOk_zeros, (bpc_symbol_ten_repeats (tsig_datetime_parse_timestamp 1717200000000)
    (tsig_params_t.mk 0 0 0 0 0) (List.replicate 150 0) xmitOk_zeros).2.2⟩

/-- C33: after `tsig_waveform_init` with `sample_rate > 0` and
`sample_rate * subharmonic < 2^32`, `phase_delta / phase_base` is the carrier ratio
`target_hz / (sample_rate * subharmonic)` in lowest terms (`phase_base` is positive and
`gcd(phase_delta, phase_base) = 1`); `tsig_gcd` returns the greatest common divisor for
all arguments (its loop ends within `b + 1` rounds); and `phase`, `samples`,
`next_tick`, `morse_end`, `fade_gain` are 0 and `scale = sample_rate / subharmonic`. -/
theorem init_phase_ratio (ctx : tsig_waveform_ctx_t) (params : tsig_params_t) (now : ℚ)
    (h0 : 0 < ctx.sample_rate)
    (h1 : ctx.sample_rate * tsig_calculate_subharmonic (tsig_calculate_target_hz params)
      < 4294967296) :
    (tsig_waveform_init ctx params now).phase_delta *
        (ctx.sample_rate * tsig_calculate_subharmonic (tsig_calculate_target_hz params)) =
      tsig_calculate_target_hz params * (tsig_waveform_init ctx params now).phase_base ∧
    0 < (tsig_waveform_init ctx params now).phase_base ∧
    Nat.gcd (tsig_waveform_init ctx params now).phase_delta
      (tsig_waveform_init ctx params now).phase_base = 1 ∧
    (∀ a b, tsig_gcd a b = Nat.gcd a b) ∧
    (tsig_waveform_init ctx params now).phase = 0 ∧
    (tsig_waveform_init ctx params now).samples = 0 ∧
    (tsig_waveform_init ctx params now).next_tick = 0 ∧
    (tsig_waveform_init ctx params now).morse_end = 0 ∧
    (tsig_waveform_init ctx params now).fade_gain = 0 ∧
    (tsig_waveform_init ctx params now).scale =
      ((ctx.sample_rate / tsig_calculate_subharmonic (tsig_calculate_target_hz params) : Nat) :
        Int) := by
  have hx : 0 < ctx.sample_rate * tsig_calculate_subharmonic (tsig_calculate_target_hz params) := by
    rcases subharmonic_cases (tsig_calculate_target_hz params) with h | h <;> rw [h] <;> omega
  have hd : (tsig_waveform_init ctx params now).phase_delta
      = tsig_calculate_target_hz params / Nat.gcd (tsig_calculate_target_hz params)
          (ctx.sample_rate * tsig_calculate_subharmonic (tsig_calculate_target_hz params)) := by
    show tsig_calculate_target_hz params / tsig_gcd (tsig_calculate_target_hz params)
      (u32 (ctx.sample_rate * tsig_calculate_subharmonic (tsig_calculate_target_hz params))) = _
    rw [u32_of_lt h1, tsig_gcd_eq]
  have hb : (tsig_waveform_init ctx params now).phase_base
      = ctx.sample_rate * tsig_calculate_subharmonic (tsig_calculate_target_hz params)
        / Nat.gcd (tsig_calculate_target_hz params)
          (ctx.sample_rate * tsig_calculate_subharmonic (tsig_calculate_target_hz params)) := by
    show u32 (ctx.sample_rate * tsig_calculate_subharmonic (tsig_calculate_target_hz params))
      / tsig_gcd (tsig_calculate_target_hz params)
      (u32 (ctx.sample_rate * tsig_calculate_subharmonic (tsig_calculate_target_hz params))) = _
    rw [u32_of_lt h1, tsig_gcd_eq]
  refine ⟨?_, ?_, ?_, tsig_gcd_eq, rfl, rfl, rfl, rfl, rfl, rfl⟩
  · rw [hd, hb]
    generalize tsig_calculate_target_hz params = T at *
    generalize ctx.sample_rate * tsig_calculate_subharmonic T = x at *
    have hg : 0 < Nat.gcd T x := Nat.gcd_pos_of_pos_right _ hx
    obtain ⟨a, ha⟩ := Nat.gcd_dvd_left T x
    obtain ⟨b, hb2⟩ := Nat.gcd_dvd_right T x
    generalize Nat.gcd T x = g at *
    have e1 : T / g = a := by rw [ha, Nat.mul_div_cancel_left _ hg]
    have e2 : x / g = b := by rw [hb2, Nat.mul_div_cancel_left _ hg]
    rw [e1, e2, ha, hb2]
    ring
  · rw [hb]
    exact Nat.div_pos (Nat.le_of_dvd hx (Nat.gcd_dvd_right _ _)) (Nat.gcd_pos_of_pos_right _ hx)
  · rw [hd, hb]
    exact Nat.coprime_div_gcd_div_gcd (Nat.gcd_pos_of_pos_right _ hx)

/-- Witness for C33: DCF77 (77500 Hz, 7th subharmonic) at 48000 Hz gives 155 / 672. -/
theorem init_phase_ratio_witness :
    (tsig_waveform_init { tsig_module_zero.tsig_ctx.waveform_ctx with sample_rate := 48000 }
      (tsig_params_t.mk 0 TSIG_STATION_DCF77 0 0 0) 0).phase_delta * (48000 * 7) =
      77500 * (tsig_waveform_init
        { tsig_module_zero.tsig_ctx.waveform_ctx with sample_rate := 48000 }
        (tsig_params_t.mk 0 TSIG_STATION_DCF77 0 0 0) 0).phase_base ∧
    (tsig_waveform_init { tsig_module_zero.tsig_ctx.waveform_ctx with sample_rate := 48000 }
      (tsig_params_t.mk 0 TSIG_STATION_DCF77 0 0 0) 0).phase_delta = 155 ∧
    (tsig_waveform_init { tsig_module_zero.tsig_ctx.waveform_ctx with sample_rate := 48000 }
      (tsig_params_t.mk 0 TSIG_STATION_DCF77 0 0 0) 0).phase_base = 672 :=
  ⟨(init_phase_ratio { tsig_module_zero.tsig_ctx.waveform_ctx with sample_rate := 48000 }
    (tsig_params_t.mk 0 TSIG_STATION_DCF77 0 0 0) 0 (by decide) (by decide)).1,
    by decide!, by decide!⟩

/-- C34: at the first sample (`phase = 0`) the anchor of `tsig_waveform_generate` sets the
phase so that the next minute boundary falls on phase 0. With `msec_since_min` below
60000, `to_min = (60000 - msec_since_min) * sample_rate / 1000`, a positive `phase_base`
(as `tsig_waveform_init` leaves it) and both `(60000 - msec_since_min) * sample_rate` and
`to_min * phase_delta` below `2^32`, the anchored phase satisfies
`(phase + to_min * phase_delta) mod phase_base = 0` and `phase < phase_base`; nothing but
`phase` changes. -/
theorem phase_anchor_zero (ctx : tsig_waveform_ctx_t) (msec_since_min : Nat)
    (hphase : ctx.phase = 0) (hbase : 0 < ctx.phase_base) (hb32 : ctx.phase_base < 4294967296)
    (hm : msec_since_min < 60000)
    (h1 : (60000 - msec_since_min) * ctx.sample_rate < 4294967296)
    (h2 : (60000 - msec_since_min) * ctx.sample_rate / 1000 * ctx.phase_delta < 4294967296) :
    ((phase_anchor ctx msec_since_min).phase +
      (60000 - msec_since_min) * ctx.sample_rate / 1000 * ctx.phase_delta) % ctx.phase_base = 0 ∧
    (phase_anchor ctx msec_since_min).phase < ctx.phase_base ∧
    phase_anchor ctx msec_since_min =
      { ctx with phase := (phase_anchor ctx msec_since_min).phase } := by
  have e1 : sub32 TSIG_DATETIME_MSECS_MIN msec_since_min = 60000 - msec_since_min := by
    unfold sub32 TSIG_DATETIME_MSECS_MIN; omega
  unfold phase_anchor
  rw [e1, u32_of_lt h1, u32_of_lt h2]
  generalize (60000 - msec_since_min) * ctx.sample_rate / 1000 * ctx.phase_delta = x
  have hlt : x % ctx.phase_base < ctx.phase_base := Nat.mod_lt _ hbase
  by_cases hz : x % ctx.phase_base ≠ 0
  · rw [if_pos hz]
    have e2 : sub32 ctx.phase_base (x % ctx.phase_base) = ctx.phase_base - x % ctx.phase_base := by
      unfold sub32; omega
    refine ⟨?_, ?_, rfl⟩
    · show (sub32 ctx.phase_base (x % ctx.phase_base) + x) % ctx.phase_base = 0
      rw [e2]
      have e3 : ctx.phase_base - x % ctx.phase_base + x =
          ctx.phase_base * (x / ctx.phase_base + 1) := by
        have := Nat.div_add_mod x ctx.phase_base
        rw [Nat.mul_add, Nat.mul_one]
        omega
      rw [e3, Nat.mul_mod_right]
    · show sub32 ctx.phase_base (x % ctx.phase_base) < ctx.phase_base
      rw [e2]; omega
  · rw [if_neg hz]
    refine ⟨?_, by rw [hphase]; exact hbase, rfl⟩
    rw [hphase, Nat.zero_add]
    omega

/-- Witness for C34: DCF77 at 48000 Hz (`phase_delta / phase_base = 155 / 672`), 12.345 s
into the minute: `to_min = 2287440`, and the anchored phase is 48. -/
theorem phase_anchor_zero_witness :
    (phase_anchor
      (tsig_waveform_init { tsig_module_zero.tsig_ctx.waveform_ctx with sample_rate := 48000 }
        (tsig_params_t.mk 0 TSIG_STATION_DCF77 0 0 0) 0) 12345).phase = 48 ∧
    (48 + (60000 - 12345) * 48000 / 1000 * 155) % 672 = 0 :=
  ⟨by decide!, by
    have h := (phase_anchor_zero
      (tsig_waveform_init { tsig_module_zero.tsig_ctx.waveform_ctx with sample_rate := 48000 }
        (tsig_params_t.mk 0 TSIG_STATION_DCF77 0 0 0) 0) 12345
      (by decide!) (by decide!) (by decide!) (by decide) (by decide!) (by decide!)).1
    exact h⟩

/-- C35: the fade envelope saturates. If `fade_gain <= max_fade_gain` holds before a
sample step of `tsig_waveform_generate` it holds after it in every state: in FADE_IN
`fade_gain` goes up by one only while it is below `max_fade_gain`, in FADE_OUT it goes
down by one only while it is above 0, in any other state it stays, and `max_fade_gain`
never changes; the step requests RUNNING only in FADE_IN with `fade_gain` already equal
to `max_fade_gain`, and SUSPEND only in FADE_OUT with `fade_gain` already 0; so the bound
holds after a whole render quantum too. -/
theorem fade_saturates (state : Int) (settled : Nat → Bool) (i : Nat) (ctx : tsig_waveform_ctx_t)
    (next : Int) (h : ctx.fade_gain ≤ ctx.max_fade_gain) (hmax : ctx.max_fade_gain < 4294967296) :
    (generate_step state settled i (ctx, next)).1.max_fade_gain = ctx.max_fade_gain ∧
    (generate_step state settled i (ctx, next)).1.fade_gain ≤ ctx.max_fade_gain ∧
    (generate_step state settled i (ctx, next)).1.fade_gain =
      (if state = TSIG_STATE_FADE_IN then
        (if ctx.fade_gain < ctx.max_fade_gain then ctx.fade_gain + 1 else ctx.fade_gain)
       else if state = TSIG_STATE_FADE_OUT then
        (if 0 < ctx.fade_gain then ctx.fade_gain - 1 else ctx.fade_gain)
       else ctx.fade_gain) ∧
    ((generate_step state settled i (ctx, next)).2 = next ∨
      ((generate_step state settled i (ctx, next)).2 = TSIG_STATE_RUNNING ∧
        state = TSIG_STATE_FADE_IN ∧ ctx.fade_gain = ctx.max_fade_gain) ∨
      ((generate_step state settled i (ctx, next)).2 = TSIG_STATE_SUSPEND ∧
        state = TSIG_STATE_FADE_OUT ∧ ctx.fade_gain = 0)) ∧
    (∀ n, generate_loop state settled (n + 1) i (ctx, next) =
      generate_loop state settled n (i + 1) (generate_step state settled i (ctx, next))) ∧
    (tsig_waveform_generate ctx state next settled).1.fade_gain ≤ ctx.max_fade_gain := by
  obtain ⟨a1, a2, a3, a4⟩ := generate_step_fade state settled i (ctx, next) h hmax
  exact ⟨a1, a2, a3, a4, fun n => generate_loop_succ state settled n i (ctx, next),
    (generate_loop_fade state settled TSIG_RENDER_QUANTUM 0 (ctx, next) h hmax).2⟩

/-- Witness for C35: in FADE_IN with `fade_gain = max_fade_gain = 1680` and the gain
settled, the step keeps `fade_gain` and requests RUNNING. -/
theorem fade_saturates_witness :
    (generate_step TSIG_STATE_FADE_IN (fun _ => true) 0
      ({ tsig_module_zero.tsig_ctx.waveform_ctx with max_fade_gain := 1680, fade_gain := 1680 },
        TSIG_STATE_FADE_IN)).1.fade_gain ≤ 1680 ∧
    (generate_step TSIG_STATE_FADE_IN (fun _ => true) 0
      ({ tsig_module_zero.tsig_ctx.waveform_ctx with max_fade_gain := 1680, fade_gain := 1680 },
        TSIG_STATE_FADE_IN)).2 = TSIG_STATE_RUNNING :=
  ⟨(fade_saturates TSIG_STATE_FADE_IN (fun _ => true) 0
    { tsig_module_zero.tsig_ctx.waveform_ctx with max_fade_gain := 1680, fade_gain := 1680 }
    TSIG_STATE_FADE_IN (by decide) (by decide)).2.1, by decide⟩

/-- C36: let the delay counter be freshly armed, `delay_quantums = N` with `N` the value
`rearm_state_transition_delay` stores (`sample_rate * 465 / (1000 * 128)` when the
product fits 32 bits), and `N >= 1`. A generator in STARTUP stays in STARTUP, silent,
through its first `N - 1` render callbacks (after `k < N` callbacks the counter is
`N - k`), and the `N`-th callback moves it to REQ_PARAMS, re-arms the counter to `N` and
reports the new state once; the same holds for SUSPEND and IDLE. In REQ_PARAMS and in
IDLE a callback changes nothing. -/
theorem delay_countdown (m : tsig_module) (now : ℚ) (settled : Nat → Bool)
    (hs : m.tsig_ctx.state = TSIG_STATE_STARTUP ∨ m.tsig_ctx.state = TSIG_STATE_SUSPEND)
    (harm : m.tsig_ctx.delay_quantums = (rearm_state_transition_delay m).tsig_ctx.delay_quantums)
    (hN : 1 ≤ m.tsig_ctx.delay_quantums) :
    (∀ k, k < m.tsig_ctx.delay_quantums →
      (Nat.iterate (fun x => tsig_awp_process_cb x now settled) k m).tsig_ctx.state =
        m.tsig_ctx.state ∧
      (Nat.iterate (fun x => tsig_awp_process_cb x now settled) k m).tsig_ctx.delay_quantums =
        m.tsig_ctx.delay_quantums - k ∧
      (Nat.iterate (fun x => tsig_awp_process_cb x now settled) k m).notified = m.notified ∧
      process_silent (Nat.iterate (fun x => tsig_awp_process_cb x now settled) k m) = true) ∧
    (Nat.iterate (fun x => tsig_awp_process_cb x now settled) m.tsig_ctx.delay_quantums
        m).tsig_ctx.state =
      (if m.tsig_ctx.state = TSIG_STATE_STARTUP then TSIG_STATE_REQ_PARAMS
       else TSIG_STATE_IDLE) ∧
    (Nat.iterate (fun x => tsig_awp_process_cb x now settled) m.tsig_ctx.delay_quantums
        m).tsig_ctx.delay_quantums = m.tsig_ctx.delay_quantums ∧
    (Nat.iterate (fun x => tsig_awp_process_cb x now settled) m.tsig_ctx.delay_quantums
        m).notified = m.notified ++
      [if m.tsig_ctx.state = TSIG_STATE_STARTUP then TSIG_STATE_REQ_PARAMS
       else TSIG_STATE_IDLE] ∧
    (m.tsig_ctx.waveform_ctx.sample_rate * 465 < 4294967296 →
      m.tsig_ctx.delay_quantums = m.tsig_ctx.waveform_ctx.sample_rate * 465 / (1000 * 128)) ∧
    (∀ x : tsig_module,
      x.tsig_ctx.state = TSIG_STATE_REQ_PARAMS ∨ x.tsig_ctx.state = TSIG_STATE_IDLE →
      tsig_awp_process_cb x now settled = x) := by
  refine ⟨?_, ?_, ?_, ?_, ?_, fun x hx => cb_idle x now settled hx⟩
  · intro k hk
    rw [cb_countdown m now settled hs k hk]
    refine ⟨rfl, rfl, rfl, ?_⟩
    unfold process_silent
    rcases hs with h | h <;> simp only [h] <;> decide
  all_goals
    have hfire := cb_fire
      { m with tsig_ctx := { m.tsig_ctx with delay_quantums := 1 } } now settled hs rfl
    have hlast := cb_iterate_last m now settled hs hN
  · rw [hlast]
    exact hfire.1
  · rw [hlast, hfire.2.1]
    exact harm.symm
  · rw [hlast]
    exact hfire.2.2
  · intro hfit
    rw [harm]
    show u32 (m.tsig_ctx.waveform_ctx.sample_rate * TSIG_DELAY_MS) / (1000 * TSIG_RENDER_QUANTUM) = _
    unfold TSIG_DELAY_MS TSIG_RENDER_QUANTUM
    rw [u32_of_lt hfit]

/-- Witness for C36: at 48000 Hz the counter is armed to 174; after `tsig_init` and
`tsig_start` the 174th render callback moves the generator from STARTUP to REQ_PARAMS. -/
theorem delay_countdown_witness :
    (tsig_start (tsig_init tsig_module_zero 48000)).tsig_ctx.delay_quantums = 174 ∧
    (Nat.iterate (fun x => tsig_awp_process_cb x 0 (fun _ => true))
      (tsig_start (tsig_init tsig_module_zero 48000)).tsig_ctx.delay_quantums
      (tsig_start (tsig_init tsig_module_zero 48000))).tsig_ctx.state = TSIG_STATE_REQ_PARAMS :=
  ⟨by decide, (delay_countdown (tsig_start (tsig_init tsig_module_zero 48000)) 0 (fun _ => true)
    (Or.inl rfl) (by decide) (by decide)).2.1⟩

/-- C37: for every array `s` of fewer than 256 code units and every `out_idxs` with room
for them, `edist_make_idxs` returns as `len` the number of code points and writes to the
first `len` entries of `out_idxs` (leaving the others) the one-past-end code-unit index of
each code point, a code point being two consecutive surrogate code units or else one
code unit (`code_point_ends`); these indices are strictly increasing, the last one is
`code_units` when the string is not empty, and for a string without surrogates
`len = code_units` and `idxs[k] = k + 1`. -/
theorem make_idxs_ends (s out : List Nat) (h255 : s.length < 256) (ho : s.length ≤ out.length) :
    (edist_make_idxs s s.length out).2 = (code_point_ends s 0).length ∧
    (edist_make_idxs s s.length out).1 =
      code_point_ends s 0 ++ out.drop (code_point_ends s 0).length ∧
    List.Pairwise (fun a b => a < b) (code_point_ends s 0) ∧
    (s ≠ [] → (code_point_ends s 0).getLast? = some s.length) ∧
    ((∀ c ∈ s, edist_is_surrogate c = 0) →
      (edist_make_idxs s s.length out).2 = s.length ∧
      ∀ k, k < s.length → (edist_make_idxs s s.length out).1.getD k 0 = k + 1) := by
  obtain ⟨e1, e2⟩ := make_idxs_spec s out (by omega) ho
  obtain ⟨_, p2, p3⟩ := ends_props s.length s 0 (Nat.le_refl _)
  refine ⟨e1, e2, p2, ?_, ?_⟩
  · intro hne
    rw [p3 hne, Nat.zero_add]
  · intro hs
    have hpl := ends_plain s 0 (fun c hc => by
      have h0 := hs c hc
      cases hb : surrogate_unit c with
      | false => rfl
      | true => exact absurd h0 ((is_surrogate_iff c).2 hb))
    have hlen : (code_point_ends s 0).length = s.length := by rw [hpl]; simp
    refine ⟨by rw [e1, hlen], ?_⟩
    intro k hk
    rw [e2, List.getD_append _ _ _ _ (by omega), hpl,
      List.getD_eq_getElem _ _ (by simpa using hk)]
    simp

/-- Witness for C37: "a", U+1F596 (a surrogate pair), "b" has three code points, ending
at code units 1, 3 and 4. -/
theorem make_idxs_ends_witness :
    (edist_make_idxs [97, 55357, 56726, 98] 4 [0, 0, 0, 0]).2 = 3 ∧
    (edist_make_idxs [97, 55357, 56726, 98] 4 [0, 0, 0, 0]).1 = [1, 3, 4, 0] :=
  ⟨(make_idxs_ends [97, 55357, 56726, 98] [0, 0, 0, 0] (by decide) (by decide)).1.trans (by decide),
    (make_idxs_ends [97, 55357, 56726, 98] [0, 0, 0, 0] (by decide) (by decide)).2.1.trans
      (by decide)⟩

/-- C38: `edist_calc` leaves its inputs unchanged. For all strings `a` and `b` of fewer
than 256 code units with the index maps made by `edist_make_idxs` (any mix of BMP code
points and surrogate pairs), the code units and the index maps after the call equal
those before it; and `edist_utf16_swap_first_two` applied twice to a string of at
least two code points gives back its code units and its index map. -/
theorem edist_calc_frame (a b outa outb : List Nat) (ha : a.length < 256) (hb : b.length < 256)
    (hoa : a.length ≤ outa.length) (hob : b.length ≤ outb.length) :
    edist_calc_arrays a (edist_make_idxs a a.length outa).1 (edist_make_idxs a a.length outa).2
      b (edist_make_idxs b b.length outb).1 (edist_make_idxs b b.length outb).2 =
      ((a, (edist_make_idxs a a.length outa).1), (b, (edist_make_idxs b b.length outb).1)) ∧
    (2 ≤ (edist_make_idxs a a.length outa).2 →
      edist_utf16_swap_first_two
        (edist_utf16_swap_first_two a (edist_make_idxs a a.length outa).1).1
        (edist_utf16_swap_first_two a (edist_make_idxs a a.length outa).1).2 =
        (a, (edist_make_idxs a a.length outa).1)) :=
  ⟨calc_arrays_made a b outa outb (by omega) (by omega) hoa hob,
    swap_twice_made a outa (by omega) hoa⟩

/-- Witness for C38: U+1F596 followed by "b" (a surrogate pair, then a BMP code point)
against "abc": the shorter string goes through the swap twice and comes back. -/
theorem edist_calc_frame_witness :
    edist_calc_arrays [97, 98, 99] [1, 2, 3] 3 [55357, 56726, 98] [2, 3, 0] 2 =
      (([97, 98, 99], [1, 2, 3]), ([55357, 56726, 98], [2, 3, 0])) ∧
    edist_utf16_swap_first_two [55357, 56726, 98] [2, 3, 0] = ([98, 55357, 56726], [1, 3, 0]) :=
  ⟨(edist_calc_frame [97, 98, 99] [55357, 56726, 98] [0, 0, 0] [0, 0, 0] (by decide) (by decide)
      (by decide) (by decide)).1, by decide⟩

set_option maxRecDepth 100000 in
/-- C39 fails for a tag without a hyphen: `edist_load_locale` adds 5 to the stored tag
length although its loop has inserted nothing, so code units 2..6 of the stored tag
"en" are what the slot held before. Loaded into the fresh context they are zeros; loaded
after ("az-AZ", "Azerbaijani (Azerbaijan)") and a reset they are "-\0\0\0\0", left from
"az-\0\0\0\0-AZ". The stored length is 7 in both runs. -/
theorem load_locale_stale :
    (edist_load_locale
        (edist_pack (edist_reset (edist_get_buf_ptr edist_ctx_zero))
          (units "en" ++ units "English")) 2 7).map
      (fun c => ((c.locales.getD 0 user_locale_zero).tag_len,
        (c.locales.getD 0 user_locale_zero).tag.take 7)) = some (7, [101, 110, 0, 0, 0, 0, 0]) ∧
    ((edist_load_locale
        (edist_pack (edist_reset (edist_get_buf_ptr edist_ctx_zero))
          (units "az-AZ" ++ units "Azerbaijani (Azerbaijan)")) 5 24).bind fun c1 =>
      edist_load_locale (edist_pack (edist_reset c1) (units "en" ++ units "English")) 2 7).map
      (fun c => ((c.locales.getD 0 user_locale_zero).tag_len,
        (c.locales.getD 0 user_locale_zero).tag.take 7)) = some (7, [101, 110, 45, 0, 0, 0, 0]) := by
  decide!

/-- C40: each of the five station encoders assigns every one of the 1200 ticks and writes
nothing else. For every datetime, every `params`, all 150-byte arrays `xl1`, `xl2` and
every list of bytes `ext` that follows the array in memory: the pattern written over
`xl1` equals the pattern written over `xl2` (it does not depend on the previous
contents, announcement minutes of JJY included), the bytes `ext` after the array are
left as they were (no tick index from 1200 on is written), and the result is again a
150-byte array. -/
theorem xmit_overwrites (datetime : tsig_datetime_t) (params : tsig_params_t)
    (xl1 xl2 ext : List Nat) (h1 : XmitOk xl1) (h2 : XmitOk xl2) :
    (tsig_xmit_bpc datetime params xl1 = tsig_xmit_bpc datetime params xl2 ∧
      tsig_xmit_bpc datetime params (xl1 ++ ext) = tsig_xmit_bpc datetime params xl1 ++ ext ∧
      XmitOk (tsig_xmit_bpc datetime params xl1)) ∧
    (tsig_xmit_dcf77 datetime params xl1 = tsig_xmit_dcf77 datetime params xl2 ∧
      tsig_xmit_dcf77 datetime params (xl1 ++ ext) =
        tsig_xmit_dcf77 datetime params xl1 ++ ext ∧
      XmitOk (tsig_xmit_dcf77 datetime params xl1)) ∧
    (tsig_xmit_jjy datetime params xl1 = tsig_xmit_jjy datetime params xl2 ∧
      tsig_xmit_jjy datetime params (xl1 ++ ext) = tsig_xmit_jjy datetime params xl1 ++ ext ∧
      XmitOk (tsig_xmit_jjy datetime params xl1)) ∧
    (tsig_xmit_msf datetime params xl1 = tsig_xmit_msf datetime params xl2 ∧
      tsig_xmit_msf datetime params (xl1 ++ ext) = tsig_xmit_msf datetime params xl1 ++ ext ∧
      XmitOk (tsig_xmit_msf datetime params xl1)) ∧
    (tsig_xmit_wwvb datetime params xl1 = tsig_xmit_wwvb datetime params xl2 ∧
      tsig_xmit_wwvb datetime params (xl1 ++ ext) = tsig_xmit_wwvb datetime params xl1 ++ ext ∧
      XmitOk (tsig_xmit_wwvb datetime params xl1)) :=
  ⟨frame_bpc datetime params xl1 xl2 ext h1 h2, frame_dcf77 datetime params xl1 xl2 ext h1 h2,
    frame_jjy datetime params xl1 xl2 ext h1 h2, frame_msf datetime params xl1 xl2 ext h1 h2,
    frame_wwvb datetime params xl1 xl2 ext h1 h2⟩

/-- Witness for C40: JJY in an announcement minute (2024-03-15 00:15 JST), written over an
all-zero and over an all-ones array, with two bytes behind the array. -/
theorem xmit_overwrites_witness :
    XmitOk (List.replicate 150 0) ∧ XmitOk (List.replicate 150 255) ∧
    (tsig_datetime_parse_timestamp 1710461700000).min = 15 ∧
    tsig_xmit_jjy (tsig_datetime_parse_timestamp 1710461700000) (tsig_params_t.mk 0 2 0 0 0)
        (List.replicate 150 0) =
      tsig_xmit_jjy (tsig_datetime_parse_timestamp 1710461700000) (tsig_params_t.mk 0 2 0 0 0)
        (List.replicate 150 255) ∧
    tsig_xmit_jjy (tsig_datetime_parse_timestamp 1710461700000) (tsig_params_t.mk 0 2 0 0 0)
        (List.replicate 150 0 ++ [170, 85]) =
      tsig_xmit_jjy (tsig_datetime_parse_timestamp 1710461700000) (tsig_params_t.mk 0 2 0 0 0)
        (List.replicate 150 0) ++ [170, 85] :=
  ⟨xmitOk_zeros, xmitOk_ones, by decide!,
    (xmit_overwrites (tsig_datetime_parse_timestamp 1710461700000) (tsig_params_t.mk 0 2 0 0 0)
      (List.replicate 150 0) (List.replicate 150 255) [170, 85] xmitOk_zeros xmitOk_ones).2.2.1.1,
    (xmit_overwrites (tsig_datetime_parse_timestamp 1710461700000) (tsig_params_t.mk 0 2 0 0 0)
      (List.replicate 150 0) (List.replicate 150 255) [170, 85] xmitOk_zeros
      xmitOk_ones).2.2.1.2.1⟩

end Timestation
